import Mathlib

/-!
# RTMP server core: chunk-stream codec and AMF0 codec

A shallow embedding of `rss_core_protocol.cpp`, `rss_core_stream.cpp`,
`rss_core_buffer.cpp` and `rss_core_amf0.cpp`, followed by theorems about it.

Conventions of the embedding.

* A byte is a `Nat` below 256; a byte buffer is a `List Nat`.
* A C++ signed integer (`int8_t`, `int16_t`, `int32_t`, `int`) is an `Int`
  holding its value; `toInt8` .. `toInt64` wrap a mathematical integer into
  the type's range where the source narrows or overflows.
* The source reads and writes integers through `char* pp = (char*)&value`,
  which assumes a little-endian host: `pp[0]` is the least significant byte.
  `byte0` .. `byte7` are `pp[0]` .. `pp[7]`.
* On a two's complement value `x >> k` is the floor division by `2^k` and
  `x & (2^k - 1)` is the remainder modulo `2^k` (`Int` division and remainder
  in Lean round that way for a positive divisor); `a | b` with disjoint bits
  is `a + b`.
* Whether plain `char` is signed is fixed by the platform (signed with gcc on
  x86 and x86-64, unsigned on ARM Linux). Only `read_basic_header` computes
  with a plain `char` value, so it takes the signedness as a parameter.
-/

namespace Rss

/-! ## Machine integers -/

/-- Value of a byte read as `int8_t`. -/
def toInt8 (b : Nat) : Int :=
  if b % 256 < 128 then ((b % 256 : Nat) : Int) else ((b % 256 : Nat) : Int) - 256

/-- Wrap an integer into the `int16_t` range. -/
def toInt16 (x : Int) : Int := (x + 32768) % 65536 - 32768

/-- Wrap an integer into the `int32_t` range. -/
def toInt32 (x : Int) : Int := (x + 2147483648) % 4294967296 - 2147483648

/-- Wrap an integer into the `int64_t` range. -/
def toInt64 (x : Int) : Int :=
  (x + 9223372036854775808) % 18446744073709551616 - 9223372036854775808

/-- Value of a byte read as plain `char`, promoted to `int`. -/
def charValue (char_signed : Bool) (b : Nat) : Int :=
  if char_signed then toInt8 b else ((b % 256 : Nat) : Int)

/-- Byte `pp[0]` of an integer in memory (least significant). -/
def byte0 (x : Int) : Nat := (x % 256).toNat
/-- Byte `pp[1]` of an integer in memory. -/
def byte1 (x : Int) : Nat := (x / 256 % 256).toNat
/-- Byte `pp[2]` of an integer in memory. -/
def byte2 (x : Int) : Nat := (x / 65536 % 256).toNat
/-- Byte `pp[3]` of an integer in memory. -/
def byte3 (x : Int) : Nat := (x / 16777216 % 256).toNat
/-- Byte `pp[4]` of an integer in memory. -/
def byte4 (x : Int) : Nat := (x / 4294967296 % 256).toNat
/-- Byte `pp[5]` of an integer in memory. -/
def byte5 (x : Int) : Nat := (x / 1099511627776 % 256).toNat
/-- Byte `pp[6]` of an integer in memory. -/
def byte6 (x : Int) : Nat := (x / 281474976710656 % 256).toNat
/-- Byte `pp[7]` of an integer in memory. -/
def byte7 (x : Int) : Nat := (x / 72057594037927936 % 256).toNat

/-- The `int32_t` whose memory bytes are `pp[0] = b0` .. `pp[3] = b3`. -/
def int32OfBytes (b0 b1 b2 b3 : Nat) : Int :=
  toInt32 ((b0 % 256 : Nat) + (b1 % 256 : Nat) * 256 + (b2 % 256 : Nat) * 65536
    + (b3 % 256 : Nat) * 16777216)

/-- Macro `rss_min(a, b)`: `((a < b)? a : b)`. -/
def rss_min (a b : Int) : Int := if a < b then a else b

/-- Error codes returned by the modelled functions. `socket` stands for every
failure of a socket read (timeout or closed peer); `undefined_behavior` marks
an execution that leaves defined C++ (a copy outside its buffer);
`out_of_fuel` is no error of the source: it reports that a recursion bound of
the model was reached. -/
inductive RssError where
  | socket
  | chunk_start
  | invalid_size
  | amf0_decode
  | amf0_encode
  | amf0_invalid
  | assert_failed
  | undefined_behavior
  | out_of_fuel
  | message_decode
  | message_encode
  | chunk_size
  | socket_timeout
  | socket_read
  | socket_read_fully
  | socket_write
  | plain_required
  | req_tcurl
  | packet_invalid
  deriving DecidableEq, Repr

/-! ## Chunk-stream codec: data model -/

def RTMP_EXTENDED_TIMESTAMP : Int := 0xFFFFFF
def RTMP_DEFAULT_CHUNK_SIZE : Int := 128
def RTMP_FMT_TYPE0 : Int := 0
def RTMP_FMT_TYPE1 : Int := 1
def RTMP_FMT_TYPE2 : Int := 2
def RTMP_FMT_TYPE3 : Int := 3

/-- Struct `RssMessageHeader`: `message_type` is an `int8_t`, the other fields
are `int32_t`. -/
structure RssMessageHeader where
  message_type : Int
  payload_length : Int
  timestamp_delta : Int
  stream_id : Int
  timestamp : Int
  deriving DecidableEq, Repr

/-- Constructor `RssMessageHeader::RssMessageHeader()`. -/
def RssMessageHeader.new : RssMessageHeader :=
  { message_type := 0, payload_length := 0, timestamp_delta := 0, stream_id := 0, timestamp := 0 }

/-- The data members of `IRssMessage` that the chunk codec uses: the header,
`size`, `payload` (`none` is `NULL`) and the value of `get_perfer_cid()`. -/
structure IRssMessage where
  header : RssMessageHeader
  size : Int
  payload : Option (List Nat)
  perfer_cid : Int
  deriving DecidableEq, Repr

/-- Class `RssCommonMessage` as the receiver builds it: header, received size
and payload array (`none` is `NULL`). -/
structure RssCommonMessage where
  header : RssMessageHeader
  size : Int
  payload : Option (List Nat)
  deriving DecidableEq, Repr

/-- Constructor `RssCommonMessage::RssCommonMessage()` over `IRssMessage()`. -/
def RssCommonMessage.new : RssCommonMessage :=
  { header := RssMessageHeader.new, size := 0, payload := none }

/-- Class `RssChunkStream`. -/
structure RssChunkStream where
  fmt : Int
  cid : Int
  header : RssMessageHeader
  extended_timestamp : Bool
  msg : Option RssCommonMessage
  msg_count : Int
  deriving DecidableEq, Repr

/-- Constructor `RssChunkStream::RssChunkStream(int _cid)`. -/
def RssChunkStream.new (cid : Int) : RssChunkStream :=
  { fmt := 0, cid := cid, header := RssMessageHeader.new, extended_timestamp := false,
    msg := none, msg_count := 0 }

/-- The receiving side of `RssProtocol`. `buffer` holds the bytes that are in
the `RssBuffer` or will still arrive on the socket, in order: a call of
`ensure_buffer_bytes(n)` succeeds when at least `n` of them exist and fails
with a socket error otherwise. `chunk_streams` is the `std::map` from chunk id
to chunk stream. The functions on this buffer read every byte where it lies
in the list. That is what the source does as long as the array of the
`std::vector` stays in place between the moment a pointer into it is taken
and the read through it; `read_message_header_vector` models the vector, its
capacity and the socket reads, and the pointer that dangles after a
reallocation. -/
structure RssProtocol where
  chunk_streams : List (Int × RssChunkStream)
  buffer : List Nat
  in_chunk_size : Int
  out_chunk_size : Int
  deriving DecidableEq, Repr

/-- Constructor `RssProtocol::RssProtocol`, reading from the bytes `input`. -/
def RssProtocol.new (input : List Nat) : RssProtocol :=
  { chunk_streams := [], buffer := input,
    in_chunk_size := RTMP_DEFAULT_CHUNK_SIZE, out_chunk_size := RTMP_DEFAULT_CHUNK_SIZE }

/-- Lookup `chunk_streams.find(cid)`. -/
def findChunk (m : List (Int × RssChunkStream)) (cid : Int) : Option RssChunkStream :=
  match m with
  | [] => none
  | (k, c) :: rest => if k = cid then some c else findChunk rest cid

/-- Store the chunk stream `c` under `cid` (the map holds pointers, so every
change of a chunk stream is a change of the map entry). -/
def storeChunk (m : List (Int × RssChunkStream)) (cid : Int) (c : RssChunkStream) :
    List (Int × RssChunkStream) :=
  match m with
  | [] => [(cid, c)]
  | (k, c0) :: rest => if k = cid then (k, c) :: rest else (k, c0) :: storeChunk rest cid c

/-- Call `memcpy(dst + off, src, src.length)`. -/
def memcpy (dst : List Nat) (off : Nat) (src : List Nat) : List Nat :=
  dst.take off ++ src ++ dst.drop (off + src.length)

/-! ## Chunk-stream codec: sender -/

/-- The format-0 chunk header `send_message` writes into `out_header_fmt0`. -/
def fmt0_header (msg : IRssMessage) : List Nat :=
  [(0 + msg.perfer_cid % 64).toNat]
  ++ (if msg.header.timestamp ≥ RTMP_EXTENDED_TIMESTAMP then [0xFF, 0xFF, 0xFF]
      else [byte2 msg.header.timestamp, byte1 msg.header.timestamp, byte0 msg.header.timestamp])
  ++ [byte2 msg.header.payload_length, byte1 msg.header.payload_length,
      byte0 msg.header.payload_length]
  ++ [byte0 msg.header.message_type]
  ++ [byte0 msg.header.stream_id, byte1 msg.header.stream_id, byte2 msg.header.stream_id,
      byte3 msg.header.stream_id]
  ++ (if msg.header.timestamp ≥ RTMP_EXTENDED_TIMESTAMP then
        [byte3 msg.header.timestamp, byte2 msg.header.timestamp, byte1 msg.header.timestamp,
         byte0 msg.header.timestamp]
      else [])

/-- The format-3 chunk header `send_message` writes into `out_header_fmt3`. -/
def fmt3_header (msg : IRssMessage) : List Nat :=
  [(0xC0 + msg.perfer_cid % 64).toNat]
  ++ (if msg.header.timestamp ≥ RTMP_EXTENDED_TIMESTAMP then
        [byte3 msg.header.timestamp, byte2 msg.header.timestamp, byte1 msg.header.timestamp,
         byte0 msg.header.timestamp]
      else [])

/-- The `do { ... } while (p < payload + size)` loop of `send_message`, from the
write offset `p = p - msg->payload`. Each iteration issues one `writev` of a
header and a payload slice; the result lists these pairs in order. `fuel`
bounds the number of iterations: `none` means the loop did not finish within
`fuel` iterations (with a chunk size below 1 it never does). -/
def send_loop (msg : IRssMessage) (out_chunk_size : Int) :
    Nat → Int → Option (List (List Nat × List Nat))
  | 0, _ => none
  | fuel + 1, p =>
    let pheader := if p = 0 then fmt0_header msg else fmt3_header msg
    let payload_size := rss_min (msg.size - p) out_chunk_size
    let iov1 := ((msg.payload.getD []).drop p.toNat).take payload_size.toNat
    let p1 := if msg.payload.isSome ∧ msg.size > 0 then p + payload_size else p
    if p1 < msg.size then
      (send_loop msg out_chunk_size fuel p1).map (fun chunks => (pheader, iov1) :: chunks)
    else some [(pheader, iov1)]

/-- Function `RssProtocol::send_message`, for a message whose `encode_packet()`
has succeeded and a socket that accepts every write: the list of
(header, payload slice) pairs handed to `writev`. -/
def send_message (fuel : Nat) (out_chunk_size : Int) (msg : IRssMessage) :
    Option (List (List Nat × List Nat)) :=
  send_loop msg out_chunk_size fuel 0

/-- The bytes a list of `writev` calls puts on the wire. -/
def wire (chunks : List (List Nat × List Nat)) : List Nat :=
  (chunks.map (fun c => c.1 ++ c.2)).flatten

/-! ## Chunk-stream codec: receiver -/

/-- Function `RssProtocol::read_basic_header`: returns `(fmt, cid, bh_size)`.
The second and the third byte are read through the pointer `p` taken after
`ensure_buffer_bytes(1)`; here they are read from the buffer, as the source
reads them when the `ensure_buffer_bytes(2)` or `(3)` in between does not
reallocate the vector. -/
def read_basic_header (char_signed : Bool) (buffer : List Nat) :
    Except RssError (Int × Int × Nat) :=
  if buffer.length < 1 then .error .socket
  else
    let c := charValue char_signed (buffer.getD 0 0)
    let fmt := (c / 64) % 4
    let cid := c % 64
    if cid > 1 then .ok (fmt, cid, 1)
    else if cid = 0 then
      if buffer.length < 2 then .error .socket
      else .ok (fmt, 64 + charValue char_signed (buffer.getD 1 0), 2)
    else if cid = 1 then
      if buffer.length < 3 then .error .socket
      else .ok (fmt, 64 + charValue char_signed (buffer.getD 1 0)
                  + charValue char_signed (buffer.getD 2 0) * 256, 3)
    else .error .assert_failed

/-- Table `mh_sizes[] = {11, 7, 3, 0}` indexed by `fmt`. -/
def mh_sizes (fmt : Int) : Nat :=
  if fmt = 0 then 11 else if fmt = 1 then 7 else if fmt = 2 then 3 else 0

/-- The part of `read_message_header` that parses the message header bytes
(the `if (fmt <= RTMP_FMT_TYPE2) ... else ...` statement). `b i` is the byte
`p[i]` with `p = buffer->bytes() + bh_size`. Returns the chunk stream and the
number of bytes `p` advanced. For formats 0 to 2 the statement reads
`timestamp_delta`, sets `timestamp` to it (format 0) or adds it to `timestamp`
(formats 1 and 2), sets `extended_timestamp` and, when that is set, overwrites
`timestamp` with `RTMP_EXTENDED_TIMESTAMP`; formats 0 and 1 then read
`payload_length` and `message_type`, format 0 also `stream_id`. -/
def parse_message_header (chunk : RssChunkStream) (fmt : Int) (is_fresh_packet : Bool)
    (b : Nat → Nat) : RssChunkStream × Nat :=
  if fmt ≤ RTMP_FMT_TYPE2 then
    let timestamp_delta := int32OfBytes (b 2) (b 1) (b 0) 0
    let extended_timestamp := decide (timestamp_delta ≥ RTMP_EXTENDED_TIMESTAMP)
    let timestamp :=
      if extended_timestamp then RTMP_EXTENDED_TIMESTAMP
      else if fmt = RTMP_FMT_TYPE0 then timestamp_delta
      else toInt32 (chunk.header.timestamp + timestamp_delta)
    if fmt ≤ RTMP_FMT_TYPE1 then
      if fmt = 0 then
        ({ chunk with
            header := { message_type := toInt8 (b 6),
                        payload_length := int32OfBytes (b 5) (b 4) (b 3) 0,
                        timestamp_delta := timestamp_delta,
                        stream_id := int32OfBytes (b 7) (b 8) (b 9) (b 10),
                        timestamp := timestamp },
            extended_timestamp := extended_timestamp }, 11)
      else
        ({ chunk with
            header := { message_type := toInt8 (b 6),
                        payload_length := int32OfBytes (b 5) (b 4) (b 3) 0,
                        timestamp_delta := timestamp_delta,
                        stream_id := chunk.header.stream_id,
                        timestamp := timestamp },
            extended_timestamp := extended_timestamp }, 7)
    else
      ({ chunk with
          header := { message_type := chunk.header.message_type,
                      payload_length := chunk.header.payload_length,
                      timestamp_delta := timestamp_delta,
                      stream_id := chunk.header.stream_id,
                      timestamp := timestamp },
          extended_timestamp := extended_timestamp }, 3)
  else
    if is_fresh_packet ∧ ¬ chunk.extended_timestamp then
      ({ chunk with
          header := { message_type := chunk.header.message_type,
                      payload_length := chunk.header.payload_length,
                      timestamp_delta := chunk.header.timestamp_delta,
                      stream_id := chunk.header.stream_id,
                      timestamp :=
                        toInt32 (chunk.header.timestamp + chunk.header.timestamp_delta) } }, 0)
    else (chunk, 0)

/-- The end of `read_message_header`: the size check, the copy of the header
into the message and the increment of `msg_count`. -/
def finish_message_header (chunk : RssChunkStream) (mh_size : Nat) :
    RssChunkStream × Except RssError Nat :=
  if chunk.header.payload_length < 0 then (chunk, .error .invalid_size)
  else
    ({ chunk with
        msg := chunk.msg.map (fun m => { m with header := chunk.header }),
        msg_count := chunk.msg_count + 1 }, .ok mh_size)

/-- Function `RssProtocol::read_message_header`. Returns the chunk stream as the
call leaves it (also when it fails) and either the error or `mh_size`. The
four bytes of the extended timestamp are read through the pointer `p` taken
before the second `ensure_buffer_bytes`; here they are read from the buffer,
as the source reads them when that call does not reallocate the vector (for
one, when the bytes are in the buffer before the call:
`read_message_header_vector_present`). The read through the dangling pointer
is in `read_message_header_vector`. -/
def read_message_header (chunk : RssChunkStream) (fmt : Int) (bh_size : Nat)
    (buffer : List Nat) : RssChunkStream × Except RssError Nat :=
  let is_fresh_packet := chunk.msg.isNone
  if chunk.msg_count = 0 ∧ fmt ≠ RTMP_FMT_TYPE0 then (chunk, .error .chunk_start)
  else if chunk.msg.isSome ∧ fmt = RTMP_FMT_TYPE0 then (chunk, .error .chunk_start)
  else
    let chunk := if chunk.msg.isNone then { chunk with msg := some RssCommonMessage.new }
                 else chunk
    let mh_size := mh_sizes fmt
    if buffer.length < bh_size + mh_size then (chunk, .error .socket)
    else
      let (chunk, used) :=
        parse_message_header chunk fmt is_fresh_packet (fun i => buffer.getD (bh_size + i) 0)
      if chunk.extended_timestamp then
        let mh_size := mh_size + 4
        if buffer.length < bh_size + mh_size then (chunk, .error .socket)
        else
          let q := bh_size + used
          let ts := int32OfBytes (buffer.getD (q + 3) 0) (buffer.getD (q + 2) 0)
                      (buffer.getD (q + 1) 0) (buffer.getD q 0)
          finish_message_header
            { chunk with header := { chunk.header with timestamp := ts } } mh_size
      else finish_message_header chunk mh_size

/-- Function `RssProtocol::read_message_payload`. Returns the chunk stream and
the buffer as the call leaves them and either the error or the pair
`(payload_size, *pmsg)`. A copy that would leave the payload array is reported
as `undefined_behavior`. -/
def read_message_payload (chunk : RssChunkStream) (bh_size mh_size : Nat) (in_chunk_size : Int)
    (buffer : List Nat) :
    RssChunkStream × List Nat × Except RssError (Int × Option RssCommonMessage) :=
  if chunk.header.payload_length = 0 then
    ({ chunk with msg := none }, buffer.drop (bh_size + mh_size), .ok (0, chunk.msg))
  else if ¬ chunk.header.payload_length > 0 then (chunk, buffer, .error .assert_failed)
  else
    match chunk.msg with
    | none => (chunk, buffer, .error .undefined_behavior)
    | some msg =>
      let payload_size := rss_min (chunk.header.payload_length - msg.size) in_chunk_size
      let payload := match msg.payload with
        | none => List.replicate chunk.header.payload_length.toNat 0
        | some pl => pl
      let msg := { msg with payload := some payload }
      let chunk := { chunk with msg := some msg }
      if payload_size < 0 then (chunk, buffer, .error .undefined_behavior)
      else if buffer.length < bh_size + mh_size + payload_size.toNat then
        (chunk, buffer, .error .socket)
      else if msg.size < 0 ∨ payload.length < msg.size.toNat + payload_size.toNat then
        (chunk, buffer, .error .undefined_behavior)
      else
        let data := (buffer.drop (bh_size + mh_size)).take payload_size.toNat
        let msg := { msg with payload := some (memcpy payload msg.size.toNat data),
                              size := msg.size + payload_size }
        let buffer := buffer.drop (bh_size + mh_size + payload_size.toNat)
        if chunk.header.payload_length = msg.size then
          ({ chunk with msg := none }, buffer, .ok (payload_size, some msg))
        else ({ chunk with msg := some msg }, buffer, .ok (payload_size, none))

/-- Function `RssProtocol::recv_interlaced_message`: reads one chunk. Returns
the protocol state as the call leaves it and either the error or `*pmsg`
(`none` when the chunk did not complete a message). -/
def recv_interlaced_message (char_signed : Bool) (proto : RssProtocol) :
    RssProtocol × Except RssError (Option RssCommonMessage) :=
  match read_basic_header char_signed proto.buffer with
  | .error e => (proto, .error e)
  | .ok (fmt, cid, bh_size) =>
    let chunk := match findChunk proto.chunk_streams cid with
      | none => RssChunkStream.new cid
      | some c => c
    match read_message_header chunk fmt bh_size proto.buffer with
    | (chunk, .error e) =>
      ({ proto with chunk_streams := storeChunk proto.chunk_streams cid chunk }, .error e)
    | (chunk, .ok mh_size) =>
      match read_message_payload chunk bh_size mh_size proto.in_chunk_size proto.buffer with
      | (chunk, buffer, .error e) =>
        ({ proto with chunk_streams := storeChunk proto.chunk_streams cid chunk,
                      buffer := buffer }, .error e)
      | (chunk, buffer, .ok (_, pmsg)) =>
        ({ proto with chunk_streams := storeChunk proto.chunk_streams cid chunk,
                      buffer := buffer }, .ok pmsg)

/-- Repeat `recv_interlaced_message` until it returns a message or fails, as the
`while (true)` loop of `recv_message` does. `fuel` bounds the number of
chunks read; `none` means no message was complete after `fuel` chunks. -/
def recv_entire_message (char_signed : Bool) :
    Nat → RssProtocol → Option (RssProtocol × Except RssError RssCommonMessage)
  | 0, _ => none
  | fuel + 1, proto =>
    match recv_interlaced_message char_signed proto with
    | (proto, .error e) => some (proto, .error e)
    | (proto, .ok (some msg)) => some (proto, .ok msg)
    | (proto, .ok none) => recv_entire_message char_signed fuel proto


/-! ## Byte stream (`RssStream`) -/

/-- Class `RssStream`: the buffer `bytes` (its length is `size`) and the cursor
`p`, kept as the offset `p - bytes`. -/
structure RssStream where
  bytes : List Nat
  p : Nat
  deriving DecidableEq, Repr

namespace RssStream

/-- Function `RssStream::empty`. -/
def empty (s : RssStream) : Bool := decide (s.p ≥ s.bytes.length)

/-- Function `RssStream::require`. -/
def require (s : RssStream) (required_size : Int) : Bool :=
  !s.empty && decide (required_size ≤ (s.bytes.length : Int) - (s.p : Int))

/-- Function `RssStream::skip`. Every backward skip in the source follows reads
of at least as many bytes, so the cursor stays inside the buffer. -/
def skip (s : RssStream) (size : Int) : RssStream := { s with p := ((s.p : Int) + size).toNat }

/-- Function `RssStream::pos`. -/
def pos (s : RssStream) : Int := if s.empty then 0 else (s.p : Int)

/-- Function `RssStream::read_1bytes`. -/
def read_1bytes (s : RssStream) : Except RssError (Int × RssStream) :=
  if s.require 1 then .ok (toInt8 (s.bytes.getD s.p 0), { s with p := s.p + 1 })
  else .error .assert_failed

/-- Function `RssStream::read_2bytes`. -/
def read_2bytes (s : RssStream) : Except RssError (Int × RssStream) :=
  if s.require 2 then
    .ok (toInt16 (((s.bytes.getD s.p 0 % 256 : Nat) : Int) * 256
          + ((s.bytes.getD (s.p + 1) 0 % 256 : Nat) : Int)), { s with p := s.p + 2 })
  else .error .assert_failed

/-- Function `RssStream::read_4bytes`. -/
def read_4bytes (s : RssStream) : Except RssError (Int × RssStream) :=
  if s.require 4 then
    .ok (int32OfBytes (s.bytes.getD (s.p + 3) 0) (s.bytes.getD (s.p + 2) 0)
          (s.bytes.getD (s.p + 1) 0) (s.bytes.getD s.p 0), { s with p := s.p + 4 })
  else .error .assert_failed

/-- Function `RssStream::read_8bytes`. -/
def read_8bytes (s : RssStream) : Except RssError (Int × RssStream) :=
  if s.require 8 then
    .ok (toInt64 (((s.bytes.getD s.p 0 % 256 : Nat) : Int) * 72057594037927936
          + ((s.bytes.getD (s.p + 1) 0 % 256 : Nat) : Int) * 281474976710656
          + ((s.bytes.getD (s.p + 2) 0 % 256 : Nat) : Int) * 1099511627776
          + ((s.bytes.getD (s.p + 3) 0 % 256 : Nat) : Int) * 4294967296
          + ((s.bytes.getD (s.p + 4) 0 % 256 : Nat) : Int) * 16777216
          + ((s.bytes.getD (s.p + 5) 0 % 256 : Nat) : Int) * 65536
          + ((s.bytes.getD (s.p + 6) 0 % 256 : Nat) : Int) * 256
          + ((s.bytes.getD (s.p + 7) 0 % 256 : Nat) : Int)), { s with p := s.p + 8 })
  else .error .assert_failed

/-- Function `RssStream::read_string`. -/
def read_string (s : RssStream) (len : Int) : Except RssError (List Nat × RssStream) :=
  if s.require len then
    .ok ((s.bytes.drop s.p).take len.toNat, { s with p := s.p + len.toNat })
  else .error .assert_failed

/-- Function `RssStream::write_1bytes`: stores the low byte of `value`. -/
def write_1bytes (s : RssStream) (value : Int) : Except RssError RssStream :=
  if s.require 1 then .ok { bytes := memcpy s.bytes s.p [byte0 value], p := s.p + 1 }
  else .error .assert_failed

/-- Function `RssStream::write_2bytes`: the `int16_t` parameter keeps the two
low bytes of the argument, stored high byte first. -/
def write_2bytes (s : RssStream) (value : Int) : Except RssError RssStream :=
  if s.require 2 then
    .ok { bytes := memcpy s.bytes s.p [byte1 value, byte0 value], p := s.p + 2 }
  else .error .assert_failed

/-- Function `RssStream::write_4bytes`. -/
def write_4bytes (s : RssStream) (value : Int) : Except RssError RssStream :=
  if s.require 4 then
    .ok { bytes := memcpy s.bytes s.p [byte3 value, byte2 value, byte1 value, byte0 value],
          p := s.p + 4 }
  else .error .assert_failed

/-- Function `RssStream::write_8bytes`. -/
def write_8bytes (s : RssStream) (value : Int) : Except RssError RssStream :=
  if s.require 8 then
    .ok { bytes := memcpy s.bytes s.p
            [byte7 value, byte6 value, byte5 value, byte4 value,
             byte3 value, byte2 value, byte1 value, byte0 value],
          p := s.p + 8 }
  else .error .assert_failed

/-- Function `RssStream::write_string`. -/
def write_string (s : RssStream) (value : List Nat) : Except RssError RssStream :=
  if s.require value.length then
    .ok { bytes := memcpy s.bytes s.p value, p := s.p + value.length }
  else .error .assert_failed

end RssStream

/-! ## AMF0: value model -/

def RTMP_AMF0_Number : Int := 0x00
def RTMP_AMF0_Boolean : Int := 0x01
def RTMP_AMF0_String : Int := 0x02
def RTMP_AMF0_Object : Int := 0x03
def RTMP_AMF0_Null : Int := 0x05
def RTMP_AMF0_Undefined : Int := 0x06
def RTMP_AMF0_EcmaArray : Int := 0x08
def RTMP_AMF0_ObjectEnd : Int := 0x09

/-- The classes derived from `RssAmf0Any`, one constructor per marker. A
`std::string` is its list of bytes. The `double` of `RssAmf0Number` is held as
the `int64_t` that shares its eight bytes: the codec only moves it with
`memcpy`. The property list of an object or array is the vector inside its
`RssUnSortedHashtable`. -/
inductive RssAmf0Any where
  | String (value : List Nat)
  | Boolean (value : Bool)
  | Number (value : Int)
  | Null
  | Undefined
  | ObjectEOF
  | Object (properties : List (List Nat × RssAmf0Any))
  | EcmaArray (count : Int) (properties : List (List Nat × RssAmf0Any))

/-- Function `RssAmf0Any::is_object_eof`. -/
def RssAmf0Any.is_object_eof : RssAmf0Any → Bool
  | .ObjectEOF => true
  | _ => false

namespace RssUnSortedHashtable

/-- The search loop of `RssUnSortedHashtable::set`: erase the first entry whose
name equals `key`. -/
def erase_key {α : Type} (key : List Nat) : List (List Nat × α) → List (List Nat × α)
  | [] => []
  | (name, any) :: rest =>
    if key = name then rest else (name, any) :: erase_key key rest

/-- Function `RssUnSortedHashtable::set`. -/
def set {α : Type} (properties : List (List Nat × α)) (key : List Nat) (value : α) :
    List (List Nat × α) :=
  erase_key key properties ++ [(key, value)]

/-- Function `RssUnSortedHashtable::size`. -/
def size {α : Type} (properties : List (List Nat × α)) : Int := (properties.length : Int)

/-- Function `RssUnSortedHashtable::key_at`, for an index that is not negative. -/
def key_at {α : Type} (properties : List (List Nat × α)) (index : Nat) :
    Except RssError (List Nat) :=
  match properties.get? index with
  | some elem => .ok elem.1
  | none => .error .assert_failed

/-- Function `RssUnSortedHashtable::value_at`, for an index that is not negative. -/
def value_at {α : Type} (properties : List (List Nat × α)) (index : Nat) :
    Except RssError α :=
  match properties.get? index with
  | some elem => .ok elem.2
  | none => .error .assert_failed

end RssUnSortedHashtable

/-! ## AMF0: sizes -/

def rss_amf0_get_utf8_size (value : List Nat) : Int := 2 + (value.length : Int)
def rss_amf0_get_string_size (value : List Nat) : Int := 1 + rss_amf0_get_utf8_size value
def rss_amf0_get_number_size : Int := 1 + 8
def rss_amf0_get_null_size : Int := 1
def rss_amf0_get_undefined_size : Int := 1
def rss_amf0_get_boolean_size : Int := 1 + 1
def rss_amf0_get_object_eof_size : Int := 2 + 1

mutual
/-- Function `rss_amf0_get_any_size` (for a value that is not `NULL`). -/
def rss_amf0_get_any_size : RssAmf0Any → Int
  | .String value => 0 + rss_amf0_get_string_size value
  | .Boolean _ => 0 + rss_amf0_get_boolean_size
  | .Number _ => 0 + rss_amf0_get_number_size
  | .Null => 0 + rss_amf0_get_null_size
  | .Undefined => 0 + rss_amf0_get_undefined_size
  | .ObjectEOF => 0 + rss_amf0_get_object_eof_size
  | .Object properties => 0 + (1 + get_properties_size properties + rss_amf0_get_object_eof_size)
  | .EcmaArray _ properties =>
    0 + (1 + 4 + get_properties_size properties + rss_amf0_get_object_eof_size)
/-- The `for` loop of `rss_amf0_get_object_size` and of
`rss_amf0_get_ecma_array_size`: the sum of the sizes of the properties. -/
def get_properties_size : List (List Nat × RssAmf0Any) → Int
  | [] => 0
  | (name, value) :: rest =>
    rss_amf0_get_utf8_size name + rss_amf0_get_any_size value + get_properties_size rest
end

/-- Function `rss_amf0_get_object_size` (for an object that is not `NULL`). -/
def rss_amf0_get_object_size (properties : List (List Nat × RssAmf0Any)) : Int :=
  1 + get_properties_size properties + rss_amf0_get_object_eof_size

/-- Function `rss_amf0_get_ecma_array_size` (for an array that is not `NULL`). -/
def rss_amf0_get_ecma_array_size (properties : List (List Nat × RssAmf0Any)) : Int :=
  1 + 4 + get_properties_size properties + rss_amf0_get_object_eof_size

/-! ## AMF0: encoder -/

/-- Function `rss_amf0_write_utf8`. -/
def rss_amf0_write_utf8 (stream : RssStream) (value : List Nat) : Except RssError RssStream :=
  if !stream.require 2 then .error .amf0_encode
  else
    match stream.write_2bytes (value.length : Int) with
    | .error e => .error e
    | .ok stream =>
      if (value.length : Int) ≤ 0 then .ok stream
      else if !stream.require (value.length : Int) then .error .amf0_encode
      else stream.write_string value

/-- Function `rss_amf0_write_string`. -/
def rss_amf0_write_string (stream : RssStream) (value : List Nat) : Except RssError RssStream :=
  if !stream.require 1 then .error .amf0_encode
  else
    match stream.write_1bytes RTMP_AMF0_String with
    | .error e => .error e
    | .ok stream => rss_amf0_write_utf8 stream value

/-- Function `rss_amf0_write_boolean`. -/
def rss_amf0_write_boolean (stream : RssStream) (value : Bool) : Except RssError RssStream :=
  if !stream.require 1 then .error .amf0_encode
  else
    match stream.write_1bytes RTMP_AMF0_Boolean with
    | .error e => .error e
    | .ok stream =>
      if !stream.require 1 then .error .amf0_encode
      else if value then stream.write_1bytes 0x01 else stream.write_1bytes 0x00

/-- Function `rss_amf0_write_number`. -/
def rss_amf0_write_number (stream : RssStream) (value : Int) : Except RssError RssStream :=
  if !stream.require 1 then .error .amf0_encode
  else
    match stream.write_1bytes RTMP_AMF0_Number with
    | .error e => .error e
    | .ok stream =>
      if !stream.require 8 then .error .amf0_encode
      else stream.write_8bytes value

/-- Function `rss_amf0_write_null`. -/
def rss_amf0_write_null (stream : RssStream) : Except RssError RssStream :=
  if !stream.require 1 then .error .amf0_encode
  else stream.write_1bytes RTMP_AMF0_Null

/-- Function `rss_amf0_write_undefined`. -/
def rss_amf0_write_undefined (stream : RssStream) : Except RssError RssStream :=
  if !stream.require 1 then .error .amf0_encode
  else stream.write_1bytes RTMP_AMF0_Undefined

/-- Function `rss_amf0_write_object_eof`. -/
def rss_amf0_write_object_eof (stream : RssStream) : Except RssError RssStream :=
  if !stream.require 2 then .error .amf0_encode
  else
    match stream.write_2bytes 0x00 with
    | .error e => .error e
    | .ok stream =>
      if !stream.require 1 then .error .amf0_encode
      else stream.write_1bytes RTMP_AMF0_ObjectEnd

mutual
/-- Function `rss_amf0_write_any`. -/
def rss_amf0_write_any : RssAmf0Any → RssStream → Except RssError RssStream
  | .String value, stream => rss_amf0_write_string stream value
  | .Boolean value, stream => rss_amf0_write_boolean stream value
  | .Number value, stream => rss_amf0_write_number stream value
  | .Null, stream => rss_amf0_write_null stream
  | .Undefined, stream => rss_amf0_write_undefined stream
  | .ObjectEOF, stream => rss_amf0_write_object_eof stream
  | .Object properties, stream => rss_amf0_write_object properties stream
  | .EcmaArray count properties, stream => rss_amf0_write_ecma_array count properties stream
/-- Function `rss_amf0_write_object`. -/
def rss_amf0_write_object : List (List Nat × RssAmf0Any) → RssStream → Except RssError RssStream
  | properties, stream =>
    if !stream.require 1 then .error .amf0_encode
    else
      match stream.write_1bytes RTMP_AMF0_Object with
      | .error e => .error e
      | .ok stream =>
        match write_properties properties stream with
        | .error e => .error e
        | .ok stream => rss_amf0_write_object_eof stream
/-- Function `rss_amf0_write_ecma_array`. -/
def rss_amf0_write_ecma_array :
    Int → List (List Nat × RssAmf0Any) → RssStream → Except RssError RssStream
  | count, properties, stream =>
    if !stream.require 1 then .error .amf0_encode
    else
      match stream.write_1bytes RTMP_AMF0_EcmaArray with
      | .error e => .error e
      | .ok stream =>
        if !stream.require 4 then .error .amf0_encode
        else
          match stream.write_4bytes count with
          | .error e => .error e
          | .ok stream =>
            match write_properties properties stream with
            | .error e => .error e
            | .ok stream => rss_amf0_write_object_eof stream
/-- The `for` loop of `rss_amf0_write_object` and of `rss_amf0_write_ecma_array`:
write each property name and value, in the order of the vector. -/
def write_properties : List (List Nat × RssAmf0Any) → RssStream → Except RssError RssStream
  | [], stream => .ok stream
  | (name, any) :: rest, stream =>
    match rss_amf0_write_utf8 stream name with
    | .error e => .error e
    | .ok stream =>
      match rss_amf0_write_any any stream with
      | .error e => .error e
      | .ok stream => write_properties rest stream
end

/-! ## AMF0: decoder -/

/-- Function `rss_amf0_read_utf8`, called with a `value` that is empty, as a
new `std::string` is. The loop over the characters of the string only logs and
resets `ret`, so it has no effect on the result. For a length that is not
positive the source returns success and leaves `value` as the caller passed
it: the empty string here. -/
def rss_amf0_read_utf8 (stream : RssStream) : Except RssError (List Nat × RssStream) :=
  if !stream.require 2 then .error .amf0_decode
  else
    match stream.read_2bytes with
    | .error e => .error e
    | .ok (len, stream) =>
      if len ≤ 0 then .ok ([], stream)
      else if !stream.require len then .error .amf0_decode
      else stream.read_string len

/-- Function `rss_amf0_read_string`. -/
def rss_amf0_read_string (stream : RssStream) : Except RssError (List Nat × RssStream) :=
  if !stream.require 1 then .error .amf0_decode
  else
    match stream.read_1bytes with
    | .error e => .error e
    | .ok (marker, stream) =>
      if marker ≠ RTMP_AMF0_String then .error .amf0_decode
      else rss_amf0_read_utf8 stream

/-- Function `rss_amf0_read_boolean`. -/
def rss_amf0_read_boolean (stream : RssStream) : Except RssError (Bool × RssStream) :=
  if !stream.require 1 then .error .amf0_decode
  else
    match stream.read_1bytes with
    | .error e => .error e
    | .ok (marker, stream) =>
      if marker ≠ RTMP_AMF0_Boolean then .error .amf0_decode
      else if !stream.require 1 then .error .amf0_decode
      else
        match stream.read_1bytes with
        | .error e => .error e
        | .ok (b, stream) => if b = 0 then .ok (false, stream) else .ok (true, stream)

/-- Function `rss_amf0_read_number`. -/
def rss_amf0_read_number (stream : RssStream) : Except RssError (Int × RssStream) :=
  if !stream.require 1 then .error .amf0_decode
  else
    match stream.read_1bytes with
    | .error e => .error e
    | .ok (marker, stream) =>
      if marker ≠ RTMP_AMF0_Number then .error .amf0_decode
      else if !stream.require 8 then .error .amf0_decode
      else stream.read_8bytes

/-- Function `rss_amf0_read_object_eof`. -/
def rss_amf0_read_object_eof (stream : RssStream) : Except RssError (RssAmf0Any × RssStream) :=
  if ¬ stream.pos ≥ 2 then .error .assert_failed
  else
    let stream := stream.skip (-2)
    if !stream.require 2 then .error .amf0_decode
    else
      match stream.read_2bytes with
      | .error e => .error e
      | .ok (temp, stream) =>
        if temp ≠ 0x00 then .error .amf0_decode
        else if !stream.require 1 then .error .amf0_decode
        else
          match stream.read_1bytes with
          | .error e => .error e
          | .ok (marker, stream) =>
            if marker ≠ RTMP_AMF0_ObjectEnd then .error .amf0_decode
            else .ok (.ObjectEOF, stream)

mutual
/-- Function `rss_amf0_read_any`. `fuel` bounds the depth of the calls and the
number of loop iterations below this call. -/
def rss_amf0_read_any : Nat → RssStream → Except RssError (RssAmf0Any × RssStream)
  | 0, _ => .error .out_of_fuel
  | fuel + 1, stream =>
    if !stream.require 1 then .error .amf0_decode
    else
      match stream.read_1bytes with
      | .error e => .error e
      | .ok (marker, stream) =>
        let stream := stream.skip (-1)
        if marker = RTMP_AMF0_String then
          match rss_amf0_read_string stream with
          | .error e => .error e
          | .ok (data, stream) => .ok (.String data, stream)
        else if marker = RTMP_AMF0_Boolean then
          match rss_amf0_read_boolean stream with
          | .error e => .error e
          | .ok (data, stream) => .ok (.Boolean data, stream)
        else if marker = RTMP_AMF0_Number then
          match rss_amf0_read_number stream with
          | .error e => .error e
          | .ok (data, stream) => .ok (.Number data, stream)
        else if marker = RTMP_AMF0_Null then .ok (.Null, stream)
        else if marker = RTMP_AMF0_Undefined then .ok (.Undefined, stream)
        else if marker = RTMP_AMF0_ObjectEnd then rss_amf0_read_object_eof stream
        else if marker = RTMP_AMF0_Object then
          match rss_amf0_read_object fuel stream with
          | .error e => .error e
          | .ok (properties, stream) => .ok (.Object properties, stream)
        else if marker = RTMP_AMF0_EcmaArray then
          match rss_amf0_read_ecma_array fuel stream with
          | .error e => .error e
          | .ok ((count, properties), stream) => .ok (.EcmaArray count properties, stream)
        else .error .amf0_invalid
/-- Function `rss_amf0_read_object`: returns the property vector of the object. -/
def rss_amf0_read_object :
    Nat → RssStream → Except RssError (List (List Nat × RssAmf0Any) × RssStream)
  | 0, _ => .error .out_of_fuel
  | fuel + 1, stream =>
    if !stream.require 1 then .error .amf0_decode
    else
      match stream.read_1bytes with
      | .error e => .error e
      | .ok (marker, stream) =>
        if marker ≠ RTMP_AMF0_Object then .error .amf0_decode
        else read_properties fuel [] stream
/-- Function `rss_amf0_read_ecma_array`: returns `count` and the property vector. -/
def rss_amf0_read_ecma_array :
    Nat → RssStream → Except RssError ((Int × List (List Nat × RssAmf0Any)) × RssStream)
  | 0, _ => .error .out_of_fuel
  | fuel + 1, stream =>
    if !stream.require 1 then .error .amf0_decode
    else
      match stream.read_1bytes with
      | .error e => .error e
      | .ok (marker, stream) =>
        if marker ≠ RTMP_AMF0_EcmaArray then .error .amf0_decode
        else if !stream.require 4 then .error .amf0_decode
        else
          match stream.read_4bytes with
          | .error e => .error e
          | .ok (count, stream) =>
            match read_properties fuel [] stream with
            | .error e => .error e
            | .ok (properties, stream) => .ok ((count, properties), stream)
/-- The `while (!stream->empty())` loop of `rss_amf0_read_object` and of
`rss_amf0_read_ecma_array` (the two loops are the same statement for
statement), started with the properties set so far. -/
def read_properties : Nat → List (List Nat × RssAmf0Any) → RssStream →
    Except RssError (List (List Nat × RssAmf0Any) × RssStream)
  | 0, _, _ => .error .out_of_fuel
  | fuel + 1, properties, stream =>
    if stream.empty then .ok (properties, stream)
    else
      match rss_amf0_read_utf8 stream with
      | .error e => .error e
      | .ok (property_name, stream) =>
        match rss_amf0_read_any fuel stream with
        | .error e => .error e
        | .ok (property_value, stream) =>
          if property_name.isEmpty ∨ property_value.is_object_eof then .ok (properties, stream)
          else
            read_properties fuel
              (RssUnSortedHashtable.set properties property_name property_value) stream
end

/-- Call `RssStream::initialize(bytes, size)` on a fresh stream. -/
def RssStream.initialize (bytes : List Nat) : Except RssError RssStream :=
  if bytes.length ≤ 0 then .error .assert_failed else .ok { bytes := bytes, p := 0 }

/-! ## Chunk-stream codec: the chunk sequence in the words of the specification -/

/-- The chunks the specification describes for a message with payload `pl` and
chunk size `n`, from payload offset `p` on, `k` chunks long: the chunk at
offset 0 has the format-0 header, every later one the format-3 header, and each
carries the next (at most) `n` payload bytes. -/
def chunk_list (msg : IRssMessage) (pl : List Nat) (n : Nat) : Nat → Nat → List (List Nat × List Nat)
  | 0, _ => []
  | k + 1, p =>
    ((if p = 0 then fmt0_header msg else fmt3_header msg), (pl.drop p).take n)
      :: chunk_list msg pl n k (p + n)

/-! ## Object properties: the iteration order in the words of the specification -/

/-- The entries of a sequence of `set(k, v)` calls that are the last `set` of
their key, in the order of the calls: an entry is dropped when a later call
sets the same key. -/
def last_sets {α : Type} : List (List Nat × α) → List (List Nat × α)
  | [] => []
  | (k, v) :: rest =>
    if k ∈ rest.map Prod.fst then last_sets rest else (k, v) :: last_sets rest

/-- The table after a sequence of `set(k, v)` calls on the table `t`. -/
def set_all {α : Type} (t : List (List Nat × α)) (ops : List (List Nat × α)) :
    List (List Nat × α) :=
  ops.foldl (fun t kv => RssUnSortedHashtable.set t kv.1 kv.2) t

/-! ## AMF0: the encoding as a byte sequence, and the round-trip domain -/

mutual
/-- The byte sequence of a value: marker, then the big-endian fields, the
properties and the object end `00 00 09`. The theorems below show that
`rss_amf0_write_any` stores exactly these bytes. -/
def amf0_bytes : RssAmf0Any → List Nat
  | .String value =>
    [0x02, byte1 (value.length : Int), byte0 (value.length : Int)] ++ value
  | .Boolean value => [0x01, if value then 0x01 else 0x00]
  | .Number value =>
    [0x00, byte7 value, byte6 value, byte5 value, byte4 value,
     byte3 value, byte2 value, byte1 value, byte0 value]
  | .Null => [0x05]
  | .Undefined => [0x06]
  | .ObjectEOF => [0x00, 0x00, 0x09]
  | .Object properties => [0x03] ++ (props_bytes properties ++ [0x00, 0x00, 0x09])
  | .EcmaArray count properties =>
    [0x08, byte3 count, byte2 count, byte1 count, byte0 count]
      ++ (props_bytes properties ++ [0x00, 0x00, 0x09])
/-- The byte sequence of a property list: each name as UTF-8 with its 16-bit
length, followed by its value. -/
def props_bytes : List (List Nat × RssAmf0Any) → List Nat
  | [] => []
  | (name, any) :: rest =>
    [byte1 (name.length : Int), byte0 (name.length : Int)] ++ name
      ++ (amf0_bytes any ++ props_bytes rest)
end

mutual
/-- A value that survives as a property value: a Number (an `int64_t` bit
pattern), a Boolean, a String shorter than 32768 bytes, or an Object or
EcmaArray (with an `int32_t` count) whose properties survive. Null, Undefined
and ObjectEOF are excluded: as a property value the first two are returned
without consuming their marker and the third ends the object. -/
def amf0_nested_ok : RssAmf0Any → Bool
  | .String value => decide (value.length < 32768)
  | .Boolean _ => true
  | .Number value =>
    decide (-9223372036854775808 ≤ value) && decide (value < 9223372036854775808)
  | .Null => false
  | .Undefined => false
  | .ObjectEOF => false
  | .Object properties => amf0_props_ok properties
  | .EcmaArray count properties =>
    decide (-2147483648 ≤ count) && decide (count < 2147483648) && amf0_props_ok properties
/-- A property list that survives: every name has between 1 and 32767 bytes,
no name occurs twice (as in every table built with `set`), and every value
survives as a property value. -/
def amf0_props_ok : List (List Nat × RssAmf0Any) → Bool
  | [] => true
  | (name, any) :: rest =>
    decide (0 < name.length) && decide (name.length < 32768)
      && decide (name ∉ rest.map Prod.fst) && amf0_nested_ok any && amf0_props_ok rest
end

/-- The values for which writing and reading back returns the value: those
that survive as a property value, and Null and Undefined on their own. -/
def amf0_round_trip_ok : RssAmf0Any → Bool
  | .Null => true
  | .Undefined => true
  | v => amf0_nested_ok v

/-- A fresh buffer of `size` zero bytes with the cursor at its start, as
`RssPacket::encode` allocates and initializes it. -/
def RssStream.alloc (size : Int) : RssStream := { bytes := List.replicate size.toNat 0, p := 0 }

/-- Stream `s` after the bytes `l` have been stored at the cursor. -/
def RssStream.put (s : RssStream) (l : List Nat) : RssStream :=
  { bytes := memcpy s.bytes s.p l, p := s.p + l.length }

/-- Stream `s` with the cursor moved forward by `n` bytes. -/
def RssStream.adv (s : RssStream) (n : Nat) : RssStream := { s with p := s.p + n }

/-! ## Chunk round trip: the states of the receiver -/

/-- The header the receiver holds for `msg` after its first chunk: the fields
of `msg`, and as `timestamp_delta` the 3-byte timestamp field of the chunk. -/
def rt_header (msg : IRssMessage) : RssMessageHeader :=
  { message_type := msg.header.message_type,
    payload_length := msg.header.payload_length,
    timestamp_delta :=
      if msg.header.timestamp ≥ RTMP_EXTENDED_TIMESTAMP then RTMP_EXTENDED_TIMESTAMP
      else msg.header.timestamp,
    stream_id := msg.header.stream_id,
    timestamp := msg.header.timestamp }

/-- The chunk stream of the receiver after `j` chunks of `msg` with `p` of the
payload bytes `pl` received: while bytes are missing the partial message holds
the received bytes followed by zeros, afterwards no partial message exists. -/
def rt_chunk (msg : IRssMessage) (pl : List Nat) (p : Nat) (j : Int) : RssChunkStream :=
  { fmt := 0, cid := msg.perfer_cid % 64, header := rt_header msg,
    extended_timestamp := decide (msg.header.timestamp ≥ RTMP_EXTENDED_TIMESTAMP),
    msg := if p < pl.length then
        some { header := rt_header msg, size := (p : Int),
               payload := some (pl.take p ++ List.replicate (pl.length - p) 0) }
      else none,
    msg_count := j }

/-- The message the receiver returns for `msg` with the payload bytes `pl`. -/
def rt_message (msg : IRssMessage) (pl : List Nat) : RssCommonMessage :=
  { header := rt_header msg, size := (pl.length : Int),
    payload := if pl.length = 0 then none else some pl }

/-- A 16 MiB message: 16777216 zero payload bytes. -/
def example_message_16MiB : IRssMessage :=
  { header := { message_type := 9, payload_length := 16777216, timestamp_delta := 0,
                stream_id := 1, timestamp := 0 },
    size := 16777216, payload := some (List.replicate 16777216 0), perfer_cid := 6 }

/-! ## Example data -/

/-- An object with a number and a nested array holding a string. -/
def example_amf0_object : RssAmf0Any :=
  .Object [([0x61], .Number 4607182418800017408),
           ([0x62], .EcmaArray 7 [([0x63], .String [0x68, 0x69])])]

/-- The message of scenario F: timestamp `0x01000000`, 300 payload bytes. -/
def example_message_300 : IRssMessage :=
  { header := { message_type := 9, payload_length := 300, timestamp_delta := 0,
                stream_id := 1, timestamp := 0x01000000 },
    size := 300, payload := some ((List.range 300).map (fun i => i % 256)), perfer_cid := 6 }

/-- A three-byte audio message whose timestamp has the sign bit set: the
32-bit pattern `0x80000000`, held in the `int32_t` field as `-2147483648`. The
receiver produces such a header when a publisher sends the extended timestamp
`80 00 00 00`. -/
def example_message_high_timestamp : IRssMessage :=
  { header := { message_type := 8, payload_length := 3, timestamp_delta := 0,
                stream_id := 1, timestamp := -2147483648 },
    size := 3, payload := some [1, 2, 3], perfer_cid := 7 }

/-- The chunk stream of the comment in `read_message_header` after its first
packet `04 00 00 1a 00 00 9d 08 01 00 00 00`: timestamp 26, delta 26, length
157, type 8 (audio), stream 1, one header read and no partial message. -/
def example_audio_chunk : RssChunkStream :=
  { fmt := 0, cid := 4,
    header := { message_type := 8, payload_length := 157, timestamp_delta := 26,
                stream_id := 1, timestamp := 26 },
    extended_timestamp := false, msg := none, msg_count := 1 }

/-! ## Protocol control messages: chunk size -/

def RTMP_MIN_CHUNK_SIZE : Int := 2
def RTMP_MSG_SetChunkSize : Int := 0x01
def RTMP_MSG_WindowAcknowledgementSize : Int := 0x05
def RTMP_CID_ProtocolControl : Int := 0x02

/-- The packet classes `decode_packet` creates outside its AMF0/AMF3 branch,
each with its data member (an `int32_t`); `Plain` is the base class
`RssPacket`. -/
inductive RssPacket where
  | SetChunkSize (chunk_size : Int)
  | SetWindowAckSize (ackowledgement_window_size : Int)
  | Plain
  deriving DecidableEq, Repr

/-- Function `RssSetChunkSizePacket::decode`: the value of `chunk_size` after a
successful call. -/
def RssSetChunkSizePacket.decode (stream : RssStream) : Except RssError Int :=
  if !stream.require 4 then .error .message_decode
  else
    match stream.read_4bytes with
    | .error e => .error e
    | .ok (chunk_size, _) =>
      if chunk_size < RTMP_MIN_CHUNK_SIZE then .error .chunk_size else .ok chunk_size

/-- Function `RssSetWindowAckSizePacket::decode`: the value of
`ackowledgement_window_size` after a successful call. -/
def RssSetWindowAckSizePacket.decode (stream : RssStream) : Except RssError Int :=
  if !stream.require 4 then .error .message_decode
  else
    match stream.read_4bytes with
    | .error e => .error e
    | .ok (ackowledgement_window_size, _) => .ok ackowledgement_window_size

/-- Function `RssCommonMessage::decode_packet` on a message that has no packet
yet and is no AMF0/AMF3 command or data message (types 15, 17, 18 and 20 take
the command branch of the source, which is not part of this definition;
`on_recv_message` calls the function for types 1 and 5 only). The stream is
initialized over the first `size` bytes of the payload. -/
def RssCommonMessage.decode_packet (msg : RssCommonMessage) : Except RssError RssPacket :=
  match msg.payload with
  | none => .error .assert_failed
  | some payload =>
    if ¬ msg.size > 0 then .error .assert_failed
    else
      match RssStream.initialize (payload.take msg.size.toNat) with
      | .error e => .error e
      | .ok stream =>
        if msg.header.message_type = RTMP_MSG_WindowAcknowledgementSize then
          match RssSetWindowAckSizePacket.decode stream with
          | .error e => .error e
          | .ok v => .ok (.SetWindowAckSize v)
        else if msg.header.message_type = RTMP_MSG_SetChunkSize then
          match RssSetChunkSizePacket.decode stream with
          | .error e => .error e
          | .ok v => .ok (.SetChunkSize v)
        else .ok .Plain

/-- Function `RssProtocol::on_recv_message`: the protocol state after the call
and either the error or the packet the message now holds (`none` when the
message was not decoded). -/
def on_recv_message (proto : RssProtocol) (msg : RssCommonMessage) :
    RssProtocol × Except RssError (Option RssPacket) :=
  if msg.header.message_type = RTMP_MSG_SetChunkSize
      ∨ msg.header.message_type = RTMP_MSG_WindowAcknowledgementSize then
    match msg.decode_packet with
    | .error e => (proto, .error e)
    | .ok pkt =>
      if msg.header.message_type = RTMP_MSG_WindowAcknowledgementSize then
        match pkt with
        | .SetWindowAckSize _ => (proto, .ok (some pkt))
        | _ => (proto, .error .assert_failed)
      else
        match pkt with
        | .SetChunkSize chunk_size =>
          ({ proto with in_chunk_size := chunk_size }, .ok (some pkt))
        | _ => (proto, .error .assert_failed)
  else (proto, .ok none)

/-- Function `RssProtocol::recv_message`: read chunks until a message with
payload is complete, run `on_recv_message` on it and return it with its packet.
`fuel` bounds the number of chunks read. -/
def recv_message (char_signed : Bool) :
    Nat → RssProtocol →
      Option (RssProtocol × Except RssError (RssCommonMessage × Option RssPacket))
  | 0, _ => none
  | fuel + 1, proto =>
    match recv_interlaced_message char_signed proto with
    | (proto, .error e) => some (proto, .error e)
    | (proto, .ok none) => recv_message char_signed fuel proto
    | (proto, .ok (some msg)) =>
      if msg.size ≤ 0 ∨ msg.header.payload_length ≤ 0 then recv_message char_signed fuel proto
      else
        match on_recv_message proto msg with
        | (proto, .error e) => some (proto, .error e)
        | (proto, .ok pkt) => some (proto, .ok (msg, pkt))

/-- Function `RssPacket::encode` for a `RssSetChunkSizePacket`: `get_size()` is
4, `encode_packet` writes `chunk_size` with `write_4bytes`. Returns `psize`
and the payload array. -/
def RssSetChunkSizePacket.encode (chunk_size : Int) : Except RssError (Int × List Nat) :=
  let size : Int := 4
  match RssStream.initialize (List.replicate size.toNat 0) with
  | .error e => .error e
  | .ok stream =>
    if !stream.require 4 then .error .message_encode
    else
      match stream.write_4bytes chunk_size with
      | .error e => .error e
      | .ok stream => .ok (size, stream.bytes)

/-- Function `RssProtocol::on_send_message` for a message with the value
`can_decode` of `can_decode()`, the header `header` and the packet `packet`. -/
def on_send_message (proto : RssProtocol) (can_decode : Bool) (header : RssMessageHeader)
    (packet : Option RssPacket) : RssProtocol × Except RssError Unit :=
  if !can_decode then (proto, .ok ())
  else if header.message_type = RTMP_MSG_SetChunkSize then
    match packet with
    | some (.SetChunkSize chunk_size) => ({ proto with out_chunk_size := chunk_size }, .ok ())
    | _ => (proto, .error .assert_failed)
  else (proto, .ok ())

/-- Function `RssRtmp::set_chunk_size` with the call of
`RssProtocol::send_message` it makes: the message gets the packet with
`chunk_size` (`set_packet(pkt, 0)`), is encoded, sent with the current
`out_chunk_size` and handed to `on_send_message`. Returns the protocol state
and either the error or the (header, payload slice) pairs written. `none`
means the send loop did not finish within `fuel` iterations. -/
def set_chunk_size (fuel : Nat) (proto : RssProtocol) (chunk_size : Int) :
    Option (RssProtocol × Except RssError (List (List Nat × List Nat))) :=
  let header : RssMessageHeader :=
    { message_type := RTMP_MSG_SetChunkSize, payload_length := 4,
      timestamp_delta := RssMessageHeader.new.timestamp_delta, stream_id := 0,
      timestamp := RssMessageHeader.new.timestamp }
  match RssSetChunkSizePacket.encode chunk_size with
  | .error e => some (proto, .error e)
  | .ok (size, payload) =>
    let msg : IRssMessage :=
      { header := header, size := size, payload := some payload,
        perfer_cid := RTMP_CID_ProtocolControl }
    match send_message fuel proto.out_chunk_size msg with
    | none => none
    | some chunks =>
      match on_send_message proto true header (some (.SetChunkSize chunk_size)) with
      | (proto, .error e) => some (proto, .error e)
      | (proto, .ok _) => some (proto, .ok chunks)

/-- What happens to the chunk sizes of a connection: a message arrives and
passes `on_recv_message`, or `set_chunk_size` is called. -/
inductive ChunkSizeEvent where
  | recv (msg : RssCommonMessage)
  | send (chunk_size : Int)
  deriving DecidableEq, Repr

/-- The protocol state after a sequence of chunk-size events. A received
message leaves the state `on_recv_message` leaves (also when the hook fails);
a `set_chunk_size` call that does not succeed ends the run with `none`. -/
def chunk_size_run (fuel : Nat) : RssProtocol → List ChunkSizeEvent → Option RssProtocol
  | proto, [] => some proto
  | proto, .recv msg :: rest => chunk_size_run fuel (on_recv_message proto msg).1 rest
  | proto, .send chunk_size :: rest =>
    match set_chunk_size fuel proto chunk_size with
    | some (proto, .ok _) => chunk_size_run fuel proto rest
    | _ => none

/-- A received Set-Chunk-Size message whose payload starts with the bytes
`b3 b2 b1 b0`. -/
def set_chunk_size_message (b3 b2 b1 b0 : Nat) (tail : List Nat) : RssCommonMessage :=
  { header := { message_type := RTMP_MSG_SetChunkSize,
                payload_length := ((4 + tail.length : Nat) : Int),
                timestamp_delta := 0, stream_id := 0, timestamp := 0 },
    size := ((4 + tail.length : Nat) : Int), payload := some ([b3, b2, b1, b0] ++ tail) }

/-! ## Shared messages -/

def RTMP_MSG_AudioMessage : Int := 8
def RTMP_MSG_VideoMessage : Int := 9
def RTMP_CID_OverConnection2 : Int := 0x04
def RTMP_CID_Video : Int := 0x06
def RTMP_CID_Audio : Int := 0x07

/-- Struct `RssSharedPtrMessage::RssSharedPtr`, the shared cell: the payload
array (`none` is `NULL`), its size, the chunk id and the counter. The counter
is an `int`; it counts handles in memory and is modelled without wrap. -/
structure RssSharedPtr where
  payload : Option (List Nat)
  size : Int
  perfer_cid : Int
  shared_count : Int
  deriving DecidableEq, Repr

/-- The shared cells on the heap: the cell with address `a` is entry `a`
(`none` once it is deleted); `new RssSharedPtr()` appends an entry. -/
abbrev RssHeap := List (Option RssSharedPtr)

/-- Class `RssSharedPtrMessage`, a handle: the header, the pointer `ptr`
(`none` is `NULL`, otherwise the address of the cell) and `size`. The member
`payload` of the base class is the payload pointer of the cell. -/
structure RssSharedPtrMessage where
  header : RssMessageHeader
  ptr : Option Nat
  size : Int
  deriving DecidableEq, Repr

/-- Function `RssSharedPtrMessage::initialize(msg, payload, size)`, where
`header` is `msg->header`. -/
def RssSharedPtrMessage.initialize (heap : RssHeap) (self : RssSharedPtrMessage)
    (header : RssMessageHeader)
    (payload : Option (List Nat)) (size : Int) :
    Except RssError (RssHeap × RssSharedPtrMessage) :=
  if self.ptr.isSome then .error .assert_failed
  else
    .ok (heap ++ [some { payload := payload, size := size,
                         perfer_cid :=
                           if header.message_type = RTMP_MSG_VideoMessage then RTMP_CID_Video
                           else if header.message_type = RTMP_MSG_AudioMessage then
                             RTMP_CID_Audio
                           else RTMP_CID_OverConnection2,
                         shared_count := 0 }],
         { header := { header with payload_length := size }, ptr := some heap.length,
           size := size })

namespace RssSharedPtrMessage

/-- Constructor `RssSharedPtrMessage::RssSharedPtrMessage`. -/
def new : RssSharedPtrMessage := { header := RssMessageHeader.new, ptr := none, size := 0 }

/-- Function `RssSharedPtrMessage::copy`. A handle whose cell is deleted
dangles: using it is reported as `undefined_behavior`. -/
def copy (heap : RssHeap) (self : RssSharedPtrMessage) :
    Except RssError (RssHeap × RssSharedPtrMessage) :=
  match self.ptr with
  | none => .error .assert_failed
  | some a =>
    match heap.getD a none with
    | none => .error .undefined_behavior
    | some cell =>
      .ok (heap.set a (some { cell with shared_count := cell.shared_count + 1 }),
           { header := self.header, ptr := some a, size := cell.size })

/-- Destructor `RssSharedPtrMessage::~RssSharedPtrMessage`. -/
def destroy (heap : RssHeap) (self : RssSharedPtrMessage) : Except RssError RssHeap :=
  match self.ptr with
  | none => .ok heap
  | some a =>
    match heap.getD a none with
    | none => .error .undefined_behavior
    | some cell =>
      if cell.shared_count = 0 then .ok (heap.set a none)
      else .ok (heap.set a (some { cell with shared_count := cell.shared_count - 1 }))

end RssSharedPtrMessage

/-- An operation on the handles of one shared message: copy the handle at
position `i` of the list of live handles (the copy joins the list at its end)
or destroy it (it leaves the list). -/
inductive HandleOp where
  | copy (i : Nat)
  | destroy (i : Nat)
  deriving DecidableEq, Repr

/-- One handle operation on the heap and the list of live handles. An operation
that names no live handle changes nothing. -/
def handle_step (st : RssHeap × List RssSharedPtrMessage) :
    HandleOp → Except RssError (RssHeap × List RssSharedPtrMessage)
  | .copy i =>
    match st.2.get? i with
    | none => .ok st
    | some h =>
      match h.copy st.1 with
      | .error e => .error e
      | .ok (heap, c) => .ok (heap, st.2 ++ [c])
  | .destroy i =>
    match st.2.get? i with
    | none => .ok st
    | some h =>
      match h.destroy st.1 with
      | .error e => .error e
      | .ok heap => .ok (heap, st.2.eraseIdx i)

/-- A sequence of handle operations. -/
def handle_run (st : RssHeap × List RssSharedPtrMessage) :
    List HandleOp → Except RssError (RssHeap × List RssSharedPtrMessage)
  | [] => .ok st
  | op :: rest =>
    match handle_step st op with
    | .error e => .error e
    | .ok st => handle_run st rest

/-! ## Live source and consumers -/

/-- Class `RssConsumer`: the queue `msgs`. -/
structure RssConsumer where
  msgs : List RssSharedPtrMessage
  deriving DecidableEq, Repr

namespace RssConsumer

/-- Constructor `RssConsumer::RssConsumer`. -/
def new : RssConsumer := { msgs := [] }

/-- Function `RssConsumer::enqueue`. -/
def enqueue (self : RssConsumer) (msg : RssSharedPtrMessage) : RssConsumer :=
  { msgs := self.msgs ++ [msg] }

/-- Function `RssConsumer::get_packets(max_count, pmsgs, count)`: `pmsgs` and
`count` are reference parameters, given here with the values the caller has put
in them. Returns the consumer, `pmsgs` (the array as a list) and `count`. The
cast `(int)msgs.size()` wraps to 32 bits; a negative `count` makes the array
allocation and the `erase` leave defined C++. -/
def get_packets (self : RssConsumer) (max_count : Int) (pmsgs : List RssSharedPtrMessage)
    (count : Int) : Except RssError (RssConsumer × List RssSharedPtrMessage × Int) :=
  if self.msgs.isEmpty then .ok (self, pmsgs, count)
  else
    let count :=
      if max_count = 0 then toInt32 (self.msgs.length : Int)
      else rss_min max_count (toInt32 (self.msgs.length : Int))
    if count < 0 then .error .undefined_behavior
    else
      let pmsgs := self.msgs.take count.toNat
      if count = toInt32 (self.msgs.length : Int) then .ok ({ msgs := [] }, pmsgs, count)
      else .ok ({ msgs := self.msgs.drop count.toNat }, pmsgs, count)

end RssConsumer

/-- Class `RssOnMetaDataPacket`: the name and the properties of the object
`metadata`. -/
structure RssOnMetaDataPacket where
  name : List Nat
  metadata : List (List Nat × RssAmf0Any)

/-- Function `RssOnMetaDataPacket::get_size`. -/
def RssOnMetaDataPacket.get_size (self : RssOnMetaDataPacket) : Int :=
  rss_amf0_get_string_size self.name + rss_amf0_get_object_size self.metadata

/-- Function `RssPacket::encode` for a `RssOnMetaDataPacket`, whose
`encode_packet` writes the name as a string and the metadata as an object.
Returns `psize` and the payload array (`none` is `NULL`). -/
def RssOnMetaDataPacket.encode (self : RssOnMetaDataPacket) :
    Except RssError (Int × Option (List Nat)) :=
  let size := self.get_size
  let stream : RssStream := if size > 0 then RssStream.alloc size else { bytes := [], p := 0 }
  match rss_amf0_write_string stream self.name with
  | .error e => .error e
  | .ok stream =>
    match rss_amf0_write_object self.metadata stream with
    | .error e => .error e
    | .ok stream => .ok (size, if size > 0 then some stream.bytes else none)

/-- The string `"server"`. -/
def server_key : List Nat := [0x73, 0x65, 0x72, 0x76, 0x65, 0x72]

/-- The string `RTMP_SIG_RSS_NAME RTMP_SIG_RSS_VERSION`, `"rss(simple rtmp server)0.1"`. -/
def RTMP_SIG_RSS_NAME_VERSION : List Nat :=
  [0x72, 0x73, 0x73, 0x28, 0x73, 0x69, 0x6D, 0x70, 0x6C, 0x65, 0x20, 0x72, 0x74, 0x6D, 0x70,
   0x20, 0x73, 0x65, 0x72, 0x76, 0x65, 0x72, 0x29, 0x30, 0x2E, 0x31]

/-- Class `RssSource`: the consumers (the vector of pointers, as the list of
the consumers themselves) and the three cached messages (`none` is `NULL`). -/
structure RssSource where
  consumers : List RssConsumer
  cache_metadata : Option RssSharedPtrMessage
  cache_sh_video : Option RssSharedPtrMessage
  cache_sh_audio : Option RssSharedPtrMessage
  deriving DecidableEq, Repr

namespace RssSource

/-- Constructor `RssSource::RssSource`. -/
def new : RssSource :=
  { consumers := [], cache_metadata := none, cache_sh_video := none, cache_sh_audio := none }

/-- The loop `for (it = consumers.begin(); ...) consumer->enqueue(msg->copy())`. -/
def dispatch (msg : RssSharedPtrMessage) :
    RssHeap → List RssConsumer → Except RssError (RssHeap × List RssConsumer)
  | heap, [] => .ok (heap, [])
  | heap, consumer :: rest =>
    match msg.copy heap with
    | .error e => .error e
    | .ok (heap, c) =>
      match dispatch msg heap rest with
      | .error e => .error e
      | .ok (heap, rest) => .ok (heap, consumer.enqueue c :: rest)

/-- Function `RssSource::on_meta_data`: returns the heap, the source and the
packet (whose metadata has got the property `server`). -/
def on_meta_data (heap : RssHeap) (self : RssSource) (msg : RssCommonMessage)
    (metadata : RssOnMetaDataPacket) :
    Except RssError (RssHeap × RssSource × RssOnMetaDataPacket) :=
  let metadata : RssOnMetaDataPacket :=
    { metadata with
      metadata := RssUnSortedHashtable.set metadata.metadata server_key
        (.String RTMP_SIG_RSS_NAME_VERSION) }
  let size := metadata.get_size
  if size ≤ 0 then .ok (heap, self, metadata)
  else
    match metadata.encode with
    | .error e => .error e
    | .ok (size, payload) =>
      let freed : Except RssError RssHeap := match self.cache_metadata with
        | none => .ok heap
        | some old => old.destroy heap
      match freed with
      | .error e => .error e
      | .ok heap =>
        match RssSharedPtrMessage.initialize heap RssSharedPtrMessage.new msg.header payload size with
        | .error e => .error e
        | .ok (heap, cache) =>
          match dispatch cache heap self.consumers with
          | .error e => .error e
          | .ok (heap, consumers) =>
            .ok (heap, { self with consumers := consumers, cache_metadata := some cache },
                 metadata)

/-- Function `RssSource::on_audio`: returns the heap, the source and the
message `audio` as the call leaves it (detached from its payload). The local
handle `msg` is destroyed when the function returns. -/
def on_audio (heap : RssHeap) (self : RssSource) (audio : RssCommonMessage) :
    Except RssError (RssHeap × RssSource × RssCommonMessage) :=
  match RssSharedPtrMessage.initialize heap RssSharedPtrMessage.new audio.header audio.payload
      audio.size with
  | .error e => .error e
  | .ok (heap, msg) =>
    let audio := { audio with payload := none, size := 0 }
    match dispatch msg heap self.consumers with
    | .error e => .error e
    | .ok (heap, consumers) =>
      let cached : Except RssError (RssHeap × Option RssSharedPtrMessage) :=
        match self.cache_sh_audio with
        | some c => .ok (heap, some c)
        | none =>
          match msg.copy heap with
          | .error e => .error e
          | .ok (heap, c) => .ok (heap, some c)
      match cached with
      | .error e => .error e
      | .ok (heap, cache) =>
        match msg.destroy heap with
        | .error e => .error e
        | .ok heap =>
          .ok (heap, { self with consumers := consumers, cache_sh_audio := cache }, audio)

/-- Function `RssSource::on_video`. -/
def on_video (heap : RssHeap) (self : RssSource) (video : RssCommonMessage) :
    Except RssError (RssHeap × RssSource × RssCommonMessage) :=
  match RssSharedPtrMessage.initialize heap RssSharedPtrMessage.new video.header video.payload
      video.size with
  | .error e => .error e
  | .ok (heap, msg) =>
    let video := { video with payload := none, size := 0 }
    match dispatch msg heap self.consumers with
    | .error e => .error e
    | .ok (heap, consumers) =>
      let cached : Except RssError (RssHeap × Option RssSharedPtrMessage) :=
        match self.cache_sh_video with
        | some c => .ok (heap, some c)
        | none =>
          match msg.copy heap with
          | .error e => .error e
          | .ok (heap, c) => .ok (heap, some c)
      match cached with
      | .error e => .error e
      | .ok (heap, cache) =>
        match msg.destroy heap with
        | .error e => .error e
        | .ok heap =>
          .ok (heap, { self with consumers := consumers, cache_sh_video := cache }, video)

/-- One step `if (cache && (ret = consumer->enqueue(cache->copy())) != ...)` of
`create_consumer`. -/
def enqueue_cache (heap : RssHeap) (consumer : RssConsumer)
    (cache : Option RssSharedPtrMessage) : Except RssError (RssHeap × RssConsumer) :=
  match cache with
  | none => .ok (heap, consumer)
  | some c =>
    match c.copy heap with
    | .error e => .error e
    | .ok (heap, m) => .ok (heap, consumer.enqueue m)

/-- Function `RssSource::create_consumer`: the new consumer is the last entry of
`consumers`. -/
def create_consumer (heap : RssHeap) (self : RssSource) : Except RssError (RssHeap × RssSource) :=
  match enqueue_cache heap RssConsumer.new self.cache_metadata with
  | .error e => .error e
  | .ok (heap, consumer) =>
    match enqueue_cache heap consumer self.cache_sh_video with
    | .error e => .error e
    | .ok (heap, consumer) =>
      match enqueue_cache heap consumer self.cache_sh_audio with
      | .error e => .error e
      | .ok (heap, consumer) =>
        .ok (heap, { self with consumers := self.consumers ++ [consumer] })

end RssSource

/-- A publisher event on a source. -/
inductive PublishEvent where
  | meta_data (msg : RssCommonMessage) (metadata : RssOnMetaDataPacket)
  | audio (msg : RssCommonMessage)
  | video (msg : RssCommonMessage)

/-- The source and the heap after one publisher event. -/
def on_event (st : RssHeap × RssSource) : PublishEvent → Except RssError (RssHeap × RssSource)
  | .meta_data msg metadata =>
    match st.2.on_meta_data st.1 msg metadata with
    | .error e => .error e
    | .ok (heap, src, _) => .ok (heap, src)
  | .audio msg =>
    match st.2.on_audio st.1 msg with
    | .error e => .error e
    | .ok (heap, src, _) => .ok (heap, src)
  | .video msg =>
    match st.2.on_video st.1 msg with
    | .error e => .error e
    | .ok (heap, src, _) => .ok (heap, src)

/-- The source and the heap after a sequence of publisher events. -/
def on_events (st : RssHeap × RssSource) :
    List PublishEvent → Except RssError (RssHeap × RssSource)
  | [] => .ok st
  | ev :: rest =>
    match on_event st ev with
    | .error e => .error e
    | .ok st => on_events st rest

/-! ## Live source: the fan-out in the words of the specification -/

/-- The metadata packet after `on_meta_data` has set its property `server`. -/
def metadata_with_server (metadata : RssOnMetaDataPacket) : RssOnMetaDataPacket :=
  { metadata with
    metadata := RssUnSortedHashtable.set metadata.metadata server_key
      (.String RTMP_SIG_RSS_NAME_VERSION) }

/-- The header of the message of a publisher event. -/
def event_header : PublishEvent → RssMessageHeader
  | .meta_data msg _ => msg.header
  | .audio msg => msg.header
  | .video msg => msg.header

/-- The size of the shared payload of a publisher event: the size of the
message for audio and video, the encoded size of the packet for metadata. -/
def event_size : PublishEvent → Int
  | .meta_data _ metadata => (metadata_with_server metadata).get_size
  | .audio msg => msg.size
  | .video msg => msg.size

/-- The shared payload of a publisher event: the payload of the message for
audio and video; for metadata the bytes of the packet (name, then the object
with the property `server`), not the payload of the message. -/
def event_payload : PublishEvent → Option (List Nat)
  | .meta_data _ metadata =>
    some (amf0_bytes (.String (metadata_with_server metadata).name)
      ++ amf0_bytes (.Object (metadata_with_server metadata).metadata))
  | .audio msg => msg.payload
  | .video msg => msg.payload

/-- The handle every consumer gets for a publisher event whose shared cell has
the address `a`. -/
def event_handle (a : Nat) (ev : PublishEvent) : RssSharedPtrMessage :=
  { header := { event_header ev with payload_length := event_size ev }, ptr := some a,
    size := event_size ev }

/-- The handles for a sequence of publisher events whose cells get the
addresses `a`, `a + 1`, ... -/
def event_handles : Nat → List PublishEvent → List RssSharedPtrMessage
  | _, [] => []
  | a, ev :: rest => event_handle a ev :: event_handles (a + 1) rest

/-- A handle is live on a heap: its cell exists and has the size the handle
records. -/
def handle_live (heap : RssHeap) (h : RssSharedPtrMessage) : Bool :=
  match h.ptr with
  | none => false
  | some a =>
    match heap.getD a none with
    | none => false
    | some cell => decide (cell.size = h.size)

/-- A cached message is absent or live. -/
def cache_live (heap : RssHeap) (cache : Option RssSharedPtrMessage) : Bool :=
  match cache with
  | none => true
  | some h => handle_live heap h

/-- The source after a publisher event whose shared cell has the address `a`,
the heap left aside: every consumer has the handle of the event at the end of
its queue, a metadata event replaces the cached metadata, an audio (video)
event fills an empty audio (video) cache. -/
def source_after (a : Nat) (src : RssSource) (ev : PublishEvent) : RssSource :=
  { consumers := src.consumers.map (fun (c : RssConsumer) => c.enqueue (event_handle a ev)),
    cache_metadata :=
      match ev with
      | .meta_data _ _ => some (event_handle a ev)
      | _ => src.cache_metadata,
    cache_sh_video :=
      match ev, src.cache_sh_video with
      | .video _, none => some (event_handle a ev)
      | _, c => c,
    cache_sh_audio :=
      match ev, src.cache_sh_audio with
      | .audio _, none => some (event_handle a ev)
      | _, c => c }

/-- The source after a sequence of publisher events whose cells get the
addresses `a`, `a + 1`, ... -/
def sources_after : Nat → RssSource → List PublishEvent → RssSource
  | _, src, [] => src
  | a, src, ev :: rest => sources_after (a + 1) (source_after a src ev) rest

/-- The cell at the address `a` holds `payload` and `size`, and it outlives the
release of the cached metadata by the next metadata event: if the cached
metadata is a handle of this cell then another handle of the cell exists. -/
def cell_kept (heap : RssHeap) (src : RssSource) (a : Nat) (payload : Option (List Nat))
    (size : Int) : Prop :=
  ∃ cell, heap.getD a none = some cell ∧ cell.payload = payload ∧ cell.size = size
    ∧ ∀ m, src.cache_metadata = some m → m.ptr = some a → 1 ≤ cell.shared_count

/-- An audio event. -/
def PublishEvent.is_audio : PublishEvent → Bool
  | .audio _ => true
  | _ => false

/-- A video event. -/
def PublishEvent.is_video : PublishEvent → Bool
  | .video _ => true
  | _ => false

/-- A cached message is absent or a handle of a kept cell of its size. -/
def cache_kept (heap : RssHeap) (src : RssSource) (cache : Option RssSharedPtrMessage) : Prop :=
  ∀ h, cache = some h → ∃ a P, h.ptr = some a ∧ cell_kept heap src a P h.size

/-- The heap after a copy of a cached message has been made: the counter of
its cell is one more; an absent cache leaves the heap as it is. -/
def retain (heap : RssHeap) (cache : Option RssSharedPtrMessage) : RssHeap :=
  match cache with
  | none => heap
  | some h =>
    match h.ptr with
    | none => heap
    | some a =>
      match heap.getD a none with
      | none => heap
      | some cell => heap.set a (some { cell with shared_count := cell.shared_count + 1 })

/-- The cached messages in the order in which `create_consumer` hands them to
the new consumer: metadata, video sequence header, audio sequence header. -/
def cached_messages (src : RssSource) : List RssSharedPtrMessage :=
  src.cache_metadata.toList ++ src.cache_sh_video.toList ++ src.cache_sh_audio.toList

/-! ## Live source: example data -/

/-- The string `"onMetaData"`. -/
def onMetaData : List Nat := [0x6F, 0x6E, 0x4D, 0x65, 0x74, 0x61, 0x44, 0x61, 0x74, 0x61]

/-- The packet `onMetaData` with the one property `width = 0.0`. -/
def example_metadata_packet : RssOnMetaDataPacket :=
  { name := onMetaData, metadata := [([0x77, 0x69, 0x64, 0x74, 0x68], .Number 0)] }

/-- The AMF0 data message (type 18) that carries `example_metadata_packet`: its
payload is the encoding of the name and of the object. -/
def example_metadata_message : RssCommonMessage :=
  { header := { message_type := 18, payload_length := 33, timestamp_delta := 0,
                stream_id := 1, timestamp := 0 },
    size := 33,
    payload := some [0x02, 0x00, 0x0A, 0x6F, 0x6E, 0x4D, 0x65, 0x74, 0x61, 0x44, 0x61, 0x74, 0x61,
                     0x03, 0x00, 0x05, 0x77, 0x69, 0x64, 0x74, 0x68,
                     0x00, 0, 0, 0, 0, 0, 0, 0, 0, 0x00, 0x00, 0x09] }

/-- An audio message (type 8) with the payload `payload` at `timestamp`. -/
def example_audio (timestamp : Int) (payload : List Nat) : RssCommonMessage :=
  { header := { message_type := 8, payload_length := (payload.length : Int),
                timestamp_delta := 0, stream_id := 1, timestamp := timestamp },
    size := (payload.length : Int), payload := some payload }

/-- A video message (type 9) with the payload `payload` at `timestamp`. -/
def example_video (timestamp : Int) (payload : List Nat) : RssCommonMessage :=
  { header := { message_type := 9, payload_length := (payload.length : Int),
                timestamp_delta := 0, stream_id := 1, timestamp := timestamp },
    size := (payload.length : Int), payload := some payload }

/-- The start of a publisher session: metadata, the audio sequence header, the
video sequence header. -/
def example_headers : List PublishEvent :=
  [.meta_data example_metadata_message example_metadata_packet,
   .audio (example_audio 0 [0xAF, 0x00, 0x12, 0x10]),
   .video (example_video 0 [0x17, 0x00, 0x00, 0x00, 0x00])]

/-- The frames of a publisher session: 100 audio frames and 100 video frames. -/
def example_frames : List PublishEvent :=
  (List.range 100).map (fun i => .audio (example_audio (23 * (i : Int)) [0xAF, 0x01, i]))
  ++ (List.range 100).map (fun i => .video (example_video (40 * (i : Int)) [0x27, 0x01, i]))

/-- A publisher session: metadata, the audio and the video sequence header, 100
audio frames and 100 video frames. -/
def example_session : List PublishEvent := example_headers ++ example_frames

/-- The heap after `example_headers` on a source without consumers: the three
cells, each held by its cache alone. -/
def example_heap_cached : RssHeap :=
  [some { payload := event_payload (.meta_data example_metadata_message example_metadata_packet),
          size := 70, perfer_cid := RTMP_CID_OverConnection2, shared_count := 0 },
   some { payload := some [0xAF, 0x00, 0x12, 0x10], size := 4, perfer_cid := RTMP_CID_Audio,
          shared_count := 0 },
   some { payload := some [0x17, 0x00, 0x00, 0x00, 0x00], size := 5, perfer_cid := RTMP_CID_Video,
          shared_count := 0 }]

/-- The source after `example_headers` on a source without consumers. -/
def example_source_cached : RssSource := sources_after 0 RssSource.new example_headers

/-- A source without cached messages and with one consumer whose queue is
empty. -/
def example_source : RssSource :=
  { consumers := [RssConsumer.new], cache_metadata := none, cache_sh_video := none,
    cache_sh_audio := none }

/-! ## Byte stream: example data -/

/-- A stream over a buffer of 8 zero bytes, the cursor at its start. -/
def example_stream8 : RssStream := { bytes := List.replicate 8 0, p := 0 }

/-! ## Connect packet -/

/-- The string `"connect"`. -/
def RTMP_AMF0_COMMAND_CONNECT : List Nat := [0x63, 0x6F, 0x6E, 0x6E, 0x65, 0x63, 0x74]

/-- The bit pattern of the `double` 1.0. A `double` differs from 1.0 exactly
when its bit pattern differs from this one. -/
def double_one : Int := 0x3FF0000000000000

/-- Function `rss_amf0_read_null`. -/
def rss_amf0_read_null (stream : RssStream) : Except RssError RssStream :=
  if !stream.require 1 then .error .amf0_decode
  else
    match stream.read_1bytes with
    | .error e => .error e
    | .ok (marker, stream) =>
      if marker ≠ RTMP_AMF0_Null then .error .amf0_decode else .ok stream

/-- Function `RssUnSortedHashtable::get_property` (`none` is `NULL`). -/
def RssUnSortedHashtable.get_property {α : Type} :
    List (List Nat × α) → List Nat → Option α
  | [], _ => none
  | (key, any) :: rest, name =>
    if key = name then some any else RssUnSortedHashtable.get_property rest name

/-- Function `RssAmf0Any::is_string`. -/
def RssAmf0Any.is_string : RssAmf0Any → Bool
  | .String _ => true
  | _ => false

/-- Function `RssUnSortedHashtable::ensure_property_string`. -/
def RssUnSortedHashtable.ensure_property_string (properties : List (List Nat × RssAmf0Any))
    (name : List Nat) : Option RssAmf0Any :=
  match RssUnSortedHashtable.get_property properties name with
  | none => none
  | some prop => if !prop.is_string then none else some prop

/-- Class `RssConnectAppPacket`: the data members after a successful `decode`
(`transaction_id` as the bit pattern of the `double`, `command_object` as the
property vector of the object). -/
structure RssConnectAppPacket where
  command_name : List Nat
  transaction_id : Int
  command_object : List (List Nat × RssAmf0Any)

/-- Function `RssConnectAppPacket::decode`. `fuel` bounds the depth and the
number of properties of the command object. -/
def RssConnectAppPacket.decode (fuel : Nat) (stream : RssStream) :
    Except RssError RssConnectAppPacket :=
  match rss_amf0_read_string stream with
  | .error e => .error e
  | .ok (command_name, stream) =>
    if command_name.isEmpty ∨ command_name ≠ RTMP_AMF0_COMMAND_CONNECT then .error .amf0_decode
    else
      match rss_amf0_read_number stream with
      | .error e => .error e
      | .ok (transaction_id, stream) =>
        if transaction_id ≠ double_one then .error .amf0_decode
        else
          match rss_amf0_read_object fuel stream with
          | .error e => .error e
          | .ok (command_object, _) =>
            .ok { command_name := command_name, transaction_id := transaction_id,
                  command_object := command_object }

/-- The string `"tcUrl"`. -/
def tcUrl_key : List Nat := [0x74, 0x63, 0x55, 0x72, 0x6C]

/-- The string `"rtmp://host:1935/live"` (21 bytes). -/
def example_tcUrl : List Nat :=
  [0x72, 0x74, 0x6D, 0x70, 0x3A, 0x2F, 0x2F, 0x68, 0x6F, 0x73, 0x74, 0x3A, 0x31, 0x39, 0x33,
   0x35, 0x2F, 0x6C, 0x69, 0x76, 0x65]

/-- The connect payload with the length `len` in the low byte of the length
field of the `tcUrl` string. -/
def example_connect_bytes (len : Nat) : List Nat :=
  [0x02, 0x00, 0x07, 0x63, 0x6F, 0x6E, 0x6E, 0x65, 0x63, 0x74,
   0x00, 0x3F, 0xF0, 0x00, 0x00, 0x00, 0x00, 0x00, 0x00,
   0x03, 0x00, 0x05, 0x74, 0x63, 0x55, 0x72, 0x6C, 0x02, 0x00, len]
  ++ example_tcUrl ++ [0x00, 0x00, 0x09]

/-! ## Request: the parts of `tcUrl` -/

/-- Call `std::string::find(pat)`: the least index at which `pat` occurs in
the string (`none` is `npos`). -/
def string_find : List Nat → List Nat → Option Nat
  | [], pat => if pat.isEmpty then some 0 else none
  | c :: cs, pat =>
    if pat.isPrefixOf (c :: cs) then some 0 else (string_find cs pat).map (fun i => i + 1)

def RTMP_SIG_AMF0_VER : Int := 0

/-- Class `RssRequest`; `objectEncoding` holds the bit pattern of the
`double`. -/
structure RssRequest where
  tcUrl : List Nat
  pageUrl : List Nat
  swfUrl : List Nat
  objectEncoding : Int
  schema : List Nat
  vhost : List Nat
  port : List Nat
  app : List Nat
  stream : List Nat
  deriving DecidableEq, Repr

/-- Constructor `RssRequest::RssRequest` (the bit pattern of the `double` 0.0 is
0). -/
def RssRequest.new : RssRequest :=
  { tcUrl := [], pageUrl := [], swfUrl := [], objectEncoding := RTMP_SIG_AMF0_VER,
    schema := [], vhost := [], port := [], app := [], stream := [] }

/-- The string `"://"`. -/
def schema_separator : List Nat := [0x3A, 0x2F, 0x2F]

/-- The string `"1935"`. -/
def port_1935 : List Nat := [0x31, 0x39, 0x33, 0x35]

/-- Function `RssRequest::discovery_app`: the request after the call and the
result. -/
def RssRequest.discovery_app (self : RssRequest) : RssRequest × Except RssError Unit :=
  let url := self.tcUrl
  let pos := string_find url schema_separator
  let schema : List Nat :=
    match pos with
    | some pos => url.take pos
    | none => self.schema
  let url : List Nat :=
    match pos with
    | some _ => url.drop (schema.length + 3)
    | none => url
  let pos := string_find url [0x2F]
  let vhost : List Nat :=
    match pos with
    | some pos => url.take pos
    | none => self.vhost
  let url : List Nat :=
    match pos with
    | some _ => url.drop (vhost.length + 1)
    | none => url
  let pos := string_find vhost [0x3A]
  let port : List Nat :=
    match pos with
    | some pos => vhost.drop (pos + 1)
    | none => port_1935
  let vhost : List Nat :=
    match pos with
    | some pos => vhost.take pos
    | none => vhost
  let app := url
  let self := { self with schema := schema, vhost := vhost, port := port, app := app }
  if schema.isEmpty ∨ vhost.isEmpty ∨ port.isEmpty ∨ app.isEmpty then
    (self, .error .req_tcurl)
  else (self, .ok ())

/-- The part `[:port]` of the `tcUrl` the specification describes. -/
def port_part : Option (List Nat) → List Nat
  | some p => 0x3A :: p
  | none => []

/-- The `tcUrl` the specification describes: `schema://vhost[:port]/app`. -/
def make_tcUrl (schema vhost : List Nat) (port : Option (List Nat)) (app : List Nat) :
    List Nat :=
  schema ++ schema_separator ++ vhost ++ port_part port ++ [0x2F] ++ app

/-! ## Socket reads and the receive buffer -/

def SOCKET_READ_SIZE : Int := 4096

/-- The outcome of one `st_read` call: the return value `nread`, whether
`errno` is `ETIME` after the call, and the bytes the call has stored in the
caller's array (its first `nread` bytes, when `nread > 0`). -/
structure StRead where
  nread : Int
  etime : Bool
  bytes : List Nat
  deriving DecidableEq, Repr

/-- Function `RssSocket::read(buf, size, nread)` over the outcome of its
`st_read` call: the bytes put into `buf`. An outcome with more bytes than
`size`, or whose bytes are not `nread` many, is outside the contract of
`st_read`. -/
def RssSocket.read (size : Int) (r : StRead) : Except RssError (List Nat) :=
  if r.nread ≤ 0 then
    if r.etime then .error .socket_timeout else .error .socket_read
  else if r.nread > size ∨ (r.bytes.length : Int) ≠ r.nread then .error .undefined_behavior
  else .ok r.bytes

/-- The `while (size() < required_size)` loop of `ensure_buffer_bytes` on the
buffer `data`, over the outcomes of the `st_read` calls the socket makes, in
order. `size()` is `(int)data.size()`. After a successful read `nread` is
positive, so the assertion of the loop body holds. Returns the buffer, the
result and the outcomes not used; `none`: the outcomes ran out while the loop
was still reading, the call has not returned. -/
def RssBuffer.ensure_loop (required_size : Int) :
    List StRead → List Nat → Option (List Nat × Except RssError Unit × List StRead)
  | [], data =>
    if toInt32 (data.length : Int) < required_size then none else some (data, .ok (), [])
  | r :: reads, data =>
    if toInt32 (data.length : Int) < required_size then
      match RssSocket.read SOCKET_READ_SIZE r with
      | .error e => some (data, .error e, reads)
      | .ok bytes => RssBuffer.ensure_loop required_size reads (data ++ bytes)
    else some (data, .ok (), r :: reads)

/-- Function `RssBuffer::ensure_buffer_bytes(skt, required_size)`. -/
def RssBuffer.ensure_buffer_bytes (data : List Nat) (reads : List StRead)
    (required_size : Int) : Option (List Nat × Except RssError Unit × List StRead) :=
  if ¬ required_size ≥ 0 then some (data, .error .assert_failed, reads)
  else RssBuffer.ensure_loop required_size reads data

/-- Three socket reads: 3 bytes, 1 byte, 2 bytes. -/
def example_reads : List StRead :=
  [{ nread := 3, etime := false, bytes := [1, 2, 3] },
   { nread := 1, etime := false, bytes := [4] },
   { nread := 2, etime := false, bytes := [5, 6] }]

/-! ## Handshake -/

/-- The socket of a connection, for calls that read and write whole blocks:
the bytes the peer sends before it closes or the timeout ends the wait, whether
such a wait or a failed write ends with `errno = ETIME`, the bytes written so
far, and whether `st_write` succeeds. -/
structure RssSocket where
  input : List Nat
  etime : Bool
  output : List Nat
  writable : Bool
  deriving DecidableEq, Repr

/-- Function `RssSocket::read_fully(buf, size, nread)`: the socket after the
call and the bytes read. -/
def RssSocket.read_fully (skt : RssSocket) (size : Nat) :
    RssSocket × Except RssError (List Nat) :=
  if size ≤ skt.input.length then
    ({ skt with input := skt.input.drop size }, .ok (skt.input.take size))
  else
    ({ skt with input := [] },
     .error (if skt.etime then .socket_timeout else .socket_read_fully))

/-- Function `RssSocket::write(buf, size, nwrite)` for a block that is not
empty. -/
def RssSocket.write (skt : RssSocket) (bytes : List Nat) : RssSocket × Except RssError Unit :=
  if skt.writable then ({ skt with output := skt.output ++ bytes }, .ok ())
  else (skt, .error (if skt.etime then .socket_timeout else .socket_write))

/-- Function `RssRtmp::handshake`. The array `new char[3073]` is not
initialized: `s0s1s2` is its content as allocated; the function sets its first
byte. -/
def RssRtmp.handshake (skt : RssSocket) (s0s1s2 : List Nat) : RssSocket × Except RssError Unit :=
  match skt.read_fully 1537 with
  | (skt, .error e) => (skt, .error e)
  | (skt, .ok c0c1) =>
    if c0c1.getD 0 0 ≠ 0x03 then (skt, .error .plain_required)
    else
      match skt.write (s0s1s2.set 0 0x03) with
      | (skt, .error e) => (skt, .error e)
      | (skt, .ok _) =>
        match skt.read_fully 1536 with
        | (skt, .error e) => (skt, .error e)
        | (skt, .ok _) => (skt, .ok ())

/-- A C0C1 block: C0 = `03`, then 1536 zero bytes. -/
def example_c0c1 : List Nat := 3 :: List.replicate 1536 0

/-- A C2 block of 1536 zero bytes. -/
def example_c2 : List Nat := List.replicate 1536 0

/-- A socket on which C0C1 and C2 arrive and which takes every write. -/
def example_handshake_socket : RssSocket :=
  { input := example_c0c1 ++ example_c2, etime := false, output := [], writable := true }

/-- An S0S1S2 array as allocated: 3073 bytes `AA`. -/
def example_s0s1s2 : List Nat := List.replicate 3073 0xAA

/-! ## Server: connections and the report interval -/

def RSS_CONST_REPORT_INTERVAL_MS : Int := 3000

/-- Class `RssServer`: the connections (the pointers, as numbers) and the report
interval. -/
structure RssServer where
  conns : List Nat
  rss_report_interval_ms : Int
  deriving DecidableEq, Repr

namespace RssServer

/-- Constructor `RssServer::RssServer`. -/
def new : RssServer := { conns := [], rss_report_interval_ms := RSS_CONST_REPORT_INTERVAL_MS }

/-- Function `RssServer::remove`: `std::find` and `erase` take the first entry
equal to `conn`. -/
def remove (self : RssServer) (conn : Nat) : RssServer :=
  { self with conns := self.conns.erase conn }

/-- Function `RssServer::can_report(reported, time)`: the result and
`reported` after the call. -/
def can_report (self : RssServer) (reported time : Int) : Bool × Int :=
  if self.rss_report_interval_ms ≤ 0 then (false, reported)
  else if time - reported < self.rss_report_interval_ms then (false, reported)
  else (true, time)

/-- Function `RssServer::accept_client` up to the start of the connection
thread. The product stays in the range of `int` for fewer than 715828
connections. -/
def accept_client (self : RssServer) (conn : Nat) : RssServer :=
  { conns := self.conns ++ [conn],
    rss_report_interval_ms :=
      RSS_CONST_REPORT_INTERVAL_MS * (((self.conns ++ [conn]).length : Nat) : Int) }

end RssServer

/-- A connection is accepted, or a connection ends and is removed. -/
inductive ServerEvent where
  | accept (conn : Nat)
  | remove (conn : Nat)
  deriving DecidableEq, Repr

/-- The server after a sequence of accepted and removed connections. -/
def server_run : RssServer → List ServerEvent → RssServer
  | srv, [] => srv
  | srv, .accept conn :: rest => server_run (srv.accept_client conn) rest
  | srv, .remove conn :: rest => server_run (srv.remove conn) rest

/-! ## Commands and status messages -/

/-- The string `"createStream"`. -/
def RTMP_AMF0_COMMAND_CREATE_STREAM : List Nat :=
  [0x63, 0x72, 0x65, 0x61, 0x74, 0x65, 0x53, 0x74, 0x72, 0x65, 0x61, 0x6D]

/-- The string `"play"`. -/
def RTMP_AMF0_COMMAND_PLAY : List Nat :=
  [0x70, 0x6C, 0x61, 0x79]

/-- The string `"onStatus"`. -/
def RTMP_AMF0_COMMAND_ON_STATUS : List Nat :=
  [0x6F, 0x6E, 0x53, 0x74, 0x61, 0x74, 0x75, 0x73]

/-- The string `"_result"`. -/
def RTMP_AMF0_COMMAND_RESULT : List Nat :=
  [0x5F, 0x72, 0x65, 0x73, 0x75, 0x6C, 0x74]

/-- The string `"releaseStream"`. -/
def RTMP_AMF0_COMMAND_RELEASE_STREAM : List Nat :=
  [0x72, 0x65, 0x6C, 0x65, 0x61, 0x73, 0x65, 0x53, 0x74, 0x72, 0x65, 0x61, 0x6D]

/-- The string `"FCPublish"`. -/
def RTMP_AMF0_COMMAND_FC_PUBLISH : List Nat :=
  [0x46, 0x43, 0x50, 0x75, 0x62, 0x6C, 0x69, 0x73, 0x68]

/-- The string `"FCUnpublish"`. -/
def RTMP_AMF0_COMMAND_UNPUBLISH : List Nat :=
  [0x46, 0x43, 0x55, 0x6E, 0x70, 0x75, 0x62, 0x6C, 0x69, 0x73, 0x68]

/-- The string `"publish"`. -/
def RTMP_AMF0_COMMAND_PUBLISH : List Nat :=
  [0x70, 0x75, 0x62, 0x6C, 0x69, 0x73, 0x68]

/-- The string `"@setDataFrame"`. -/
def RTMP_AMF0_DATA_SET_DATAFRAME : List Nat :=
  [0x40, 0x73, 0x65, 0x74, 0x44, 0x61, 0x74, 0x61, 0x46, 0x72, 0x61, 0x6D, 0x65]

/-- The string `"onFCUnpublish"`. -/
def RTMP_AMF0_COMMAND_ON_FC_UNPUBLISH : List Nat :=
  [0x6F, 0x6E, 0x46, 0x43, 0x55, 0x6E, 0x70, 0x75, 0x62, 0x6C, 0x69, 0x73, 0x68]

/-- The string `"level"`. -/
def StatusLevel : List Nat :=
  [0x6C, 0x65, 0x76, 0x65, 0x6C]

/-- The string `"code"`. -/
def StatusCode : List Nat :=
  [0x63, 0x6F, 0x64, 0x65]

/-- The string `"description"`. -/
def StatusDescription : List Nat :=
  [0x64, 0x65, 0x73, 0x63, 0x72, 0x69, 0x70, 0x74, 0x69, 0x6F, 0x6E]

/-- The string `"clientid"`. -/
def StatusClientId : List Nat :=
  [0x63, 0x6C, 0x69, 0x65, 0x6E, 0x74, 0x69, 0x64]

/-- The string `"status"`. -/
def StatusLevelStatus : List Nat :=
  [0x73, 0x74, 0x61, 0x74, 0x75, 0x73]

/-- The string `"NetStream.Unpublish.Success"`. -/
def StatusCodeUnpublishSuccess : List Nat :=
  [0x4E, 0x65, 0x74, 0x53, 0x74, 0x72, 0x65, 0x61, 0x6D, 0x2E, 0x55, 0x6E, 0x70, 0x75, 0x62,
   0x6C, 0x69, 0x73, 0x68, 0x2E, 0x53, 0x75, 0x63, 0x63, 0x65, 0x73, 0x73]

/-- The string `"ASAICiss"`. -/
def RTMP_SIG_CLIENT_ID : List Nat :=
  [0x41, 0x53, 0x41, 0x49, 0x43, 0x69, 0x73, 0x73]

/-- The string `"Stop publishing stream."`. -/
def description_stop_publishing : List Nat :=
  [0x53, 0x74, 0x6F, 0x70, 0x20, 0x70, 0x75, 0x62, 0x6C, 0x69, 0x73, 0x68, 0x69, 0x6E, 0x67,
   0x20, 0x73, 0x74, 0x72, 0x65, 0x61, 0x6D, 0x2E]

/-- The string `"Stream is now unpublished"`. -/
def description_now_unpublished : List Nat :=
  [0x53, 0x74, 0x72, 0x65, 0x61, 0x6D, 0x20, 0x69, 0x73, 0x20, 0x6E, 0x6F, 0x77, 0x20, 0x75,
   0x6E, 0x70, 0x75, 0x62, 0x6C, 0x69, 0x73, 0x68, 0x65, 0x64]

/-- The string `"live"`. -/
def string_live : List Nat :=
  [0x6C, 0x69, 0x76, 0x65]

def RTMP_MSG_AMF3CommandMessage : Int := 17
def RTMP_MSG_AMF0CommandMessage : Int := 20
def RTMP_MSG_AMF0DataMessage : Int := 18
def RTMP_MSG_AMF3DataMessage : Int := 15
def RTMP_CID_OverConnection : Int := 0x03
def RTMP_CID_OverStream : Int := 0x05

/-- Function `RssStream::reset`. -/
def RssStream.reset (s : RssStream) : RssStream := { s with p := 0 }

/-- Class `RssCreateStreamPacket` after a successful `decode`. -/
structure RssCreateStreamPacket where
  command_name : List Nat
  transaction_id : Int
  deriving DecidableEq, Repr

/-- Function `RssCreateStreamPacket::decode`. -/
def RssCreateStreamPacket.decode (stream : RssStream) : Except RssError RssCreateStreamPacket :=
  match rss_amf0_read_string stream with
  | .error e => .error e
  | .ok (command_name, stream) =>
    if command_name.isEmpty ∨ command_name ≠ RTMP_AMF0_COMMAND_CREATE_STREAM then
      .error .amf0_decode
    else
      match rss_amf0_read_number stream with
      | .error e => .error e
      | .ok (transaction_id, stream) =>
        match rss_amf0_read_null stream with
        | .error e => .error e
        | .ok _ => .ok { command_name := command_name, transaction_id := transaction_id }

/-- Class `RssFMLEStartPacket` after a successful `decode`. -/
structure RssFMLEStartPacket where
  command_name : List Nat
  transaction_id : Int
  stream_name : List Nat
  deriving DecidableEq, Repr

/-- Function `RssFMLEStartPacket::decode`. -/
def RssFMLEStartPacket.decode (stream : RssStream) : Except RssError RssFMLEStartPacket :=
  match rss_amf0_read_string stream with
  | .error e => .error e
  | .ok (command_name, stream) =>
    if command_name.isEmpty
        ∨ (command_name ≠ RTMP_AMF0_COMMAND_RELEASE_STREAM
          ∧ command_name ≠ RTMP_AMF0_COMMAND_FC_PUBLISH
          ∧ command_name ≠ RTMP_AMF0_COMMAND_UNPUBLISH) then
      .error .amf0_decode
    else
      match rss_amf0_read_number stream with
      | .error e => .error e
      | .ok (transaction_id, stream) =>
        match rss_amf0_read_null stream with
        | .error e => .error e
        | .ok stream =>
          match rss_amf0_read_string stream with
          | .error e => .error e
          | .ok (stream_name, _) =>
            .ok { command_name := command_name, transaction_id := transaction_id,
                  stream_name := stream_name }

/-- Class `RssPublishPacket` after a successful `decode`. -/
structure RssPublishPacket where
  command_name : List Nat
  transaction_id : Int
  stream_name : List Nat
  type : List Nat
  deriving DecidableEq, Repr

/-- Function `RssPublishPacket::decode`. -/
def RssPublishPacket.decode (stream : RssStream) : Except RssError RssPublishPacket :=
  match rss_amf0_read_string stream with
  | .error e => .error e
  | .ok (command_name, stream) =>
    if command_name.isEmpty ∨ command_name ≠ RTMP_AMF0_COMMAND_PUBLISH then .error .amf0_decode
    else
      match rss_amf0_read_number stream with
      | .error e => .error e
      | .ok (transaction_id, stream) =>
        match rss_amf0_read_null stream with
        | .error e => .error e
        | .ok stream =>
          match rss_amf0_read_string stream with
          | .error e => .error e
          | .ok (stream_name, stream) =>
            match rss_amf0_read_string stream with
            | .error e => .error e
            | .ok (type, _) =>
              .ok { command_name := command_name, transaction_id := transaction_id,
                    stream_name := stream_name, type := type }

/-- Class `RssPlayPacket` after a successful `decode`; `start` and `duration`
hold the bit patterns of the `double`s. -/
structure RssPlayPacket where
  command_name : List Nat
  transaction_id : Int
  stream_name : List Nat
  start : Int
  duration : Int
  reset : Bool
  deriving DecidableEq, Repr

/-- The bit pattern of the `double` -2.0. -/
def double_minus_two : Int := -4611686018427387904

/-- The bit pattern of the `double` -1.0. -/
def double_minus_one : Int := -4616189618054758400

/-- Function `RssPlayPacket::decode`. -/
def RssPlayPacket.decode (stream : RssStream) : Except RssError RssPlayPacket :=
  match rss_amf0_read_string stream with
  | .error e => .error e
  | .ok (command_name, stream) =>
    if command_name.isEmpty ∨ command_name ≠ RTMP_AMF0_COMMAND_PLAY then .error .amf0_decode
    else
      match rss_amf0_read_number stream with
      | .error e => .error e
      | .ok (transaction_id, stream) =>
        match rss_amf0_read_null stream with
        | .error e => .error e
        | .ok stream =>
          match rss_amf0_read_string stream with
          | .error e => .error e
          | .ok (stream_name, stream) =>
            let r1 : Except RssError (Int × RssStream) :=
              if !stream.empty then rss_amf0_read_number stream
              else .ok (double_minus_two, stream)
            match r1 with
            | .error e => .error e
            | .ok (start, stream) =>
              let r2 : Except RssError (Int × RssStream) :=
                if !stream.empty then rss_amf0_read_number stream
                else .ok (double_minus_one, stream)
              match r2 with
              | .error e => .error e
              | .ok (duration, stream) =>
                let r3 : Except RssError (Bool × RssStream) :=
                  if !stream.empty then rss_amf0_read_boolean stream else .ok (true, stream)
                match r3 with
                | .error e => .error e
                | .ok (reset, _) =>
                  .ok { command_name := command_name, transaction_id := transaction_id,
                        stream_name := stream_name, start := start, duration := duration,
                        reset := reset }

/-- Function `RssOnMetaDataPacket::decode`. `fuel` bounds the depth and the
number of properties of the value read. -/
def RssOnMetaDataPacket.decode (fuel : Nat) (stream : RssStream) :
    Except RssError RssOnMetaDataPacket :=
  match rss_amf0_read_string stream with
  | .error e => .error e
  | .ok (name, stream) =>
    let r : Except RssError (List Nat × RssStream) :=
      if name = RTMP_AMF0_DATA_SET_DATAFRAME then rss_amf0_read_string stream
      else .ok (name, stream)
    match r with
    | .error e => .error e
    | .ok (name, stream) =>
      match rss_amf0_read_any fuel stream with
      | .error e => .error e
      | .ok (any, _) =>
        match any with
        | .Object properties => .ok { name := name, metadata := properties }
        | .EcmaArray _ properties =>
          .ok { name := name,
                metadata :=
                  properties.foldl (fun t kv => RssUnSortedHashtable.set t kv.1 kv.2) [] }
        | _ => .error .amf0_decode

/-- The packet classes the AMF0/AMF3 branch of `decode_packet` creates, each
with its data members after the decoding; `Plain` is the base class
`RssPacket`. -/
inductive RssCommandPacket where
  | ConnectApp (pkt : RssConnectAppPacket)
  | CreateStream (pkt : RssCreateStreamPacket)
  | Play (pkt : RssPlayPacket)
  | FMLEStart (pkt : RssFMLEStartPacket)
  | Publish (pkt : RssPublishPacket)
  | OnMetaData (pkt : RssOnMetaDataPacket)
  | Plain

/-- Function `RssCommonMessage::decode_packet` on a message that has no packet
yet and is an AMF0/AMF3 command or data message (type 20, 17, 18 or 15). -/
def RssCommonMessage.decode_command_packet (fuel : Nat) (msg : RssCommonMessage) :
    Except RssError RssCommandPacket :=
  match msg.payload with
  | none => .error .assert_failed
  | some payload =>
    if ¬ msg.size > 0 then .error .assert_failed
    else
      match RssStream.initialize (payload.take msg.size.toNat) with
      | .error e => .error e
      | .ok stream =>
        let is_amf3_command : Bool :=
          decide (msg.header.message_type = RTMP_MSG_AMF3CommandMessage)
        let stream := if is_amf3_command ∧ stream.require 1 then stream.skip 1 else stream
        match rss_amf0_read_string stream with
        | .error e => .error e
        | .ok (command, stream) =>
          let stream := stream.reset
          let stream := if is_amf3_command then stream.skip 1 else stream
          if command = RTMP_AMF0_COMMAND_CONNECT then
            match RssConnectAppPacket.decode fuel stream with
            | .error e => .error e
            | .ok pkt => .ok (.ConnectApp pkt)
          else if command = RTMP_AMF0_COMMAND_CREATE_STREAM then
            match RssCreateStreamPacket.decode stream with
            | .error e => .error e
            | .ok pkt => .ok (.CreateStream pkt)
          else if command = RTMP_AMF0_COMMAND_PLAY then
            match RssPlayPacket.decode stream with
            | .error e => .error e
            | .ok pkt => .ok (.Play pkt)
          else if command = RTMP_AMF0_COMMAND_RELEASE_STREAM then
            match RssFMLEStartPacket.decode stream with
            | .error e => .error e
            | .ok pkt => .ok (.FMLEStart pkt)
          else if command = RTMP_AMF0_COMMAND_FC_PUBLISH then
            match RssFMLEStartPacket.decode stream with
            | .error e => .error e
            | .ok pkt => .ok (.FMLEStart pkt)
          else if command = RTMP_AMF0_COMMAND_PUBLISH then
            match RssPublishPacket.decode stream with
            | .error e => .error e
            | .ok pkt => .ok (.Publish pkt)
          else if command = RTMP_AMF0_COMMAND_UNPUBLISH then
            match RssFMLEStartPacket.decode stream with
            | .error e => .error e
            | .ok pkt => .ok (.FMLEStart pkt)
          else if command = RTMP_AMF0_DATA_SET_DATAFRAME ∨ command = onMetaData then
            match RssOnMetaDataPacket.decode fuel stream with
            | .error e => .error e
            | .ok pkt => .ok (.OnMetaData pkt)
          else .ok .Plain

/-! ## Packets the server sends, and `fmle_unpublish` -/

/-- Class `RssOnStatusCallPacket`: `args` is always `Null`; `data` is the
property vector of the object. -/
structure RssOnStatusCallPacket where
  command_name : List Nat
  transaction_id : Int
  data : List (List Nat × RssAmf0Any)

/-- Constructor `RssOnStatusCallPacket::RssOnStatusCallPacket` (the bit pattern
of the `double` 0.0 is 0). -/
def RssOnStatusCallPacket.new : RssOnStatusCallPacket :=
  { command_name := RTMP_AMF0_COMMAND_ON_STATUS, transaction_id := 0, data := [] }

/-- Function `RssOnStatusCallPacket::get_size`. -/
def RssOnStatusCallPacket.get_size (self : RssOnStatusCallPacket) : Int :=
  rss_amf0_get_string_size self.command_name + rss_amf0_get_number_size
    + rss_amf0_get_null_size + rss_amf0_get_object_size self.data

/-- Function `RssOnStatusCallPacket::encode_packet`. -/
def RssOnStatusCallPacket.encode_packet (self : RssOnStatusCallPacket) (stream : RssStream) :
    Except RssError RssStream :=
  match rss_amf0_write_string stream self.command_name with
  | .error e => .error e
  | .ok stream =>
    match rss_amf0_write_number stream self.transaction_id with
    | .error e => .error e
    | .ok stream =>
      match rss_amf0_write_null stream with
      | .error e => .error e
      | .ok stream => rss_amf0_write_object self.data stream

/-- Class `RssFMLEStartResPacket`: `command_object` is always `Null` and `args`
always `Undefined`. -/
structure RssFMLEStartResPacket where
  command_name : List Nat
  transaction_id : Int
  deriving DecidableEq, Repr

/-- Constructor `RssFMLEStartResPacket::RssFMLEStartResPacket(_transaction_id)`. -/
def RssFMLEStartResPacket.new (transaction_id : Int) : RssFMLEStartResPacket :=
  { command_name := RTMP_AMF0_COMMAND_RESULT, transaction_id := transaction_id }

/-- Function `RssFMLEStartResPacket::get_size`. -/
def RssFMLEStartResPacket.get_size (self : RssFMLEStartResPacket) : Int :=
  rss_amf0_get_string_size self.command_name + rss_amf0_get_number_size
    + rss_amf0_get_null_size + rss_amf0_get_undefined_size

/-- Function `RssFMLEStartResPacket::encode_packet`. -/
def RssFMLEStartResPacket.encode_packet (self : RssFMLEStartResPacket) (stream : RssStream) :
    Except RssError RssStream :=
  match rss_amf0_write_string stream self.command_name with
  | .error e => .error e
  | .ok stream =>
    match rss_amf0_write_number stream self.transaction_id with
    | .error e => .error e
    | .ok stream =>
      match rss_amf0_write_null stream with
      | .error e => .error e
      | .ok stream => rss_amf0_write_undefined stream

/-- The string `"onBWDone"`. -/
def RTMP_AMF0_COMMAND_ON_BW_DONE : List Nat :=
  [0x6F, 0x6E, 0x42, 0x57, 0x44, 0x6F, 0x6E, 0x65]

/-- The string `"|RtmpSampleAccess"`. -/
def RTMP_AMF0_DATA_SAMPLE_ACCESS : List Nat :=
  [0x7C, 0x52, 0x74, 0x6D, 0x70, 0x53, 0x61, 0x6D, 0x70, 0x6C, 0x65, 0x41, 0x63, 0x63, 0x65,
   0x73, 0x73]

def RTMP_MSG_UserControlMessage : Int := 0x04
def RTMP_MSG_SetPeerBandwidth : Int := 0x06

/-- Class `RssConnectAppResPacket`: `props` and `info` are the property vectors
of the two objects. -/
structure RssConnectAppResPacket where
  command_name : List Nat
  transaction_id : Int
  props : List (List Nat × RssAmf0Any)
  info : List (List Nat × RssAmf0Any)

/-- Constructor `RssConnectAppResPacket::RssConnectAppResPacket` (the
transaction id is the `double` 1.0). -/
def RssConnectAppResPacket.new : RssConnectAppResPacket :=
  { command_name := RTMP_AMF0_COMMAND_RESULT, transaction_id := double_one, props := [],
    info := [] }

/-- Function `RssConnectAppResPacket::get_size`. -/
def RssConnectAppResPacket.get_size (self : RssConnectAppResPacket) : Int :=
  rss_amf0_get_string_size self.command_name + rss_amf0_get_number_size
    + rss_amf0_get_object_size self.props + rss_amf0_get_object_size self.info

/-- Function `RssConnectAppResPacket::encode_packet`. -/
def RssConnectAppResPacket.encode_packet (self : RssConnectAppResPacket) (stream : RssStream) :
    Except RssError RssStream :=
  match rss_amf0_write_string stream self.command_name with
  | .error e => .error e
  | .ok stream =>
    match rss_amf0_write_number stream self.transaction_id with
    | .error e => .error e
    | .ok stream =>
      match rss_amf0_write_object self.props stream with
      | .error e => .error e
      | .ok stream => rss_amf0_write_object self.info stream

/-- Class `RssCreateStreamResPacket`: `command_object` is always `Null`;
`transaction_id` and `stream_id` are `double` bit patterns. -/
structure RssCreateStreamResPacket where
  command_name : List Nat
  transaction_id : Int
  stream_id : Int
  deriving DecidableEq, Repr

/-- Constructor `RssCreateStreamResPacket(_transaction_id, _stream_id)`. -/
def RssCreateStreamResPacket.new (transaction_id stream_id : Int) : RssCreateStreamResPacket :=
  { command_name := RTMP_AMF0_COMMAND_RESULT, transaction_id := transaction_id,
    stream_id := stream_id }

/-- Function `RssCreateStreamResPacket::get_size`. -/
def RssCreateStreamResPacket.get_size (self : RssCreateStreamResPacket) : Int :=
  rss_amf0_get_string_size self.command_name + rss_amf0_get_number_size
    + rss_amf0_get_null_size + rss_amf0_get_number_size

/-- Function `RssCreateStreamResPacket::encode_packet`. -/
def RssCreateStreamResPacket.encode_packet (self : RssCreateStreamResPacket)
    (stream : RssStream) : Except RssError RssStream :=
  match rss_amf0_write_string stream self.command_name with
  | .error e => .error e
  | .ok stream =>
    match rss_amf0_write_number stream self.transaction_id with
    | .error e => .error e
    | .ok stream =>
      match rss_amf0_write_null stream with
      | .error e => .error e
      | .ok stream => rss_amf0_write_number stream self.stream_id

/-- Class `RssPlayResPacket`: `command_object` is always `Null`; `desc` is the
property vector of the object. -/
structure RssPlayResPacket where
  command_name : List Nat
  transaction_id : Int
  desc : List (List Nat × RssAmf0Any)

/-- Constructor `RssPlayResPacket::RssPlayResPacket`. -/
def RssPlayResPacket.new : RssPlayResPacket :=
  { command_name := RTMP_AMF0_COMMAND_RESULT, transaction_id := 0, desc := [] }

/-- Function `RssPlayResPacket::get_size`. -/
def RssPlayResPacket.get_size (self : RssPlayResPacket) : Int :=
  rss_amf0_get_string_size self.command_name + rss_amf0_get_number_size
    + rss_amf0_get_null_size + rss_amf0_get_object_size self.desc

/-- Function `RssPlayResPacket::encode_packet`. -/
def RssPlayResPacket.encode_packet (self : RssPlayResPacket) (stream : RssStream) :
    Except RssError RssStream :=
  match rss_amf0_write_string stream self.command_name with
  | .error e => .error e
  | .ok stream =>
    match rss_amf0_write_number stream self.transaction_id with
    | .error e => .error e
    | .ok stream =>
      match rss_amf0_write_null stream with
      | .error e => .error e
      | .ok stream => rss_amf0_write_object self.desc stream

/-- Class `RssOnBWDonePacket`: `args` is always `Null`. -/
structure RssOnBWDonePacket where
  command_name : List Nat
  transaction_id : Int
  deriving DecidableEq, Repr

/-- Constructor `RssOnBWDonePacket::RssOnBWDonePacket`. -/
def RssOnBWDonePacket.new : RssOnBWDonePacket :=
  { command_name := RTMP_AMF0_COMMAND_ON_BW_DONE, transaction_id := 0 }

/-- Function `RssOnBWDonePacket::get_size`. -/
def RssOnBWDonePacket.get_size (self : RssOnBWDonePacket) : Int :=
  rss_amf0_get_string_size self.command_name + rss_amf0_get_number_size
    + rss_amf0_get_null_size

/-- Function `RssOnBWDonePacket::encode_packet`. -/
def RssOnBWDonePacket.encode_packet (self : RssOnBWDonePacket) (stream : RssStream) :
    Except RssError RssStream :=
  match rss_amf0_write_string stream self.command_name with
  | .error e => .error e
  | .ok stream =>
    match rss_amf0_write_number stream self.transaction_id with
    | .error e => .error e
    | .ok stream => rss_amf0_write_null stream

/-- Class `RssOnStatusDataPacket`: `data` is the property vector of the
object. -/
structure RssOnStatusDataPacket where
  command_name : List Nat
  data : List (List Nat × RssAmf0Any)

/-- Constructor `RssOnStatusDataPacket::RssOnStatusDataPacket`. -/
def RssOnStatusDataPacket.new : RssOnStatusDataPacket :=
  { command_name := RTMP_AMF0_COMMAND_ON_STATUS, data := [] }

/-- Function `RssOnStatusDataPacket::get_size`. -/
def RssOnStatusDataPacket.get_size (self : RssOnStatusDataPacket) : Int :=
  rss_amf0_get_string_size self.command_name + rss_amf0_get_object_size self.data

/-- Function `RssOnStatusDataPacket::encode_packet`. -/
def RssOnStatusDataPacket.encode_packet (self : RssOnStatusDataPacket) (stream : RssStream) :
    Except RssError RssStream :=
  match rss_amf0_write_string stream self.command_name with
  | .error e => .error e
  | .ok stream => rss_amf0_write_object self.data stream

/-- Class `RssSampleAccessPacket`. -/
structure RssSampleAccessPacket where
  command_name : List Nat
  video_sample_access : Bool
  audio_sample_access : Bool
  deriving DecidableEq, Repr

/-- Constructor `RssSampleAccessPacket::RssSampleAccessPacket`. -/
def RssSampleAccessPacket.new : RssSampleAccessPacket :=
  { command_name := RTMP_AMF0_DATA_SAMPLE_ACCESS, video_sample_access := false,
    audio_sample_access := false }

/-- Function `RssSampleAccessPacket::get_size`. -/
def RssSampleAccessPacket.get_size (self : RssSampleAccessPacket) : Int :=
  rss_amf0_get_string_size self.command_name + rss_amf0_get_boolean_size
    + rss_amf0_get_boolean_size

/-- Function `RssSampleAccessPacket::encode_packet`. -/
def RssSampleAccessPacket.encode_packet (self : RssSampleAccessPacket) (stream : RssStream) :
    Except RssError RssStream :=
  match rss_amf0_write_string stream self.command_name with
  | .error e => .error e
  | .ok stream =>
    match rss_amf0_write_boolean stream self.video_sample_access with
    | .error e => .error e
    | .ok stream => rss_amf0_write_boolean stream self.audio_sample_access

/-- Function `RssOnMetaDataPacket::encode_packet`. -/
def RssOnMetaDataPacket.encode_packet (self : RssOnMetaDataPacket) (stream : RssStream) :
    Except RssError RssStream :=
  match rss_amf0_write_string stream self.name with
  | .error e => .error e
  | .ok stream => rss_amf0_write_object self.metadata stream

/-- Function `RssSetChunkSizePacket::encode_packet`. -/
def RssSetChunkSizePacket.encode_packet (chunk_size : Int) (stream : RssStream) :
    Except RssError RssStream :=
  if !stream.require 4 then .error .message_encode
  else stream.write_4bytes chunk_size

/-- Function `RssSetWindowAckSizePacket::encode_packet`. -/
def RssSetWindowAckSizePacket.encode_packet (ackowledgement_window_size : Int)
    (stream : RssStream) : Except RssError RssStream :=
  if !stream.require 4 then .error .message_encode
  else stream.write_4bytes ackowledgement_window_size

/-- Function `RssSetPeerBandwidthPacket::encode_packet`: `bandwidth` is an
`int32_t`, `type` an `int8_t`. -/
def RssSetPeerBandwidthPacket.encode_packet (bandwidth type : Int) (stream : RssStream) :
    Except RssError RssStream :=
  if !stream.require 5 then .error .message_encode
  else
    match stream.write_4bytes bandwidth with
    | .error e => .error e
    | .ok stream => stream.write_1bytes type

/-- Function `RssPCUC4BytesPacket::encode_packet`: `event_type` is an
`int16_t`, `event_data` an `int32_t`. -/
def RssPCUC4BytesPacket.encode_packet (event_type event_data : Int) (stream : RssStream) :
    Except RssError RssStream :=
  if !stream.require 6 then .error .message_encode
  else
    match stream.write_2bytes event_type with
    | .error e => .error e
    | .ok stream => stream.write_4bytes event_data

/-- The packets the server sends, by class. The packets of the four classes
without AMF0 values carry their data members: `chunk_size`,
`ackowledgement_window_size`, `bandwidth` and `type`, `event_type` and
`event_data`. -/
inductive RssSendPacket where
  | OnStatusCall (pkt : RssOnStatusCallPacket)
  | FMLEStartRes (pkt : RssFMLEStartResPacket)
  | ConnectAppRes (pkt : RssConnectAppResPacket)
  | CreateStreamRes (pkt : RssCreateStreamResPacket)
  | PlayRes (pkt : RssPlayResPacket)
  | OnBWDone (pkt : RssOnBWDonePacket)
  | OnStatusData (pkt : RssOnStatusDataPacket)
  | SampleAccess (pkt : RssSampleAccessPacket)
  | OnMetaData (pkt : RssOnMetaDataPacket)
  | SetChunkSize (chunk_size : Int)
  | SetWindowAckSize (ackowledgement_window_size : Int)
  | SetPeerBandwidth (bandwidth : Int) (type : Int)
  | PCUC4Bytes (event_type : Int) (event_data : Int)

namespace RssSendPacket

/-- Function `get_perfer_cid` of the packet class. -/
def get_perfer_cid : RssSendPacket → Int
  | .OnStatusCall _ => RTMP_CID_OverStream
  | .FMLEStartRes _ => RTMP_CID_OverConnection
  | .ConnectAppRes _ => RTMP_CID_OverConnection
  | .CreateStreamRes _ => RTMP_CID_OverConnection
  | .PlayRes _ => RTMP_CID_OverStream
  | .OnBWDone _ => RTMP_CID_OverConnection
  | .OnStatusData _ => RTMP_CID_OverStream
  | .SampleAccess _ => RTMP_CID_OverStream
  | .OnMetaData _ => RTMP_CID_OverConnection2
  | .SetChunkSize _ => RTMP_CID_ProtocolControl
  | .SetWindowAckSize _ => RTMP_CID_ProtocolControl
  | .SetPeerBandwidth _ _ => RTMP_CID_ProtocolControl
  | .PCUC4Bytes _ _ => RTMP_CID_ProtocolControl

/-- Function `get_message_type` of the packet class. -/
def get_message_type : RssSendPacket → Int
  | .OnStatusCall _ => RTMP_MSG_AMF0CommandMessage
  | .FMLEStartRes _ => RTMP_MSG_AMF0CommandMessage
  | .ConnectAppRes _ => RTMP_MSG_AMF0CommandMessage
  | .CreateStreamRes _ => RTMP_MSG_AMF0CommandMessage
  | .PlayRes _ => RTMP_MSG_AMF0CommandMessage
  | .OnBWDone _ => RTMP_MSG_AMF0CommandMessage
  | .OnStatusData _ => RTMP_MSG_AMF0DataMessage
  | .SampleAccess _ => RTMP_MSG_AMF0DataMessage
  | .OnMetaData _ => RTMP_MSG_AMF0DataMessage
  | .SetChunkSize _ => RTMP_MSG_SetChunkSize
  | .SetWindowAckSize _ => RTMP_MSG_WindowAcknowledgementSize
  | .SetPeerBandwidth _ _ => RTMP_MSG_SetPeerBandwidth
  | .PCUC4Bytes _ _ => RTMP_MSG_UserControlMessage

/-- Function `get_size` of the packet class. -/
def get_size : RssSendPacket → Int
  | .OnStatusCall pkt => pkt.get_size
  | .FMLEStartRes pkt => pkt.get_size
  | .ConnectAppRes pkt => pkt.get_size
  | .CreateStreamRes pkt => pkt.get_size
  | .PlayRes pkt => pkt.get_size
  | .OnBWDone pkt => pkt.get_size
  | .OnStatusData pkt => pkt.get_size
  | .SampleAccess pkt => pkt.get_size
  | .OnMetaData pkt => pkt.get_size
  | .SetChunkSize _ => 4
  | .SetWindowAckSize _ => 4
  | .SetPeerBandwidth _ _ => 5
  | .PCUC4Bytes _ _ => 2 + 4

/-- Function `encode_packet` of the packet class. -/
def encode_packet : RssSendPacket → RssStream → Except RssError RssStream
  | .OnStatusCall pkt, stream => pkt.encode_packet stream
  | .FMLEStartRes pkt, stream => pkt.encode_packet stream
  | .ConnectAppRes pkt, stream => pkt.encode_packet stream
  | .CreateStreamRes pkt, stream => pkt.encode_packet stream
  | .PlayRes pkt, stream => pkt.encode_packet stream
  | .OnBWDone pkt, stream => pkt.encode_packet stream
  | .OnStatusData pkt, stream => pkt.encode_packet stream
  | .SampleAccess pkt, stream => pkt.encode_packet stream
  | .OnMetaData pkt, stream => pkt.encode_packet stream
  | .SetChunkSize chunk_size, stream => RssSetChunkSizePacket.encode_packet chunk_size stream
  | .SetWindowAckSize ackowledgement_window_size, stream =>
    RssSetWindowAckSizePacket.encode_packet ackowledgement_window_size stream
  | .SetPeerBandwidth bandwidth type, stream =>
    RssSetPeerBandwidthPacket.encode_packet bandwidth type stream
  | .PCUC4Bytes event_type event_data, stream =>
    RssPCUC4BytesPacket.encode_packet event_type event_data stream

/-- What `dynamic_cast` finds in `on_send_message`: the packet as a
`RssSetChunkSizePacket` or a `RssSetWindowAckSizePacket`, or a packet of
another class. -/
def packet : RssSendPacket → Option RssPacket
  | .SetChunkSize chunk_size => some (.SetChunkSize chunk_size)
  | .SetWindowAckSize ackowledgement_window_size =>
    some (.SetWindowAckSize ackowledgement_window_size)
  | _ => some .Plain

/-- Function `RssPacket::encode`: returns `psize` and the payload array (`none`
is `NULL`). -/
def encode (self : RssSendPacket) : Except RssError (Int × Option (List Nat)) :=
  let size := self.get_size
  let stream : RssStream := if size > 0 then RssStream.alloc size else { bytes := [], p := 0 }
  match self.encode_packet stream with
  | .error e => .error e
  | .ok stream => .ok (size, if size > 0 then some stream.bytes else none)

end RssSendPacket

/-- A message handed to `send_message` and sent: its packet, its header, its
encoded payload and the (header, payload slice) pairs written. -/
structure SentMessage where
  packet : RssSendPacket
  header : RssMessageHeader
  payload : Option (List Nat)
  chunks : List (List Nat × List Nat)

/-- A new `RssCommonMessage` gets the packet (`set_packet(pkt, stream_id)`) and
is sent with `RssProtocol::send_message`: it is encoded, written in chunks of
the current `out_chunk_size` and handed to `on_send_message`, which sets
`out_chunk_size` for a Set-Chunk-Size packet and does nothing for the other
packets. The socket takes every write. Returns the
protocol state and the error or the message sent; `none`: the send loop did
not finish within `fuel` iterations. -/
def send_packet (fuel : Nat) (proto : RssProtocol) (pkt : RssSendPacket) (stream_id : Int) :
    Option (RssProtocol × Except RssError SentMessage) :=
  let header : RssMessageHeader :=
    { message_type := pkt.get_message_type, payload_length := pkt.get_size,
      timestamp_delta := RssMessageHeader.new.timestamp_delta, stream_id := stream_id,
      timestamp := RssMessageHeader.new.timestamp }
  match pkt.encode with
  | .error e => some (proto, .error e)
  | .ok (size, payload) =>
    let msg : IRssMessage :=
      { header := header, size := size, payload := payload, perfer_cid := pkt.get_perfer_cid }
    match send_message fuel proto.out_chunk_size msg with
    | none => none
    | some chunks =>
      match on_send_message proto true header pkt.packet with
      | (proto, .error e) => some (proto, .error e)
      | (proto, .ok _) =>
        some (proto, .ok { packet := pkt, header := header, payload := payload,
                           chunks := chunks })

/-- The packet `onFCUnpublish` of `fmle_unpublish`. -/
def unpublish_on_fc_unpublish : RssOnStatusCallPacket :=
  { command_name := RTMP_AMF0_COMMAND_ON_FC_UNPUBLISH,
    transaction_id := RssOnStatusCallPacket.new.transaction_id,
    data :=
      RssUnSortedHashtable.set
        (RssUnSortedHashtable.set RssOnStatusCallPacket.new.data StatusCode
          (.String StatusCodeUnpublishSuccess))
        StatusDescription (.String description_stop_publishing) }

/-- The packet `onStatus` of `fmle_unpublish`. -/
def unpublish_on_status : RssOnStatusCallPacket :=
  { command_name := RssOnStatusCallPacket.new.command_name,
    transaction_id := RssOnStatusCallPacket.new.transaction_id,
    data :=
      RssUnSortedHashtable.set
        (RssUnSortedHashtable.set
          (RssUnSortedHashtable.set
            (RssUnSortedHashtable.set RssOnStatusCallPacket.new.data StatusLevel
              (.String StatusLevelStatus))
            StatusCode (.String StatusCodeUnpublishSuccess))
          StatusDescription (.String description_now_unpublished))
        StatusClientId (.String RTMP_SIG_CLIENT_ID) }

/-- Function `RssRtmp::fmle_unpublish(stream_id, unpublish_tid)`: the protocol
state, the messages sent, in order, and the result. -/
def RssRtmp.fmle_unpublish (fuel : Nat) (proto : RssProtocol) (stream_id : Int)
    (unpublish_tid : Int) : Option (RssProtocol × List SentMessage × Except RssError Unit) :=
  match send_packet fuel proto (.OnStatusCall unpublish_on_fc_unpublish) stream_id with
  | none => none
  | some (proto, .error e) => some (proto, [], .error e)
  | some (proto, .ok m1) =>
    match send_packet fuel proto (.FMLEStartRes (RssFMLEStartResPacket.new unpublish_tid))
        stream_id with
    | none => none
    | some (proto, .error e) => some (proto, [m1], .error e)
    | some (proto, .ok m2) =>
      match send_packet fuel proto (.OnStatusCall unpublish_on_status) stream_id with
      | none => none
      | some (proto, .error e) => some (proto, [m1, m2], .error e)
      | some (proto, .ok m3) => some (proto, [m1, m2, m3], .ok ())

/-- The payload of an `onStatus` call packet: the command name, the
transaction id, null and the data object. -/
def on_status_payload (p : RssOnStatusCallPacket) : List Nat :=
  amf0_bytes (.String p.command_name) ++ amf0_bytes (.Number p.transaction_id)
    ++ amf0_bytes .Null ++ amf0_bytes (.Object p.data)

/-- The payload of an FMLE start response packet: the command name, the
transaction id, null and undefined. -/
def fmle_res_payload (p : RssFMLEStartResPacket) : List Nat :=
  amf0_bytes (.String p.command_name) ++ amf0_bytes (.Number p.transaction_id)
    ++ amf0_bytes .Null ++ amf0_bytes .Undefined

/-- The message sent for the packet `pkt` with the payload `pl` on the stream
`stream_id` with the chunk size `n`: type 20, timestamp 0, the chunks of
`chunk_list`. -/
def sent_message (pkt : RssSendPacket) (stream_id : Int) (pl : List Nat) (n : Nat) :
    SentMessage :=
  { packet := pkt,
    header := { message_type := RTMP_MSG_AMF0CommandMessage,
                payload_length := (pl.length : Int), timestamp_delta := 0,
                stream_id := stream_id, timestamp := 0 },
    payload := some pl,
    chunks := chunk_list
      { header := { message_type := RTMP_MSG_AMF0CommandMessage,
                    payload_length := (pl.length : Int), timestamp_delta := 0,
                    stream_id := stream_id, timestamp := 0 },
        size := (pl.length : Int), payload := some pl, perfer_cid := pkt.get_perfer_cid }
      pl n ((pl.length - 0 + n - 1) / n) 0 }

/-- The three messages of the unpublish response, in the order of sending. -/
def unpublish_messages (stream_id : Int) (unpublish_tid : Int) (n : Nat) : List SentMessage :=
  [sent_message (.OnStatusCall unpublish_on_fc_unpublish) stream_id
     (on_status_payload unpublish_on_fc_unpublish) n,
   sent_message (.FMLEStartRes (RssFMLEStartResPacket.new unpublish_tid)) stream_id
     (fmle_res_payload (RssFMLEStartResPacket.new unpublish_tid)) n,
   sent_message (.OnStatusCall unpublish_on_status) stream_id
     (on_status_payload unpublish_on_status) n]

/-! ## Packets the server sends: the payload in the words of the specification -/

/-- The values written one after the other. -/
def write_all : List RssAmf0Any → RssStream → Except RssError RssStream
  | [], stream => .ok stream
  | [v], stream => rss_amf0_write_any v stream
  | v :: rest, stream =>
    match rss_amf0_write_any v stream with
    | .error e => .error e
    | .ok stream => write_all rest stream

/-- The byte sequences of the values, one after the other. -/
def all_bytes : List RssAmf0Any → List Nat
  | [] => []
  | v :: rest => amf0_bytes v ++ all_bytes rest

/-- The AMF0 values of a packet, in the order of `encode_packet` (empty for the
four classes without AMF0 values). -/
def packet_values : RssSendPacket → List RssAmf0Any
  | .OnStatusCall p => [.String p.command_name, .Number p.transaction_id, .Null, .Object p.data]
  | .FMLEStartRes p => [.String p.command_name, .Number p.transaction_id, .Null, .Undefined]
  | .ConnectAppRes p =>
    [.String p.command_name, .Number p.transaction_id, .Object p.props, .Object p.info]
  | .CreateStreamRes p =>
    [.String p.command_name, .Number p.transaction_id, .Null, .Number p.stream_id]
  | .PlayRes p => [.String p.command_name, .Number p.transaction_id, .Null, .Object p.desc]
  | .OnBWDone p => [.String p.command_name, .Number p.transaction_id, .Null]
  | .OnStatusData p => [.String p.command_name, .Object p.data]
  | .SampleAccess p =>
    [.String p.command_name, .Boolean p.video_sample_access, .Boolean p.audio_sample_access]
  | .OnMetaData p => [.String p.name, .Object p.metadata]
  | _ => []

/-- The payload of a packet: the byte sequences of its AMF0 values, or its
integers most significant byte first. -/
def packet_payload : RssSendPacket → List Nat
  | .SetChunkSize chunk_size =>
    [byte3 chunk_size, byte2 chunk_size, byte1 chunk_size, byte0 chunk_size]
  | .SetWindowAckSize v => [byte3 v, byte2 v, byte1 v, byte0 v]
  | .SetPeerBandwidth bandwidth type =>
    [byte3 bandwidth, byte2 bandwidth, byte1 bandwidth, byte0 bandwidth, byte0 type]
  | .PCUC4Bytes event_type event_data =>
    [byte1 event_type, byte0 event_type,
     byte3 event_data, byte2 event_data, byte1 event_data, byte0 event_data]
  | pkt => all_bytes (packet_values pkt)

/-- The header of a new `RssCommonMessage` after `set_packet(pkt, stream_id)`. -/
def set_packet_header (pkt : RssSendPacket) (stream_id : Int) : RssMessageHeader :=
  { message_type := pkt.get_message_type, payload_length := pkt.get_size,
    timestamp_delta := RssMessageHeader.new.timestamp_delta, stream_id := stream_id,
    timestamp := RssMessageHeader.new.timestamp }

/-- The message sent for the packet `pkt` on the stream `stream_id` with the
chunk size `n`: the header of `set_packet`, the payload of the packet, the
chunks of `chunk_list`. -/
def sent_packet (pkt : RssSendPacket) (stream_id : Int) (n : Nat) : SentMessage :=
  { packet := pkt,
    header := { message_type := pkt.get_message_type,
                payload_length := ((packet_payload pkt).length : Int), timestamp_delta := 0,
                stream_id := stream_id, timestamp := 0 },
    payload := some (packet_payload pkt),
    chunks := chunk_list
      { header := { message_type := pkt.get_message_type,
                    payload_length := ((packet_payload pkt).length : Int),
                    timestamp_delta := 0, stream_id := stream_id, timestamp := 0 },
        size := ((packet_payload pkt).length : Int), payload := some (packet_payload pkt),
        perfer_cid := pkt.get_perfer_cid }
      (packet_payload pkt) n (((packet_payload pkt).length - 0 + n - 1) / n) 0 }

/-! ## The publish loop -/

/-- What the body of the `while (true)` loop of `streaming_publish` does after
a message: go on with the next message, or return. -/
inductive LoopStep where
  | next
  | done (ret : Except RssError Unit)

/-- The state of a publishing session: the protocol, the heap of shared cells,
the source. -/
structure PublishSession where
  proto : RssProtocol
  heap : RssHeap
  source : RssSource

/-- The body of the loop of `RssClient::streaming_publish` for the message
`msg` that `recv_message` has returned (with a payload that is not empty),
where `stream_id` is `res->stream_id`: the session after it, the messages
sent, and whether the loop goes on. When `on_audio` or `on_video` has taken
the payload the message is no command any more (its type is 8 or 9). -/
def streaming_publish_message (fuel : Nat) (st : PublishSession) (stream_id : Int)
    (msg : RssCommonMessage) : Option (PublishSession × List SentMessage × LoopStep) :=
  if msg.header.message_type = RTMP_MSG_AudioMessage then
    match st.source.on_audio st.heap msg with
    | .error e => some (st, [], .done (.error e))
    | .ok (heap, source, _) => some ({ st with heap := heap, source := source }, [], .next)
  else if msg.header.message_type = RTMP_MSG_VideoMessage then
    match st.source.on_video st.heap msg with
    | .error e => some (st, [], .done (.error e))
    | .ok (heap, source, _) => some ({ st with heap := heap, source := source }, [], .next)
  else if msg.header.message_type = RTMP_MSG_AMF0DataMessage
      ∨ msg.header.message_type = RTMP_MSG_AMF3DataMessage then
    match msg.decode_command_packet fuel with
    | .error e => some (st, [], .done (.error e))
    | .ok (.OnMetaData metadata) =>
      match st.source.on_meta_data st.heap msg metadata with
      | .error e => some (st, [], .done (.error e))
      | .ok (heap, source, _) => some ({ st with heap := heap, source := source }, [], .next)
    | .ok _ => some (st, [], .next)
  else if msg.header.message_type = RTMP_MSG_AMF0CommandMessage
      ∨ msg.header.message_type = RTMP_MSG_AMF3CommandMessage then
    match msg.decode_command_packet fuel with
    | .error e => some (st, [], .done (.error e))
    | .ok (.FMLEStart unpublish) =>
      match RssRtmp.fmle_unpublish fuel st.proto stream_id unpublish.transaction_id with
      | none => none
      | some (proto, sent, ret) => some ({ st with proto := proto }, sent, .done ret)
    | .ok _ => some (st, [], .next)
  else some (st, [], .next)

/-- The bit pattern of the `double` 5.0. -/
def double_five : Int := 0x4014000000000000

/-- The string `"livestream"`. -/
def string_livestream : List Nat :=
  [0x6C, 0x69, 0x76, 0x65, 0x73, 0x74, 0x72, 0x65, 0x61, 0x6D]

/-- An AMF0 command message (type 20) on stream 1 with the FMLE start body:
the command `name`, the transaction id 5.0, null, the stream name
`livestream`. -/
def example_fmle_message (name : List Nat) : RssCommonMessage :=
  { header := { message_type := 20,
                payload_length := (((amf0_bytes (.String name)).length + 23 : Nat) : Int),
                timestamp_delta := 0, stream_id := 1, timestamp := 0 },
    size := (((amf0_bytes (.String name)).length + 23 : Nat) : Int),
    payload := some (amf0_bytes (.String name) ++ amf0_bytes (.Number double_five)
      ++ amf0_bytes .Null ++ amf0_bytes (.String string_livestream)) }

/-- A publishing session at its start: a new protocol context, no shared cell,
a new source. -/
def example_publish_session : PublishSession :=
  { proto := RssProtocol.new [], heap := [], source := RssSource.new }

/-- The packet that `example_fmle_message name` decodes to. -/
def example_fmle_packet (name : List Nat) : RssFMLEStartPacket :=
  { command_name := name, transaction_id := double_five, stream_name := string_livestream }

/-! ## AMF0 strings: the character loop of `rss_amf0_read_utf8` -/

/-- The loop `for (int i = 0; i < len; i++)` of `rss_amf0_read_utf8` over the
characters of the string read, started with the value `ret` of the variable
`ret`. At a character with the bit `0x80` set the body assigns
`ERROR_RTMP_AMF0_DECODE` to `ret`, logs, and assigns `ERROR_SUCCESS` to `ret`;
at every other character it does nothing. Returns `ret` after the loop. -/
def utf8_1_loop (ret : Except RssError Unit) : List Nat → Except RssError Unit
  | [] => ret
  | ch :: rest =>
    if (ch % 256) &&& 0x80 ≠ 0 then utf8_1_loop (.ok ()) rest
    else utf8_1_loop ret rest

/-- Function `rss_amf0_read_utf8` with the loop over the characters written
out: the value of `ret` after the loop is what the function returns. -/
def rss_amf0_read_utf8_chars (stream : RssStream) : Except RssError (List Nat × RssStream) :=
  if !stream.require 2 then .error .amf0_decode
  else
    match stream.read_2bytes with
    | .error e => .error e
    | .ok (len, stream) =>
      if len ≤ 0 then .ok ([], stream)
      else if !stream.require len then .error .amf0_decode
      else
        match stream.read_string len with
        | .error e => .error e
        | .ok (str, stream) =>
          match utf8_1_loop (.ok ()) str with
          | .error e => .error e
          | .ok _ => .ok (str, stream)

/-- A string with two bytes above `0x7F`: `h`, `C3 A9`, `!`. -/
def example_high_string : List Nat := [0x68, 0xC3, 0xA9, 0x21]

/-- The bytes `80 00` (the length 32768) followed by 32768 bytes `41`. -/
def example_long_string_bytes : List Nat := [0x80, 0x00] ++ List.replicate 32768 0x41

/-- The bytes of `Null` followed by the bytes of the Boolean `true`. -/
def example_null_then_true : List Nat := [0x05, 0x01, 0x01]

/-- An object with the property `a` = `Null` and the property `b` = `true`. -/
def example_object_with_null : RssAmf0Any :=
  .Object [([0x61], .Null), ([0x62], .Boolean true)]

/-! ## Chunk decoder: the states it reaches -/

/-- One iteration of the `while (true)` loop of `RssProtocol::recv_message`: a
chunk is read; a complete message without payload is dropped; a complete
message with payload goes through `on_recv_message` and is returned with its
packet. `.ok none`: the loop goes on. -/
def recv_chunk (char_signed : Bool) (proto : RssProtocol) :
    RssProtocol × Except RssError (Option (RssCommonMessage × Option RssPacket)) :=
  match recv_interlaced_message char_signed proto with
  | (proto, .error e) => (proto, .error e)
  | (proto, .ok none) => (proto, .ok none)
  | (proto, .ok (some msg)) =>
    if msg.size ≤ 0 ∨ msg.header.payload_length ≤ 0 then (proto, .ok none)
    else
      match on_recv_message proto msg with
      | (proto, .error e) => (proto, .error e)
      | (proto, .ok pkt) => (proto, .ok (some (msg, pkt)))

/-- The protocol state after `n` iterations of the receive loop, whatever
their results were. -/
def recv_chunks (char_signed : Bool) : Nat → RssProtocol → RssProtocol
  | 0, proto => proto
  | n + 1, proto => recv_chunks char_signed n (recv_chunk char_signed proto).1

/-- Every chunk stream of the protocol holds a `payload_length` from 0 to
`0xFFFFFF`. -/
def payload_lengths_in_range (proto : RssProtocol) : Bool :=
  proto.chunk_streams.all (fun kc =>
    decide (0 ≤ kc.2.header.payload_length ∧ kc.2.header.payload_length ≤ 0xFFFFFF))

/-- The result is the error `ERROR_RTMP_MSG_INVLIAD_SIZE`. -/
def is_invalid_size {α : Type} : Except RssError α → Bool
  | .error .invalid_size => true
  | _ => false

/-- What the chunk streams of a protocol hold: chunk id, `payload_length` of
the header, and for the partial message its `size` (the bytes received) and
the length of its payload array. -/
def chunk_summary (proto : RssProtocol) : List (Int × Int × Option (Int × Option Nat)) :=
  proto.chunk_streams.map (fun kc =>
    (kc.1, kc.2.header.payload_length,
      kc.2.msg.map (fun m => (m.size, m.payload.map List.length))))

/-- A format-0 chunk on chunk stream 3 that starts an audio message of 300
bytes (128 bytes of payload follow), then a format-1 chunk on the same chunk
stream whose length field is `len2 len1 len0`, with 128 bytes, and a format-3
chunk with 128 bytes. -/
def example_length_change (len2 len1 len0 : Nat) : List Nat :=
  [0x03, 0x00, 0x00, 0x00, 0x00, 0x01, 0x2C, 0x08, 0x01, 0x00, 0x00, 0x00]
    ++ List.replicate 128 0xAA
    ++ [0x43, 0x00, 0x00, 0x00, len2, len1, len0, 0x08] ++ List.replicate 128 0xBB
    ++ [0xC3] ++ List.replicate 128 0xCC

/-- A message without payload on chunk stream 3 (format 0, length 0, type 8),
then the Set-Chunk-Size message with the value 4096 on chunk stream 2. -/
def example_empty_then_chunk_size : List Nat :=
  [0x03, 0x00, 0x00, 0x00, 0x00, 0x00, 0x00, 0x08, 0x01, 0x00, 0x00, 0x00,
   0x02, 0x00, 0x00, 0x00, 0x00, 0x00, 0x04, 0x01, 0x00, 0x00, 0x00, 0x00,
   0x00, 0x00, 0x10, 0x00]

/-! ## Packets the server sends: example data -/

/-- A packet of each class, with the values of its constructor, a status
property or a number. -/
def example_packets : List RssSendPacket :=
  [.OnStatusCall unpublish_on_status,
   .FMLEStartRes (RssFMLEStartResPacket.new double_five),
   .ConnectAppRes RssConnectAppResPacket.new,
   .CreateStreamRes (RssCreateStreamResPacket.new double_five double_one),
   .PlayRes RssPlayResPacket.new,
   .OnBWDone RssOnBWDonePacket.new,
   .OnStatusData { RssOnStatusDataPacket.new with
                     data := [(StatusCode, .String StatusCodeUnpublishSuccess)] },
   .SampleAccess RssSampleAccessPacket.new,
   .OnMetaData { name := onMetaData, metadata := [(server_key, .Number double_one)] },
   .SetChunkSize 4096,
   .SetWindowAckSize 2500000,
   .SetPeerBandwidth 2500000 2,
   .PCUC4Bytes 0 1]

/-! ## `start_play` -/

/-- The string `"details"`. -/
def StatusDetails : List Nat :=
  [0x64, 0x65, 0x74, 0x61, 0x69, 0x6C, 0x73]

/-- The string `"NetStream.Play.Reset"`. -/
def StatusCodeStreamReset : List Nat :=
  [0x4E, 0x65, 0x74, 0x53, 0x74, 0x72, 0x65, 0x61, 0x6D, 0x2E, 0x50, 0x6C, 0x61, 0x79, 0x2E,
   0x52, 0x65, 0x73, 0x65, 0x74]

/-- The string `"NetStream.Play.Start"`. -/
def StatusCodeStreamStart : List Nat :=
  [0x4E, 0x65, 0x74, 0x53, 0x74, 0x72, 0x65, 0x61, 0x6D, 0x2E, 0x50, 0x6C, 0x61, 0x79, 0x2E,
   0x53, 0x74, 0x61, 0x72, 0x74]

/-- The string `"NetStream.Data.Start"`. -/
def StatusCodeDataStart : List Nat :=
  [0x4E, 0x65, 0x74, 0x53, 0x74, 0x72, 0x65, 0x61, 0x6D, 0x2E, 0x44, 0x61, 0x74, 0x61, 0x2E,
   0x53, 0x74, 0x61, 0x72, 0x74]

/-- The string `"Playing and resetting stream."`. -/
def description_playing_resetting : List Nat :=
  [0x50, 0x6C, 0x61, 0x79, 0x69, 0x6E, 0x67, 0x20, 0x61, 0x6E, 0x64, 0x20, 0x72, 0x65, 0x73,
   0x65, 0x74, 0x74, 0x69, 0x6E, 0x67, 0x20, 0x73, 0x74, 0x72, 0x65, 0x61, 0x6D, 0x2E]

/-- The string `"Started playing stream."`. -/
def description_started_playing : List Nat :=
  [0x53, 0x74, 0x61, 0x72, 0x74, 0x65, 0x64, 0x20, 0x70, 0x6C, 0x61, 0x79, 0x69, 0x6E, 0x67,
   0x20, 0x73, 0x74, 0x72, 0x65, 0x61, 0x6D, 0x2E]

/-- The string `"stream"`. -/
def string_stream : List Nat :=
  [0x73, 0x74, 0x72, 0x65, 0x61, 0x6D]

/-- Event type `SrcPCUCStreamBegin` of a user control message. -/
def SrcPCUCStreamBegin : Int := 0x00

/-- The blocks of a function that sends packets one after the other: each
packet of the list is set on a new `RssCommonMessage` with
`set_packet(pkt, stream_id)` (the second component is that `stream_id`) and
sent with `send_message`; the first error is returned and ends the function.
Returns the protocol state, the messages sent, in order, and the result;
`none`: a send loop did not finish within `fuel` iterations. -/
def send_packets (fuel : Nat) :
    RssProtocol → List (RssSendPacket × Int) →
      Option (RssProtocol × List SentMessage × Except RssError Unit)
  | proto, [] => some (proto, [], .ok ())
  | proto, (pkt, stream_id) :: rest =>
    match send_packet fuel proto pkt stream_id with
    | none => none
    | some (proto, .error e) => some (proto, [], .error e)
    | some (proto, .ok m) =>
      match send_packets fuel proto rest with
      | none => none
      | some (proto, sent, ret) => some (proto, m :: sent, ret)

/-- The packet `onStatus(NetStream.Play.Reset)` of `start_play`. -/
def play_on_status_reset : RssOnStatusCallPacket :=
  { command_name := RssOnStatusCallPacket.new.command_name,
    transaction_id := RssOnStatusCallPacket.new.transaction_id,
    data :=
      RssUnSortedHashtable.set
        (RssUnSortedHashtable.set
          (RssUnSortedHashtable.set
            (RssUnSortedHashtable.set
              (RssUnSortedHashtable.set RssOnStatusCallPacket.new.data StatusLevel
                (.String StatusLevelStatus))
              StatusCode (.String StatusCodeStreamReset))
            StatusDescription (.String description_playing_resetting))
          StatusDetails (.String string_stream))
        StatusClientId (.String RTMP_SIG_CLIENT_ID) }

/-- The packet `onStatus(NetStream.Play.Start)` of `start_play`. -/
def play_on_status_start : RssOnStatusCallPacket :=
  { command_name := RssOnStatusCallPacket.new.command_name,
    transaction_id := RssOnStatusCallPacket.new.transaction_id,
    data :=
      RssUnSortedHashtable.set
        (RssUnSortedHashtable.set
          (RssUnSortedHashtable.set
            (RssUnSortedHashtable.set
              (RssUnSortedHashtable.set RssOnStatusCallPacket.new.data StatusLevel
                (.String StatusLevelStatus))
              StatusCode (.String StatusCodeStreamStart))
            StatusDescription (.String description_started_playing))
          StatusDetails (.String string_stream))
        StatusClientId (.String RTMP_SIG_CLIENT_ID) }

/-- The packet `onStatus(NetStream.Data.Start)` of `start_play`. -/
def play_on_status_data : RssOnStatusDataPacket :=
  { command_name := RssOnStatusDataPacket.new.command_name,
    data :=
      RssUnSortedHashtable.set RssOnStatusDataPacket.new.data StatusCode
        (.String StatusCodeDataStart) }

/-- Function `RssRtmp::start_play(stream_id)`: five blocks, each with a new
message, a new packet and `send_message`. The first block sets
`event_type = SrcPCUCStreamBegin` and `event_data = stream_id` and calls
`set_packet(pkt, 0)`; the other four call `set_packet(pkt, stream_id)`. -/
def RssRtmp.start_play (fuel : Nat) (proto : RssProtocol) (stream_id : Int) :
    Option (RssProtocol × List SentMessage × Except RssError Unit) :=
  send_packets fuel proto
    [(.PCUC4Bytes SrcPCUCStreamBegin stream_id, 0),
     (.OnStatusCall play_on_status_reset, stream_id),
     (.OnStatusCall play_on_status_start, stream_id),
     (.SampleAccess RssSampleAccessPacket.new, stream_id),
     (.OnStatusData play_on_status_data, stream_id)]

/-! ## `start_play`: the messages in the words of the specification -/

/-- The five packets of the play-start sequence, in order. -/
def start_play_packet_list (stream_id : Int) : List RssSendPacket :=
  [.PCUC4Bytes SrcPCUCStreamBegin stream_id,
   .OnStatusCall play_on_status_reset,
   .OnStatusCall play_on_status_start,
   .SampleAccess RssSampleAccessPacket.new,
   .OnStatusData play_on_status_data]

/-- The five messages with `stream_id` in the header of each, as the
specification words it. -/
def start_play_messages_spec (stream_id : Int) (n : Nat) : List SentMessage :=
  (start_play_packet_list stream_id).map (fun pkt => sent_packet pkt stream_id n)

/-- The five messages as sent: the first, the user control message, with the
stream id 0 in its header and `stream_id` as event data, the others with
`stream_id` in the header. -/
def start_play_messages (stream_id : Int) (n : Nat) : List SentMessage :=
  [sent_packet (.PCUC4Bytes SrcPCUCStreamBegin stream_id) 0 n,
   sent_packet (.OnStatusCall play_on_status_reset) stream_id n,
   sent_packet (.OnStatusCall play_on_status_start) stream_id n,
   sent_packet (.SampleAccess RssSampleAccessPacket.new) stream_id n,
   sent_packet (.OnStatusData play_on_status_data) stream_id n]

/-! ## `identify_client` -/

/-- The `std::vector<char> data` of `RssBuffer`: the bytes it holds, its
capacity, and the array that holds them. A reallocation gives the vector
another array, and a pointer into the array it had before dangles. -/
structure RssBufferVector where
  data : List Nat
  capacity : Nat
  array : Nat
  deriving DecidableEq, Repr

/-- Function `RssBuffer::ensure_buffer_bytes(skt, required_size)` on the
vector. The loop appends what a socket read brings with
`data.insert(data.end(), ...)`, which reallocates when the new size exceeds the
capacity. The loop only adds bytes, so the vector has another array after the
call exactly when its size then exceeds the capacity it had before the call.
`grow c n` is the capacity that the library chooses when it reallocates a
vector of the capacity `c` for `n` bytes. -/
def RssBufferVector.ensure_buffer_bytes (grow : Nat → Nat → Nat) (v : RssBufferVector)
    (reads : List StRead) (required_size : Int) :
    Option (RssBufferVector × Except RssError Unit × List StRead) :=
  match RssBuffer.ensure_buffer_bytes v.data reads required_size with
  | none => none
  | some (data, ret, reads) =>
    some (if data.length ≤ v.capacity then { v with data := data }
          else { data := data, capacity := grow v.capacity data.length, array := v.array + 1 },
          ret, reads)

/-- Function `RssProtocol::read_message_header` on the vector of the
`RssBuffer` and the outcomes of the socket reads still to come. The pointer
`p = buffer->bytes() + bh_size` is taken after the first `ensure_buffer_bytes`
and points into the array the vector has then. For the extended timestamp the
function calls `ensure_buffer_bytes` again and reads the four bytes through
the same `p`: when that call has reallocated the vector, `p` dangles and the
read is reported as `undefined_behavior`. Returns the chunk stream, the vector,
the outcomes not used and either the error or `mh_size`; `none`: the outcomes
ran out while `ensure_buffer_bytes` was still reading. -/
def read_message_header_vector (grow : Nat → Nat → Nat) (chunk : RssChunkStream) (fmt : Int)
    (bh_size : Nat) (v : RssBufferVector) (reads : List StRead) :
    Option (RssChunkStream × RssBufferVector × List StRead × Except RssError Nat) :=
  let is_fresh_packet := chunk.msg.isNone
  if chunk.msg_count = 0 ∧ fmt ≠ RTMP_FMT_TYPE0 then some (chunk, v, reads, .error .chunk_start)
  else if chunk.msg.isSome ∧ fmt = RTMP_FMT_TYPE0 then
    some (chunk, v, reads, .error .chunk_start)
  else
    let chunk := if chunk.msg.isNone then { chunk with msg := some RssCommonMessage.new }
                 else chunk
    let mh_size := mh_sizes fmt
    match v.ensure_buffer_bytes grow reads ((bh_size + mh_size : Nat) : Int) with
    | none => none
    | some (v, .error e, reads) => some (chunk, v, reads, .error e)
    | some (v1, .ok _, reads) =>
      let (chunk, used) :=
        parse_message_header chunk fmt is_fresh_packet (fun i => v1.data.getD (bh_size + i) 0)
      if chunk.extended_timestamp then
        let mh_size := mh_size + 4
        match v1.ensure_buffer_bytes grow reads ((bh_size + mh_size : Nat) : Int) with
        | none => none
        | some (v, .error e, reads) => some (chunk, v, reads, .error e)
        | some (v2, .ok _, reads) =>
          if v2.array ≠ v1.array then some (chunk, v2, reads, .error .undefined_behavior)
          else
            let q := bh_size + used
            let ts := int32OfBytes (v2.data.getD (q + 3) 0) (v2.data.getD (q + 2) 0)
                        (v2.data.getD (q + 1) 0) (v2.data.getD q 0)
            match finish_message_header
                { chunk with header := { chunk.header with timestamp := ts } } mh_size with
            | (chunk, ret) => some (chunk, v2, reads, ret)
      else
        match finish_message_header chunk mh_size with
        | (chunk, ret) => some (chunk, v1, reads, ret)

/-! ## Extended timestamp: example data -/

/-- The basic header and the message header of a format-0 chunk on chunk
stream 3 with `FF FF FF` in the timestamp field: length 1, type 8, stream 1. -/
def example_ext_header : List Nat :=
  [0x03, 0xFF, 0xFF, 0xFF, 0x00, 0x00, 0x01, 0x08, 0x01, 0x00, 0x00, 0x00]

/-- The extended timestamp `0x01000000` and the payload byte of the chunk. -/
def example_ext_tail : List Nat := [0x01, 0x00, 0x00, 0x00, 0xAA]

/-- A receive buffer that holds the 12 header bytes and has no room for more,
as after a socket read that brought exactly these bytes into the empty
vector. -/
def example_ext_vector : RssBufferVector :=
  { data := example_ext_header, capacity := 12, array := 0 }

/-- The socket read that brings the extended timestamp and the payload. -/
def example_ext_reads : List StRead :=
  [{ nread := 5, etime := false, bytes := example_ext_tail }]

/-- A receive buffer that holds the whole chunk. -/
def example_ext_vector_whole : RssBufferVector :=
  { data := example_ext_header ++ example_ext_tail, capacity := 17, array := 0 }

/-- A chunk stream in extended-timestamp mode with a partial message: one
byte received of two. -/
def example_ext_chunk : RssChunkStream :=
  { fmt := 0, cid := 3,
    header := { message_type := 8, payload_length := 2, timestamp_delta := 0xFFFFFF,
                stream_id := 1, timestamp := 0x01000000 },
    extended_timestamp := true,
    msg := some { header := { message_type := 8, payload_length := 2,
                              timestamp_delta := 0xFFFFFF, stream_id := 1,
                              timestamp := 0x01000000 },
                  size := 1, payload := some [0xAA, 0x00] },
    msg_count := 1 }

/-- A receive buffer that holds the basic header `C3` of a format-3 chunk in
an array of 17 bytes, as left from a chunk of 17 bytes. -/
def example_ext_vector_fmt3 : RssBufferVector :=
  { data := [0xC3], capacity := 17, array := 0 }

/-- The socket read that brings the extended timestamp `0x02000000` of the
format-3 chunk, its payload byte and 15 bytes more. -/
def example_ext_reads_fmt3 : List StRead :=
  [{ nread := 20, etime := false,
     bytes := [0x02, 0x00, 0x00, 0x00, 0xBB] ++ List.replicate 15 0x00 }]

/-- The message of scenario F with a timestamp below `0xFFFFFF`: timestamp
1000, 300 payload bytes. -/
def example_message_300_plain : IRssMessage :=
  { header := { message_type := 9, payload_length := 300, timestamp_delta := 0,
                stream_id := 1, timestamp := 1000 },
    size := 300, payload := some ((List.range 300).map (fun i => i % 256)), perfer_cid := 6 }

end Rss

/-! ## Lemmas on machine integers and buffers -/

namespace Rss

theorem byte0_lt (x : Int) : byte0 x < 256 := by unfold byte0; omega
theorem byte1_lt (x : Int) : byte1 x < 256 := by unfold byte1; omega
theorem byte2_lt (x : Int) : byte2 x < 256 := by unfold byte2; omega
theorem byte3_lt (x : Int) : byte3 x < 256 := by unfold byte3; omega

theorem int32OfBytes_bytes (x : Int) (h1 : -2147483648 ≤ x) (h2 : x < 2147483648) :
    int32OfBytes (byte0 x) (byte1 x) (byte2 x) (byte3 x) = x := by
  unfold int32OfBytes toInt32 byte0 byte1 byte2 byte3
  omega

theorem int32OfBytes_low3 (x : Int) (h1 : 0 ≤ x) (h2 : x < 16777216) :
    int32OfBytes (byte0 x) (byte1 x) (byte2 x) 0 = x := by
  unfold int32OfBytes toInt32 byte0 byte1 byte2
  omega

theorem toInt8_byte0 (x : Int) (h1 : -128 ≤ x) (h2 : x < 128) : toInt8 (byte0 x) = x := by
  unfold toInt8 byte0
  split <;> omega

theorem getD_append_add (pre l : List Nat) (i : Nat) :
    (pre ++ l).getD (pre.length + i) 0 = l.getD i 0 := by
  rw [List.getD_append_right _ _ _ _ (by omega)]
  congr 1
  omega

/-! ## Basic header -/

/-- What `read_basic_header` computes on both kinds of platform: `fmt` is
`b >> 6`, a one-byte header has `cid = b & 0x3F`, and the following bytes of a
two- or three-byte header enter `cid` as plain `char` values. -/
theorem read_basic_header_value (cs : Bool) (b b1 b2 : Nat) (rest : List Nat)
    (hb : b < 256) :
    read_basic_header cs (b :: b1 :: b2 :: rest) =
      .ok ((b / 64 : Nat),
           if b % 64 ≥ 2 then ((b % 64 : Nat) : Int)
           else if b % 64 = 0 then 64 + charValue cs b1
           else 64 + charValue cs b1 + charValue cs b2 * 256,
           if b % 64 ≥ 2 then 1 else if b % 64 = 0 then 2 else 3) := by
  have hfmt : (charValue cs b / 64) % 4 = ((b / 64 : Nat) : Int) := by
    unfold charValue toInt8; split <;> [split; skip] <;> omega
  have hcid : charValue cs b % 64 = ((b % 64 : Nat) : Int) := by
    unfold charValue toInt8; split <;> [split; skip] <;> omega
  unfold read_basic_header
  simp only [List.length_cons, List.getD_cons_zero, List.getD_cons_succ, hfmt, hcid]
  split_ifs <;> first | rfl | omega

/-- C7 (failing input). With a signed plain `char` the second byte of a
two-byte basic header is sign-extended: the bytes `00 80` give chunk id
`64 - 128 = -64`, not `64 + 128 = 192`; a three-byte header `01 80 80` gives
`64 - 128 - 128 * 256 = -32832`, not `64 + 128 + 256 * 128 = 32960`. -/
theorem read_basic_header_signed_char :
    read_basic_header true [0x00, 0x80] = .ok (0, -64, 2)
    ∧ read_basic_header true [0x01, 0x80, 0x80] = .ok (0, -32832, 3) := by
  constructor <;> rfl

/-! ## Message header -/

theorem read_message_header_eq (chunk : RssChunkStream) (fmt : Int) (bh_size : Nat)
    (buffer : List Nat) (c1 : RssChunkStream) (used : Nat)
    (h1 : ¬ (chunk.msg_count = 0 ∧ fmt ≠ RTMP_FMT_TYPE0))
    (h2 : ¬ (chunk.msg.isSome = true ∧ fmt = RTMP_FMT_TYPE0))
    (hlen : ¬ buffer.length < bh_size + mh_sizes fmt)
    (hp : parse_message_header
            (if chunk.msg.isNone = true then { chunk with msg := some RssCommonMessage.new }
             else chunk)
            fmt chunk.msg.isNone (fun i => buffer.getD (bh_size + i) 0) = (c1, used)) :
    read_message_header chunk fmt bh_size buffer =
      if c1.extended_timestamp = true then
        if buffer.length < bh_size + (mh_sizes fmt + 4) then (c1, .error .socket)
        else
          finish_message_header
            { fmt := c1.fmt, cid := c1.cid,
              header := { message_type := c1.header.message_type,
                          payload_length := c1.header.payload_length,
                          timestamp_delta := c1.header.timestamp_delta,
                          stream_id := c1.header.stream_id,
                          timestamp := int32OfBytes (buffer.getD (bh_size + used + 3) 0)
                            (buffer.getD (bh_size + used + 2) 0)
                            (buffer.getD (bh_size + used + 1) 0)
                            (buffer.getD (bh_size + used) 0) },
              extended_timestamp := c1.extended_timestamp, msg := c1.msg,
              msg_count := c1.msg_count } (mh_sizes fmt + 4)
      else finish_message_header c1 (mh_sizes fmt) := by
  unfold read_message_header
  simp only [h1, h2, hlen, if_false, hp]

theorem read_message_header_fresh (chunk : RssChunkStream) (fmt : Int) (bh_size : Nat)
    (buffer : List Nat) (c1 : RssChunkStream) (used : Nat)
    (hmsg : chunk.msg = none)
    (h1 : ¬ (chunk.msg_count = 0 ∧ fmt ≠ RTMP_FMT_TYPE0))
    (hlen : ¬ buffer.length < bh_size + mh_sizes fmt)
    (hp : parse_message_header { chunk with msg := some RssCommonMessage.new }
            fmt true (fun i => buffer.getD (bh_size + i) 0) = (c1, used)) :
    read_message_header chunk fmt bh_size buffer =
      if c1.extended_timestamp = true then
        if buffer.length < bh_size + (mh_sizes fmt + 4) then (c1, .error .socket)
        else
          finish_message_header
            { fmt := c1.fmt, cid := c1.cid,
              header := { message_type := c1.header.message_type,
                          payload_length := c1.header.payload_length,
                          timestamp_delta := c1.header.timestamp_delta,
                          stream_id := c1.header.stream_id,
                          timestamp := int32OfBytes (buffer.getD (bh_size + used + 3) 0)
                            (buffer.getD (bh_size + used + 2) 0)
                            (buffer.getD (bh_size + used + 1) 0)
                            (buffer.getD (bh_size + used) 0) },
              extended_timestamp := c1.extended_timestamp, msg := c1.msg,
              msg_count := c1.msg_count } (mh_sizes fmt + 4)
      else finish_message_header c1 (mh_sizes fmt) := by
  apply read_message_header_eq chunk fmt bh_size buffer c1 used h1 _ hlen
  · rw [hmsg]; exact hp
  · rw [hmsg]; simp

theorem read_message_header_partial (chunk : RssChunkStream) (fmt : Int) (bh_size : Nat)
    (buffer : List Nat) (c1 : RssChunkStream) (used : Nat) (m : RssCommonMessage)
    (hmsg : chunk.msg = some m) (hfmt : fmt ≠ RTMP_FMT_TYPE0)
    (h1 : chunk.msg_count ≠ 0)
    (hlen : ¬ buffer.length < bh_size + mh_sizes fmt)
    (hp : parse_message_header chunk fmt false (fun i => buffer.getD (bh_size + i) 0)
            = (c1, used)) :
    read_message_header chunk fmt bh_size buffer =
      if c1.extended_timestamp = true then
        if buffer.length < bh_size + (mh_sizes fmt + 4) then (c1, .error .socket)
        else
          finish_message_header
            { fmt := c1.fmt, cid := c1.cid,
              header := { message_type := c1.header.message_type,
                          payload_length := c1.header.payload_length,
                          timestamp_delta := c1.header.timestamp_delta,
                          stream_id := c1.header.stream_id,
                          timestamp := int32OfBytes (buffer.getD (bh_size + used + 3) 0)
                            (buffer.getD (bh_size + used + 2) 0)
                            (buffer.getD (bh_size + used + 1) 0)
                            (buffer.getD (bh_size + used) 0) },
              extended_timestamp := c1.extended_timestamp, msg := c1.msg,
              msg_count := c1.msg_count } (mh_sizes fmt + 4)
      else finish_message_header c1 (mh_sizes fmt) := by
  apply read_message_header_eq chunk fmt bh_size buffer c1 used (by simp [h1]) _ hlen
  · rw [hmsg]; exact hp
  · simp [hfmt]

theorem parse_fmt0 (chunk : RssChunkStream) (fresh : Bool) (b : Nat → Nat) :
    parse_message_header chunk 0 fresh b =
      ({ chunk with
          header :=
            { message_type := toInt8 (b 6),
              payload_length := int32OfBytes (b 5) (b 4) (b 3) 0,
              timestamp_delta := int32OfBytes (b 2) (b 1) (b 0) 0,
              stream_id := int32OfBytes (b 7) (b 8) (b 9) (b 10),
              timestamp := if int32OfBytes (b 2) (b 1) (b 0) 0 ≥ RTMP_EXTENDED_TIMESTAMP
                then RTMP_EXTENDED_TIMESTAMP else int32OfBytes (b 2) (b 1) (b 0) 0 },
          extended_timestamp :=
            decide (int32OfBytes (b 2) (b 1) (b 0) 0 ≥ RTMP_EXTENDED_TIMESTAMP) },
       11) := by
  simp [parse_message_header, RTMP_FMT_TYPE0, RTMP_FMT_TYPE1, RTMP_FMT_TYPE2]

theorem parse_fmt1 (chunk : RssChunkStream) (fresh : Bool) (b : Nat → Nat) :
    parse_message_header chunk 1 fresh b =
      ({ chunk with
          header :=
            { message_type := toInt8 (b 6),
              payload_length := int32OfBytes (b 5) (b 4) (b 3) 0,
              timestamp_delta := int32OfBytes (b 2) (b 1) (b 0) 0,
              stream_id := chunk.header.stream_id,
              timestamp := if int32OfBytes (b 2) (b 1) (b 0) 0 ≥ RTMP_EXTENDED_TIMESTAMP
                then RTMP_EXTENDED_TIMESTAMP
                else toInt32 (chunk.header.timestamp + int32OfBytes (b 2) (b 1) (b 0) 0) },
          extended_timestamp :=
            decide (int32OfBytes (b 2) (b 1) (b 0) 0 ≥ RTMP_EXTENDED_TIMESTAMP) },
       7) := by
  simp [parse_message_header, RTMP_FMT_TYPE0, RTMP_FMT_TYPE1, RTMP_FMT_TYPE2]

theorem parse_fmt2 (chunk : RssChunkStream) (fresh : Bool) (b : Nat → Nat) :
    parse_message_header chunk 2 fresh b =
      ({ chunk with
          header :=
            { message_type := chunk.header.message_type,
              payload_length := chunk.header.payload_length,
              timestamp_delta := int32OfBytes (b 2) (b 1) (b 0) 0,
              stream_id := chunk.header.stream_id,
              timestamp := if int32OfBytes (b 2) (b 1) (b 0) 0 ≥ RTMP_EXTENDED_TIMESTAMP
                then RTMP_EXTENDED_TIMESTAMP
                else toInt32 (chunk.header.timestamp + int32OfBytes (b 2) (b 1) (b 0) 0) },
          extended_timestamp :=
            decide (int32OfBytes (b 2) (b 1) (b 0) 0 ≥ RTMP_EXTENDED_TIMESTAMP) },
       3) := by
  simp [parse_message_header, RTMP_FMT_TYPE0, RTMP_FMT_TYPE1, RTMP_FMT_TYPE2]

theorem parse_fmt3 (chunk : RssChunkStream) (fresh : Bool) (b : Nat → Nat) :
    parse_message_header chunk 3 fresh b =
      if fresh = true ∧ chunk.extended_timestamp = false then
        ({ chunk with
            header := { message_type := chunk.header.message_type,
                        payload_length := chunk.header.payload_length,
                        timestamp_delta := chunk.header.timestamp_delta,
                        stream_id := chunk.header.stream_id,
                        timestamp :=
                          toInt32 (chunk.header.timestamp + chunk.header.timestamp_delta) } }, 0)
      else (chunk, 0) := by
  simp [parse_message_header, RTMP_FMT_TYPE0, RTMP_FMT_TYPE1, RTMP_FMT_TYPE2]

theorem int32OfBytes_nonneg (b0 b1 b2 : Nat) : 0 ≤ int32OfBytes b0 b1 b2 0 := by
  unfold int32OfBytes toInt32; omega

/-- C9. A chunk whose 3-byte timestamp field `d` is below `0xFFFFFF`: format 0
sets `timestamp = d` and reads `payload_length` (3 bytes big-endian),
`message_type` (1 byte) and `stream_id` (4 bytes little-endian); format 1 sets
`timestamp = previous + d` wrapped to 32 bits, reads `payload_length` and
`message_type` and keeps `stream_id`; format 2 sets `timestamp = previous + d`
wrapped to 32 bits and keeps `payload_length`, `message_type` and `stream_id`.
Format 0 is read on a chunk stream without a partial message, formats 1 and 2
on one that has parsed a header before; the call then succeeds with the header
size 11, 7 or 3 (for format 2 when the kept length is not negative). -/
theorem read_message_header_fmt012 (chunk : RssChunkStream) (pre rest : List Nat)
    (t2 t1 t0 l2 l1 l0 mt s0 s1 s2 s3 : Nat)
    (ht2 : t2 < 256) (ht1 : t1 < 256) (ht0 : t0 < 256)
    (hl2 : l2 < 256) (hl1 : l1 < 256) (hl0 : l0 < 256)
    (hd : t2 * 65536 + t1 * 256 + t0 < 0xFFFFFF) :
    (chunk.msg = none →
      (read_message_header chunk 0 pre.length
        (pre ++ [t2, t1, t0, l2, l1, l0, mt, s0, s1, s2, s3] ++ rest)).2 = .ok 11
      ∧ (read_message_header chunk 0 pre.length
        (pre ++ [t2, t1, t0, l2, l1, l0, mt, s0, s1, s2, s3] ++ rest)).1.header
        = { message_type := toInt8 mt,
            payload_length := ((l2 * 65536 + l1 * 256 + l0 : Nat) : Int),
            timestamp_delta := ((t2 * 65536 + t1 * 256 + t0 : Nat) : Int),
            stream_id := int32OfBytes s0 s1 s2 s3,
            timestamp := ((t2 * 65536 + t1 * 256 + t0 : Nat) : Int) })
    ∧ (chunk.msg_count ≠ 0 →
      (read_message_header chunk 1 pre.length
        (pre ++ [t2, t1, t0, l2, l1, l0, mt] ++ rest)).2 = .ok 7
      ∧ (read_message_header chunk 1 pre.length
        (pre ++ [t2, t1, t0, l2, l1, l0, mt] ++ rest)).1.header
        = { message_type := toInt8 mt,
            payload_length := ((l2 * 65536 + l1 * 256 + l0 : Nat) : Int),
            timestamp_delta := ((t2 * 65536 + t1 * 256 + t0 : Nat) : Int),
            stream_id := chunk.header.stream_id,
            timestamp := toInt32 (chunk.header.timestamp
                          + ((t2 * 65536 + t1 * 256 + t0 : Nat) : Int)) })
    ∧ (chunk.msg_count ≠ 0 →
      (0 ≤ chunk.header.payload_length →
        (read_message_header chunk 2 pre.length (pre ++ [t2, t1, t0] ++ rest)).2 = .ok 3)
      ∧ (read_message_header chunk 2 pre.length (pre ++ [t2, t1, t0] ++ rest)).1.header
        = { message_type := chunk.header.message_type,
            payload_length := chunk.header.payload_length,
            timestamp_delta := ((t2 * 65536 + t1 * 256 + t0 : Nat) : Int),
            stream_id := chunk.header.stream_id,
            timestamp := toInt32 (chunk.header.timestamp
                          + ((t2 * 65536 + t1 * 256 + t0 : Nat) : Int)) }) := by
  have hdelta : int32OfBytes t0 t1 t2 0 = ((t2 * 65536 + t1 * 256 + t0 : Nat) : Int) := by
    unfold int32OfBytes toInt32; omega
  have hlen : int32OfBytes l0 l1 l2 0 = ((l2 * 65536 + l1 * 256 + l0 : Nat) : Int) := by
    unfold int32OfBytes toInt32; omega
  have hnext : ¬ ((t2 * 65536 + t1 * 256 + t0 : Nat) : Int) ≥ RTMP_EXTENDED_TIMESTAMP := by
    unfold RTMP_EXTENDED_TIMESTAMP; omega
  have hlen0 : ¬ ((l2 * 65536 + l1 * 256 + l0 : Nat) : Int) < 0 := by omega
  refine ⟨?_, ?_, ?_⟩
  · intro hmsg
    generalize hbuf : pre ++ [t2, t1, t0, l2, l1, l0, mt, s0, s1, s2, s3] ++ rest = buf
    have hg : ∀ i, i < 11 → buf.getD (pre.length + i) 0
        = [t2, t1, t0, l2, l1, l0, mt, s0, s1, s2, s3].getD i 0 := by
      intro i hi
      rw [← hbuf, List.append_assoc, getD_append_add, List.getD_append _ _ _ _ (by simpa using hi)]
    have hp := parse_fmt0 { chunk with msg := some RssCommonMessage.new } true
      (fun i => buf.getD (pre.length + i) 0)
    simp only [hg 0 (by omega), hg 1 (by omega), hg 2 (by omega), hg 3 (by omega),
      hg 4 (by omega), hg 5 (by omega), hg 6 (by omega), hg 7 (by omega), hg 8 (by omega),
      hg 9 (by omega), hg 10 (by omega), List.getD_cons_succ, List.getD_cons_zero,
      hdelta, hlen, hnext, if_false, decide_False] at hp
    rw [read_message_header_fresh chunk 0 pre.length buf _ 11 hmsg (by simp [RTMP_FMT_TYPE0])
      (by rw [← hbuf]; simp [mh_sizes]) hp]
    simp only [Bool.false_eq_true, if_false, finish_message_header, hlen0, mh_sizes, if_true]
    exact ⟨trivial, trivial⟩
  · intro hcount
    generalize hbuf : pre ++ [t2, t1, t0, l2, l1, l0, mt] ++ rest = buf
    have hg : ∀ i, i < 7 → buf.getD (pre.length + i) 0
        = [t2, t1, t0, l2, l1, l0, mt].getD i 0 := by
      intro i hi
      rw [← hbuf, List.append_assoc, getD_append_add, List.getD_append _ _ _ _ (by simpa using hi)]
    generalize hc0 : (if chunk.msg.isNone = true then
      { chunk with msg := some RssCommonMessage.new } else chunk) = c0
    have hc0h : c0.header = chunk.header := by rw [← hc0]; split <;> rfl
    have hp := parse_fmt1 c0 chunk.msg.isNone (fun i => buf.getD (pre.length + i) 0)
    simp only [hg 0 (by omega), hg 1 (by omega), hg 2 (by omega), hg 3 (by omega),
      hg 4 (by omega), hg 5 (by omega), hg 6 (by omega), List.getD_cons_succ,
      List.getD_cons_zero, hdelta, hlen, hnext, if_false, decide_False, hc0h] at hp
    rw [read_message_header_eq chunk 1 pre.length buf _ 7 (by simp [hcount])
      (by simp [RTMP_FMT_TYPE0]) (by rw [← hbuf]; simp [mh_sizes]) (by rw [hc0]; exact hp)]
    simp only [Bool.false_eq_true, if_false, finish_message_header, hlen0, mh_sizes, if_true]
    exact ⟨by simp, trivial⟩
  · intro hcount
    generalize hbuf : pre ++ [t2, t1, t0] ++ rest = buf
    have hg : ∀ i, i < 3 → buf.getD (pre.length + i) 0 = [t2, t1, t0].getD i 0 := by
      intro i hi
      rw [← hbuf, List.append_assoc, getD_append_add, List.getD_append _ _ _ _ (by simpa using hi)]
    generalize hc0 : (if chunk.msg.isNone = true then
      { chunk with msg := some RssCommonMessage.new } else chunk) = c0
    have hc0h : c0.header = chunk.header := by rw [← hc0]; split <;> rfl
    have hp := parse_fmt2 c0 chunk.msg.isNone (fun i => buf.getD (pre.length + i) 0)
    simp only [hg 0 (by omega), hg 1 (by omega), hg 2 (by omega), List.getD_cons_succ,
      List.getD_cons_zero, hdelta, hnext, if_false, decide_False, hc0h] at hp
    rw [read_message_header_eq chunk 2 pre.length buf _ 3 (by simp [hcount])
      (by simp [RTMP_FMT_TYPE0]) (by rw [← hbuf]; simp [mh_sizes]) (by rw [hc0]; exact hp)]
    simp only [Bool.false_eq_true, if_false, finish_message_header, mh_sizes]
    refine ⟨?_, ?_⟩
    · intro h0
      rw [if_neg (by omega)]
      simp
    · split <;> rfl

/-- C9 (witness). The header `00 00 1A 00 00 9D 08 01 00 00 00` after the
basic header `04`, read as format 0 on a new chunk stream, gives timestamp 26,
length 157, type 8 and stream id 1; the header `00 00 1A` after `84`, read as
format 2 on the resulting chunk stream, gives timestamp 52 and keeps the rest. -/
theorem read_message_header_fmt012_witness :
    (0x00 * 65536 + 0x00 * 256 + 0x1A < 0xFFFFFF)
    ∧ ((read_message_header (RssChunkStream.new 4) 0 1
          [0x04, 0x00, 0x00, 0x1A, 0x00, 0x00, 0x9D, 0x08, 0x01, 0x00, 0x00, 0x00]).2 = .ok 11
      ∧ (read_message_header (RssChunkStream.new 4) 0 1
          [0x04, 0x00, 0x00, 0x1A, 0x00, 0x00, 0x9D, 0x08, 0x01, 0x00, 0x00, 0x00]).1.header
        = { message_type := 8, payload_length := 157, timestamp_delta := 26,
            stream_id := 1, timestamp := 26 })
    ∧ ((read_message_header
          { RssChunkStream.new 4 with
            header := { message_type := 8, payload_length := 157, timestamp_delta := 26,
                        stream_id := 1, timestamp := 26 },
            msg_count := 1 } 2 1 [0x84, 0x00, 0x00, 0x1A]).1.header
        = { message_type := 8, payload_length := 157, timestamp_delta := 26,
            stream_id := 1, timestamp := 52 }) :=
  ⟨by decide,
   (read_message_header_fmt012 (RssChunkStream.new 4) [0x04] []
      0x00 0x00 0x1A 0x00 0x00 0x9D 0x08 0x01 0x00 0x00 0x00
      (by decide) (by decide) (by decide) (by decide) (by decide) (by decide) (by decide)).1 rfl,
   ((read_message_header_fmt012
      { RssChunkStream.new 4 with
        header := { message_type := 8, payload_length := 157, timestamp_delta := 26,
                    stream_id := 1, timestamp := 26 },
        msg_count := 1 } [0x84] []
      0x00 0x00 0x1A 0x00 0x00 0x9D 0x08 0x01 0x00 0x00 0x00
      (by decide) (by decide) (by decide) (by decide) (by decide) (by decide)
      (by decide)).2.2 (by decide)).2⟩

/-- C10. On a chunk stream that is not in extended-timestamp mode (and has
read a header before, so that format 3 is accepted) a format-3 chunk leaves
`payload_length`, `message_type`, `stream_id` and `timestamp_delta` unchanged;
when no partial message exists it adds the stored `timestamp_delta` to
`timestamp` once (wrapped to 32 bits), and when it continues a partial message
it leaves `timestamp` unchanged. The header size is 0 and the call succeeds
when the kept length is not negative. -/
theorem read_message_header_fmt3 (chunk : RssChunkStream) (bh_size : Nat) (buffer : List Nat)
    (hext : chunk.extended_timestamp = false) (hcount : chunk.msg_count ≠ 0)
    (hlen : bh_size ≤ buffer.length) :
    (read_message_header chunk 3 bh_size buffer).1.header.payload_length
        = chunk.header.payload_length
    ∧ (read_message_header chunk 3 bh_size buffer).1.header.message_type
        = chunk.header.message_type
    ∧ (read_message_header chunk 3 bh_size buffer).1.header.stream_id = chunk.header.stream_id
    ∧ (read_message_header chunk 3 bh_size buffer).1.header.timestamp_delta
        = chunk.header.timestamp_delta
    ∧ (chunk.msg = none →
        (read_message_header chunk 3 bh_size buffer).1.header.timestamp
          = toInt32 (chunk.header.timestamp + chunk.header.timestamp_delta))
    ∧ (chunk.msg ≠ none →
        (read_message_header chunk 3 bh_size buffer).1.header.timestamp = chunk.header.timestamp)
    ∧ (0 ≤ chunk.header.payload_length →
        (read_message_header chunk 3 bh_size buffer).2 = .ok 0) := by
  cases hmsg : chunk.msg with
  | none =>
    have hp := parse_fmt3 { chunk with msg := some RssCommonMessage.new } true
      (fun i => buffer.getD (bh_size + i) 0)
    rw [if_pos ⟨rfl, hext⟩] at hp
    have hr := read_message_header_fresh chunk 3 bh_size buffer _ 0 hmsg (by simp [hcount])
      (by simp [mh_sizes]; omega) hp
    rw [if_neg (by simp [hext])] at hr
    unfold finish_message_header at hr
    by_cases h0 : chunk.header.payload_length < 0
    · rw [if_pos h0] at hr
      rw [hr]
      exact ⟨rfl, rfl, rfl, rfl, fun _ => rfl, fun h => absurd rfl h, fun h => by omega⟩
    · rw [if_neg h0] at hr
      rw [hr]
      exact ⟨rfl, rfl, rfl, rfl, fun _ => rfl, fun h => absurd rfl h, fun _ => rfl⟩
  | some m =>
    have hp := parse_fmt3 chunk false (fun i => buffer.getD (bh_size + i) 0)
    rw [if_neg (by simp)] at hp
    have hr := read_message_header_partial chunk 3 bh_size buffer _ 0 m hmsg
      (by simp [RTMP_FMT_TYPE0]) hcount (by simp [mh_sizes]; omega) hp
    rw [if_neg (by simp [hext])] at hr
    unfold finish_message_header at hr
    by_cases h0 : chunk.header.payload_length < 0
    · rw [if_pos h0] at hr
      rw [hr]
      exact ⟨rfl, rfl, rfl, rfl, fun h => by simp at h, fun _ => rfl, fun h => by omega⟩
    · rw [if_neg h0] at hr
      rw [hr]
      exact ⟨rfl, rfl, rfl, rfl, fun h => by simp at h, fun _ => rfl, fun _ => rfl⟩

/-- C10 (witness). After the packet of the source comment (timestamp 26,
delta 26) the chunk `c4` starts a new message with format 3: the timestamp
becomes 52 and the call succeeds with header size 0. -/
theorem read_message_header_fmt3_witness :
    example_audio_chunk.extended_timestamp = false
    ∧ example_audio_chunk.msg_count ≠ 0
    ∧ 1 ≤ [0xC4].length
    ∧ (read_message_header example_audio_chunk 3 1 [0xC4]).1.header.timestamp = 52
    ∧ (read_message_header example_audio_chunk 3 1 [0xC4]).2 = .ok 0 :=
  ⟨rfl, by decide, by decide,
   (read_message_header_fmt3 example_audio_chunk 1 [0xC4] rfl (by decide)
      (by decide)).2.2.2.2.1 rfl,
   (read_message_header_fmt3 example_audio_chunk 1 [0xC4] rfl (by decide)
      (by decide)).2.2.2.2.2.2 (by decide)⟩

end Rss

namespace Rss

/-! ## Sender -/

theorem rss_min_cast (a b : Nat) : rss_min (a : Int) (b : Int) = ((min a b : Nat) : Int) := by
  unfold rss_min
  split <;> omega

theorem chunk_list_length (msg : IRssMessage) (pl : List Nat) (n k p : Nat) :
    (chunk_list msg pl n k p).length = k := by
  induction k generalizing p with
  | zero => rfl
  | succ k ih => simp [chunk_list, ih]

theorem chunk_list_get (msg : IRssMessage) (pl : List Nat) (n k p i : Nat) (hi : i < k) :
    (chunk_list msg pl n k p).get? i
      = some (if p + i * n = 0 then fmt0_header msg else fmt3_header msg,
              (pl.drop (p + i * n)).take n) := by
  induction k generalizing p i with
  | zero => omega
  | succ k ih =>
    cases i with
    | zero => simp [chunk_list]
    | succ i =>
      simp only [chunk_list, List.get?_cons_succ]
      rw [ih (p + n) i (by omega)]
      have : p + n + i * n = p + (i + 1) * n := by ring
      rw [this]

theorem chunk_list_payload (msg : IRssMessage) (pl : List Nat) (n k p : Nat) :
    ((chunk_list msg pl n k p).map Prod.snd).flatten = (pl.drop p).take (k * n) := by
  induction k generalizing p with
  | zero => simp [chunk_list]
  | succ k ih =>
    simp only [chunk_list, List.map_cons, List.flatten_cons, ih]
    have h1 : (k + 1) * n = n + k * n := by ring
    rw [h1, List.take_add, List.drop_drop]

/-- The loop of `send_message` produces the chunk list of the specification
whenever the chunk size is at least 1 and the fuel covers the chunk count. -/
theorem send_loop_eq (msg : IRssMessage) (pl : List Nat) (n : Nat)
    (hpl : msg.payload = some pl) (hsize : msg.size = (pl.length : Int)) (hn : 1 ≤ n) :
    ∀ (fuel p : Nat), p < pl.length → (pl.length - p + n - 1) / n ≤ fuel →
      send_loop msg (n : Int) fuel (p : Int)
        = some (chunk_list msg pl n ((pl.length - p + n - 1) / n) p) := by
  intro fuel
  induction fuel with
  | zero =>
    intro p hp hf
    have : 0 < (pl.length - p + n - 1) / n := Nat.div_pos (by omega) (by omega)
    omega
  | succ fuel ih =>
    intro p hp hf
    unfold send_loop
    have hmin : rss_min ((pl.length : Int) - (p : Int)) (n : Int)
        = ((min (pl.length - p) n : Nat) : Int) := by
      rw [← rss_min_cast]; congr 1; omega
    have hp0 : ((p : Int) = 0) ↔ p = 0 := by omega
    have htake : (pl.drop p).take (min (pl.length - p) n) = (pl.drop p).take n := by
      rw [List.take_eq_take]
      simp [List.length_drop]
      omega
    simp only [hsize, hmin, hpl, Option.getD_some, Int.toNat_ofNat, Option.isSome_some, true_and,
      hp0, htake]
    have hpos : (pl.length : Int) > 0 := by omega
    rw [if_pos hpos]
    by_cases hlast : p + n < pl.length
    · have hk : (pl.length - p + n - 1) / n = (pl.length - (p + n) + n - 1) / n + 1 := by
        have : pl.length - p + n - 1 = (pl.length - (p + n) + n - 1) + n := by omega
        rw [this, Nat.add_div_right _ (by omega)]
      have hp1 : (p : Int) + ((min (pl.length - p) n : Nat) : Int) = ((p + n : Nat) : Int) := by
        omega
      rw [if_pos (by omega), hp1, ih (p + n) hlast (by omega), hk]
      simp [chunk_list]
    · have hk : (pl.length - p + n - 1) / n = 1 := by
        exact Nat.div_eq_of_lt_le (by omega) (by omega)
      rw [if_neg (by omega), hk]
      simp [chunk_list]

theorem fmt0_header_shape (msg : IRssMessage) :
    ∃ mh ext, fmt0_header msg = [(msg.perfer_cid % 64).toNat] ++ mh ++ ext
      ∧ mh.length = 11 ∧ (ext = [] ∨ ext.length = 4) := by
  unfold fmt0_header
  by_cases h : msg.header.timestamp ≥ RTMP_EXTENDED_TIMESTAMP
  · simp only [if_pos h, zero_add]
    exact ⟨[0xFF, 0xFF, 0xFF, byte2 msg.header.payload_length, byte1 msg.header.payload_length,
        byte0 msg.header.payload_length, byte0 msg.header.message_type,
        byte0 msg.header.stream_id, byte1 msg.header.stream_id, byte2 msg.header.stream_id,
        byte3 msg.header.stream_id],
      [byte3 msg.header.timestamp, byte2 msg.header.timestamp, byte1 msg.header.timestamp,
        byte0 msg.header.timestamp], rfl, rfl, Or.inr rfl⟩
  · simp only [if_neg h, zero_add]
    exact ⟨[byte2 msg.header.timestamp, byte1 msg.header.timestamp, byte0 msg.header.timestamp,
        byte2 msg.header.payload_length, byte1 msg.header.payload_length,
        byte0 msg.header.payload_length, byte0 msg.header.message_type,
        byte0 msg.header.stream_id, byte1 msg.header.stream_id, byte2 msg.header.stream_id,
        byte3 msg.header.stream_id], [], rfl, rfl, Or.inl rfl⟩

theorem fmt3_header_shape (msg : IRssMessage) :
    ∃ ext, fmt3_header msg = [(0xC0 + msg.perfer_cid % 64).toNat] ++ ext
      ∧ (ext = [] ∨ ext.length = 4) := by
  unfold fmt3_header
  by_cases h : msg.header.timestamp ≥ RTMP_EXTENDED_TIMESTAMP
  · simp only [if_pos h]
    exact ⟨[byte3 msg.header.timestamp, byte2 msg.header.timestamp, byte1 msg.header.timestamp,
        byte0 msg.header.timestamp], rfl, Or.inr rfl⟩
  · simp only [if_neg h]; exact ⟨[], rfl, Or.inl rfl⟩

/-- C8. A message with `L > 0` payload bytes sent with chunk size `n ≥ 1` goes
out as exactly `ceil(L / n)` chunks (`writev` calls): chunk 0 has the format-0
header (one basic-header byte with format bits 0 and the chunk id, 11 bytes of
message header, then nothing or the 4-byte extended timestamp), every later
chunk the format-3 header (one basic-header byte with format bits 3 and the
same chunk id, then nothing or the 4-byte extended timestamp); chunk `i`
carries the payload bytes from offset `i * n`, `min(n, L - i * n)` of them, and
the chunk payloads concatenated are the message payload. The loop finishes
within `ceil(L / n)` iterations. -/
theorem send_message_chunking (msg : IRssMessage) (pl : List Nat) (n fuel : Nat)
    (hpl : msg.payload = some pl) (hsize : msg.size = (pl.length : Int))
    (hL : 0 < pl.length) (hn : 1 ≤ n) (hfuel : (pl.length + n - 1) / n ≤ fuel) :
    ∃ chunks, send_message fuel (n : Int) msg = some chunks
      ∧ chunks.length = (pl.length + n - 1) / n
      ∧ (∀ i, i < chunks.length →
          chunks.get? i = some (if i = 0 then fmt0_header msg else fmt3_header msg,
                                (pl.drop (i * n)).take n))
      ∧ (∀ i, i < chunks.length →
          ((pl.drop (i * n)).take n).length = min n (pl.length - i * n))
      ∧ (chunks.map Prod.snd).flatten = pl
      ∧ (∃ mh ext, fmt0_header msg = [(msg.perfer_cid % 64).toNat] ++ mh ++ ext
          ∧ mh.length = 11 ∧ (ext = [] ∨ ext.length = 4))
      ∧ (∃ ext, fmt3_header msg = [(0xC0 + msg.perfer_cid % 64).toNat] ++ ext
          ∧ (ext = [] ∨ ext.length = 4))
      ∧ (msg.perfer_cid % 64).toNat / 64 = 0
      ∧ (0xC0 + msg.perfer_cid % 64).toNat / 64 = 3
      ∧ (0xC0 + msg.perfer_cid % 64).toNat % 64 = (msg.perfer_cid % 64).toNat := by
  have h := send_loop_eq msg pl n hpl hsize hn fuel 0 hL (by simpa using hfuel)
  simp only [Nat.sub_zero, Nat.cast_zero] at h
  refine ⟨_, h, chunk_list_length _ _ _ _ _, ?_, ?_, ?_, fmt0_header_shape msg,
    fmt3_header_shape msg, by omega, by omega, by omega⟩
  · intro i hi
    rw [chunk_list_length] at hi
    rw [chunk_list_get msg pl n _ 0 i hi]
    have : (i * n = 0) ↔ i = 0 := by
      constructor
      · intro h0
        rcases Nat.mul_eq_zero.mp h0 with h1 | h1 <;> omega
      · intro h0; simp [h0]
    simp only [this, Nat.zero_add]
  · intro i _
    simp [List.length_take, List.length_drop]
  · rw [chunk_list_payload, List.drop_zero, List.take_of_length_le]
    have := Nat.lt_mul_div_succ (pl.length + n - 1) (by omega : 0 < n)
    rw [Nat.mul_add, Nat.mul_one, Nat.mul_comm] at this
    omega

/-- C8 (witness). The 300-byte message of scenario F at chunk size 128 goes out
as 3 chunks with payloads of 128, 128 and 44 bytes. -/
theorem send_message_chunking_witness :
    example_message_300.payload = some ((List.range 300).map (fun i => i % 256))
    ∧ example_message_300.size = 300
    ∧ ∃ chunks, send_message 3 128 example_message_300 = some chunks
      ∧ chunks.length = 3
      ∧ (chunks.get? 0).map (fun c => c.2.length) = some 128
      ∧ (chunks.get? 1).map (fun c => c.2.length) = some 128
      ∧ (chunks.get? 2).map (fun c => c.2.length) = some 44 := by
  obtain ⟨chunks, h1, h2, h3, -⟩ :=
    send_message_chunking example_message_300 ((List.range 300).map (fun i => i % 256)) 128 3
      rfl (by simp [example_message_300]) (by simp) (by decide) (by simp)
  have hl : ((List.range 300).map (fun i => i % 256)).length = 300 := by simp
  rw [hl] at h2
  have h2 : chunks.length = 3 := h2
  refine ⟨rfl, rfl, chunks, h1, h2, ?_, ?_, ?_⟩
  · rw [h3 0 (by omega)]; simp
  · rw [h3 1 (by omega)]; simp
  · rw [h3 2 (by omega)]; simp

/-- For a timestamp that is at least `0xFFFFFF` as a signed `int32_t`, the
format-0 header carries `FF FF FF` in its timestamp field and both headers end
with the 4-byte big-endian timestamp. -/
theorem extended_timestamp_headers (msg : IRssMessage)
    (h : msg.header.timestamp ≥ RTMP_EXTENDED_TIMESTAMP) :
    fmt0_header msg =
      [(msg.perfer_cid % 64).toNat, 0xFF, 0xFF, 0xFF,
       byte2 msg.header.payload_length, byte1 msg.header.payload_length,
       byte0 msg.header.payload_length, byte0 msg.header.message_type,
       byte0 msg.header.stream_id, byte1 msg.header.stream_id, byte2 msg.header.stream_id,
       byte3 msg.header.stream_id,
       byte3 msg.header.timestamp, byte2 msg.header.timestamp, byte1 msg.header.timestamp,
       byte0 msg.header.timestamp]
    ∧ fmt3_header msg =
      [(0xC0 + msg.perfer_cid % 64).toNat,
       byte3 msg.header.timestamp, byte2 msg.header.timestamp, byte1 msg.header.timestamp,
       byte0 msg.header.timestamp] := by
  unfold fmt0_header fmt3_header
  simp only [if_pos h, zero_add]
  exact ⟨rfl, rfl⟩

/-- C6 (failing input). The message with timestamp `0x80000000` (at least
`0xFFFFFF` as an unsigned 32-bit value) and payload `01 02 03`, sent with chunk
size 2: the signed comparison `timestamp >= RTMP_EXTENDED_TIMESTAMP` is false,
so the format-0 header carries the low three bytes `00 00 00` in the timestamp
field, not `FF FF FF`, and neither header has the 4-byte extended timestamp
`80 00 00 00`. -/
theorem send_message_high_timestamp :
    (example_message_high_timestamp.header.timestamp % 4294967296 ≥ 0xFFFFFF)
    ∧ send_message 2 2 example_message_high_timestamp
      = some [([0x07, 0x00, 0x00, 0x00, 0x00, 0x00, 0x03, 0x08, 0x01, 0x00, 0x00, 0x00], [1, 2]),
              ([0xC7], [3])] := by
  constructor <;> decide

end Rss

namespace Rss

/-! ## Object properties -/

theorem erase_key_eq_filter {α : Type} (key : List Nat) (t : List (List Nat × α))
    (hnd : (t.map Prod.fst).Nodup) :
    RssUnSortedHashtable.erase_key key t = t.filter (fun e => decide (e.1 ≠ key)) := by
  induction t with
  | nil => rfl
  | cons e t ih =>
    obtain ⟨name, any⟩ := e
    simp only [List.map_cons, List.nodup_cons] at hnd
    unfold RssUnSortedHashtable.erase_key
    by_cases h : key = name
    · subst h
      simp only [if_true, List.filter_cons, ne_eq, not_true_eq_false, decide_False]
      symm
      simp only [Bool.false_eq_true, if_false]
      rw [List.filter_eq_self]
      intro e he
      have : e.1 ≠ key := by
        intro h2
        exact hnd.1 (h2 ▸ List.mem_map_of_mem Prod.fst he)
      simpa using this
    · have h2 : ¬ name = key := fun h3 => h h3.symm
      simp [h, h2, ih hnd.2, List.filter_cons]

theorem set_keys_nodup {α : Type} (key : List Nat) (value : α) (t : List (List Nat × α))
    (hnd : (t.map Prod.fst).Nodup) :
    ((RssUnSortedHashtable.set t key value).map Prod.fst).Nodup := by
  unfold RssUnSortedHashtable.set
  rw [erase_key_eq_filter key t hnd, List.map_append, List.nodup_append]
  refine ⟨?_, by simp, ?_⟩
  · exact (List.Nodup.sublist (List.Sublist.map _ (List.filter_sublist _)) hnd)
  · intro a ha hb
    simp only [List.map_cons, List.map_nil, List.mem_singleton] at hb
    subst hb
    simp only [List.mem_map, List.mem_filter] at ha
    obtain ⟨e, ⟨_, he⟩, h1⟩ := ha
    simp [h1] at he

theorem last_sets_cons {α : Type} (k : List Nat) (v : α) (rest : List (List Nat × α)) :
    last_sets ((k, v) :: rest)
      = if k ∈ rest.map Prod.fst then last_sets rest else (k, v) :: last_sets rest := rfl

theorem set_all_eq {α : Type} (ops t : List (List Nat × α)) (hnd : (t.map Prod.fst).Nodup) :
    set_all t ops
      = t.filter (fun e => decide (e.1 ∉ ops.map Prod.fst)) ++ last_sets ops := by
  induction ops generalizing t with
  | nil => simp [set_all, last_sets]
  | cons kv rest ih =>
    obtain ⟨k, v⟩ := kv
    have hstep : set_all t ((k, v) :: rest) = set_all (RssUnSortedHashtable.set t k v) rest := rfl
    rw [hstep, ih _ (set_keys_nodup k v t hnd)]
    unfold RssUnSortedHashtable.set
    rw [erase_key_eq_filter k t hnd, List.filter_append, List.filter_filter]
    rw [last_sets_cons]
    by_cases hk : k ∈ rest.map Prod.fst
    · rw [if_pos hk]
      congr 1
      · simp only [List.filter_cons, List.filter_nil, hk, not_true_eq_false, decide_False,
          Bool.false_eq_true, if_false, List.append_nil]
        apply List.filter_congr
        intro e _
        by_cases h1 : e.1 = k
        · simp [h1, hk]
        · simp [h1]
    · rw [if_neg hk]
      simp only [List.filter_cons, List.filter_nil, hk, not_false_eq_true, decide_True, if_true]
      rw [List.append_assoc]
      congr 1
      apply List.filter_congr
      intro e _
      by_cases h1 : e.1 = k
      · simp [h1]
      · simp [h1]

theorem last_sets_keys_nodup {α : Type} (ops : List (List Nat × α)) :
    ((last_sets ops).map Prod.fst).Nodup := by
  have h := set_all_eq ops [] (by simp)
  simp only [List.filter_nil, List.nil_append] at h
  rw [← h]
  unfold set_all
  generalize hacc : ([] : List (List Nat × α)) = acc
  have hnd : (acc.map Prod.fst).Nodup := by rw [← hacc]; simp
  clear hacc h
  induction ops generalizing acc with
  | nil => exact hnd
  | cons kv rest ih => exact ih _ (set_keys_nodup kv.1 kv.2 acc hnd)

theorem last_sets_mem_keys {α : Type} (ops : List (List Nat × α)) (k : List Nat) :
    k ∈ (last_sets ops).map Prod.fst ↔ k ∈ ops.map Prod.fst := by
  induction ops with
  | nil => simp [last_sets]
  | cons kv rest ih =>
    obtain ⟨k1, v1⟩ := kv
    rw [last_sets_cons]
    by_cases hk : k1 ∈ rest.map Prod.fst
    · rw [if_pos hk, ih]
      simp only [List.map_cons, List.mem_cons]
      constructor
      · exact Or.inr
      · rintro (h | h)
        · rw [h]; exact hk
        · exact h
    · rw [if_neg hk]
      simp only [List.map_cons, List.mem_cons, ih]

theorem last_sets_is_last {α : Type} (ops : List (List Nat × α)) (k : List Nat) (v : α)
    (h : (k, v) ∈ last_sets ops) :
    ∃ before after, ops = before ++ (k, v) :: after ∧ k ∉ after.map Prod.fst := by
  induction ops with
  | nil => simp [last_sets] at h
  | cons kv rest ih =>
    obtain ⟨k1, v1⟩ := kv
    rw [last_sets_cons] at h
    by_cases hk : k1 ∈ rest.map Prod.fst
    · rw [if_pos hk] at h
      obtain ⟨b, a, h1, h2⟩ := ih h
      exact ⟨(k1, v1) :: b, a, by rw [h1]; rfl, h2⟩
    · rw [if_neg hk] at h
      rcases List.mem_cons.mp h with h | h
      · have h1 : k = k1 := congrArg Prod.fst h
        have h2 : v = v1 := congrArg Prod.snd h
        subst h1; subst h2
        exact ⟨[], rest, rfl, hk⟩
      · obtain ⟨b, a, h1, h2⟩ := ih h
        exact ⟨(k1, v1) :: b, a, by rw [h1]; rfl, h2⟩

/-- C5. After any sequence `ops` of `set(k, v)` calls on an empty table,
`key_at(i)` and `value_at(i)` for `i = 0 .. size - 1` list exactly the calls
that are the last `set` of their key, in the order of those calls: the table
is `last_sets ops`. Each key set at least once appears, no key appears twice,
the entries keep the order of the calls, and each entry `(k, v)` is a call
`set(k, v)` after which `k` is not set again. -/
theorem set_sequence_order {α : Type} (ops : List (List Nat × α)) :
    RssUnSortedHashtable.size (set_all [] ops) = ((last_sets ops).length : Int)
    ∧ (∀ i k v, (last_sets ops).get? i = some (k, v) →
        RssUnSortedHashtable.key_at (set_all [] ops) i = .ok k
        ∧ RssUnSortedHashtable.value_at (set_all [] ops) i = .ok v)
    ∧ ((last_sets ops).map Prod.fst).Nodup
    ∧ (∀ k, k ∈ (last_sets ops).map Prod.fst ↔ k ∈ ops.map Prod.fst)
    ∧ (last_sets ops).Sublist ops
    ∧ (∀ k v, (k, v) ∈ last_sets ops →
        ∃ before after, ops = before ++ (k, v) :: after ∧ k ∉ after.map Prod.fst) := by
  have h := set_all_eq ops [] (by simp)
  simp only [List.filter_nil, List.nil_append] at h
  refine ⟨by rw [h]; rfl, ?_, last_sets_keys_nodup ops, last_sets_mem_keys ops, ?_,
    last_sets_is_last ops⟩
  · intro i k v hi
    rw [h]
    unfold RssUnSortedHashtable.key_at RssUnSortedHashtable.value_at
    rw [hi]
    exact ⟨rfl, rfl⟩
  · clear h
    induction ops with
    | nil => exact List.Sublist.slnil
    | cons kv rest ih =>
      obtain ⟨k1, v1⟩ := kv
      rw [last_sets_cons]
      split
      · exact List.Sublist.cons _ ih
      · exact List.Sublist.cons₂ _ ih

end Rss

namespace Rss

/-! ## Byte stream lemmas -/

theorem memcpy_length (l : List Nat) (p : Nat) (a : List Nat) (h : p + a.length ≤ l.length) :
    (memcpy l p a).length = l.length := by
  unfold memcpy
  simp only [List.length_append, List.length_take, List.length_drop]
  omega

theorem memcpy_memcpy (l : List Nat) (p : Nat) (a b : List Nat) (h : p + a.length ≤ l.length) :
    memcpy (memcpy l p a) (p + a.length) b = memcpy l p (a ++ b) := by
  unfold memcpy
  have h1 : (List.take p l ++ a).length = p + a.length := by
    simp only [List.length_append, List.length_take]; omega
  have h2 : List.take (p + a.length) (List.take p l ++ a ++ List.drop (p + a.length) l)
      = List.take p l ++ a := by
    rw [← h1]; exact List.take_left' rfl
  have h3 : List.drop (p + a.length + b.length)
      (List.take p l ++ a ++ List.drop (p + a.length) l)
      = List.drop (p + (a ++ b).length) l := by
    rw [← h1, List.drop_append, List.drop_drop, h1, List.length_append]
    congr 1
    omega
  rw [h2, h3]
  simp only [List.append_assoc]

theorem memcpy_nil (l : List Nat) (p : Nat) : memcpy l p [] = l := by
  unfold memcpy
  simp

theorem getD_drop (l : List Nat) (p i : Nat) : l.getD (p + i) 0 = (l.drop p).getD i 0 := by
  simp [List.getD_eq_getElem?_getD, List.getElem?_drop]

namespace RssStream

theorem require_int (s : RssStream) (n : Int) (hn : 0 < n) :
    s.require n = true ↔ (s.p : Int) + n ≤ (s.bytes.length : Int) := by
  unfold require empty
  simp only [Bool.and_eq_true, Bool.not_eq_true', decide_eq_false_iff_not, decide_eq_true_eq]
  omega

theorem require_iff (s : RssStream) (n : Nat) (hn : 0 < n) :
    s.require (n : Int) = true ↔ s.p + n ≤ s.bytes.length := by
  rw [require_int s n (by omega)]
  omega

theorem put_put (s : RssStream) (a b : List Nat) (h : s.p + a.length ≤ s.bytes.length) :
    (s.put a).put b = s.put (a ++ b) := by
  unfold put
  simp only [memcpy_memcpy _ _ _ _ h, List.length_append, Nat.add_assoc]

theorem put_nil (s : RssStream) : s.put [] = s := by
  unfold put
  simp [memcpy_nil]

theorem put_p (s : RssStream) (a : List Nat) : (s.put a).p = s.p + a.length := rfl

theorem put_length (s : RssStream) (a : List Nat) (h : s.p + a.length ≤ s.bytes.length) :
    (s.put a).bytes.length = s.bytes.length := memcpy_length _ _ _ h

theorem write_1bytes_eq (s : RssStream) (x : Int) (h : s.p + 1 ≤ s.bytes.length) :
    s.write_1bytes x = .ok (s.put [byte0 x]) := by
  unfold write_1bytes
  rw [if_pos ((require_int s 1 (by omega)).mpr (by omega))]
  rfl

theorem write_2bytes_eq (s : RssStream) (x : Int) (h : s.p + 2 ≤ s.bytes.length) :
    s.write_2bytes x = .ok (s.put [byte1 x, byte0 x]) := by
  unfold write_2bytes
  rw [if_pos ((require_int s 2 (by omega)).mpr (by omega))]
  rfl

theorem write_4bytes_eq (s : RssStream) (x : Int) (h : s.p + 4 ≤ s.bytes.length) :
    s.write_4bytes x = .ok (s.put [byte3 x, byte2 x, byte1 x, byte0 x]) := by
  unfold write_4bytes
  rw [if_pos ((require_int s 4 (by omega)).mpr (by omega))]
  rfl

theorem write_8bytes_eq (s : RssStream) (x : Int) (h : s.p + 8 ≤ s.bytes.length) :
    s.write_8bytes x = .ok (s.put [byte7 x, byte6 x, byte5 x, byte4 x,
      byte3 x, byte2 x, byte1 x, byte0 x]) := by
  unfold write_8bytes
  rw [if_pos ((require_int s 8 (by omega)).mpr (by omega))]
  rfl

theorem write_string_eq (s : RssStream) (v : List Nat) (hv : 0 < v.length)
    (h : s.p + v.length ≤ s.bytes.length) :
    s.write_string v = .ok (s.put v) := by
  unfold write_string
  rw [if_pos ((require_iff s v.length hv).mpr h)]
  rfl

end RssStream

/-! ## AMF0 encoder lemmas -/

theorem rss_amf0_write_utf8_eq (s : RssStream) (v : List Nat)
    (h : s.p + (2 + v.length) ≤ s.bytes.length) :
    rss_amf0_write_utf8 s v
      = .ok (s.put ([byte1 (v.length : Int), byte0 (v.length : Int)] ++ v)) := by
  unfold rss_amf0_write_utf8
  have hr : s.require 2 = true := (RssStream.require_int s 2 (by omega)).mpr (by omega)
  simp only [hr, Bool.not_true, Bool.false_eq_true, if_false,
    RssStream.write_2bytes_eq s _ (by omega : s.p + 2 ≤ s.bytes.length)]
  by_cases hv : (v.length : Int) ≤ 0
  · have hnil : v = [] := List.length_eq_zero.mp (by omega)
    subst hnil
    simp
  · rw [if_neg hv]
    have hr2 : (s.put [byte1 (v.length : Int), byte0 (v.length : Int)]).require (v.length : Int)
        = true := by
      rw [RssStream.require_iff _ _ (by omega), RssStream.put_p,
        RssStream.put_length _ _ (by simp only [List.length_cons, List.length_nil]; omega)]
      simp only [List.length_cons, List.length_nil]; omega
    simp only [hr2, Bool.not_true, Bool.false_eq_true, if_false]
    rw [RssStream.write_string_eq _ _ (by omega)
      (by rw [RssStream.put_p, RssStream.put_length _ _ (by
            simp only [List.length_cons, List.length_nil]; omega)]
          simp only [List.length_cons, List.length_nil]; omega),
      RssStream.put_put _ _ _ (by simp only [List.length_cons, List.length_nil]; omega)]

theorem rss_amf0_write_string_eq (s : RssStream) (v : List Nat)
    (h : s.p + (3 + v.length) ≤ s.bytes.length) :
    rss_amf0_write_string s v
      = .ok (s.put ([0x02, byte1 (v.length : Int), byte0 (v.length : Int)] ++ v)) := by
  unfold rss_amf0_write_string
  have hr : s.require 1 = true := (RssStream.require_int s 1 (by omega)).mpr (by omega)
  simp only [hr, Bool.not_true, Bool.false_eq_true, if_false,
    RssStream.write_1bytes_eq s _ (by omega : s.p + 1 ≤ s.bytes.length)]
  rw [rss_amf0_write_utf8_eq _ _ (by
      rw [RssStream.put_p, RssStream.put_length _ _ (by
        simp only [List.length_cons, List.length_nil]; omega)]
      simp only [List.length_cons, List.length_nil]; omega),
    RssStream.put_put _ _ _ (by simp only [List.length_cons, List.length_nil]; omega)]
  rfl

theorem RssStream.put_room (s : RssStream) (a : List Nat) (n : Nat)
    (h : s.p + (a.length + n) ≤ s.bytes.length) :
    (s.put a).p + n ≤ (s.put a).bytes.length := by
  rw [RssStream.put_p, RssStream.put_length _ _ (by omega)]
  omega

theorem rss_amf0_write_boolean_eq (s : RssStream) (v : Bool) (h : s.p + 2 ≤ s.bytes.length) :
    rss_amf0_write_boolean s v = .ok (s.put [0x01, if v then 0x01 else 0x00]) := by
  unfold rss_amf0_write_boolean
  have hr : s.require 1 = true := (RssStream.require_int s 1 (by omega)).mpr (by omega)
  have h1 := RssStream.put_room s [byte0 RTMP_AMF0_Boolean] 1 (by simpa using h)
  have hr2 : (s.put [byte0 RTMP_AMF0_Boolean]).require 1 = true :=
    (RssStream.require_int _ 1 (by omega)).mpr (by omega)
  simp only [hr, hr2, Bool.not_true, Bool.false_eq_true, if_false,
    RssStream.write_1bytes_eq s _ (by omega : s.p + 1 ≤ s.bytes.length)]
  cases v
  · simp only [Bool.false_eq_true, if_false]
    rw [RssStream.write_1bytes_eq _ _ h1, RssStream.put_put _ _ _ (by simpa using (by omega : s.p + 1 ≤ s.bytes.length))]
    rfl
  · simp only [if_true]
    rw [RssStream.write_1bytes_eq _ _ h1, RssStream.put_put _ _ _ (by simpa using (by omega : s.p + 1 ≤ s.bytes.length))]
    rfl

theorem rss_amf0_write_number_eq (s : RssStream) (v : Int) (h : s.p + 9 ≤ s.bytes.length) :
    rss_amf0_write_number s v
      = .ok (s.put [0x00, byte7 v, byte6 v, byte5 v, byte4 v, byte3 v, byte2 v, byte1 v,
                    byte0 v]) := by
  unfold rss_amf0_write_number
  have hr : s.require 1 = true := (RssStream.require_int s 1 (by omega)).mpr (by omega)
  have h1 := RssStream.put_room s [byte0 RTMP_AMF0_Number] 8 (by simpa using h)
  have hr2 : (s.put [byte0 RTMP_AMF0_Number]).require 8 = true :=
    (RssStream.require_int _ 8 (by omega)).mpr (by omega)
  simp only [hr, hr2, Bool.not_true, Bool.false_eq_true, if_false,
    RssStream.write_1bytes_eq s _ (by omega : s.p + 1 ≤ s.bytes.length)]
  rw [RssStream.write_8bytes_eq _ _ h1, RssStream.put_put _ _ _ (by simpa using (by omega : s.p + 1 ≤ s.bytes.length))]
  rfl

theorem rss_amf0_write_null_eq (s : RssStream) (h : s.p + 1 ≤ s.bytes.length) :
    rss_amf0_write_null s = .ok (s.put [0x05]) := by
  unfold rss_amf0_write_null
  have hr : s.require 1 = true := (RssStream.require_int s 1 (by omega)).mpr (by omega)
  simp only [hr, Bool.not_true, Bool.false_eq_true, if_false, RssStream.write_1bytes_eq s _ h]
  rfl

theorem rss_amf0_write_undefined_eq (s : RssStream) (h : s.p + 1 ≤ s.bytes.length) :
    rss_amf0_write_undefined s = .ok (s.put [0x06]) := by
  unfold rss_amf0_write_undefined
  have hr : s.require 1 = true := (RssStream.require_int s 1 (by omega)).mpr (by omega)
  simp only [hr, Bool.not_true, Bool.false_eq_true, if_false, RssStream.write_1bytes_eq s _ h]
  rfl

theorem rss_amf0_write_object_eof_eq (s : RssStream) (h : s.p + 3 ≤ s.bytes.length) :
    rss_amf0_write_object_eof s = .ok (s.put [0x00, 0x00, 0x09]) := by
  unfold rss_amf0_write_object_eof
  have hr : s.require 2 = true := (RssStream.require_int s 2 (by omega)).mpr (by omega)
  have h1 := RssStream.put_room s [byte1 0x00, byte0 0x00] 1 (by simpa using h)
  have hr2 : (s.put [byte1 0x00, byte0 0x00]).require 1 = true :=
    (RssStream.require_int _ 1 (by omega)).mpr (by omega)
  simp only [hr, hr2, Bool.not_true, Bool.false_eq_true, if_false,
    RssStream.write_2bytes_eq s _ (by omega : s.p + 2 ≤ s.bytes.length)]
  rw [RssStream.write_1bytes_eq _ _ h1, RssStream.put_put _ _ _ (by simpa using (by omega : s.p + 2 ≤ s.bytes.length))]
  rfl

mutual
theorem rss_amf0_write_any_eq : ∀ (v : RssAmf0Any) (s : RssStream),
    s.p + (amf0_bytes v).length ≤ s.bytes.length →
    rss_amf0_write_any v s = .ok (s.put (amf0_bytes v))
  | .String value, s, h => by
    rw [rss_amf0_write_any, amf0_bytes]
    exact rss_amf0_write_string_eq s value (by
      have h' := h
      simp only [amf0_bytes, List.length_append, List.length_cons, List.length_nil] at h'
      omega)
  | .Boolean value, s, h => by
    rw [rss_amf0_write_any, amf0_bytes]
    exact rss_amf0_write_boolean_eq s value (by
      have h' := h
      simp only [amf0_bytes, List.length_append, List.length_cons, List.length_nil] at h'
      omega)
  | .Number value, s, h => by
    rw [rss_amf0_write_any, amf0_bytes]
    exact rss_amf0_write_number_eq s value (by
      have h' := h
      simp only [amf0_bytes, List.length_append, List.length_cons, List.length_nil] at h'
      omega)
  | .Null, s, h => by
    rw [rss_amf0_write_any, amf0_bytes]
    exact rss_amf0_write_null_eq s (by
      have h' := h
      simp only [amf0_bytes, List.length_append, List.length_cons, List.length_nil] at h'
      omega)
  | .Undefined, s, h => by
    rw [rss_amf0_write_any, amf0_bytes]
    exact rss_amf0_write_undefined_eq s (by
      have h' := h
      simp only [amf0_bytes, List.length_append, List.length_cons, List.length_nil] at h'
      omega)
  | .ObjectEOF, s, h => by
    rw [rss_amf0_write_any, amf0_bytes]
    exact rss_amf0_write_object_eof_eq s (by
      have h' := h
      simp only [amf0_bytes, List.length_append, List.length_cons, List.length_nil] at h'
      omega)
  | .Object properties, s, h => by
    rw [rss_amf0_write_any, amf0_bytes, rss_amf0_write_object]
    rw [amf0_bytes] at h
    simp only [List.length_append, List.length_cons, List.length_nil] at h
    have hr : s.require 1 = true := (RssStream.require_int s 1 (by omega)).mpr (by omega)
    simp only [hr, Bool.not_true, Bool.false_eq_true, if_false,
      RssStream.write_1bytes_eq s _ (by omega : s.p + 1 ≤ s.bytes.length)]
    have h1 := RssStream.put_room s [byte0 RTMP_AMF0_Object] ((props_bytes properties).length + 3)
      (by simp only [List.length_cons, List.length_nil]; omega)
    rw [write_properties_eq properties _ (by omega)]
    simp only []
    rw [RssStream.put_put _ _ _ (by simp only [List.length_cons, List.length_nil]; omega)]
    rw [rss_amf0_write_object_eof_eq _ (by
      have := RssStream.put_room s ([byte0 RTMP_AMF0_Object] ++ props_bytes properties) 3
        (by simp only [List.length_append, List.length_cons, List.length_nil]; omega)
      exact this)]
    rw [RssStream.put_put _ _ _ (by
      simp only [List.length_append, List.length_cons, List.length_nil]; omega)]
    rfl
  | .EcmaArray count properties, s, h => by
    rw [rss_amf0_write_any, amf0_bytes, rss_amf0_write_ecma_array]
    rw [amf0_bytes] at h
    simp only [List.length_append, List.length_cons, List.length_nil] at h
    have hr : s.require 1 = true := (RssStream.require_int s 1 (by omega)).mpr (by omega)
    have h0 := RssStream.put_room s [byte0 RTMP_AMF0_EcmaArray] 4
      (by simp only [List.length_cons, List.length_nil]; omega)
    have hr2 : (s.put [byte0 RTMP_AMF0_EcmaArray]).require 4 = true :=
      (RssStream.require_int _ 4 (by omega)).mpr (by omega)
    simp only [hr, hr2, Bool.not_true, Bool.false_eq_true, if_false,
      RssStream.write_1bytes_eq s _ (by omega : s.p + 1 ≤ s.bytes.length),
      RssStream.write_4bytes_eq _ _ h0]
    rw [RssStream.put_put _ _ _ (by simp only [List.length_cons, List.length_nil]; omega)]
    have h1 := RssStream.put_room s
      ([byte0 RTMP_AMF0_EcmaArray] ++ [byte3 count, byte2 count, byte1 count, byte0 count])
      ((props_bytes properties).length + 3)
      (by simp only [List.length_append, List.length_cons, List.length_nil]; omega)
    rw [write_properties_eq properties _ (by omega)]
    simp only []
    rw [RssStream.put_put _ _ _ (by
      simp only [List.length_append, List.length_cons, List.length_nil]; omega)]
    rw [rss_amf0_write_object_eof_eq _ (by
      have := RssStream.put_room s
        ([byte0 RTMP_AMF0_EcmaArray] ++ [byte3 count, byte2 count, byte1 count, byte0 count]
          ++ props_bytes properties) 3
        (by simp only [List.length_append, List.length_cons, List.length_nil]; omega)
      exact this)]
    rw [RssStream.put_put _ _ _ (by
      simp only [List.length_append, List.length_cons, List.length_nil]; omega)]
    rfl
theorem write_properties_eq : ∀ (ps : List (List Nat × RssAmf0Any)) (s : RssStream),
    s.p + (props_bytes ps).length ≤ s.bytes.length →
    write_properties ps s = .ok (s.put (props_bytes ps))
  | [], s, _ => by
    rw [write_properties, props_bytes, RssStream.put_nil]
  | (name, any) :: rest, s, h => by
    rw [write_properties, props_bytes]
    rw [props_bytes] at h
    simp only [List.length_append, List.length_cons, List.length_nil] at h
    rw [rss_amf0_write_utf8_eq s name (by omega)]
    simp only []
    have h1 := RssStream.put_room s
      ([byte1 (name.length : Int), byte0 (name.length : Int)] ++ name)
      ((amf0_bytes any).length + (props_bytes rest).length)
      (by simp only [List.length_append, List.length_cons, List.length_nil]; omega)
    rw [rss_amf0_write_any_eq any _ (by omega)]
    simp only []
    rw [RssStream.put_put _ _ _ (by
      simp only [List.length_append, List.length_cons, List.length_nil]; omega)]
    have h2 := RssStream.put_room s
      ([byte1 (name.length : Int), byte0 (name.length : Int)] ++ name ++ amf0_bytes any)
      (props_bytes rest).length
      (by simp only [List.length_append, List.length_cons, List.length_nil]; omega)
    rw [write_properties_eq rest _ h2]
    rw [RssStream.put_put _ _ _ (by
      simp only [List.length_append, List.length_cons, List.length_nil]; omega)]
    simp only [List.append_assoc]
end

mutual
theorem amf0_bytes_length : ∀ (v : RssAmf0Any),
    ((amf0_bytes v).length : Int) = rss_amf0_get_any_size v
  | .String value => by
    simp only [amf0_bytes, rss_amf0_get_any_size, rss_amf0_get_string_size,
      rss_amf0_get_utf8_size, List.length_append, List.length_cons, List.length_nil]
    omega
  | .Boolean _ => by simp [amf0_bytes, rss_amf0_get_any_size, rss_amf0_get_boolean_size]
  | .Number _ => by simp [amf0_bytes, rss_amf0_get_any_size, rss_amf0_get_number_size]
  | .Null => by simp [amf0_bytes, rss_amf0_get_any_size, rss_amf0_get_null_size]
  | .Undefined => by simp [amf0_bytes, rss_amf0_get_any_size, rss_amf0_get_undefined_size]
  | .ObjectEOF => by simp [amf0_bytes, rss_amf0_get_any_size, rss_amf0_get_object_eof_size]
  | .Object properties => by
    have ih := props_bytes_length properties
    simp only [amf0_bytes, rss_amf0_get_any_size, rss_amf0_get_object_eof_size,
      List.length_append, List.length_cons, List.length_nil]
    omega
  | .EcmaArray _ properties => by
    have ih := props_bytes_length properties
    simp only [amf0_bytes, rss_amf0_get_any_size, rss_amf0_get_object_eof_size,
      List.length_append, List.length_cons, List.length_nil]
    omega
theorem props_bytes_length : ∀ (ps : List (List Nat × RssAmf0Any)),
    ((props_bytes ps).length : Int) = get_properties_size ps
  | [] => by simp [props_bytes, get_properties_size]
  | (name, any) :: rest => by
    have ih1 := amf0_bytes_length any
    have ih2 := props_bytes_length rest
    simp only [props_bytes, get_properties_size, rss_amf0_get_utf8_size,
      List.length_append, List.length_cons, List.length_nil]
    omega
end

theorem put_bytes_take (s : RssStream) (a : List Nat) (h : s.p + a.length ≤ s.bytes.length) :
    (s.put a).bytes.take s.p = s.bytes.take s.p
    ∧ (s.put a).bytes.drop (s.put a).p = s.bytes.drop (s.put a).p := by
  unfold RssStream.put memcpy
  have h1 : (List.take s.p s.bytes).length = s.p := by
    simp only [List.length_take]; omega
  constructor
  · simp only [List.append_assoc]
    rw [List.take_append_of_le_length (by omega), List.take_take, Nat.min_self]
  · simp only []
    have h2 : (List.take s.p s.bytes ++ a).length = s.p + a.length := by
      simp only [List.length_append, h1]
    rw [← h2, List.drop_left, h2]

/-- C4. For every AMF0 value `v` (any nesting of the eight variants) and every
stream with room for `rss_amf0_get_any_size(v)` bytes at the cursor,
`rss_amf0_write_any` succeeds and advances the cursor by exactly
`rss_amf0_get_any_size(v)`; the bytes before the start and after the end of
that range are unchanged. The stream size is an `int`, so the sizes that occur
are below `2^31` and the `int` sums of the source do not overflow. -/
theorem rss_amf0_get_any_size_exact (v : RssAmf0Any) (s : RssStream)
    (_hint : s.bytes.length < 2147483648)
    (h : (s.p : Int) + rss_amf0_get_any_size v ≤ (s.bytes.length : Int)) :
    ∃ s1, rss_amf0_write_any v s = .ok s1
      ∧ (s1.p : Int) = (s.p : Int) + rss_amf0_get_any_size v
      ∧ s1.bytes.length = s.bytes.length
      ∧ s1.bytes.take s.p = s.bytes.take s.p
      ∧ s1.bytes.drop s1.p = s.bytes.drop s1.p := by
  have hl := amf0_bytes_length v
  have h1 : s.p + (amf0_bytes v).length ≤ s.bytes.length := by omega
  refine ⟨_, rss_amf0_write_any_eq v s h1, ?_, RssStream.put_length _ _ h1,
    (put_bytes_take s _ h1).1, (put_bytes_take s _ h1).2⟩
  rw [RssStream.put_p]
  omega

/-- C4 (witness). The example object has size 35 and `rss_amf0_write_any`
fills a fresh 35-byte buffer exactly. -/
theorem rss_amf0_get_any_size_exact_witness :
    rss_amf0_get_any_size example_amf0_object = 35
    ∧ ∃ s1, rss_amf0_write_any example_amf0_object (RssStream.alloc 35) = .ok s1
      ∧ (s1.p : Int) = 35 ∧ s1.bytes.length = 35 := by
  have hsz : rss_amf0_get_any_size example_amf0_object = 35 := by decide
  obtain ⟨s1, h1, h2, h3, -⟩ :=
    rss_amf0_get_any_size_exact example_amf0_object (RssStream.alloc 35) (by decide)
      (by rw [hsz]; decide)
  refine ⟨hsz, s1, h1, ?_, ?_⟩
  · rw [h2, hsz]; rfl
  · rw [h3]; rfl

end Rss

namespace Rss

/-! ## Byte stream read lemmas -/

theorem toInt16_bytes (n : Int) (h0 : 0 ≤ n) (h1 : n < 32768) :
    toInt16 (((byte1 n % 256 : Nat) : Int) * 256 + ((byte0 n % 256 : Nat) : Int)) = n := by
  unfold toInt16 byte1 byte0
  omega

theorem byte_cast (y : Int) : (((y % 256).toNat % 256 : Nat) : Int) = y % 256 := by omega

theorem toInt64_bytes (x : Int) (h1 : -9223372036854775808 ≤ x) (h2 : x < 9223372036854775808) :
    toInt64 (((byte7 x % 256 : Nat) : Int) * 72057594037927936
          + ((byte6 x % 256 : Nat) : Int) * 281474976710656
          + ((byte5 x % 256 : Nat) : Int) * 1099511627776
          + ((byte4 x % 256 : Nat) : Int) * 4294967296
          + ((byte3 x % 256 : Nat) : Int) * 16777216
          + ((byte2 x % 256 : Nat) : Int) * 65536
          + ((byte1 x % 256 : Nat) : Int) * 256
          + ((byte0 x % 256 : Nat) : Int)) = x := by
  unfold toInt64 byte0 byte1 byte2 byte3 byte4 byte5 byte6 byte7
  simp only [byte_cast]
  rw [show x / 72057594037927936 = x / 256 / 256 / 256 / 256 / 256 / 256 / 256 by omega,
    show x / 281474976710656 = x / 256 / 256 / 256 / 256 / 256 / 256 by omega,
    show x / 1099511627776 = x / 256 / 256 / 256 / 256 / 256 by omega,
    show x / 4294967296 = x / 256 / 256 / 256 / 256 by omega,
    show x / 16777216 = x / 256 / 256 / 256 by omega,
    show x / 65536 = x / 256 / 256 by omega]
  have d0 := Int.emod_add_ediv x 256
  have d1 := Int.emod_add_ediv (x / 256) 256
  have d2 := Int.emod_add_ediv (x / 256 / 256) 256
  have d3 := Int.emod_add_ediv (x / 256 / 256 / 256) 256
  have d4 := Int.emod_add_ediv (x / 256 / 256 / 256 / 256) 256
  have d5 := Int.emod_add_ediv (x / 256 / 256 / 256 / 256 / 256) 256
  have d6 := Int.emod_add_ediv (x / 256 / 256 / 256 / 256 / 256 / 256) 256
  have d7 := Int.emod_add_ediv (x / 256 / 256 / 256 / 256 / 256 / 256 / 256) 256
  generalize x / 256 / 256 / 256 / 256 / 256 / 256 / 256 / 256 = q8 at *
  generalize x / 256 / 256 / 256 / 256 / 256 / 256 / 256 % 256 = r7 at *
  generalize x / 256 / 256 / 256 / 256 / 256 / 256 / 256 = q7 at *
  generalize x / 256 / 256 / 256 / 256 / 256 / 256 % 256 = r6 at *
  generalize x / 256 / 256 / 256 / 256 / 256 / 256 = q6 at *
  generalize x / 256 / 256 / 256 / 256 / 256 % 256 = r5 at *
  generalize x / 256 / 256 / 256 / 256 / 256 = q5 at *
  generalize x / 256 / 256 / 256 / 256 % 256 = r4 at *
  generalize x / 256 / 256 / 256 / 256 = q4 at *
  generalize x / 256 / 256 / 256 % 256 = r3 at *
  generalize x / 256 / 256 / 256 = q3 at *
  generalize x / 256 / 256 % 256 = r2 at *
  generalize x / 256 / 256 = q2 at *
  generalize x / 256 % 256 = r1 at *
  generalize x / 256 = q1 at *
  generalize x % 256 = r0 at *
  have hS : r7 * 72057594037927936 + r6 * 281474976710656 + r5 * 1099511627776
      + r4 * 4294967296 + r3 * 16777216 + r2 * 65536 + r1 * 256 + r0
      = x - q8 * 18446744073709551616 := by linarith
  rw [hS]
  clear d0 d1 d2 d3 d4 d5 d6 d7 hS
  omega

namespace RssStream

theorem adv_adv (s : RssStream) (a b : Nat) : (s.adv a).adv b = s.adv (a + b) := by
  unfold adv; simp [Nat.add_assoc]

theorem adv_zero (s : RssStream) : s.adv 0 = s := rfl

theorem adv_skip (s : RssStream) (n k : Nat) (h : k ≤ n) :
    (s.adv n).skip (-(k : Int)) = s.adv (n - k) := by
  unfold adv skip
  simp only [RssStream.mk.injEq, true_and]
  omega

theorem adv_view (s : RssStream) (n : Nat) :
    (s.adv n).bytes.drop (s.adv n).p = (s.bytes.drop s.p).drop n := by
  unfold adv
  simp only [List.drop_drop]

theorem view_getD (s : RssStream) (l : List Nat) (i : Nat) (hv : s.bytes.drop s.p = l) :
    s.bytes.getD (s.p + i) 0 = l.getD i 0 := by
  rw [getD_drop, hv]

theorem require_of_view (s : RssStream) (l : List Nat) (n : Int) (hv : s.bytes.drop s.p = l)
    (hn : 0 < n) (hl : n ≤ (l.length : Int)) : s.require n = true := by
  rw [require_int s n hn]
  have := congrArg List.length hv
  simp only [List.length_drop] at this
  omega

theorem not_empty_of_view (s : RssStream) (l : List Nat) (hv : s.bytes.drop s.p = l)
    (hl : 0 < l.length) : s.empty = false := by
  unfold empty
  have := congrArg List.length hv
  simp only [List.length_drop] at this
  simp only [decide_eq_false_iff_not]
  omega

theorem read_1bytes_view (s : RssStream) (x : Nat) (r : List Nat)
    (hv : s.bytes.drop s.p = x :: r) :
    s.read_1bytes = .ok (toInt8 x, s.adv 1) := by
  unfold read_1bytes
  rw [if_pos (require_of_view s _ 1 hv (by omega) (by simp))]
  have := view_getD s _ 0 hv
  simp only [Nat.add_zero, List.getD_cons_zero] at this
  rw [this]
  rfl

theorem read_2bytes_view (s : RssStream) (a b : Nat) (r : List Nat)
    (hv : s.bytes.drop s.p = a :: b :: r) :
    s.read_2bytes
      = .ok (toInt16 (((a % 256 : Nat) : Int) * 256 + ((b % 256 : Nat) : Int)), s.adv 2) := by
  unfold read_2bytes
  rw [if_pos (require_of_view s _ 2 hv (by omega)
    (by have : (a :: b :: r).length = r.length + 2 := rfl
        omega))]
  have h0 := view_getD s _ 0 hv
  have h1 := view_getD s _ 1 hv
  simp only [Nat.add_zero, List.getD_cons_zero, List.getD_cons_succ] at h0 h1
  rw [h0, h1]
  rfl

theorem read_4bytes_view (s : RssStream) (a b c d : Nat) (r : List Nat)
    (hv : s.bytes.drop s.p = a :: b :: c :: d :: r) :
    s.read_4bytes = .ok (int32OfBytes d c b a, s.adv 4) := by
  unfold read_4bytes
  rw [if_pos (require_of_view s _ 4 hv (by omega)
    (by have : (a :: b :: c :: d :: r).length = r.length + 4 := rfl
        omega))]
  have h0 := view_getD s _ 0 hv
  have h1 := view_getD s _ 1 hv
  have h2 := view_getD s _ 2 hv
  have h3 := view_getD s _ 3 hv
  simp only [Nat.add_zero, List.getD_cons_zero, List.getD_cons_succ] at h0 h1 h2 h3
  rw [h0, h1, h2, h3]
  rfl

theorem read_8bytes_view (s : RssStream) (b7 b6 b5 b4 b3 b2 b1 b0 : Nat) (r : List Nat)
    (hv : s.bytes.drop s.p = b7 :: b6 :: b5 :: b4 :: b3 :: b2 :: b1 :: b0 :: r) :
    s.read_8bytes
      = .ok (toInt64 (((b7 % 256 : Nat) : Int) * 72057594037927936
          + ((b6 % 256 : Nat) : Int) * 281474976710656
          + ((b5 % 256 : Nat) : Int) * 1099511627776
          + ((b4 % 256 : Nat) : Int) * 4294967296
          + ((b3 % 256 : Nat) : Int) * 16777216
          + ((b2 % 256 : Nat) : Int) * 65536
          + ((b1 % 256 : Nat) : Int) * 256
          + ((b0 % 256 : Nat) : Int)), s.adv 8) := by
  unfold read_8bytes
  rw [if_pos (require_of_view s _ 8 hv (by omega)
    (by have : (b7 :: b6 :: b5 :: b4 :: b3 :: b2 :: b1 :: b0 :: r).length = r.length + 8 := rfl
        omega))]
  have h0 := view_getD s _ 0 hv
  have h1 := view_getD s _ 1 hv
  have h2 := view_getD s _ 2 hv
  have h3 := view_getD s _ 3 hv
  have h4 := view_getD s _ 4 hv
  have h5 := view_getD s _ 5 hv
  have h6 := view_getD s _ 6 hv
  have h7 := view_getD s _ 7 hv
  simp only [Nat.add_zero, List.getD_cons_zero, List.getD_cons_succ] at h0 h1 h2 h3 h4 h5 h6 h7
  rw [h0, h1, h2, h3, h4, h5, h6, h7]
  rfl

theorem read_string_view (s : RssStream) (l r : List Nat) (hl : 0 < l.length)
    (hv : s.bytes.drop s.p = l ++ r) :
    s.read_string (l.length : Int) = .ok (l, s.adv l.length) := by
  unfold read_string
  rw [if_pos (require_of_view s _ _ hv (by omega) (by simp))]
  rw [hv]
  simp only [Int.toNat_ofNat, List.take_left']
  rfl

end RssStream

/-! ## AMF0 decoder lemmas -/

theorem rss_amf0_read_utf8_view (s : RssStream) (k r : List Nat) (hk : k.length < 32768)
    (hv : s.bytes.drop s.p = byte1 (k.length : Int) :: byte0 (k.length : Int) :: (k ++ r)) :
    rss_amf0_read_utf8 s = .ok (k, s.adv (2 + k.length)) := by
  unfold rss_amf0_read_utf8
  have hr : s.require 2 = true := RssStream.require_of_view s _ 2 hv (by omega)
    (by simp only [List.length_cons]; omega)
  simp only [hr, Bool.not_true, Bool.false_eq_true, if_false,
    RssStream.read_2bytes_view s _ _ _ hv, toInt16_bytes _ (by omega : (0 : Int) ≤ k.length)
      (by omega)]
  by_cases h0 : (k.length : Int) ≤ 0
  · have hnil : k = [] := List.length_eq_zero.mp (by omega)
    subst hnil
    simp
  · rw [if_neg h0]
    have hv2 : (s.adv 2).bytes.drop (s.adv 2).p = k ++ r := by
      rw [RssStream.adv_view, hv]; rfl
    have hr2 : (s.adv 2).require (k.length : Int) = true :=
      RssStream.require_of_view _ _ _ hv2 (by omega) (by simp)
    simp only [hr2, Bool.not_true, Bool.false_eq_true, if_false]
    rw [RssStream.read_string_view _ k r (by omega) hv2, RssStream.adv_adv]

theorem rss_amf0_read_string_view (s : RssStream) (k r : List Nat) (hk : k.length < 32768)
    (hv : s.bytes.drop s.p
      = 0x02 :: byte1 (k.length : Int) :: byte0 (k.length : Int) :: (k ++ r)) :
    rss_amf0_read_string s = .ok (k, s.adv (3 + k.length)) := by
  unfold rss_amf0_read_string
  have hr : s.require 1 = true := RssStream.require_of_view s _ 1 hv (by omega)
    (by simp only [List.length_cons]; omega)
  have hv2 : (s.adv 1).bytes.drop (s.adv 1).p
      = byte1 (k.length : Int) :: byte0 (k.length : Int) :: (k ++ r) := by
    rw [RssStream.adv_view, hv]; rfl
  simp only [hr, Bool.not_true, Bool.false_eq_true, if_false,
    RssStream.read_1bytes_view s _ _ hv]
  rw [if_neg (by decide), rss_amf0_read_utf8_view _ k r hk hv2, RssStream.adv_adv]
  congr 3
  omega

theorem rss_amf0_read_boolean_view (s : RssStream) (b : Bool) (r : List Nat)
    (hv : s.bytes.drop s.p = 0x01 :: (if b then 0x01 else 0x00) :: r) :
    rss_amf0_read_boolean s = .ok (b, s.adv 2) := by
  unfold rss_amf0_read_boolean
  have hr : s.require 1 = true := RssStream.require_of_view s _ 1 hv (by omega)
    (by simp only [List.length_cons]; omega)
  have hv2 : (s.adv 1).bytes.drop (s.adv 1).p = (if b then 0x01 else 0x00) :: r := by
    rw [RssStream.adv_view, hv]; rfl
  have hr2 : (s.adv 1).require 1 = true := RssStream.require_of_view _ _ 1 hv2 (by omega)
    (by simp only [List.length_cons]; omega)
  simp only [hr, hr2, Bool.not_true, Bool.false_eq_true, if_false,
    RssStream.read_1bytes_view s _ _ hv, RssStream.read_1bytes_view _ _ _ hv2,
    RssStream.adv_adv]
  rw [if_neg (by decide)]
  cases b <;> simp [toInt8]

theorem rss_amf0_read_number_view (s : RssStream) (x : Int) (r : List Nat)
    (h1 : -9223372036854775808 ≤ x) (h2 : x < 9223372036854775808)
    (hv : s.bytes.drop s.p = 0x00 :: byte7 x :: byte6 x :: byte5 x :: byte4 x :: byte3 x
      :: byte2 x :: byte1 x :: byte0 x :: r) :
    rss_amf0_read_number s = .ok (x, s.adv 9) := by
  unfold rss_amf0_read_number
  have hr : s.require 1 = true := RssStream.require_of_view s _ 1 hv (by omega)
    (by simp only [List.length_cons]; omega)
  have hv2 : (s.adv 1).bytes.drop (s.adv 1).p = byte7 x :: byte6 x :: byte5 x :: byte4 x
      :: byte3 x :: byte2 x :: byte1 x :: byte0 x :: r := by
    rw [RssStream.adv_view, hv]; rfl
  have hr2 : (s.adv 1).require 8 = true := RssStream.require_of_view _ _ 8 hv2 (by omega)
    (by simp only [List.length_cons]; omega)
  simp only [hr, hr2, Bool.not_true, Bool.false_eq_true, if_false,
    RssStream.read_1bytes_view s _ _ hv]
  rw [if_neg (by decide), RssStream.read_8bytes_view _ _ _ _ _ _ _ _ _ _ hv2,
    toInt64_bytes x h1 h2, RssStream.adv_adv]

/-- The object end `00 00 09` read by `rss_amf0_read_any` after the empty
property name has been consumed: the call steps back over the name. -/
theorem rss_amf0_read_object_eof_view (s : RssStream) (r : List Nat)
    (hv : s.bytes.drop s.p = 0x00 :: 0x00 :: 0x09 :: r) :
    rss_amf0_read_object_eof (s.adv 2) = .ok (.ObjectEOF, s.adv 3) := by
  unfold rss_amf0_read_object_eof
  have hv2 : (s.adv 2).bytes.drop (s.adv 2).p = 0x09 :: r := by
    rw [RssStream.adv_view, hv]; rfl
  have hne := RssStream.not_empty_of_view _ _ hv2 (by simp)
  have hpos : (s.adv 2).pos ≥ 2 := by
    unfold RssStream.pos
    rw [hne]
    simp only [Bool.false_eq_true, if_false, RssStream.adv]
    omega
  rw [if_neg (by omega)]
  have hskip : (s.adv 2).skip (-2) = s := by
    have := RssStream.adv_skip s 2 2 (by omega)
    simpa using this
  have hr : s.require 2 = true := RssStream.require_of_view s _ 2 hv (by omega)
    (by simp only [List.length_cons]; omega)
  have hr2 : (s.adv 2).require 1 = true := RssStream.require_of_view _ _ 1 hv2 (by omega)
    (by simp only [List.length_cons]; omega)
  simp only [hskip, hr, hr2, Bool.not_true, Bool.false_eq_true, if_false,
    RssStream.read_2bytes_view s _ _ _ hv, RssStream.read_1bytes_view _ _ _ hv2,
    RssStream.adv_adv]
  rw [if_neg (by decide), if_neg (by decide)]

end Rss

namespace Rss

/-! ## AMF0 round trip -/

theorem erase_key_not_mem {α : Type} (key : List Nat) (t : List (List Nat × α))
    (h : key ∉ t.map Prod.fst) : RssUnSortedHashtable.erase_key key t = t := by
  induction t with
  | nil => rfl
  | cons e t ih =>
    obtain ⟨name, any⟩ := e
    simp only [List.map_cons, List.mem_cons, not_or] at h
    unfold RssUnSortedHashtable.erase_key
    rw [if_neg h.1, ih h.2]

theorem drop_two_add (a b : Nat) (l x : List Nat) :
    List.drop (2 + l.length) (a :: b :: (l ++ x)) = x := by
  rw [Nat.add_comm]
  show List.drop l.length (l ++ x) = x
  exact List.drop_left l x

theorem amf0_nested_ok_not_eof (v : RssAmf0Any) (h : amf0_nested_ok v = true) :
    v.is_object_eof = false := by
  cases v <;> first | rfl | simp [amf0_nested_ok] at h

/-- The start of `rss_amf0_read_any`: the marker is read and the cursor is put
back on it. -/
theorem rss_amf0_read_any_marker (s : RssStream) (m : Nat) (r : List Nat)
    (hv : s.bytes.drop s.p = m :: r) :
    s.require 1 = true ∧ s.read_1bytes = .ok (toInt8 m, s.adv 1)
      ∧ (s.adv 1).skip (-1) = s := by
  refine ⟨RssStream.require_of_view s _ 1 hv (by omega) (by simp only [List.length_cons]; omega),
    RssStream.read_1bytes_view s _ _ hv, ?_⟩
  have := RssStream.adv_skip s 1 1 (by omega)
  simpa using this

mutual
theorem rss_amf0_read_any_ok : ∀ (v : RssAmf0Any), amf0_nested_ok v = true →
    ∀ (fuel : Nat) (s : RssStream) (r : List Nat),
      s.bytes.drop s.p = amf0_bytes v ++ r → (amf0_bytes v).length ≤ fuel →
      rss_amf0_read_any fuel s = .ok (v, s.adv (amf0_bytes v).length)
  | .String value, hok, fuel, s, r, hv, hf => by
    simp only [amf0_nested_ok, decide_eq_true_eq] at hok
    simp only [amf0_bytes, List.cons_append, List.nil_append] at hv hf ⊢
    obtain ⟨f, rfl⟩ : ∃ f, fuel = f + 1 := ⟨fuel - 1, by simp at hf; omega⟩
    obtain ⟨h1, h2, h3⟩ := rss_amf0_read_any_marker s _ _ hv
    rw [rss_amf0_read_any]
    simp only [h1, h2, h3, Bool.not_true, Bool.false_eq_true, if_false]
    rw [if_pos (by decide), rss_amf0_read_string_view s value r hok hv]
    simp only [List.length_cons]
    congr 3
    omega
  | .Boolean value, _, fuel, s, r, hv, hf => by
    simp only [amf0_bytes, List.cons_append, List.nil_append] at hv hf ⊢
    obtain ⟨f, rfl⟩ : ∃ f, fuel = f + 1 := ⟨fuel - 1, by simp at hf; omega⟩
    obtain ⟨h1, h2, h3⟩ := rss_amf0_read_any_marker s _ _ hv
    rw [rss_amf0_read_any]
    simp only [h1, h2, h3, Bool.not_true, Bool.false_eq_true, if_false]
    rw [if_neg (by decide), if_pos (by decide), rss_amf0_read_boolean_view s value r hv]
    rfl
  | .Number value, hok, fuel, s, r, hv, hf => by
    simp only [amf0_nested_ok, Bool.and_eq_true, decide_eq_true_eq] at hok
    simp only [amf0_bytes, List.cons_append, List.nil_append] at hv hf ⊢
    obtain ⟨f, rfl⟩ : ∃ f, fuel = f + 1 := ⟨fuel - 1, by simp at hf; omega⟩
    obtain ⟨h1, h2, h3⟩ := rss_amf0_read_any_marker s _ _ hv
    rw [rss_amf0_read_any]
    simp only [h1, h2, h3, Bool.not_true, Bool.false_eq_true, if_false]
    rw [if_neg (by decide), if_neg (by decide), if_pos (by decide),
      rss_amf0_read_number_view s value r hok.1 hok.2 hv]
    rfl
  | .Null, hok, _, _, _, _, _ => by simp [amf0_nested_ok] at hok
  | .Undefined, hok, _, _, _, _, _ => by simp [amf0_nested_ok] at hok
  | .ObjectEOF, hok, _, _, _, _, _ => by simp [amf0_nested_ok] at hok
  | .Object properties, hok, fuel, s, r, hv, hf => by
    simp only [amf0_nested_ok] at hok
    simp only [amf0_bytes, List.cons_append, List.nil_append, List.append_assoc,
      List.length_cons, List.length_append, List.length_nil] at hv hf ⊢
    obtain ⟨f, rfl⟩ : ∃ f, fuel = f + 2 := ⟨fuel - 2, by omega⟩
    obtain ⟨h1, h2, h3⟩ := rss_amf0_read_any_marker s _ _ hv
    rw [rss_amf0_read_any]
    simp only [h1, h2, h3, Bool.not_true, Bool.false_eq_true, if_false]
    rw [if_neg (by decide), if_neg (by decide), if_neg (by decide), if_neg (by decide),
      if_neg (by decide), if_neg (by decide), if_pos (by decide), rss_amf0_read_object]
    simp only [h1, h2, Bool.not_true, Bool.false_eq_true, if_false]
    rw [if_neg (by decide)]
    have hv2 : (s.adv 1).bytes.drop (s.adv 1).p
        = props_bytes properties ++ (0x00 :: 0x00 :: 0x09 :: r) := by
      rw [RssStream.adv_view, hv]; rfl
    rw [read_properties_ok properties hok f [] (s.adv 1) r hv2 (by omega) (by simp)]
    simp only [List.nil_append, RssStream.adv_adv]
    congr 3
    omega
  | .EcmaArray count properties, hok, fuel, s, r, hv, hf => by
    simp only [amf0_nested_ok, Bool.and_eq_true, decide_eq_true_eq] at hok
    simp only [amf0_bytes, List.cons_append, List.nil_append, List.append_assoc,
      List.length_cons, List.length_append, List.length_nil] at hv hf ⊢
    obtain ⟨f, rfl⟩ : ∃ f, fuel = f + 2 := ⟨fuel - 2, by omega⟩
    obtain ⟨h1, h2, h3⟩ := rss_amf0_read_any_marker s _ _ hv
    rw [rss_amf0_read_any]
    simp only [h1, h2, h3, Bool.not_true, Bool.false_eq_true, if_false]
    rw [if_neg (by decide), if_neg (by decide), if_neg (by decide), if_neg (by decide),
      if_neg (by decide), if_neg (by decide), if_neg (by decide), if_pos (by decide),
      rss_amf0_read_ecma_array]
    simp only [h1, h2, Bool.not_true, Bool.false_eq_true, if_false]
    rw [if_neg (by decide)]
    have hv1 : (s.adv 1).bytes.drop (s.adv 1).p
        = byte3 count :: byte2 count :: byte1 count :: byte0 count
          :: (props_bytes properties ++ (0x00 :: 0x00 :: 0x09 :: r)) := by
      rw [RssStream.adv_view, hv]; rfl
    have hr4 : (s.adv 1).require 4 = true := RssStream.require_of_view _ _ 4 hv1 (by omega)
      (by simp only [List.length_cons]; omega)
    simp only [hr4, Bool.not_true, Bool.false_eq_true, if_false,
      RssStream.read_4bytes_view _ _ _ _ _ _ hv1, RssStream.adv_adv,
      int32OfBytes_bytes count hok.1.1 hok.1.2]
    have hv2 : (s.adv 5).bytes.drop (s.adv 5).p
        = props_bytes properties ++ (0x00 :: 0x00 :: 0x09 :: r) := by
      rw [RssStream.adv_view, hv]; rfl
    rw [read_properties_ok properties hok.2 f [] (s.adv 5) r hv2 (by omega) (by simp)]
    simp only [List.nil_append, RssStream.adv_adv]
    congr 3
    omega
theorem read_properties_ok : ∀ (ps : List (List Nat × RssAmf0Any)), amf0_props_ok ps = true →
    ∀ (fuel : Nat) (acc : List (List Nat × RssAmf0Any)) (s : RssStream) (r : List Nat),
      s.bytes.drop s.p = props_bytes ps ++ (0x00 :: 0x00 :: 0x09 :: r) →
      (props_bytes ps).length + 2 ≤ fuel →
      (∀ kv ∈ ps, kv.1 ∉ acc.map Prod.fst) →
      read_properties fuel acc s = .ok (acc ++ ps, s.adv ((props_bytes ps).length + 3))
  | [], _, fuel, acc, s, r, hv, hf, _ => by
    simp only [props_bytes, List.nil_append, List.length_nil] at hv hf ⊢
    obtain ⟨f, rfl⟩ : ∃ f, fuel = f + 2 := ⟨fuel - 2, by omega⟩
    rw [read_properties]
    have hne := RssStream.not_empty_of_view s _ hv (by simp)
    have hu := rss_amf0_read_utf8_view s [] (0x09 :: r) (by simp) hv
    simp only [hne, Bool.false_eq_true, if_false, hu, List.length_nil, Nat.add_zero]
    have hv2 : (s.adv 2).bytes.drop (s.adv 2).p = 0x09 :: r := by
      rw [RssStream.adv_view, hv]; rfl
    obtain ⟨h1, h2, h3⟩ := rss_amf0_read_any_marker (s.adv 2) _ _ hv2
    rw [rss_amf0_read_any]
    simp only [h1, h2, h3, Bool.not_true, Bool.false_eq_true, if_false]
    rw [if_neg (by decide), if_neg (by decide), if_neg (by decide), if_neg (by decide),
      if_neg (by decide), if_pos (by decide), rss_amf0_read_object_eof_view s r hv]
    simp
  | (name, any) :: rest, hok, fuel, acc, s, r, hv, hf, hacc => by
    simp only [amf0_props_ok, Bool.and_eq_true, decide_eq_true_eq] at hok
    obtain ⟨⟨⟨⟨hn0, hn1⟩, hnot⟩, hany⟩, hrest⟩ := hok
    simp only [props_bytes, List.cons_append, List.nil_append, List.append_assoc,
      List.length_cons, List.length_append, List.length_nil] at hv hf ⊢
    obtain ⟨f, rfl⟩ : ∃ f, fuel = f + 1 := ⟨fuel - 1, by omega⟩
    rw [read_properties]
    have hne := RssStream.not_empty_of_view s _ hv (by simp)
    have hu := rss_amf0_read_utf8_view s name _ hn1 hv
    simp only [hne, Bool.false_eq_true, if_false, hu]
    have hv2 : (s.adv (2 + name.length)).bytes.drop (s.adv (2 + name.length)).p
        = amf0_bytes any ++ (props_bytes rest ++ (0x00 :: 0x00 :: 0x09 :: r)) := by
      rw [RssStream.adv_view, hv, drop_two_add]
    rw [rss_amf0_read_any_ok any hany f _ _ hv2 (by omega)]
    have hne2 : name.isEmpty = false := by
      cases name with
      | nil => simp at hn0
      | cons _ _ => rfl
    simp only [hne2, amf0_nested_ok_not_eof any hany, Bool.false_eq_true, or_self, if_false,
      RssStream.adv_adv]
    have hset : RssUnSortedHashtable.set acc name any = acc ++ [(name, any)] := by
      unfold RssUnSortedHashtable.set
      rw [erase_key_not_mem name acc (hacc (name, any) (List.mem_cons_self _ _))]
    have hv3 : (s.adv (2 + name.length + (amf0_bytes any).length)).bytes.drop
        (s.adv (2 + name.length + (amf0_bytes any).length)).p
        = props_bytes rest ++ (0x00 :: 0x00 :: 0x09 :: r) := by
      rw [← RssStream.adv_adv, RssStream.adv_view, hv2, List.drop_left]
    rw [hset, read_properties_ok rest hrest f _ _ r hv3 (by omega) (by
      intro kv hkv
      simp only [List.map_append, List.map_cons, List.map_nil, List.mem_append,
        List.mem_singleton, not_or]
      refine ⟨hacc kv (List.mem_cons_of_mem _ hkv), ?_⟩
      intro h
      exact hnot (h ▸ List.mem_map_of_mem Prod.fst hkv))]
    simp only [List.append_assoc, List.singleton_append, RssStream.adv_adv]
    congr 3
    omega
end

end Rss

namespace Rss

theorem alloc_put (v : RssAmf0Any) :
    (RssStream.alloc (rss_amf0_get_any_size v)).put (amf0_bytes v)
      = { bytes := amf0_bytes v, p := (amf0_bytes v).length } := by
  have hl := amf0_bytes_length v
  unfold RssStream.alloc RssStream.put memcpy
  rw [← hl]
  simp

theorem rss_amf0_write_alloc (v : RssAmf0Any) :
    rss_amf0_write_any v (RssStream.alloc (rss_amf0_get_any_size v))
      = .ok { bytes := amf0_bytes v, p := (amf0_bytes v).length } := by
  have hl := amf0_bytes_length v
  rw [rss_amf0_write_any_eq v _ (by
    unfold RssStream.alloc
    rw [← hl]
    simp), alloc_put]

theorem amf0_bytes_length_pos (v : RssAmf0Any) : 0 < (amf0_bytes v).length := by
  cases v <;> simp [amf0_bytes]

theorem rss_amf0_read_encoded (v : RssAmf0Any) (hok : amf0_round_trip_ok v = true)
    (fuel : Nat) (hf : (amf0_bytes v).length ≤ fuel) :
    ∃ s1, rss_amf0_read_any fuel { bytes := amf0_bytes v, p := 0 } = .ok (v, s1) := by
  have hpos := amf0_bytes_length_pos v
  obtain ⟨f, rfl⟩ : ∃ f, fuel = f + 1 := ⟨fuel - 1, by omega⟩
  by_cases hn : amf0_nested_ok v = true
  · exact ⟨_, rss_amf0_read_any_ok v hn (f + 1) { bytes := amf0_bytes v, p := 0 } []
      (by simp) hf⟩
  · cases v with
    | Null => exact ⟨_, rfl⟩
    | Undefined => exact ⟨_, rfl⟩
    | String _ => exact absurd hok hn
    | Boolean _ => exact absurd hok hn
    | Number _ => exact absurd hok hn
    | ObjectEOF => exact absurd hok hn
    | Object _ => exact absurd hok hn
    | EcmaArray _ _ => exact absurd hok hn

/-- C2 (counterexample). The value ObjectEOF is written as `00 00 09` into a
buffer of its size 3; reading that buffer back dispatches on the first byte
`00`, the Number marker, and fails with a decode error for every fuel. -/
theorem amf0_object_eof_round_trip_fails :
    rss_amf0_get_any_size .ObjectEOF = 3
    ∧ rss_amf0_write_any .ObjectEOF (RssStream.alloc 3) = .ok { bytes := [0x00, 0x00, 0x09], p := 3 }
    ∧ RssStream.initialize [0x00, 0x00, 0x09] = .ok { bytes := [0x00, 0x00, 0x09], p := 0 }
    ∧ ∀ fuel, rss_amf0_read_any (fuel + 1) { bytes := [0x00, 0x00, 0x09], p := 0 }
        = .error .amf0_decode := by
  refine ⟨rfl, ?_, rfl, fun fuel => rfl⟩
  have h := rss_amf0_write_alloc .ObjectEOF
  simpa [rss_amf0_get_any_size, rss_amf0_get_object_eof_size, amf0_bytes] using h

/-- C2 (amended). For every AMF0 value that is Null, Undefined, or built from
Number, Boolean, String (shorter than 32768 bytes), Object and EcmaArray whose
property names are distinct and have 1 to 32767 bytes and whose property
values are again of these five kinds: writing the value with
`rss_amf0_write_any` into a fresh buffer of `rss_amf0_get_any_size` bytes
succeeds, and reading that buffer back with `rss_amf0_read_any` succeeds and
returns the value, for every fuel of at least the size. -/
theorem amf0_write_read_round_trip (v : RssAmf0Any) (hok : amf0_round_trip_ok v = true)
    (_hsize : rss_amf0_get_any_size v < 2147483648) :
    ∃ s, rss_amf0_write_any v (RssStream.alloc (rss_amf0_get_any_size v)) = .ok s
      ∧ ∃ st, RssStream.initialize s.bytes = .ok st
        ∧ ∀ fuel, (rss_amf0_get_any_size v).toNat ≤ fuel →
            ∃ s1, rss_amf0_read_any fuel st = .ok (v, s1) := by
  have hl := amf0_bytes_length v
  have hpos := amf0_bytes_length_pos v
  refine ⟨_, rss_amf0_write_alloc v, { bytes := amf0_bytes v, p := 0 }, ?_, ?_⟩
  · unfold RssStream.initialize
    rw [if_neg (by simp only []; omega)]
  · intro fuel hf
    exact rss_amf0_read_encoded v hok fuel (by omega)

/-- C2 (witness). The example object is in the round-trip domain, has size 35,
and is read back from its 35 bytes. -/
theorem amf0_write_read_round_trip_witness :
    amf0_round_trip_ok example_amf0_object = true
    ∧ rss_amf0_get_any_size example_amf0_object < 2147483648
    ∧ ∃ s, rss_amf0_write_any example_amf0_object
            (RssStream.alloc (rss_amf0_get_any_size example_amf0_object)) = .ok s
      ∧ ∃ st, RssStream.initialize s.bytes = .ok st
        ∧ ∀ fuel, (rss_amf0_get_any_size example_amf0_object).toNat ≤ fuel →
            ∃ s1, rss_amf0_read_any fuel st = .ok (example_amf0_object, s1) :=
  ⟨by decide, by decide,
   amf0_write_read_round_trip example_amf0_object (by decide) (by decide)⟩

/-- C3 (counterexample). The buffer `01 02` is accepted: it decodes to the
Boolean `true` and the whole buffer is consumed. Encoding that value gives
`01 01`, which differs from the buffer. -/
theorem amf0_reencode_differs :
    (∀ fuel, rss_amf0_read_any (fuel + 1) { bytes := [0x01, 0x02], p := 0 }
        = .ok (.Boolean true, { bytes := [0x01, 0x02], p := 2 }))
    ∧ rss_amf0_write_any (.Boolean true)
        (RssStream.alloc (rss_amf0_get_any_size (.Boolean true)))
        = .ok { bytes := [0x01, 0x01], p := 2 }
    ∧ [0x01, 0x01] ≠ [0x01, 0x02] := by
  refine ⟨fun fuel => rfl, ?_, by decide⟩
  have h := rss_amf0_write_alloc (.Boolean true)
  simpa [amf0_bytes] using h

/-- C3 (amended). For every byte buffer `b` that `rss_amf0_write_any` produces
for a value of the round-trip domain (Null, Undefined, or a value built from
Number, Boolean, String shorter than 32768 bytes, Object and EcmaArray with
distinct property names of 1 to 32767 bytes), `rss_amf0_read_any` decodes `b`
successfully and re-encoding the decoded value produces exactly the bytes
`b`. -/
theorem amf0_reencode_of_encoded (v : RssAmf0Any) (hok : amf0_round_trip_ok v = true)
    (_hsize : rss_amf0_get_any_size v < 2147483648) :
    ∃ s, rss_amf0_write_any v (RssStream.alloc (rss_amf0_get_any_size v)) = .ok s
      ∧ ∃ st, RssStream.initialize s.bytes = .ok st
        ∧ ∀ fuel, (rss_amf0_get_any_size v).toNat ≤ fuel →
            ∃ v1 s1, rss_amf0_read_any fuel st = .ok (v1, s1)
              ∧ ∃ s2, rss_amf0_write_any v1 (RssStream.alloc (rss_amf0_get_any_size v1))
                        = .ok s2
                ∧ s2.bytes = s.bytes := by
  have hl := amf0_bytes_length v
  have hpos := amf0_bytes_length_pos v
  refine ⟨_, rss_amf0_write_alloc v, { bytes := amf0_bytes v, p := 0 }, ?_, ?_⟩
  · unfold RssStream.initialize
    rw [if_neg (by simp only []; omega)]
  · intro fuel hf
    obtain ⟨s1, h1⟩ := rss_amf0_read_encoded v hok fuel (by omega)
    exact ⟨v, s1, h1, _, rss_amf0_write_alloc v, rfl⟩

/-- C3 (witness). The 35 bytes written for the example object decode to a
value whose encoding is the same 35 bytes. -/
theorem amf0_reencode_of_encoded_witness :
    amf0_round_trip_ok example_amf0_object = true
    ∧ rss_amf0_get_any_size example_amf0_object < 2147483648
    ∧ ∃ s, rss_amf0_write_any example_amf0_object
            (RssStream.alloc (rss_amf0_get_any_size example_amf0_object)) = .ok s
      ∧ ∃ st, RssStream.initialize s.bytes = .ok st
        ∧ ∀ fuel, (rss_amf0_get_any_size example_amf0_object).toNat ≤ fuel →
            ∃ v1 s1, rss_amf0_read_any fuel st = .ok (v1, s1)
              ∧ ∃ s2, rss_amf0_write_any v1 (RssStream.alloc (rss_amf0_get_any_size v1))
                        = .ok s2
                ∧ s2.bytes = s.bytes :=
  ⟨by decide, by decide,
   amf0_reencode_of_encoded example_amf0_object (by decide) (by decide)⟩

end Rss

namespace Rss

/-! ## Chunk round trip: receiver lemmas -/

theorem read_basic_header_one (cs : Bool) (b : Nat) (rest : List Nat) (hb : b < 256)
    (h2 : 2 ≤ b % 64) :
    read_basic_header cs (b :: rest) = .ok (((b / 64 : Nat) : Int), ((b % 64 : Nat) : Int), 1) := by
  have hfmt : (charValue cs b / 64) % 4 = ((b / 64 : Nat) : Int) := by
    unfold charValue toInt8; split <;> [split; skip] <;> omega
  have hcid : charValue cs b % 64 = ((b % 64 : Nat) : Int) := by
    unfold charValue toInt8; split <;> [split; skip] <;> omega
  unfold read_basic_header
  simp only [List.length_cons, List.getD_cons_zero, hfmt, hcid]
  rw [if_neg (by omega), if_pos (by omega)]

theorem memcpy_partial (pl : List Nat) (p k : Nat) (hk : p + k ≤ pl.length) :
    memcpy (pl.take p ++ List.replicate (pl.length - p) 0) p ((pl.drop p).take k)
      = pl.take (p + k) ++ List.replicate (pl.length - (p + k)) 0 := by
  unfold memcpy
  have h1 : (pl.take p).length = p := by simp only [List.length_take]; omega
  have h2 : ((pl.drop p).take k).length = k := by
    simp only [List.length_take, List.length_drop]; omega
  rw [h2]
  have h3 : List.take p (pl.take p ++ List.replicate (pl.length - p) 0) = pl.take p := by
    rw [List.take_append_of_le_length (by omega), List.take_take, Nat.min_self]
  have h4 : List.drop (p + k) (pl.take p ++ List.replicate (pl.length - p) 0)
      = List.replicate (pl.length - (p + k)) 0 := by
    calc List.drop (p + k) (pl.take p ++ List.replicate (pl.length - p) 0)
        = List.drop ((pl.take p).length + k)
            (pl.take p ++ List.replicate (pl.length - p) 0) := by rw [h1]
      _ = List.drop k (List.replicate (pl.length - p) 0) := List.drop_append _
      _ = List.replicate (pl.length - (p + k)) 0 := by
          rw [List.drop_replicate]; congr 1; omega
  rw [h3, h4, List.take_add]

/-- One call of `read_message_payload` on a chunk stream with a partial message
that still lacks bytes: the chunk's payload bytes are copied behind the bytes
received so far. -/
theorem read_message_payload_step (chunk : RssChunkStream) (m : RssCommonMessage)
    (bh mh : Nat) (n : Nat) (buffer : List Nat) (L p : Nat)
    (hmsg : chunk.msg = some m) (hL : chunk.header.payload_length = (L : Int))
    (hsize : m.size = (p : Int)) (hp : p < L) (hn : 0 < n)
    (P : List Nat)
    (hP : (match m.payload with
            | none => List.replicate L 0
            | some pl => pl) = P)
    (hPlen : P.length = L)
    (hbuf : bh + mh + min (L - p) n ≤ buffer.length) :
    read_message_payload chunk bh mh (n : Int) buffer =
      (if L = p + min (L - p) n then
        ({ chunk with msg := none }, buffer.drop (bh + mh + min (L - p) n),
          .ok (((min (L - p) n : Nat) : Int),
            some { header := m.header, size := (p : Int) + ((min (L - p) n : Nat) : Int),
                   payload := some (memcpy P p ((buffer.drop (bh + mh)).take (min (L - p) n))) }))
      else
        ({ chunk with
            msg := some { header := m.header, size := (p : Int) + ((min (L - p) n : Nat) : Int),
                          payload := some (memcpy P p
                            ((buffer.drop (bh + mh)).take (min (L - p) n))) } },
          buffer.drop (bh + mh + min (L - p) n),
          .ok (((min (L - p) n : Nat) : Int), none))) := by
  unfold read_message_payload
  have hmin : rss_min ((L : Int) - (p : Int)) (n : Int) = ((min (L - p) n : Nat) : Int) := by
    rw [← rss_min_cast]; congr 1; omega
  rw [if_neg (by omega), if_neg (by omega), hmsg]
  simp only [hsize, hL, hmin, Int.toNat_ofNat, hP]
  rw [if_neg (by omega), if_neg (by omega), if_neg (by omega)]
  by_cases hlast : L = p + min (L - p) n
  · rw [if_pos hlast, if_pos (by omega)]
  · rw [if_neg hlast, if_neg (by omega)]

/-- A format-0 header without extended timestamp, read on a chunk stream
without partial message: the full resulting chunk stream. -/
theorem read_message_header_fmt0_state (chunk : RssChunkStream) (pre rest : List Nat)
    (t2 t1 t0 l2 l1 l0 mt s0 s1 s2 s3 : Nat)
    (hmsg : chunk.msg = none)
    (hd : int32OfBytes t0 t1 t2 0 < RTMP_EXTENDED_TIMESTAMP) :
    read_message_header chunk 0 pre.length
        (pre ++ [t2, t1, t0, l2, l1, l0, mt, s0, s1, s2, s3] ++ rest)
      = ({ fmt := chunk.fmt, cid := chunk.cid,
           header := { message_type := toInt8 mt,
                       payload_length := int32OfBytes l0 l1 l2 0,
                       timestamp_delta := int32OfBytes t0 t1 t2 0,
                       stream_id := int32OfBytes s0 s1 s2 s3,
                       timestamp := int32OfBytes t0 t1 t2 0 },
           extended_timestamp := false,
           msg := some { header := { message_type := toInt8 mt,
                                     payload_length := int32OfBytes l0 l1 l2 0,
                                     timestamp_delta := int32OfBytes t0 t1 t2 0,
                                     stream_id := int32OfBytes s0 s1 s2 s3,
                                     timestamp := int32OfBytes t0 t1 t2 0 },
                         size := 0, payload := none },
           msg_count := chunk.msg_count + 1 }, .ok 11) := by
  have hnext : ¬ int32OfBytes t0 t1 t2 0 ≥ RTMP_EXTENDED_TIMESTAMP := by omega
  have hlen0 : ¬ int32OfBytes l0 l1 l2 0 < 0 := by
    have := int32OfBytes_nonneg l0 l1 l2; omega
  generalize hbuf : pre ++ [t2, t1, t0, l2, l1, l0, mt, s0, s1, s2, s3] ++ rest = buf
  have hg : ∀ i, i < 11 → buf.getD (pre.length + i) 0
      = [t2, t1, t0, l2, l1, l0, mt, s0, s1, s2, s3].getD i 0 := by
    intro i hi
    rw [← hbuf, List.append_assoc, getD_append_add, List.getD_append _ _ _ _ (by simpa using hi)]
  have hp := parse_fmt0 { chunk with msg := some RssCommonMessage.new } true
    (fun i => buf.getD (pre.length + i) 0)
  simp only [hg 0 (by omega), hg 1 (by omega), hg 2 (by omega), hg 3 (by omega),
    hg 4 (by omega), hg 5 (by omega), hg 6 (by omega), hg 7 (by omega), hg 8 (by omega),
    hg 9 (by omega), hg 10 (by omega), List.getD_cons_succ, List.getD_cons_zero,
    hnext, if_false, decide_False] at hp
  rw [read_message_header_fresh chunk 0 pre.length buf _ 11 hmsg (by simp [RTMP_FMT_TYPE0])
    (by rw [← hbuf]; simp [mh_sizes]) hp]
  simp only [Bool.false_eq_true, if_false, finish_message_header, hlen0, mh_sizes, if_true]
  rfl

/-- A format-0 header with the timestamp field `FF FF FF` and the 4-byte
extended timestamp, read on a chunk stream without partial message. -/
theorem read_message_header_fmt0_ext_state (chunk : RssChunkStream) (pre rest : List Nat)
    (l2 l1 l0 mt s0 s1 s2 s3 e3 e2 e1 e0 : Nat)
    (hmsg : chunk.msg = none) :
    read_message_header chunk 0 pre.length
        (pre ++ [0xFF, 0xFF, 0xFF, l2, l1, l0, mt, s0, s1, s2, s3, e3, e2, e1, e0] ++ rest)
      = ({ fmt := chunk.fmt, cid := chunk.cid,
           header := { message_type := toInt8 mt,
                       payload_length := int32OfBytes l0 l1 l2 0,
                       timestamp_delta := RTMP_EXTENDED_TIMESTAMP,
                       stream_id := int32OfBytes s0 s1 s2 s3,
                       timestamp := int32OfBytes e0 e1 e2 e3 },
           extended_timestamp := true,
           msg := some { header := { message_type := toInt8 mt,
                                     payload_length := int32OfBytes l0 l1 l2 0,
                                     timestamp_delta := RTMP_EXTENDED_TIMESTAMP,
                                     stream_id := int32OfBytes s0 s1 s2 s3,
                                     timestamp := int32OfBytes e0 e1 e2 e3 },
                         size := 0, payload := none },
           msg_count := chunk.msg_count + 1 }, .ok 15) := by
  have hdelta : int32OfBytes 0xFF 0xFF 0xFF 0 = RTMP_EXTENDED_TIMESTAMP := by decide
  have hlen0 : ¬ int32OfBytes l0 l1 l2 0 < 0 := by
    have := int32OfBytes_nonneg l0 l1 l2; omega
  generalize hbuf :
    pre ++ [0xFF, 0xFF, 0xFF, l2, l1, l0, mt, s0, s1, s2, s3, e3, e2, e1, e0] ++ rest = buf
  have hg : ∀ i, i < 15 → buf.getD (pre.length + i) 0
      = [0xFF, 0xFF, 0xFF, l2, l1, l0, mt, s0, s1, s2, s3, e3, e2, e1, e0].getD i 0 := by
    intro i hi
    rw [← hbuf, List.append_assoc, getD_append_add, List.getD_append _ _ _ _ (by simpa using hi)]
  have hp := parse_fmt0 { chunk with msg := some RssCommonMessage.new } true
    (fun i => buf.getD (pre.length + i) 0)
  simp only [hg 0 (by omega), hg 1 (by omega), hg 2 (by omega), hg 3 (by omega),
    hg 4 (by omega), hg 5 (by omega), hg 6 (by omega), hg 7 (by omega), hg 8 (by omega),
    hg 9 (by omega), hg 10 (by omega), List.getD_cons_succ, List.getD_cons_zero,
    hdelta, ge_iff_le, le_refl, if_true, decide_True] at hp
  rw [read_message_header_fresh chunk 0 pre.length buf _ 11 hmsg (by simp [RTMP_FMT_TYPE0])
    (by rw [← hbuf]; simp [mh_sizes]) hp]
  rw [if_pos rfl, if_neg (by rw [← hbuf]; simp [mh_sizes])]
  have h12 := hg 11 (by omega)
  have h13 := hg 12 (by omega)
  have h14 := hg 13 (by omega)
  have h15 := hg 14 (by omega)
  simp only [List.getD_cons_succ, List.getD_cons_zero] at h12 h13 h14 h15
  rw [show pre.length + 11 + 3 = pre.length + 14 by omega,
    show pre.length + 11 + 2 = pre.length + 13 by omega,
    show pre.length + 11 + 1 = pre.length + 12 by omega, h12, h13, h14, h15]
  simp only [finish_message_header, hlen0, if_false, mh_sizes, if_true]
  rfl

/-- The end of the header step, on a chunk stream given field by field, when
the payload length is not negative. -/
theorem finish_message_header_mk (f c mt pl td sid ts : Int) (e : Bool)
    (m : Option RssCommonMessage) (k : Int) (n : Nat) (h : 0 ≤ pl) :
    finish_message_header
        { fmt := f, cid := c,
          header := { message_type := mt, payload_length := pl, timestamp_delta := td,
                      stream_id := sid, timestamp := ts },
          extended_timestamp := e, msg := m, msg_count := k } n
      = ({ fmt := f, cid := c,
           header := { message_type := mt, payload_length := pl, timestamp_delta := td,
                       stream_id := sid, timestamp := ts },
           extended_timestamp := e,
           msg := m.map (fun x => { header := { message_type := mt, payload_length := pl,
                                                timestamp_delta := td, stream_id := sid,
                                                timestamp := ts },
                                    size := x.size, payload := x.payload }),
           msg_count := k + 1 }, .ok n) := by
  unfold finish_message_header
  exact if_neg (not_lt.mpr h)

/-- A format-3 chunk that continues a partial message on a chunk stream that
is not in extended-timestamp mode: only the message count changes. -/
theorem read_message_header_fmt3_state (chunk : RssChunkStream) (m : RssCommonMessage)
    (bh_size : Nat) (buffer : List Nat)
    (hmsg : chunk.msg = some m) (hcount : chunk.msg_count ≠ 0)
    (hext : chunk.extended_timestamp = false) (hlen : bh_size ≤ buffer.length)
    (hpl : 0 ≤ chunk.header.payload_length) :
    read_message_header chunk 3 bh_size buffer
      = ({ fmt := chunk.fmt, cid := chunk.cid, header := chunk.header,
           extended_timestamp := false,
           msg := some { header := chunk.header, size := m.size, payload := m.payload },
           msg_count := chunk.msg_count + 1 }, .ok 0) := by
  have hp := parse_fmt3 chunk false (fun i => buffer.getD (bh_size + i) 0)
  rw [if_neg (by simp)] at hp
  rw [ read_message_header_partial chunk 3 bh_size buffer _ 0 m hmsg
    (by simp [RTMP_FMT_TYPE0]) hcount (by simp [mh_sizes]; omega) hp]
  rw [if_neg (by simp [hext])]
  unfold finish_message_header
  rw [if_neg (by omega), hmsg, hext]
  rfl

/-- A format-3 chunk that continues a partial message on a chunk stream in
extended-timestamp mode: the 4 bytes after the basic header set the
timestamp. -/
theorem read_message_header_fmt3_ext_state (chunk : RssChunkStream) (m : RssCommonMessage)
    (pre rest : List Nat) (e3 e2 e1 e0 : Nat)
    (hmsg : chunk.msg = some m) (hcount : chunk.msg_count ≠ 0)
    (hext : chunk.extended_timestamp = true)
    (hpl : 0 ≤ chunk.header.payload_length) :
    read_message_header chunk 3 pre.length (pre ++ [e3, e2, e1, e0] ++ rest)
      = ({ fmt := chunk.fmt, cid := chunk.cid,
           header := { message_type := chunk.header.message_type,
                       payload_length := chunk.header.payload_length,
                       timestamp_delta := chunk.header.timestamp_delta,
                       stream_id := chunk.header.stream_id,
                       timestamp := int32OfBytes e0 e1 e2 e3 },
           extended_timestamp := true,
           msg := some { header := { message_type := chunk.header.message_type,
                                     payload_length := chunk.header.payload_length,
                                     timestamp_delta := chunk.header.timestamp_delta,
                                     stream_id := chunk.header.stream_id,
                                     timestamp := int32OfBytes e0 e1 e2 e3 },
                         size := m.size, payload := m.payload },
           msg_count := chunk.msg_count + 1 }, .ok 4) := by
  generalize hbuf : pre ++ [e3, e2, e1, e0] ++ rest = buf
  have hg : ∀ i, i < 4 → buf.getD (pre.length + i) 0 = [e3, e2, e1, e0].getD i 0 := by
    intro i hi
    rw [← hbuf, List.append_assoc, getD_append_add, List.getD_append _ _ _ _ (by simpa using hi)]
  have hp := parse_fmt3 chunk false (fun i => buf.getD (pre.length + i) 0)
  rw [if_neg (by simp)] at hp
  rw [ read_message_header_partial chunk 3 pre.length buf _ 0 m hmsg
    (by simp [RTMP_FMT_TYPE0]) hcount (by rw [← hbuf]; simp [mh_sizes]) hp]
  rw [if_pos hext, if_neg (by rw [← hbuf]; simp [mh_sizes])]
  have h0 := hg 0 (by omega)
  have h1 := hg 1 (by omega)
  have h2 := hg 2 (by omega)
  have h3 := hg 3 (by omega)
  simp only [List.getD_cons_succ, List.getD_cons_zero, Nat.add_zero] at h0 h1 h2 h3
  rw [show pre.length + 0 + 3 = pre.length + 3 by omega,
    show pre.length + 0 + 2 = pre.length + 2 by omega,
    show pre.length + 0 + 1 = pre.length + 1 by omega,
    show pre.length + 0 = pre.length by omega, h0, h1, h2, h3]
  rw [finish_message_header_mk _ _ _ _ _ _ _ _ _ _ _ hpl, hmsg, hext]
  rfl

end Rss
namespace Rss

/-! ## Chunk round trip: one chunk through `recv_interlaced_message` -/

/-- Function `recv_interlaced_message` as the composition of its three reads,
when each of them succeeds. -/
theorem recv_interlaced_message_eq (cs : Bool) (proto : RssProtocol) (fmt cid : Int)
    (bh mh : Nat) (chunk0 c1 c2 : RssChunkStream) (buf2 : List Nat) (sz : Int)
    (pmsg : Option RssCommonMessage)
    (hbh : read_basic_header cs proto.buffer = .ok (fmt, cid, bh))
    (hfind : (match findChunk proto.chunk_streams cid with
              | none => RssChunkStream.new cid
              | some c => c) = chunk0)
    (hmh : read_message_header chunk0 fmt bh proto.buffer = (c1, .ok mh))
    (hpay : read_message_payload c1 bh mh proto.in_chunk_size proto.buffer
              = (c2, buf2, .ok (sz, pmsg))) :
    recv_interlaced_message cs proto
      = ({ chunk_streams := storeChunk proto.chunk_streams cid c2, buffer := buf2,
           in_chunk_size := proto.in_chunk_size, out_chunk_size := proto.out_chunk_size },
         .ok pmsg) := by
  unfold recv_interlaced_message
  rw [hbh]
  simp only [hfind, hmh, hpay]

theorem findChunk_single (cid : Int) (c : RssChunkStream) :
    findChunk [(cid, c)] cid = some c := by
  simp [findChunk]

theorem storeChunk_single (cid : Int) (c c2 : RssChunkStream) :
    storeChunk [(cid, c)] cid c2 = [(cid, c2)] := by
  simp [storeChunk]

theorem fmt0_first_byte (cid : Int) (h1 : 2 ≤ cid) (h2 : cid ≤ 63) :
    (0 + cid % 64).toNat < 256 ∧ 2 ≤ (0 + cid % 64).toNat % 64
      ∧ (((0 + cid % 64).toNat / 64 : Nat) : Int) = 0
      ∧ (((0 + cid % 64).toNat % 64 : Nat) : Int) = cid % 64 := by
  omega

theorem fmt3_first_byte (cid : Int) (h1 : 2 ≤ cid) (h2 : cid ≤ 63) :
    (0xC0 + cid % 64).toNat < 256 ∧ 2 ≤ (0xC0 + cid % 64).toNat % 64
      ∧ (((0xC0 + cid % 64).toNat / 64 : Nat) : Int) = 3
      ∧ (((0xC0 + cid % 64).toNat % 64 : Nat) : Int) = cid % 64 := by
  omega

/-- The basic header of the first chunk of a message, as the receiver reads it. -/
theorem read_basic_header_fmt0 (cs : Bool) (msg : IRssMessage) (rest : List Nat)
    (h1 : 2 ≤ msg.perfer_cid) (h2 : msg.perfer_cid ≤ 63) :
    ∃ tl, fmt0_header msg = (0 + msg.perfer_cid % 64).toNat :: tl
      ∧ read_basic_header cs (fmt0_header msg ++ rest) = .ok (0, msg.perfer_cid % 64, 1) := by
  obtain ⟨hb, hc, hf, hcid⟩ := fmt0_first_byte msg.perfer_cid h1 h2
  refine ⟨_, rfl, ?_⟩
  have h := read_basic_header_one cs (0 + msg.perfer_cid % 64).toNat
  unfold fmt0_header
  simp only [List.singleton_append, List.cons_append]
  rw [h _ hb hc, hf, hcid]

/-- The basic header of a later chunk of a message, as the receiver reads it. -/
theorem read_basic_header_fmt3 (cs : Bool) (msg : IRssMessage) (rest : List Nat)
    (h1 : 2 ≤ msg.perfer_cid) (h2 : msg.perfer_cid ≤ 63) :
    ∃ tl, fmt3_header msg = (0xC0 + msg.perfer_cid % 64).toNat :: tl
      ∧ read_basic_header cs (fmt3_header msg ++ rest) = .ok (3, msg.perfer_cid % 64, 1) := by
  obtain ⟨hb, hc, hf, hcid⟩ := fmt3_first_byte msg.perfer_cid h1 h2
  refine ⟨_, rfl, ?_⟩
  have h := read_basic_header_one cs (0xC0 + msg.perfer_cid % 64).toNat
  unfold fmt3_header
  simp only [List.singleton_append, List.cons_append]
  rw [h _ hb hc, hf, hcid]

end Rss
namespace Rss

theorem take_drop_min (pl : List Nat) (p n : Nat) :
    (pl.drop p).take n = (pl.drop p).take (min (pl.length - p) n) := by
  have h : (pl.drop p).take (pl.length - p) = pl.drop p :=
    List.take_of_length_le (by rw [List.length_drop])
  rw [Nat.min_comm, ← List.take_take, h]

theorem take_drop_length (pl : List Nat) (p n : Nat) :
    ((pl.drop p).take n).length = min (pl.length - p) n := by
  simp [Nat.min_comm]

/-- The payload step of the receiver on one chunk of `msg`: the chunk holds the
payload bytes from offset `p`, the partial message holds the `p` bytes before. -/
theorem read_message_payload_rt (msg : IRssMessage) (pl : List Nat) (n : Nat) (j : Int)
    (mpl : Option (List Nat)) (hdr rest : List Nat) (bh mh p : Nat)
    (hlen : msg.header.payload_length = (pl.length : Int))
    (hp : p < pl.length) (hn : 0 < n)
    (hP : (match mpl with
            | none => List.replicate pl.length 0
            | some x => x) = pl.take p ++ List.replicate (pl.length - p) 0)
    (hhdr : bh + mh = hdr.length) :
    read_message_payload
        { fmt := 0, cid := msg.perfer_cid % 64, header := rt_header msg,
          extended_timestamp := decide (msg.header.timestamp ≥ RTMP_EXTENDED_TIMESTAMP),
          msg := some { header := rt_header msg, size := (p : Int), payload := mpl },
          msg_count := j }
        bh mh (n : Int) (hdr ++ ((pl.drop p).take n ++ rest))
      = (rt_chunk msg pl (p + n) j, rest,
          .ok (((min (pl.length - p) n : Nat) : Int),
               if pl.length ≤ p + n then some (rt_message msg pl) else none)) := by
  have hdl := take_drop_length pl p n
  have hdata : ((hdr ++ ((pl.drop p).take n ++ rest)).drop (bh + mh)).take
      (min (pl.length - p) n) = (pl.drop p).take (min (pl.length - p) n) := by
    rw [hhdr, List.drop_left, ← hdl, List.take_left, hdl, ← take_drop_min]
  have hrest : (hdr ++ ((pl.drop p).take n ++ rest)).drop (bh + mh + min (pl.length - p) n)
      = rest := by
    rw [hhdr, ← List.drop_drop, List.drop_left, ← hdl, List.drop_left]
  have hmem := memcpy_partial pl p (min (pl.length - p) n) (by omega)
  have hstep := read_message_payload_step
    { fmt := 0, cid := msg.perfer_cid % 64, header := rt_header msg,
      extended_timestamp := decide (msg.header.timestamp ≥ RTMP_EXTENDED_TIMESTAMP),
      msg := some { header := rt_header msg, size := (p : Int), payload := mpl },
      msg_count := j }
    { header := rt_header msg, size := (p : Int), payload := mpl }
    bh mh n (hdr ++ ((pl.drop p).take n ++ rest)) pl.length p rfl hlen rfl hp hn
    (pl.take p ++ List.replicate (pl.length - p) 0) hP
    (by simp only [List.length_append, List.length_take, List.length_replicate]; omega)
    (by simp only [List.length_append, hdl]; omega)
  rw [hstep, hdata, hrest, hmem]
  by_cases hlast : pl.length ≤ p + n
  · have hmin : min (pl.length - p) n = pl.length - p := by omega
    have hL : p + (pl.length - p) = pl.length := by omega
    have hsz : (p : Int) + ((pl.length - p : Nat) : Int) = (pl.length : Int) := by omega
    have hne : ¬ pl.length = 0 := by omega
    rw [hmin, hL, if_pos rfl, if_pos hlast, hsz, Nat.sub_self, List.replicate_zero,
      List.append_nil, List.take_length]
    unfold rt_chunk rt_message
    rw [if_neg (by omega), if_neg hne]
  · have hmin : min (pl.length - p) n = n := by omega
    have hsz : (p : Int) + ((n : Nat) : Int) = ((p + n : Nat) : Int) := by omega
    rw [hmin, if_neg (by omega), if_neg hlast, hsz]
    unfold rt_chunk
    rw [if_pos (by omega)]

end Rss
namespace Rss

/-! ## Chunk round trip: the headers of the sender, read by the receiver -/

theorem fmt0_header_plain (msg : IRssMessage)
    (h : ¬ msg.header.timestamp ≥ RTMP_EXTENDED_TIMESTAMP) :
    fmt0_header msg =
      [(0 + msg.perfer_cid % 64).toNat] ++
      [byte2 msg.header.timestamp, byte1 msg.header.timestamp, byte0 msg.header.timestamp,
       byte2 msg.header.payload_length, byte1 msg.header.payload_length,
       byte0 msg.header.payload_length, byte0 msg.header.message_type,
       byte0 msg.header.stream_id, byte1 msg.header.stream_id, byte2 msg.header.stream_id,
       byte3 msg.header.stream_id]
    ∧ fmt3_header msg = [(0xC0 + msg.perfer_cid % 64).toNat] := by
  unfold fmt0_header fmt3_header
  rw [if_neg h, if_neg h]
  exact ⟨rfl, rfl⟩

theorem fmt0_header_ext (msg : IRssMessage)
    (h : msg.header.timestamp ≥ RTMP_EXTENDED_TIMESTAMP) :
    fmt0_header msg =
      [(0 + msg.perfer_cid % 64).toNat] ++
      [0xFF, 0xFF, 0xFF,
       byte2 msg.header.payload_length, byte1 msg.header.payload_length,
       byte0 msg.header.payload_length, byte0 msg.header.message_type,
       byte0 msg.header.stream_id, byte1 msg.header.stream_id, byte2 msg.header.stream_id,
       byte3 msg.header.stream_id,
       byte3 msg.header.timestamp, byte2 msg.header.timestamp, byte1 msg.header.timestamp,
       byte0 msg.header.timestamp]
    ∧ fmt3_header msg = [(0xC0 + msg.perfer_cid % 64).toNat] ++
      [byte3 msg.header.timestamp, byte2 msg.header.timestamp, byte1 msg.header.timestamp,
       byte0 msg.header.timestamp] := by
  unfold fmt0_header fmt3_header
  rw [if_pos h, if_pos h]
  exact ⟨rfl, rfl⟩

/-- The receiver reads the format-0 header of `msg` on a new chunk stream and
finds the header fields of `msg`. -/
theorem read_message_header_first (msg : IRssMessage) (rest : List Nat) (cid : Int)
    (hts0 : 0 ≤ msg.header.timestamp) (hts1 : msg.header.timestamp < 2147483648)
    (hlen0 : 0 ≤ msg.header.payload_length) (hlen1 : msg.header.payload_length < 16777216)
    (hmt0 : -128 ≤ msg.header.message_type) (hmt1 : msg.header.message_type < 128)
    (hsid0 : -2147483648 ≤ msg.header.stream_id) (hsid1 : msg.header.stream_id < 2147483648) :
    read_message_header (RssChunkStream.new cid) 0 1 (fmt0_header msg ++ rest)
      = ({ fmt := 0, cid := cid, header := rt_header msg,
           extended_timestamp := decide (msg.header.timestamp ≥ RTMP_EXTENDED_TIMESTAMP),
           msg := some { header := rt_header msg, size := ((0 : Nat) : Int), payload := none },
           msg_count := 1 }, .ok ((fmt0_header msg).length - 1)) := by
  have e1 := int32OfBytes_low3 msg.header.payload_length hlen0 hlen1
  have e2 := toInt8_byte0 msg.header.message_type hmt0 hmt1
  have e3 := int32OfBytes_bytes msg.header.stream_id hsid0 hsid1
  by_cases hext : msg.header.timestamp ≥ RTMP_EXTENDED_TIMESTAMP
  · have e4 := int32OfBytes_bytes msg.header.timestamp (by omega) hts1
    have h := read_message_header_fmt0_ext_state (RssChunkStream.new cid)
      [(0 + msg.perfer_cid % 64).toNat] rest
      (byte2 msg.header.payload_length) (byte1 msg.header.payload_length)
      (byte0 msg.header.payload_length) (byte0 msg.header.message_type)
      (byte0 msg.header.stream_id) (byte1 msg.header.stream_id) (byte2 msg.header.stream_id)
      (byte3 msg.header.stream_id)
      (byte3 msg.header.timestamp) (byte2 msg.header.timestamp) (byte1 msg.header.timestamp)
      (byte0 msg.header.timestamp) rfl
    rw [e1, e2, e3, e4] at h
    rw [(fmt0_header_ext msg hext).1]
    unfold rt_header
    rw [if_pos hext, decide_eq_true hext]
    exact h
  · have hlt : msg.header.timestamp < 16777216 := by
      unfold RTMP_EXTENDED_TIMESTAMP at hext; omega
    have e4 := int32OfBytes_low3 msg.header.timestamp hts0 hlt
    have h := read_message_header_fmt0_state (RssChunkStream.new cid)
      [(0 + msg.perfer_cid % 64).toNat] rest
      (byte2 msg.header.timestamp) (byte1 msg.header.timestamp) (byte0 msg.header.timestamp)
      (byte2 msg.header.payload_length) (byte1 msg.header.payload_length)
      (byte0 msg.header.payload_length) (byte0 msg.header.message_type)
      (byte0 msg.header.stream_id) (byte1 msg.header.stream_id) (byte2 msg.header.stream_id)
      (byte3 msg.header.stream_id) rfl
      (by rw [e4]; unfold RTMP_EXTENDED_TIMESTAMP at hext ⊢; omega)
    rw [e1, e2, e3, e4] at h
    rw [(fmt0_header_plain msg hext).1]
    unfold rt_header
    rw [if_neg hext, decide_eq_false hext]
    exact h

/-- The receiver reads the format-3 header of `msg` on the chunk stream that
holds the partial message `m` and leaves the header fields as they are. -/
theorem read_message_header_next (msg : IRssMessage) (m : RssCommonMessage)
    (rest : List Nat) (cid j : Int) (hj : j ≠ 0)
    (hts0 : 0 ≤ msg.header.timestamp) (hts1 : msg.header.timestamp < 2147483648)
    (hlen0 : 0 ≤ msg.header.payload_length) :
    read_message_header
        { fmt := 0, cid := cid, header := rt_header msg,
          extended_timestamp := decide (msg.header.timestamp ≥ RTMP_EXTENDED_TIMESTAMP),
          msg := some m, msg_count := j } 3 1 (fmt3_header msg ++ rest)
      = ({ fmt := 0, cid := cid, header := rt_header msg,
           extended_timestamp := decide (msg.header.timestamp ≥ RTMP_EXTENDED_TIMESTAMP),
           msg := some { header := rt_header msg, size := m.size, payload := m.payload },
           msg_count := j + 1 }, .ok ((fmt3_header msg).length - 1)) := by
  by_cases hext : msg.header.timestamp ≥ RTMP_EXTENDED_TIMESTAMP
  · have e4 := int32OfBytes_bytes msg.header.timestamp (by omega) hts1
    rw [(fmt0_header_ext msg hext).2, decide_eq_true hext]
    have h := read_message_header_fmt3_ext_state
      { fmt := 0, cid := cid, header := rt_header msg, extended_timestamp := true,
        msg := some m, msg_count := j } m
      [(0xC0 + msg.perfer_cid % 64).toNat] rest
      (byte3 msg.header.timestamp) (byte2 msg.header.timestamp) (byte1 msg.header.timestamp)
      (byte0 msg.header.timestamp) rfl hj rfl hlen0
    rw [e4] at h
    exact h
  · rw [(fmt0_header_plain msg hext).2, decide_eq_false hext]
    exact read_message_header_fmt3_state
      { fmt := 0, cid := cid, header := rt_header msg, extended_timestamp := false,
        msg := some m, msg_count := j } m 1
      ([(0xC0 + msg.perfer_cid % 64).toNat] ++ rest) rfl hj rfl (by simp) hlen0

end Rss
namespace Rss

/-! ## Chunk round trip: whole chunks -/

theorem fmt0_header_length_pos (msg : IRssMessage) :
    1 + ((fmt0_header msg).length - 1) = (fmt0_header msg).length := by
  have : 1 ≤ (fmt0_header msg).length := by
    unfold fmt0_header; simp only [List.length_append, List.length_singleton]; omega
  omega

theorem fmt3_header_length_pos (msg : IRssMessage) :
    1 + ((fmt3_header msg).length - 1) = (fmt3_header msg).length := by
  have : 1 ≤ (fmt3_header msg).length := by
    unfold fmt3_header; simp only [List.length_append, List.length_singleton]; omega
  omega

/-- The receiver on the first chunk of a message with payload. -/
theorem recv_first_chunk (cs : Bool) (msg : IRssMessage) (pl : List Nat) (n : Nat) (o : Int)
    (rest : List Nat)
    (hlen : msg.header.payload_length = (pl.length : Int)) (hL : 0 < pl.length)
    (hL1 : pl.length < 16777216) (hn : 0 < n)
    (hts0 : 0 ≤ msg.header.timestamp) (hts1 : msg.header.timestamp < 2147483648)
    (hmt0 : -128 ≤ msg.header.message_type) (hmt1 : msg.header.message_type < 128)
    (hsid0 : -2147483648 ≤ msg.header.stream_id) (hsid1 : msg.header.stream_id < 2147483648)
    (hc0 : 2 ≤ msg.perfer_cid) (hc1 : msg.perfer_cid ≤ 63) :
    recv_interlaced_message cs
        { chunk_streams := [], buffer := fmt0_header msg ++ ((pl.drop 0).take n ++ rest),
          in_chunk_size := (n : Int), out_chunk_size := o }
      = ({ chunk_streams := [(msg.perfer_cid % 64, rt_chunk msg pl (0 + n) 1)],
           buffer := rest, in_chunk_size := (n : Int), out_chunk_size := o },
         .ok (if pl.length ≤ 0 + n then some (rt_message msg pl) else none)) := by
  obtain ⟨tl, -, hbh⟩ := read_basic_header_fmt0 cs msg ((pl.drop 0).take n ++ rest) hc0 hc1
  have hmh := read_message_header_first msg ((pl.drop 0).take n ++ rest)
    (msg.perfer_cid % 64) hts0 hts1 (by omega) (by omega) hmt0 hmt1 hsid0 hsid1
  have hpay := read_message_payload_rt msg pl n 1 none (fmt0_header msg) rest 1
    ((fmt0_header msg).length - 1) 0 hlen hL hn
    (by rw [List.take_zero, List.nil_append, Nat.sub_zero])
    (fmt0_header_length_pos msg)
  exact recv_interlaced_message_eq cs _ 0 (msg.perfer_cid % 64) 1
    ((fmt0_header msg).length - 1) _ _ _ _ _ _ hbh rfl hmh hpay

/-- The receiver on a later chunk of a message. -/
theorem recv_next_chunk (cs : Bool) (msg : IRssMessage) (pl : List Nat) (n : Nat) (o : Int)
    (rest : List Nat) (p : Nat) (j : Int)
    (hlen : msg.header.payload_length = (pl.length : Int)) (hp : p < pl.length)
    (hn : 0 < n) (hj : j ≠ 0)
    (hts0 : 0 ≤ msg.header.timestamp) (hts1 : msg.header.timestamp < 2147483648)
    (hc0 : 2 ≤ msg.perfer_cid) (hc1 : msg.perfer_cid ≤ 63) :
    recv_interlaced_message cs
        { chunk_streams := [(msg.perfer_cid % 64, rt_chunk msg pl p j)],
          buffer := fmt3_header msg ++ ((pl.drop p).take n ++ rest),
          in_chunk_size := (n : Int), out_chunk_size := o }
      = ({ chunk_streams := [(msg.perfer_cid % 64, rt_chunk msg pl (p + n) (j + 1))],
           buffer := rest, in_chunk_size := (n : Int), out_chunk_size := o },
         .ok (if pl.length ≤ p + n then some (rt_message msg pl) else none)) := by
  have hrt : rt_chunk msg pl p j =
      { fmt := 0, cid := msg.perfer_cid % 64, header := rt_header msg,
        extended_timestamp := decide (msg.header.timestamp ≥ RTMP_EXTENDED_TIMESTAMP),
        msg := some { header := rt_header msg, size := (p : Int),
                      payload := some (pl.take p ++ List.replicate (pl.length - p) 0) },
        msg_count := j } := by
    unfold rt_chunk; rw [if_pos hp]
  rw [hrt]
  obtain ⟨tl, -, hbh⟩ := read_basic_header_fmt3 cs msg ((pl.drop p).take n ++ rest) hc0 hc1
  have hmh := read_message_header_next msg
    { header := rt_header msg, size := (p : Int),
      payload := some (pl.take p ++ List.replicate (pl.length - p) 0) }
    ((pl.drop p).take n ++ rest) (msg.perfer_cid % 64) j hj hts0 hts1 (by omega)
  have hpay := read_message_payload_rt msg pl n (j + 1)
    (some (pl.take p ++ List.replicate (pl.length - p) 0)) (fmt3_header msg) rest 1
    ((fmt3_header msg).length - 1) p hlen hp hn rfl (fmt3_header_length_pos msg)
  rw [recv_interlaced_message_eq cs _ 3 (msg.perfer_cid % 64) 1
    ((fmt3_header msg).length - 1) _ _ _ _ _ _ hbh
    (by simp only [findChunk_single]) hmh hpay]
  simp only [storeChunk_single]

end Rss
namespace Rss

/-! ## Chunk round trip: the whole message -/

theorem wire_nil : wire [] = [] := rfl

theorem wire_cons (h d : List Nat) (cs : List (List Nat × List Nat)) :
    wire ((h, d) :: cs) = h ++ (d ++ wire cs) := by
  simp [wire]

theorem chunk_list_succ (msg : IRssMessage) (pl : List Nat) (n k p : Nat) :
    chunk_list msg pl n (k + 1) p
      = ((if p = 0 then fmt0_header msg else fmt3_header msg), (pl.drop p).take n)
          :: chunk_list msg pl n k (p + n) := rfl

theorem ceil_div_step (L p n k : Nat) (hn : 0 < n) (h : p + n < L)
    (hk : (L - p + n - 1) / n = k + 1) : (L - (p + n) + n - 1) / n = k := by
  have e : L - p + n - 1 = (L - (p + n) + n - 1) + n := by omega
  rw [e, Nat.add_div_right _ hn] at hk
  omega

theorem ceil_div_last (L p n k : Nat) (hp : p < L) (h : L ≤ p + n)
    (hk : (L - p + n - 1) / n = k + 1) : k = 0 := by
  have h2 : (L - p + n - 1) / n < 2 := Nat.div_lt_of_lt_mul (by omega)
  omega

theorem read_message_payload_zero (chunk : RssChunkStream) (bh mh : Nat) (n : Int)
    (buf : List Nat) (h : chunk.header.payload_length = 0) :
    read_message_payload chunk bh mh n buf
      = ({ fmt := chunk.fmt, cid := chunk.cid, header := chunk.header,
           extended_timestamp := chunk.extended_timestamp, msg := none,
           msg_count := chunk.msg_count }, buf.drop (bh + mh), .ok (0, chunk.msg)) := by
  unfold read_message_payload
  rw [if_pos h]

/-- The receiver on a message without payload: the single chunk is the
format-0 header, and the message comes back at once. -/
theorem recv_first_chunk_empty (cs : Bool) (msg : IRssMessage) (n o : Int) (rest : List Nat)
    (hlen : msg.header.payload_length = 0)
    (hts0 : 0 ≤ msg.header.timestamp) (hts1 : msg.header.timestamp < 2147483648)
    (hmt0 : -128 ≤ msg.header.message_type) (hmt1 : msg.header.message_type < 128)
    (hsid0 : -2147483648 ≤ msg.header.stream_id) (hsid1 : msg.header.stream_id < 2147483648)
    (hc0 : 2 ≤ msg.perfer_cid) (hc1 : msg.perfer_cid ≤ 63) :
    recv_interlaced_message cs
        { chunk_streams := [], buffer := fmt0_header msg ++ rest,
          in_chunk_size := n, out_chunk_size := o }
      = ({ chunk_streams := [(msg.perfer_cid % 64,
              { fmt := 0, cid := msg.perfer_cid % 64, header := rt_header msg,
                extended_timestamp :=
                  decide (msg.header.timestamp ≥ RTMP_EXTENDED_TIMESTAMP),
                msg := none, msg_count := 1 })],
           buffer := rest, in_chunk_size := n, out_chunk_size := o },
         .ok (some { header := rt_header msg, size := ((0 : Nat) : Int), payload := none })) := by
  obtain ⟨tl, -, hbh⟩ := read_basic_header_fmt0 cs msg rest hc0 hc1
  have hmh := read_message_header_first msg rest
    (msg.perfer_cid % 64) hts0 hts1 (by omega) (by omega) hmt0 hmt1 hsid0 hsid1
  have hpay : read_message_payload
      { fmt := 0, cid := msg.perfer_cid % 64, header := rt_header msg,
        extended_timestamp := decide (msg.header.timestamp ≥ RTMP_EXTENDED_TIMESTAMP),
        msg := some { header := rt_header msg, size := ((0 : Nat) : Int), payload := none },
        msg_count := 1 } 1 ((fmt0_header msg).length - 1) n (fmt0_header msg ++ rest)
      = ({ fmt := 0, cid := msg.perfer_cid % 64, header := rt_header msg,
           extended_timestamp := decide (msg.header.timestamp ≥ RTMP_EXTENDED_TIMESTAMP),
           msg := none, msg_count := 1 }, rest,
         .ok (0, some { header := rt_header msg, size := ((0 : Nat) : Int),
                        payload := none })) := by
    refine (read_message_payload_zero _ 1 ((fmt0_header msg).length - 1) n
      (fmt0_header msg ++ rest) hlen).trans ?_
    rw [fmt0_header_length_pos, List.drop_left]
  exact recv_interlaced_message_eq cs _ 0 (msg.perfer_cid % 64) 1
    ((fmt0_header msg).length - 1) _ _ _ _ _ _ hbh rfl hmh hpay

/-- The receiver on the chunks of a message after the first one: from the
state with `p` payload bytes received it returns the message once the
remaining `k` chunks are read. -/
theorem recv_entire_message_rest (cs : Bool) (msg : IRssMessage) (pl : List Nat) (n : Nat)
    (o : Int)
    (hlen : msg.header.payload_length = (pl.length : Int)) (hn : 0 < n)
    (hts0 : 0 ≤ msg.header.timestamp) (hts1 : msg.header.timestamp < 2147483648)
    (hc0 : 2 ≤ msg.perfer_cid) (hc1 : msg.perfer_cid ≤ 63) :
    ∀ (k p : Nat) (j : Int) (rest : List Nat) (fuel : Nat),
      0 < p → p < pl.length → 0 < j → (pl.length - p + n - 1) / n = k → k ≤ fuel →
      ∃ proto, recv_entire_message cs fuel
          { chunk_streams := [(msg.perfer_cid % 64, rt_chunk msg pl p j)],
            buffer := wire (chunk_list msg pl n k p) ++ rest,
            in_chunk_size := (n : Int), out_chunk_size := o }
        = some (proto, .ok (rt_message msg pl)) ∧ proto.buffer = rest := by
  intro k
  induction k with
  | zero =>
    intro p j rest fuel hp0 hp hj hk hf
    have : 0 < (pl.length - p + n - 1) / n := Nat.div_pos (by omega) hn
    omega
  | succ k ih =>
    intro p j rest fuel hp0 hp hj hk hf
    obtain ⟨f, rfl⟩ : ∃ f, fuel = f + 1 := ⟨fuel - 1, by omega⟩
    rw [chunk_list_succ, if_neg (by omega), wire_cons, List.append_assoc, List.append_assoc,
      recv_entire_message,
      recv_next_chunk cs msg pl n o _ p j hlen hp hn (by omega) hts0 hts1 hc0 hc1]
    by_cases hlast : pl.length ≤ p + n
    · have hk0 := ceil_div_last pl.length p n k hp hlast hk
      subst hk0
      rw [if_pos hlast]
      exact ⟨_, rfl, rfl⟩
    · rw [if_neg hlast]
      exact ih (p + n) (j + 1) rest f (by omega) (by omega) (by omega)
        (ceil_div_step pl.length p n k hn (by omega) hk) (by omega)

end Rss
namespace Rss

theorem send_message_empty (msg : IRssMessage) (n : Int) (fuel : Nat)
    (hsize : msg.size = 0) (hn : 0 < n) :
    send_message (fuel + 1) n msg = some [(fmt0_header msg, [])] := by
  have hmin : rss_min (0 - 0) n = 0 := by unfold rss_min; rw [if_pos (by omega)]; rfl
  unfold send_message send_loop
  simp only [hsize, hmin, if_true, Int.toNat_zero, List.take_zero, lt_irrefl, and_false,
    if_false, gt_iff_lt]

theorem ceil_div_le (L n : Nat) (hn : 0 < n) : (L - 0 + n - 1) / n ≤ L / n + 1 := by
  have h1 : (L - 0 + n - 1) / n ≤ (L + n) / n := Nat.div_le_div_right (by omega)
  rw [Nat.add_div_right _ hn] at h1
  exact h1

/-- C1 (amended). A message whose payload has fewer than `2^24` bytes, whose
`payload_length` and `size` equal its payload size, whose timestamp is from 0
to `0xFFFFFE` (so that no chunk carries an extended timestamp) and whose
preferred chunk id is from 2 to 63, sent with `out_chunk_size = n` for
`2 ≤ n ≤ 65536`: the sender finishes, and the chunk decoder with
`in_chunk_size = n` on a context without chunk streams, fed the bytes sent,
returns a message with the same message type, payload length, timestamp,
stream id and payload bytes, and has consumed all the bytes. -/
theorem chunk_round_trip (cs : Bool) (msg : IRssMessage) (pl : List Nat) (n : Nat) (o : Int)
    (fuelS fuelR : Nat)
    (hpl : msg.payload = some pl ∨ (msg.payload = none ∧ pl = []))
    (hsize : msg.size = (pl.length : Int))
    (hlen : msg.header.payload_length = (pl.length : Int))
    (hL1 : pl.length < 16777216) (hn0 : 2 ≤ n) (hn1 : n ≤ 65536)
    (hts0 : 0 ≤ msg.header.timestamp) (hts2 : msg.header.timestamp < RTMP_EXTENDED_TIMESTAMP)
    (hmt0 : -128 ≤ msg.header.message_type) (hmt1 : msg.header.message_type < 128)
    (hsid0 : -2147483648 ≤ msg.header.stream_id) (hsid1 : msg.header.stream_id < 2147483648)
    (hc0 : 2 ≤ msg.perfer_cid) (hc1 : msg.perfer_cid ≤ 63)
    (hfS : pl.length / n + 1 ≤ fuelS) (hfR : pl.length / n + 1 ≤ fuelR) :
    ∃ chunks proto m,
      send_message fuelS (n : Int) msg = some chunks
      ∧ recv_entire_message cs fuelR
          { chunk_streams := [], buffer := wire chunks, in_chunk_size := (n : Int),
            out_chunk_size := o } = some (proto, .ok m)
      ∧ m.header.message_type = msg.header.message_type
      ∧ m.header.payload_length = msg.header.payload_length
      ∧ m.header.timestamp = msg.header.timestamp
      ∧ m.header.stream_id = msg.header.stream_id
      ∧ m.payload.getD [] = pl
      ∧ proto.buffer = [] := by
  have hts1 : msg.header.timestamp < 2147483648 := by
    unfold RTMP_EXTENDED_TIMESTAMP at hts2
    omega
  have hn : 0 < n := by omega
  obtain ⟨fS, rfl⟩ : ∃ f, fuelS = f + 1 :=
    ⟨fuelS - 1, (Nat.sub_add_cancel (Nat.le_trans (Nat.le_add_left 1 _) hfS)).symm⟩
  obtain ⟨fR, rfl⟩ : ∃ f, fuelR = f + 1 :=
    ⟨fuelR - 1, (Nat.sub_add_cancel (Nat.le_trans (Nat.le_add_left 1 _) hfR)).symm⟩
  by_cases hL : 0 < pl.length
  · have hpl1 : msg.payload = some pl := by
      rcases hpl with h | ⟨-, h⟩
      · exact h
      · rw [h] at hL; exact absurd hL (by decide)
    have hK := ceil_div_le pl.length n hn
    have hKpos : 0 < (pl.length - 0 + n - 1) / n := Nat.div_pos (by omega) hn
    obtain ⟨k, hk⟩ : ∃ k, (pl.length - 0 + n - 1) / n = k + 1 :=
      ⟨(pl.length - 0 + n - 1) / n - 1, by omega⟩
    have hsend : send_message (fS + 1) (n : Int) msg
        = some (chunk_list msg pl n (k + 1) 0) := by
      rw [← hk]
      exact send_loop_eq msg pl n hpl1 hsize (by omega) (fS + 1) 0 hL (by omega)
    have hgoal : ∃ proto, recv_entire_message cs (fR + 1)
          { chunk_streams := [], buffer := wire (chunk_list msg pl n (k + 1) 0),
            in_chunk_size := (n : Int), out_chunk_size := o }
        = some (proto, .ok (rt_message msg pl)) ∧ proto.buffer = [] := by
      rw [chunk_list_succ, if_pos rfl, wire_cons, recv_entire_message,
        recv_first_chunk cs msg pl n o _ hlen hL hL1 hn hts0 hts1 hmt0 hmt1 hsid0 hsid1
          hc0 hc1]
      by_cases hlast : pl.length ≤ 0 + n
      · have hk0 := ceil_div_last pl.length 0 n k hL hlast hk
        subst hk0
        rw [if_pos hlast]
        exact ⟨_, rfl, rfl⟩
      · rw [if_neg hlast]
        have h := recv_entire_message_rest cs msg pl n o hlen hn hts0 hts1 hc0 hc1 k (0 + n)
          1 [] fR (by omega) (by omega) (by decide)
          (ceil_div_step pl.length 0 n k hn (by omega) hk) (by omega)
        rw [List.append_nil] at h
        exact h
    obtain ⟨proto, hrecv, hbuf⟩ := hgoal
    refine ⟨_, proto, rt_message msg pl, hsend, hrecv, rfl, rfl, rfl, rfl, ?_, hbuf⟩
    unfold rt_message
    simp only [if_neg (show ¬ pl.length = 0 by omega), Option.getD_some]
  · have hL0 : pl.length = 0 := by omega
    have hnil : pl = [] := List.length_eq_zero.mp hL0
    subst hnil
    have hsend := send_message_empty msg (n : Int) fS (by rw [hsize]; rfl) (by omega)
    have hrecv := recv_first_chunk_empty cs msg (n : Int) o [] (by rw [hlen]; rfl)
      hts0 hts1 hmt0 hmt1 hsid0 hsid1 hc0 hc1
    rw [List.append_nil] at hrecv
    have hw : wire [(fmt0_header msg, ([] : List Nat))] = fmt0_header msg := by
      simp [wire]
    have hr : ∃ proto, recv_entire_message cs (fR + 1)
          { chunk_streams := [], buffer := wire [(fmt0_header msg, ([] : List Nat))],
            in_chunk_size := (n : Int), out_chunk_size := o }
        = some (proto, .ok { header := rt_header msg, size := ((0 : Nat) : Int),
                             payload := none }) ∧ proto.buffer = [] := by
      rw [hw, recv_entire_message, hrecv]
      exact ⟨_, rfl, rfl⟩
    obtain ⟨proto, hr1, hr2⟩ := hr
    exact ⟨_, proto, _, hsend, hr1, rfl, rfl, rfl, rfl, rfl, hr2⟩

end Rss
namespace Rss

theorem chunk_round_trip_witness :
    ∃ chunks proto m,
      send_message 3 128 example_message_300_plain = some chunks
      ∧ recv_entire_message false 3
          { chunk_streams := [], buffer := wire chunks, in_chunk_size := 128,
            out_chunk_size := 128 } = some (proto, .ok m)
      ∧ m.header.timestamp = 1000
      ∧ m.payload.getD [] = (List.range 300).map (fun i => i % 256) := by
  obtain ⟨chunks, proto, m, h1, h2, -, -, h3, -, h4, -⟩ :=
    chunk_round_trip false example_message_300_plain
      ((List.range 300).map (fun i => i % 256))
      128 128 3 3 (Or.inl rfl) (by simp [example_message_300_plain])
      (by simp [example_message_300_plain]) (by simp) (by decide) (by decide) (by decide)
      (by decide) (by decide) (by decide) (by decide) (by decide) (by decide) (by decide)
      (by simp) (by simp)
  exact ⟨chunks, proto, m, h1, h2, h3, h4⟩

/-- The 16 MiB message `example_message_16MiB` sent with chunk size 65536 and
received, whatever the signedness of `char`: the decoder returns after the
first chunk a message with payload length 0 and no payload. -/
theorem recv_16MiB_first_chunk :
    ∀ cs : Bool, ∃ chunks proto m,
      send_message 256 65536 example_message_16MiB = some chunks
      ∧ recv_entire_message cs 256
          { chunk_streams := [], buffer := wire chunks, in_chunk_size := 65536,
            out_chunk_size := 65536 } = some (proto, .ok m)
      ∧ m.header.payload_length = 0 ∧ m.payload = none
      ∧ example_message_16MiB.header.payload_length = 16777216
      ∧ example_message_16MiB.payload = some (List.replicate 16777216 0) := by
  intro cs
  have hl : (List.replicate 16777216 (0 : Nat)).length = 16777216 := List.length_replicate _ _
  have hsend : send_message 256 65536 example_message_16MiB
      = some (chunk_list example_message_16MiB (List.replicate 16777216 0) 65536 (255 + 1) 0) := by
    have h := send_loop_eq example_message_16MiB (List.replicate 16777216 0) 65536 rfl
      (by rw [hl]; rfl) (by decide) 256 0 (by rw [hl]; decide) (by rw [hl])
    rw [hl] at h
    exact h
  have hhdr : fmt0_header example_message_16MiB
      = [6] ++ [0, 0, 0, 0, 0, 0, 9, 1, 0, 0, 0] := by decide
  have hrecv : ∃ proto m, recv_entire_message cs (255 + 1)
        { chunk_streams := [],
          buffer := wire (chunk_list example_message_16MiB (List.replicate 16777216 0)
            65536 (255 + 1) 0),
          in_chunk_size := 65536, out_chunk_size := 65536 } = some (proto, .ok m)
      ∧ m.header.payload_length = 0 ∧ m.payload = none := by
    rw [chunk_list_succ, if_pos rfl, wire_cons, hhdr]
    generalize (List.take 65536 (List.drop 0 (List.replicate 16777216 0)) ++
      wire (chunk_list example_message_16MiB (List.replicate 16777216 0) 65536 255 (0 + 65536)))
      = R
    have hbh := read_basic_header_one cs 6 ([0, 0, 0, 0, 0, 0, 9, 1, 0, 0, 0] ++ R)
      (by decide) (by decide)
    have hmh := read_message_header_fmt0_state (RssChunkStream.new ((6 % 64 : Nat) : Int))
      [6] R 0 0 0 0 0 0 9 1 0 0 0 rfl (by decide)
    have hpay := read_message_payload_zero
      { fmt := (RssChunkStream.new ((6 % 64 : Nat) : Int)).fmt,
        cid := (RssChunkStream.new ((6 % 64 : Nat) : Int)).cid,
        header := { message_type := toInt8 9, payload_length := int32OfBytes 0 0 0 0,
                    timestamp_delta := int32OfBytes 0 0 0 0,
                    stream_id := int32OfBytes 1 0 0 0, timestamp := int32OfBytes 0 0 0 0 },
        extended_timestamp := false,
        msg := some { header := { message_type := toInt8 9,
                                  payload_length := int32OfBytes 0 0 0 0,
                                  timestamp_delta := int32OfBytes 0 0 0 0,
                                  stream_id := int32OfBytes 1 0 0 0,
                                  timestamp := int32OfBytes 0 0 0 0 },
                      size := 0, payload := none },
        msg_count := (RssChunkStream.new ((6 % 64 : Nat) : Int)).msg_count + 1 }
      1 11 65536 ([6] ++ [0, 0, 0, 0, 0, 0, 9, 1, 0, 0, 0] ++ R) (by decide)
    have hstep := recv_interlaced_message_eq cs
      { chunk_streams := [], buffer := [6] ++ [0, 0, 0, 0, 0, 0, 9, 1, 0, 0, 0] ++ R,
        in_chunk_size := 65536, out_chunk_size := 65536 }
      ((6 / 64 : Nat) : Int) ((6 % 64 : Nat) : Int) 1 11 _ _ _ _ _ _ hbh rfl hmh hpay
    rw [recv_entire_message, hstep]
    exact ⟨_, _, rfl, by decide, rfl⟩
  obtain ⟨proto, m, h1, h2, h3⟩ := hrecv
  exact ⟨_, proto, m, hsend, h1, h2, h3, rfl, rfl⟩

/-- C1 (counterexample). The 16 MiB message `example_message_16MiB` (payload
length `0x1000000`), sent with chunk size 65536: the 3-byte length field of the
format-0 header holds `00 00 00`, so the decoder returns after the first chunk
a message with payload length 0 and no payload. -/
theorem chunk_round_trip_16MiB_fails :
    ∃ chunks proto m,
      send_message 256 65536 example_message_16MiB = some chunks
      ∧ recv_entire_message false 256
          { chunk_streams := [], buffer := wire chunks, in_chunk_size := 65536,
            out_chunk_size := 65536 } = some (proto, .ok m)
      ∧ m.header.payload_length = 0 ∧ m.payload = none
      ∧ example_message_16MiB.header.payload_length = 16777216
      ∧ example_message_16MiB.payload = some (List.replicate 16777216 0) :=
  recv_16MiB_first_chunk false

end Rss
namespace Rss

/-! ## Message header: chunk-start check and extended timestamp -/

theorem finish_message_header_snd (c : RssChunkStream) (n : Nat) :
    (finish_message_header c n).2 = .error .invalid_size
      ∨ (finish_message_header c n).2 = .ok n := by
  unfold finish_message_header
  by_cases h : c.header.payload_length < 0
  · rw [if_pos h]; exact Or.inl rfl
  · rw [if_neg h]; exact Or.inr rfl

/-- C12. The call `read_message_header` fails with the chunk-start error
exactly when the chunk stream has `msg_count = 0` and the format is not 0, or
a partial message exists on the chunk stream and the format is 0. -/
theorem read_message_header_chunk_start (chunk : RssChunkStream) (fmt : Int) (bh_size : Nat)
    (buffer : List Nat) :
    (read_message_header chunk fmt bh_size buffer).2 = .error .chunk_start
      ↔ ((chunk.msg_count = 0 ∧ fmt ≠ 0) ∨ (chunk.msg.isSome = true ∧ fmt = 0)) := by
  by_cases h1 : chunk.msg_count = 0 ∧ fmt ≠ RTMP_FMT_TYPE0
  · have hr : read_message_header chunk fmt bh_size buffer = (chunk, .error .chunk_start) := by
      unfold read_message_header
      rw [if_pos h1]
    rw [hr]
    exact ⟨fun _ => Or.inl h1, fun _ => rfl⟩
  by_cases h2 : chunk.msg.isSome = true ∧ fmt = RTMP_FMT_TYPE0
  · have hr : read_message_header chunk fmt bh_size buffer = (chunk, .error .chunk_start) := by
      unfold read_message_header
      rw [if_neg h1, if_pos h2]
    rw [hr]
    exact ⟨fun _ => Or.inr h2, fun _ => rfl⟩
  have hne : (read_message_header chunk fmt bh_size buffer).2 ≠ .error .chunk_start := by
    by_cases hlen : buffer.length < bh_size + mh_sizes fmt
    · have hr : (read_message_header chunk fmt bh_size buffer).2 = .error .socket := by
        unfold read_message_header
        rw [if_neg h1, if_neg h2]
        simp only [hlen, if_true]
      rw [hr]; exact fun h => by cases h
    · cases hp : parse_message_header
          (if chunk.msg.isNone = true then { chunk with msg := some RssCommonMessage.new }
           else chunk)
          fmt chunk.msg.isNone (fun i => buffer.getD (bh_size + i) 0) with
      | mk c1 used =>
        rw [read_message_header_eq chunk fmt bh_size buffer c1 used h1 h2 hlen hp]
        by_cases he : c1.extended_timestamp = true
        · rw [if_pos he]
          by_cases hl4 : buffer.length < bh_size + (mh_sizes fmt + 4)
          · rw [if_pos hl4]; exact fun h => by cases h
          · rw [if_neg hl4]
            rcases finish_message_header_snd _ (mh_sizes fmt + 4) with h | h <;>
              rw [h] <;> exact fun h => by cases h
        · rw [if_neg he]
          rcases finish_message_header_snd c1 (mh_sizes fmt) with h | h <;>
            rw [h] <;> exact fun h => by cases h
  constructor
  · intro h; exact absurd h hne
  · intro h
    rcases h with h | h
    · exact absurd h h1
    · exact absurd h h2

end Rss
namespace Rss

theorem chunk_update_proj (c : RssChunkStream) (h : RssMessageHeader) (e : Bool) (n : Nat) :
    (({ c with header := h, extended_timestamp := e }, n) : RssChunkStream × Nat).1.msg = c.msg
    ∧ (({ c with header := h, extended_timestamp := e }, n) : RssChunkStream × Nat).1.header = h
    ∧ (({ c with header := h, extended_timestamp := e }, n)
        : RssChunkStream × Nat).1.extended_timestamp = e
    ∧ (({ c with header := h, extended_timestamp := e }, n) : RssChunkStream × Nat).2 = n :=
  ⟨rfl, rfl, rfl, rfl⟩

theorem header_mk_payload_length (mt pl td sid ts : Int) :
    ({ message_type := mt, payload_length := pl, timestamp_delta := td, stream_id := sid,
       timestamp := ts } : RssMessageHeader).payload_length = pl := rfl

theorem parse_message_header_facts012 (c : RssChunkStream) (fmt : Int) (fresh : Bool)
    (b : Nat → Nat) (hfmt : fmt = 0 ∨ fmt = 1 ∨ fmt = 2) :
    (parse_message_header c fmt fresh b).2 = mh_sizes fmt
    ∧ (parse_message_header c fmt fresh b).1.extended_timestamp
        = decide (int32OfBytes (b 2) (b 1) (b 0) 0 ≥ RTMP_EXTENDED_TIMESTAMP)
    ∧ (parse_message_header c fmt fresh b).1.msg = c.msg
    ∧ (fmt = 2 → (parse_message_header c fmt fresh b).1.header.payload_length
        = c.header.payload_length)
    ∧ (fmt ≠ 2 → 0 ≤ (parse_message_header c fmt fresh b).1.header.payload_length) := by
  rcases hfmt with rfl | rfl | rfl
  · refine ⟨?_, ?_, ?_, ?_, ?_⟩
    · rw [parse_fmt0]; rfl
    · rewrite [parse_fmt0]; exact (chunk_update_proj c _ _ 11).2.2.1
    · rewrite [parse_fmt0]; exact (chunk_update_proj c _ _ 11).1
    · intro h; exact absurd h (by decide)
    · intro _
      have key : (parse_message_header c 0 fresh b).1.header.payload_length
          = int32OfBytes (b 5) (b 4) (b 3) 0 := by rw [parse_fmt0]
      rw [key]
      exact int32OfBytes_nonneg _ _ _
  · refine ⟨?_, ?_, ?_, ?_, ?_⟩
    · rw [parse_fmt1]; rfl
    · rewrite [parse_fmt1]; exact (chunk_update_proj c _ _ 7).2.2.1
    · rewrite [parse_fmt1]; exact (chunk_update_proj c _ _ 7).1
    · intro h; exact absurd h (by decide)
    · intro _
      have key : (parse_message_header c 1 fresh b).1.header.payload_length
          = int32OfBytes (b 5) (b 4) (b 3) 0 := by rw [parse_fmt1]
      rw [key]
      exact int32OfBytes_nonneg _ _ _
  · refine ⟨?_, ?_, ?_, ?_, ?_⟩
    · rw [parse_fmt2]; rfl
    · rewrite [parse_fmt2]; exact (chunk_update_proj c _ _ 3).2.2.1
    · rewrite [parse_fmt2]; exact (chunk_update_proj c _ _ 3).1
    · intro _
      rewrite [parse_fmt2]
      exact (congrArg RssMessageHeader.payload_length (chunk_update_proj c _ _ 3).2.1).trans
        (header_mk_payload_length _ _ _ _ _)
    · intro h; exact absurd rfl h

theorem parse_message_header_facts3 (c : RssChunkStream) (fresh : Bool) (b : Nat → Nat) :
    (parse_message_header c 3 fresh b).2 = 0
    ∧ (parse_message_header c 3 fresh b).1.extended_timestamp = c.extended_timestamp
    ∧ (parse_message_header c 3 fresh b).1.msg = c.msg
    ∧ (parse_message_header c 3 fresh b).1.header.payload_length = c.header.payload_length := by
  rw [parse_fmt3]
  split
  · exact ⟨rfl, rfl, rfl, rfl⟩
  · exact ⟨rfl, rfl, rfl, rfl⟩

/-- The chunk stream `read_message_header` parses: the one given, with a new
message when it holds none. -/
theorem fresh_chunk_facts (chunk : RssChunkStream) :
    (if chunk.msg.isNone = true then { chunk with msg := some RssCommonMessage.new }
      else chunk).msg.isSome = true
    ∧ (if chunk.msg.isNone = true then { chunk with msg := some RssCommonMessage.new }
      else chunk).header = chunk.header
    ∧ (if chunk.msg.isNone = true then { chunk with msg := some RssCommonMessage.new }
      else chunk).extended_timestamp = chunk.extended_timestamp := by
  cases h : chunk.msg with
  | none => exact ⟨rfl, rfl, rfl⟩
  | some m => simp [h]

/-- A header read that ends in extended-timestamp mode: the 4 bytes after the
message header become the timestamp of the chunk stream and of its message. -/
theorem read_message_header_ext (chunk : RssChunkStream) (fmt : Int) (bh_size : Nat)
    (buffer : List Nat) (c1 : RssChunkStream) (used : Nat)
    (h1 : ¬ (chunk.msg_count = 0 ∧ fmt ≠ RTMP_FMT_TYPE0))
    (h2 : ¬ (chunk.msg.isSome = true ∧ fmt = RTMP_FMT_TYPE0))
    (hlen : bh_size + (mh_sizes fmt + 4) ≤ buffer.length)
    (hp : parse_message_header
            (if chunk.msg.isNone = true then { chunk with msg := some RssCommonMessage.new }
             else chunk)
            fmt chunk.msg.isNone (fun i => buffer.getD (bh_size + i) 0) = (c1, used))
    (hext : c1.extended_timestamp = true) (hpl : 0 ≤ c1.header.payload_length)
    (hmsg : c1.msg.isSome = true) :
    ∃ c2, read_message_header chunk fmt bh_size buffer = (c2, .ok (mh_sizes fmt + 4))
      ∧ c2.extended_timestamp = true
      ∧ c2.header.timestamp
          = int32OfBytes (buffer.getD (bh_size + used + 3) 0)
              (buffer.getD (bh_size + used + 2) 0) (buffer.getD (bh_size + used + 1) 0)
              (buffer.getD (bh_size + used) 0)
      ∧ c2.msg.map (fun m => m.header.timestamp)
          = some (int32OfBytes (buffer.getD (bh_size + used + 3) 0)
              (buffer.getD (bh_size + used + 2) 0) (buffer.getD (bh_size + used + 1) 0)
              (buffer.getD (bh_size + used) 0)) := by
  rw [read_message_header_eq chunk fmt bh_size buffer c1 used h1 h2 (by omega) hp,
    if_pos hext, if_neg (by omega), finish_message_header_mk _ _ _ _ _ _ _ _ _ _ _ hpl]
  refine ⟨_, rfl, hext, rfl, ?_⟩
  cases hm : c1.msg with
  | none => rw [hm] at hmsg; exact absurd hmsg (by decide)
  | some m => rfl

theorem getD_mid (pre mid post : List Nat) (i : Nat) (hi : i < mid.length) :
    (pre ++ mid ++ post).getD (pre.length + i) 0 = mid.getD i 0 := by
  rw [List.append_assoc, getD_append_add, List.getD_append _ _ _ _ hi]

end Rss
namespace Rss

theorem int32OfBytes_be (e3 e2 e1 e0 : Nat) (h3 : e3 < 256) (h2 : e2 < 256) (h1 : e1 < 256)
    (h0 : e0 < 256) :
    int32OfBytes e0 e1 e2 e3
      = toInt32 ((e3 * 16777216 + e2 * 65536 + e1 * 256 + e0 : Nat) : Int) := by
  unfold int32OfBytes
  congr 1
  omega

/-- A header read that does not end in extended-timestamp mode reads no
extended timestamp. -/
theorem read_message_header_noext (chunk : RssChunkStream) (fmt : Int) (bh_size : Nat)
    (buffer : List Nat) (c1 : RssChunkStream) (used : Nat)
    (h1 : ¬ (chunk.msg_count = 0 ∧ fmt ≠ RTMP_FMT_TYPE0))
    (h2 : ¬ (chunk.msg.isSome = true ∧ fmt = RTMP_FMT_TYPE0))
    (hlen : bh_size + mh_sizes fmt ≤ buffer.length)
    (hp : parse_message_header
            (if chunk.msg.isNone = true then { chunk with msg := some RssCommonMessage.new }
             else chunk)
            fmt chunk.msg.isNone (fun i => buffer.getD (bh_size + i) 0) = (c1, used))
    (hext : c1.extended_timestamp = false) :
    (read_message_header chunk fmt bh_size buffer).1.extended_timestamp = false
      ∧ (0 ≤ c1.header.payload_length →
          (read_message_header chunk fmt bh_size buffer).2 = .ok (mh_sizes fmt)) := by
  rw [read_message_header_eq chunk fmt bh_size buffer c1 used h1 h2 (by omega) hp,
    if_neg (by rw [hext]; decide)]
  unfold finish_message_header
  by_cases h0 : c1.header.payload_length < 0
  · rw [if_pos h0]
    exact ⟨hext, fun h => absurd h0 (by omega)⟩
  · rw [if_neg h0]
    exact ⟨hext, fun _ => rfl⟩

/-- Formats 0 to 2 with the timestamp field `FF FF FF`. -/
theorem read_message_header_ext012 (chunk : RssChunkStream) (fmt : Int)
    (pre mh rest : List Nat) (e3 e2 e1 e0 : Nat)
    (hfmt : fmt = 0 ∨ fmt = 1 ∨ fmt = 2)
    (hs1 : ¬ (chunk.msg_count = 0 ∧ fmt ≠ 0)) (hs2 : ¬ (chunk.msg.isSome = true ∧ fmt = 0))
    (hmh : mh.length + 3 = mh_sizes fmt)
    (hpl : fmt = 2 → 0 ≤ chunk.header.payload_length) :
    ∃ c2, read_message_header chunk fmt pre.length
          (pre ++ (0xFF :: 0xFF :: 0xFF :: mh) ++ [e3, e2, e1, e0] ++ rest)
        = (c2, .ok (mh_sizes fmt + 4))
      ∧ c2.extended_timestamp = true
      ∧ c2.header.timestamp = int32OfBytes e0 e1 e2 e3
      ∧ c2.msg.map (fun m => m.header.timestamp) = some (int32OfBytes e0 e1 e2 e3) := by
  generalize hbuf : pre ++ (0xFF :: 0xFF :: 0xFF :: mh) ++ [e3, e2, e1, e0] ++ rest = buf
  have hlenb : buf.length = pre.length + (mh.length + 3) + 4 + rest.length := by
    rw [← hbuf]; simp only [List.length_append, List.length_cons, List.length_nil]
  have hg : ∀ i, i < 3 → buf.getD (pre.length + i) 0 = 0xFF := by
    intro i hi
    rw [← hbuf, List.append_assoc (pre ++ _), getD_mid pre _ _ i
      (by simp only [List.length_cons]; omega)]
    rcases i with _ | _ | _ | i
    · rfl
    · rfl
    · rfl
    · omega
  have he : ∀ k, k < 4 → buf.getD (pre.length + mh_sizes fmt + k) 0
      = [e3, e2, e1, e0].getD k 0 := by
    intro k hk
    have hl : (pre ++ (0xFF :: 0xFF :: 0xFF :: mh)).length = pre.length + mh_sizes fmt := by
      rw [← hmh]; simp only [List.length_append, List.length_cons]
    rw [← hbuf, ← hl]
    exact getD_mid _ _ _ k hk
  obtain ⟨hc0m, hc0h, -⟩ := fresh_chunk_facts chunk
  cases hp : parse_message_header
      (if chunk.msg.isNone = true then { chunk with msg := some RssCommonMessage.new }
       else chunk)
      fmt chunk.msg.isNone (fun i => buf.getD (pre.length + i) 0) with
  | mk c1 used =>
    obtain ⟨f1, f2, f3, f4, f5⟩ := parse_message_header_facts012
      (if chunk.msg.isNone = true then { chunk with msg := some RssCommonMessage.new }
       else chunk)
      fmt chunk.msg.isNone (fun i => buf.getD (pre.length + i) 0) hfmt
    rw [hp] at f1 f2 f3 f4 f5
    have hused : used = mh_sizes fmt := f1
    have hext : c1.extended_timestamp = true := by
      have hd : int32OfBytes 0xFF 0xFF 0xFF 0 ≥ RTMP_EXTENDED_TIMESTAMP := by decide
      rw [show c1.extended_timestamp = _ from f2]
      simp only [hg 0 (by omega), hg 1 (by omega), hg 2 (by omega)]
      exact decide_eq_true hd
    have hmsg : c1.msg.isSome = true := by
      rw [show c1.msg = _ from f3]; exact hc0m
    have hpl1 : 0 ≤ c1.header.payload_length := by
      by_cases h2 : fmt = 2
      · rw [show c1.header.payload_length = _ from f4 h2, hc0h]; exact hpl h2
      · exact f5 h2
    obtain ⟨c2, hr, hx, ht, hm⟩ := read_message_header_ext chunk fmt pre.length buf c1 used
      hs1 hs2 (by omega) hp hext hpl1 hmsg
    rw [hused, show pre.length + mh_sizes fmt + 3 = pre.length + mh_sizes fmt + 3 from rfl,
      he 3 (by omega), he 2 (by omega), he 1 (by omega)] at ht hm
    have he0 := he 0 (by omega)
    rw [Nat.add_zero] at he0
    rw [he0] at ht hm
    exact ⟨c2, hr, hx, ht, hm⟩

end Rss
namespace Rss

/-- Format 3 on a chunk stream in extended-timestamp mode. -/
theorem read_message_header_ext3 (chunk : RssChunkStream) (pre rest : List Nat)
    (e3 e2 e1 e0 : Nat)
    (hext : chunk.extended_timestamp = true) (hcount : chunk.msg_count ≠ 0)
    (hpl : 0 ≤ chunk.header.payload_length) :
    ∃ c2, read_message_header chunk 3 pre.length (pre ++ [e3, e2, e1, e0] ++ rest)
        = (c2, .ok 4)
      ∧ c2.extended_timestamp = true
      ∧ c2.header.timestamp = int32OfBytes e0 e1 e2 e3
      ∧ c2.msg.map (fun m => m.header.timestamp) = some (int32OfBytes e0 e1 e2 e3) := by
  generalize hbuf : pre ++ [e3, e2, e1, e0] ++ rest = buf
  have hlenb : buf.length = pre.length + 4 + rest.length := by
    rw [← hbuf]; simp only [List.length_append, List.length_cons, List.length_nil]
  have he : ∀ k, k < 4 → buf.getD (pre.length + k) 0 = [e3, e2, e1, e0].getD k 0 := by
    intro k hk
    rw [← hbuf]
    exact getD_mid _ _ _ k hk
  obtain ⟨hc0m, hc0h, hc0e⟩ := fresh_chunk_facts chunk
  cases hp : parse_message_header
      (if chunk.msg.isNone = true then { chunk with msg := some RssCommonMessage.new }
       else chunk)
      3 chunk.msg.isNone (fun i => buf.getD (pre.length + i) 0) with
  | mk c1 used =>
    obtain ⟨f1, f2, f3, f4⟩ := parse_message_header_facts3
      (if chunk.msg.isNone = true then { chunk with msg := some RssCommonMessage.new }
       else chunk)
      chunk.msg.isNone (fun i => buf.getD (pre.length + i) 0)
    rw [hp] at f1 f2 f3 f4
    have hused : used = 0 := f1
    have hext1 : c1.extended_timestamp = true := by
      rw [show c1.extended_timestamp = _ from f2, hc0e]; exact hext
    have hmsg : c1.msg.isSome = true := by
      rw [show c1.msg = _ from f3]; exact hc0m
    have hpl1 : 0 ≤ c1.header.payload_length := by
      rw [show c1.header.payload_length = _ from f4, hc0h]; exact hpl
    have hms : mh_sizes 3 = 0 := by decide
    obtain ⟨c2, hr, hx, ht, hm⟩ := read_message_header_ext chunk 3 pre.length buf c1 used
      (fun h => hcount h.1) (fun h => absurd h.2 (by decide)) (by rw [hms]; omega) hp hext1
      hpl1 hmsg
    have he0 := he 0 (by omega)
    rw [Nat.add_zero] at he0
    simp only [hused, Nat.add_zero, he 3 (by omega), he 2 (by omega), he 1 (by omega), he0,
      List.getD_cons_zero, List.getD_cons_succ] at ht hm
    rw [hms] at hr
    exact ⟨c2, hr, hx, ht, hm⟩

/-- Formats 0 to 2 with a timestamp field below `0xFFFFFF`. -/
theorem read_message_header_leave_ext (chunk : RssChunkStream) (fmt : Int)
    (pre mh rest : List Nat) (t2 t1 t0 : Nat)
    (hfmt : fmt = 0 ∨ fmt = 1 ∨ fmt = 2)
    (hs1 : ¬ (chunk.msg_count = 0 ∧ fmt ≠ 0)) (hs2 : ¬ (chunk.msg.isSome = true ∧ fmt = 0))
    (hmh : mh.length + 3 = mh_sizes fmt)
    (ht2 : t2 < 256) (ht1 : t1 < 256) (ht0 : t0 < 256)
    (hd : t2 * 65536 + t1 * 256 + t0 < 0xFFFFFF) :
    (read_message_header chunk fmt pre.length
        (pre ++ (t2 :: t1 :: t0 :: mh) ++ rest)).1.extended_timestamp = false
    ∧ ((fmt = 2 → 0 ≤ chunk.header.payload_length) →
        (read_message_header chunk fmt pre.length
          (pre ++ (t2 :: t1 :: t0 :: mh) ++ rest)).2 = .ok (mh_sizes fmt)) := by
  generalize hbuf : pre ++ (t2 :: t1 :: t0 :: mh) ++ rest = buf
  have hlenb : buf.length = pre.length + (mh.length + 3) + rest.length := by
    rw [← hbuf]; simp only [List.length_append, List.length_cons, List.length_nil]
  have hg : ∀ i, i < 3 → buf.getD (pre.length + i) 0 = [t2, t1, t0].getD i 0 := by
    intro i hi
    rw [← hbuf, getD_mid pre _ _ i (by simp only [List.length_cons]; omega)]
    rcases i with _ | _ | _ | i
    · rfl
    · rfl
    · rfl
    · omega
  obtain ⟨hc0m, hc0h, -⟩ := fresh_chunk_facts chunk
  cases hp : parse_message_header
      (if chunk.msg.isNone = true then { chunk with msg := some RssCommonMessage.new }
       else chunk)
      fmt chunk.msg.isNone (fun i => buf.getD (pre.length + i) 0) with
  | mk c1 used =>
    obtain ⟨f1, f2, f3, f4, f5⟩ := parse_message_header_facts012
      (if chunk.msg.isNone = true then { chunk with msg := some RssCommonMessage.new }
       else chunk)
      fmt chunk.msg.isNone (fun i => buf.getD (pre.length + i) 0) hfmt
    rw [hp] at f1 f2 f3 f4 f5
    have hext : c1.extended_timestamp = false := by
      have hv : int32OfBytes t0 t1 t2 0 = ((t2 * 65536 + t1 * 256 + t0 : Nat) : Int) := by
        unfold int32OfBytes toInt32; omega
      have hd1 : ¬ int32OfBytes t0 t1 t2 0 ≥ RTMP_EXTENDED_TIMESTAMP := by
        rw [hv]; unfold RTMP_EXTENDED_TIMESTAMP; omega
      rw [show c1.extended_timestamp = _ from f2]
      simp only [hg 0 (by omega), hg 1 (by omega), hg 2 (by omega), List.getD_cons_zero,
        List.getD_cons_succ]
      exact decide_eq_false hd1
    obtain ⟨r1, r2⟩ := read_message_header_noext chunk fmt pre.length buf c1 used hs1 hs2
      (by omega) hp hext
    refine ⟨r1, fun hpl => r2 ?_⟩
    by_cases h2 : fmt = 2
    · rw [show c1.header.payload_length = _ from f4 h2, hc0h]; exact hpl h2
    · exact f5 h2

end Rss
namespace Rss

/-- Extended timestamp in `read_message_header` on a buffer whose array stays in
place, as it does when the bytes read are in the buffer before the call.
(1) A format-0, -1 or -2 chunk whose 3-byte timestamp field is `FF FF FF` (accepted by the chunk-start
check, with its message header bytes `mh` present): the call reads the 4 bytes
after the message header, sets the timestamp of the chunk stream and of its
message to their big-endian value (held in the `int32_t` field), returns the
message header size plus 4, and the chunk stream is in extended-timestamp
mode. (2) In that mode a format-3 chunk is read with a 4-byte suffix that sets
the timestamp in the same way, the header size is 4 and the mode stays.
(3) A format-0, -1 or -2 chunk with a field below `0xFFFFFF` leaves the mode:
the flag is cleared and no suffix is read; while the flag is clear a format-3
chunk keeps it clear. -/
theorem read_message_header_extended_timestamp (chunk : RssChunkStream) (fmt : Int)
    (pre mh rest : List Nat) (e3 e2 e1 e0 t2 t1 t0 : Nat)
    (he3 : e3 < 256) (he2 : e2 < 256) (he1 : e1 < 256) (he0 : e0 < 256)
    (ht2 : t2 < 256) (ht1 : t1 < 256) (ht0 : t0 < 256)
    (hfmt : fmt = 0 ∨ fmt = 1 ∨ fmt = 2)
    (hs1 : ¬ (chunk.msg_count = 0 ∧ fmt ≠ 0)) (hs2 : ¬ (chunk.msg.isSome = true ∧ fmt = 0))
    (hmh : mh.length + 3 = mh_sizes fmt) :
    ((fmt = 2 → 0 ≤ chunk.header.payload_length) →
      ∃ c2, read_message_header chunk fmt pre.length
            (pre ++ (0xFF :: 0xFF :: 0xFF :: mh) ++ [e3, e2, e1, e0] ++ rest)
          = (c2, .ok (mh_sizes fmt + 4))
        ∧ c2.extended_timestamp = true
        ∧ c2.header.timestamp
            = toInt32 ((e3 * 16777216 + e2 * 65536 + e1 * 256 + e0 : Nat) : Int)
        ∧ c2.msg.map (fun m => m.header.timestamp)
            = some (toInt32 ((e3 * 16777216 + e2 * 65536 + e1 * 256 + e0 : Nat) : Int)))
    ∧ (chunk.extended_timestamp = true → chunk.msg_count ≠ 0 →
        0 ≤ chunk.header.payload_length →
      ∃ c2, read_message_header chunk 3 pre.length (pre ++ [e3, e2, e1, e0] ++ rest)
          = (c2, .ok 4)
        ∧ c2.extended_timestamp = true
        ∧ c2.header.timestamp
            = toInt32 ((e3 * 16777216 + e2 * 65536 + e1 * 256 + e0 : Nat) : Int)
        ∧ c2.msg.map (fun m => m.header.timestamp)
            = some (toInt32 ((e3 * 16777216 + e2 * 65536 + e1 * 256 + e0 : Nat) : Int)))
    ∧ (t2 * 65536 + t1 * 256 + t0 < 0xFFFFFF →
        (read_message_header chunk fmt pre.length
            (pre ++ (t2 :: t1 :: t0 :: mh) ++ rest)).1.extended_timestamp = false
        ∧ ((fmt = 2 → 0 ≤ chunk.header.payload_length) →
            (read_message_header chunk fmt pre.length
              (pre ++ (t2 :: t1 :: t0 :: mh) ++ rest)).2 = .ok (mh_sizes fmt)))
    ∧ (chunk.extended_timestamp = false → chunk.msg_count ≠ 0 →
        (read_message_header chunk 3 pre.length (pre ++ rest)).1.extended_timestamp = false
        ∧ (0 ≤ chunk.header.payload_length →
            (read_message_header chunk 3 pre.length (pre ++ rest)).2 = .ok 0)) := by
  have hbe := int32OfBytes_be e3 e2 e1 e0 he3 he2 he1 he0
  refine ⟨?_, ?_, ?_, ?_⟩
  · intro hpl
    obtain ⟨c2, h1, h2, h3, h4⟩ :=
      read_message_header_ext012 chunk fmt pre mh rest e3 e2 e1 e0 hfmt hs1 hs2 hmh hpl
    rw [hbe] at h3 h4
    exact ⟨c2, h1, h2, h3, h4⟩
  · intro hext hcount hpl
    obtain ⟨c2, h1, h2, h3, h4⟩ :=
      read_message_header_ext3 chunk pre rest e3 e2 e1 e0 hext hcount hpl
    rw [hbe] at h3 h4
    exact ⟨c2, h1, h2, h3, h4⟩
  · intro hd
    exact read_message_header_leave_ext chunk fmt pre mh rest t2 t1 t0 hfmt hs1 hs2 hmh
      ht2 ht1 ht0 hd
  · intro hext hcount
    obtain ⟨-, hc0h, hc0e⟩ := fresh_chunk_facts chunk
    cases hp : parse_message_header
        (if chunk.msg.isNone = true then { chunk with msg := some RssCommonMessage.new }
         else chunk)
        3 chunk.msg.isNone (fun i => (pre ++ rest).getD (pre.length + i) 0) with
    | mk c1 used =>
      obtain ⟨-, f2, -, f4⟩ := parse_message_header_facts3
        (if chunk.msg.isNone = true then { chunk with msg := some RssCommonMessage.new }
         else chunk)
        chunk.msg.isNone (fun i => (pre ++ rest).getD (pre.length + i) 0)
      rw [hp] at f2 f4
      have hms : mh_sizes 3 = 0 := by decide
      have hext1 : c1.extended_timestamp = false := by
        rw [show c1.extended_timestamp = _ from f2, hc0e]; exact hext
      obtain ⟨r1, r2⟩ := read_message_header_noext chunk 3 pre.length (pre ++ rest) c1 used
        (fun h => hcount h.1) (fun h => absurd h.2 (by decide))
        (by rw [hms, List.length_append]; omega) hp hext1
      rw [hms] at r2
      refine ⟨r1, fun hpl => r2 ?_⟩
      rw [show c1.header.payload_length = _ from f4, hc0h]; exact hpl

/-- An instance of it: on a new chunk stream the format-0 chunk
`06 FF FF FF 00 01 2C 09 01 00 00 00 01 00 00 00` has header size 15 and
timestamp `0x01000000`; on the chunk stream in extended-timestamp mode the
format-3 chunk `C6 01 00 00 00` has header size 4 and the same timestamp. -/
theorem read_message_header_extended_timestamp_witness :
    (∃ c2, read_message_header (RssChunkStream.new 6) 0 1
          [0x06, 0xFF, 0xFF, 0xFF, 0x00, 0x01, 0x2C, 0x09, 0x01, 0x00, 0x00, 0x00,
           0x01, 0x00, 0x00, 0x00] = (c2, .ok 15)
        ∧ c2.extended_timestamp = true ∧ c2.header.timestamp = 0x01000000)
    ∧ (∃ c2, read_message_header
          { fmt := 0, cid := 6,
            header := { message_type := 9, payload_length := 300,
                        timestamp_delta := 0xFFFFFF, stream_id := 1,
                        timestamp := 0x01000000 },
            extended_timestamp := true, msg := none, msg_count := 1 } 3 1
          [0xC6, 0x01, 0x00, 0x00, 0x00] = (c2, .ok 4)
        ∧ c2.extended_timestamp = true ∧ c2.header.timestamp = 0x01000000) := by
  have hv : toInt32 ((0x01 * 16777216 + 0x00 * 65536 + 0x00 * 256 + 0x00 : Nat) : Int)
      = 0x01000000 := by decide
  constructor
  · obtain ⟨c2, h1, h2, h3, -⟩ :=
      (read_message_header_extended_timestamp (RssChunkStream.new 6) 0 [0x06]
        [0x00, 0x01, 0x2C, 0x09, 0x01, 0x00, 0x00, 0x00] [] 0x01 0x00 0x00 0x00 0 0 0
        (by decide) (by decide) (by decide) (by decide) (by decide) (by decide) (by decide)
        (Or.inl rfl) (by decide) (by decide) (by decide)).1 (fun h => absurd h (by decide))
    rw [hv] at h3
    exact ⟨c2, h1, h2, h3⟩
  · obtain ⟨c2, h1, h2, h3, -⟩ :=
      (read_message_header_extended_timestamp
        { fmt := 0, cid := 6,
          header := { message_type := 9, payload_length := 300,
                      timestamp_delta := 0xFFFFFF, stream_id := 1,
                      timestamp := 0x01000000 },
          extended_timestamp := true, msg := none, msg_count := 1 } 0 [0xC6]
        [0x00, 0x01, 0x2C, 0x09, 0x01, 0x00, 0x00, 0x00] [] 0x01 0x00 0x00 0x00 0 0 0
        (by decide) (by decide) (by decide) (by decide) (by decide) (by decide) (by decide)
        (Or.inl rfl) (by decide) (by decide) (by decide)).2.1 rfl (by decide) (by decide)
    rw [hv] at h3
    exact ⟨c2, h1, h2, h3⟩

end Rss
namespace Rss

/-! ## Chunk size: the receive hook -/

theorem set_chunk_size_decode (b3 b2 b1 b0 : Nat) (tail : List Nat) :
    RssSetChunkSizePacket.decode { bytes := [b3, b2, b1, b0] ++ tail, p := 0 }
      = if int32OfBytes b0 b1 b2 b3 < RTMP_MIN_CHUNK_SIZE then .error .chunk_size
        else .ok (int32OfBytes b0 b1 b2 b3) := by
  have hreq : RssStream.require { bytes := [b3, b2, b1, b0] ++ tail, p := 0 } 4 = true := by
    simp [RssStream.require, RssStream.empty]
    omega
  unfold RssSetChunkSizePacket.decode RssStream.read_4bytes
  rw [hreq]
  simp only [Bool.not_true, Bool.false_eq_true, if_false, if_true, List.cons_append,
    List.nil_append, Nat.zero_add, List.getD_cons_succ, List.getD_cons_zero]

theorem set_chunk_size_decode_packet (b3 b2 b1 b0 : Nat) (tail : List Nat) :
    (set_chunk_size_message b3 b2 b1 b0 tail).decode_packet
      = if int32OfBytes b0 b1 b2 b3 < RTMP_MIN_CHUNK_SIZE then .error .chunk_size
        else .ok (.SetChunkSize (int32OfBytes b0 b1 b2 b3)) := by
  have htake : ([b3, b2, b1, b0] ++ tail).take ((4 + tail.length : Nat) : Int).toNat
      = [b3, b2, b1, b0] ++ tail := by
    rw [Int.toNat_ofNat]
    exact List.take_of_length_le (by simp; omega)
  have hinit : RssStream.initialize ([b3, b2, b1, b0] ++ tail)
      = .ok { bytes := [b3, b2, b1, b0] ++ tail, p := 0 } := by
    unfold RssStream.initialize
    rw [if_neg (by simp)]
  unfold RssCommonMessage.decode_packet set_chunk_size_message
  simp only [htake, hinit]
  rw [if_neg (by omega), if_neg (by decide), if_pos trivial, set_chunk_size_decode]
  generalize int32OfBytes b0 b1 b2 b3 = x
  by_cases h : x < RTMP_MIN_CHUNK_SIZE
  · simp only [h, if_true]
  · simp only [h, if_false]

/-- The receive hook on a Set-Chunk-Size message, in terms of the `int32_t`
the four payload bytes form. -/
theorem on_recv_message_set_chunk_size (proto : RssProtocol) (b3 b2 b1 b0 : Nat)
    (tail : List Nat) :
    on_recv_message proto (set_chunk_size_message b3 b2 b1 b0 tail)
      = if int32OfBytes b0 b1 b2 b3 < RTMP_MIN_CHUNK_SIZE then (proto, .error .chunk_size)
        else ({ chunk_streams := proto.chunk_streams, buffer := proto.buffer,
                in_chunk_size := int32OfBytes b0 b1 b2 b3,
                out_chunk_size := proto.out_chunk_size },
              .ok (some (.SetChunkSize (int32OfBytes b0 b1 b2 b3)))) := by
  have hd := set_chunk_size_decode_packet b3 b2 b1 b0 tail
  have ht : (set_chunk_size_message b3 b2 b1 b0 tail).header.message_type
      = RTMP_MSG_SetChunkSize := rfl
  unfold on_recv_message
  rw [ht, if_pos (Or.inl rfl), hd]
  have hne : ¬ RTMP_MSG_SetChunkSize = RTMP_MSG_WindowAcknowledgementSize := by decide
  generalize int32OfBytes b0 b1 b2 b3 = x
  by_cases h : x < RTMP_MIN_CHUNK_SIZE
  · simp only [h, if_true]
  · simp only [h, hne, if_false]

/-- C13 (amended). A received Set-Chunk-Size message whose payload starts with
the big-endian bytes of `c`: for `2 ≤ c < 2^31` the receive hook succeeds and
`in_chunk_size` becomes `c`; for `c < 2` and for `c ≥ 2^31` (a negative
`int32_t`) it fails with the chunk-size error and the protocol state is
unchanged. -/
theorem on_recv_message_chunk_size (proto : RssProtocol) (b3 b2 b1 b0 : Nat)
    (tail : List Nat)
    (h3 : b3 < 256) (h2 : b2 < 256) (h1 : b1 < 256) (h0 : b0 < 256) :
    (2 ≤ b3 * 16777216 + b2 * 65536 + b1 * 256 + b0 →
      b3 * 16777216 + b2 * 65536 + b1 * 256 + b0 < 2147483648 →
      on_recv_message proto (set_chunk_size_message b3 b2 b1 b0 tail)
        = ({ chunk_streams := proto.chunk_streams, buffer := proto.buffer,
             in_chunk_size := ((b3 * 16777216 + b2 * 65536 + b1 * 256 + b0 : Nat) : Int),
             out_chunk_size := proto.out_chunk_size },
           .ok (some (.SetChunkSize
             ((b3 * 16777216 + b2 * 65536 + b1 * 256 + b0 : Nat) : Int)))))
    ∧ ((b3 * 16777216 + b2 * 65536 + b1 * 256 + b0 < 2
        ∨ 2147483648 ≤ b3 * 16777216 + b2 * 65536 + b1 * 256 + b0) →
      on_recv_message proto (set_chunk_size_message b3 b2 b1 b0 tail)
        = (proto, .error .chunk_size)) := by
  have hr := on_recv_message_set_chunk_size proto b3 b2 b1 b0 tail
  constructor
  · intro hlo hhi
    have hv : int32OfBytes b0 b1 b2 b3
        = ((b3 * 16777216 + b2 * 65536 + b1 * 256 + b0 : Nat) : Int) := by
      unfold int32OfBytes toInt32; omega
    rw [hr, hv, if_neg (by unfold RTMP_MIN_CHUNK_SIZE; omega)]
  · intro hc
    have hv : int32OfBytes b0 b1 b2 b3 < RTMP_MIN_CHUNK_SIZE := by
      unfold int32OfBytes toInt32 RTMP_MIN_CHUNK_SIZE; omega
    rw [hr, if_pos hv]

end Rss
namespace Rss

/-- C13 (counterexample). The Set-Chunk-Size message with payload
`80 00 00 00` carries the unsigned value `0x80000000 ≥ 2`; the receive hook
reads it as a negative `int32_t` and fails with the chunk-size error. -/
theorem on_recv_message_chunk_size_high_bit :
    2 ≤ 0x80 * 16777216 + 0x00 * 65536 + 0x00 * 256 + 0x00
    ∧ on_recv_message (RssProtocol.new []) (set_chunk_size_message 0x80 0x00 0x00 0x00 [])
        = (RssProtocol.new [], .error .chunk_size) := by
  refine ⟨by decide, ?_⟩
  rw [on_recv_message_set_chunk_size, if_pos (by decide)]

/-- C13 (witness). The payload `00 00 10 00` sets `in_chunk_size` to 4096, and
so does the whole frame `02 00 00 00 00 00 04 01 00 00 00 00 00 00 10 00`
read by `recv_message` with `in_chunk_size = 128`. -/
theorem on_recv_message_chunk_size_witness :
    on_recv_message (RssProtocol.new []) (set_chunk_size_message 0x00 0x00 0x10 0x00 [])
      = ({ chunk_streams := [], buffer := [], in_chunk_size := 4096, out_chunk_size := 128 },
         .ok (some (.SetChunkSize 4096)))
    ∧ (recv_message false 1 (RssProtocol.new
          [0x02, 0x00, 0x00, 0x00, 0x00, 0x00, 0x04, 0x01, 0x00, 0x00, 0x00, 0x00,
           0x00, 0x00, 0x10, 0x00])).map (fun r => (r.1.in_chunk_size, r.1.buffer, r.2))
        = some (4096, [], .ok (set_chunk_size_message 0x00 0x00 0x10 0x00 [],
                               some (.SetChunkSize 4096))) := by
  constructor
  · exact (on_recv_message_chunk_size (RssProtocol.new []) 0x00 0x00 0x10 0x00 []
      (by decide) (by decide) (by decide) (by decide)).1 (by decide) (by decide)
  · rfl

end Rss
namespace Rss

/-! ## Chunk size: the invariant -/

theorem set_chunk_size_encode (c : Int) :
    RssSetChunkSizePacket.encode c = .ok (4, [byte3 c, byte2 c, byte1 c, byte0 c]) := by
  rfl

theorem set_chunk_size_decode_ge (s : RssStream) (v : Int)
    (h : RssSetChunkSizePacket.decode s = .ok v) : RTMP_MIN_CHUNK_SIZE ≤ v := by
  unfold RssSetChunkSizePacket.decode at h
  split at h
  · cases h
  · split at h
    · cases h
    · split at h
      · cases h
      · cases h; omega

theorem decode_packet_chunk_size_ge (msg : RssCommonMessage) (v : Int)
    (h : msg.decode_packet = .ok (.SetChunkSize v)) : RTMP_MIN_CHUNK_SIZE ≤ v := by
  unfold RssCommonMessage.decode_packet at h
  split at h
  · cases h
  · split at h
    · cases h
    · split at h
      · cases h
      · split at h
        · split at h <;> cases h
        · split at h
          · split at h
            · cases h
            · rename_i v1 hv
              cases h
              exact set_chunk_size_decode_ge _ _ hv
          · cases h

/-- The receive hook never touches `out_chunk_size`, and it either keeps
`in_chunk_size` or sets it to a value of at least 2. -/
theorem on_recv_message_sizes (proto : RssProtocol) (msg : RssCommonMessage) :
    (on_recv_message proto msg).1.out_chunk_size = proto.out_chunk_size
    ∧ ((on_recv_message proto msg).1.in_chunk_size = proto.in_chunk_size
        ∨ RTMP_MIN_CHUNK_SIZE ≤ (on_recv_message proto msg).1.in_chunk_size) := by
  unfold on_recv_message
  split
  · cases hd : msg.decode_packet with
    | error e => exact ⟨rfl, Or.inl rfl⟩
    | ok pkt =>
      simp only []
      split
      · cases pkt <;> exact ⟨rfl, Or.inl rfl⟩
      · cases pkt with
        | SetChunkSize v => exact ⟨rfl, Or.inr (decode_packet_chunk_size_ge msg v hd)⟩
        | SetWindowAckSize v => exact ⟨rfl, Or.inl rfl⟩
        | Plain => exact ⟨rfl, Or.inl rfl⟩
  · exact ⟨rfl, Or.inl rfl⟩

end Rss
namespace Rss

/-- The sender side: `set_chunk_size` succeeds whenever the current
`out_chunk_size` is at least 1 and the fuel covers the four payload bytes; it
then stores its argument in `out_chunk_size`, whatever the argument is. -/
theorem set_chunk_size_ok (fuel : Nat) (proto : RssProtocol) (c : Int) (hf : 4 ≤ fuel)
    (hout : 1 ≤ proto.out_chunk_size) :
    ∃ chunks, set_chunk_size fuel proto c
      = some ({ chunk_streams := proto.chunk_streams, buffer := proto.buffer,
                in_chunk_size := proto.in_chunk_size, out_chunk_size := c }, .ok chunks) := by
  obtain ⟨n, hn⟩ : ∃ n : Nat, proto.out_chunk_size = (n : Int) :=
    ⟨proto.out_chunk_size.toNat, (Int.toNat_of_nonneg (by omega)).symm⟩
  have hn1 : 1 ≤ n := by omega
  have hdiv : (4 - 0 + n - 1) / n ≤ fuel :=
    Nat.le_trans (Nat.div_le_of_le_mul (by omega)) hf
  have hsend := send_loop_eq
    { header := { message_type := RTMP_MSG_SetChunkSize, payload_length := 4,
                  timestamp_delta := RssMessageHeader.new.timestamp_delta, stream_id := 0,
                  timestamp := RssMessageHeader.new.timestamp },
      size := 4, payload := some [byte3 c, byte2 c, byte1 c, byte0 c],
      perfer_cid := RTMP_CID_ProtocolControl }
    [byte3 c, byte2 c, byte1 c, byte0 c] n rfl rfl hn1 fuel 0 (by simp) hdiv
  rw [Nat.cast_zero] at hsend
  unfold set_chunk_size
  rw [set_chunk_size_encode]
  simp only []
  unfold send_message
  rw [hn, hsend]
  exact ⟨_, rfl⟩

theorem chunk_size_run_invariant (fuel : Nat) (hf : 4 ≤ fuel) :
    ∀ (events : List ChunkSizeEvent) (proto : RssProtocol),
      RTMP_MIN_CHUNK_SIZE ≤ proto.in_chunk_size → RTMP_MIN_CHUNK_SIZE ≤ proto.out_chunk_size →
      (∀ c, ChunkSizeEvent.send c ∈ events → RTMP_MIN_CHUNK_SIZE ≤ c) →
      ∃ p, chunk_size_run fuel proto events = some p
        ∧ RTMP_MIN_CHUNK_SIZE ≤ p.in_chunk_size ∧ RTMP_MIN_CHUNK_SIZE ≤ p.out_chunk_size
  | [], proto, hin, hout, _ => ⟨proto, rfl, hin, hout⟩
  | .recv msg :: rest, proto, hin, hout, hs => by
    obtain ⟨h1, h2⟩ := on_recv_message_sizes proto msg
    rw [chunk_size_run]
    apply chunk_size_run_invariant fuel hf rest
    · rcases h2 with h | h
      · rw [h]; exact hin
      · exact h
    · rw [h1]; exact hout
    · intro c hc; exact hs c (List.mem_cons_of_mem _ hc)
  | .send c :: rest, proto, hin, hout, hs => by
    obtain ⟨chunks, hok⟩ := set_chunk_size_ok fuel proto c hf
      (by unfold RTMP_MIN_CHUNK_SIZE at hout; omega)
    rw [chunk_size_run, hok]
    apply chunk_size_run_invariant fuel hf rest
    · exact hin
    · exact hs c (List.mem_cons_self _ _)
    · intro c1 hc; exact hs c1 (List.mem_cons_of_mem _ hc)

/-- C14 (counterexample). On a new protocol context `set_chunk_size(0)`
succeeds (the four payload bytes go out in one chunk) and leaves
`out_chunk_size = 0`. -/
theorem set_chunk_size_zero :
    (chunk_size_run 1 (RssProtocol.new []) [.send 0]).map
        (fun p => (p.in_chunk_size, p.out_chunk_size)) = some (128, 0) := by
  rfl

/-- C14 (amended). From a new protocol context (both sizes 128), after every
sequence of received messages that pass the receive hook and of
`set_chunk_size` calls whose argument is at least 2, every call has succeeded
and `in_chunk_size ≥ 2` and `out_chunk_size ≥ 2`. -/
theorem chunk_size_invariant (fuel : Nat) (input : List Nat) (events : List ChunkSizeEvent)
    (hf : 4 ≤ fuel) (hs : ∀ c, ChunkSizeEvent.send c ∈ events → 2 ≤ c) :
    ∃ p, chunk_size_run fuel (RssProtocol.new input) events = some p
      ∧ 2 ≤ p.in_chunk_size ∧ 2 ≤ p.out_chunk_size :=
  chunk_size_run_invariant fuel hf events (RssProtocol.new input)
    (show RTMP_MIN_CHUNK_SIZE ≤ RTMP_DEFAULT_CHUNK_SIZE by decide)
    (show RTMP_MIN_CHUNK_SIZE ≤ RTMP_DEFAULT_CHUNK_SIZE by decide) hs

/-- C14 (witness). A received Set-Chunk-Size message with 4096, then
`set_chunk_size(4096)`: both sizes are 4096. -/
theorem chunk_size_invariant_witness :
    ∃ p, chunk_size_run 4 (RssProtocol.new [])
        [.recv (set_chunk_size_message 0x00 0x00 0x10 0x00 []), .send 4096] = some p
      ∧ 2 ≤ p.in_chunk_size ∧ 2 ≤ p.out_chunk_size :=
  chunk_size_invariant 4 [] [.recv (set_chunk_size_message 0x00 0x00 0x10 0x00 []), .send 4096]
    (by decide) (by
      intro c hc
      simp only [List.mem_cons, List.mem_singleton, List.not_mem_nil, or_false] at hc
      rcases hc with hc | hc
      · cases hc
      · cases hc; decide)

end Rss
namespace Rss

/-! ## Consumer queue -/

theorem toInt32_small (n : Nat) (h : n < 2147483648) : toInt32 (n : Int) = (n : Int) := by
  unfold toInt32; omega

/-- C20. A consumer queue holding `n` messages (`n < 2^31`) and
`max_count ≥ 0`: `get_packets(max_count)` hands out the first `k` messages in
queue order, with `k = n` when `max_count = 0` and `k = min(max_count, n)`
otherwise, sets `count = k`, and leaves the other `n - k` messages in the queue
in their order. On an empty queue the function returns at once and the
outputs are what the caller has put in them (the caller passes an empty array
and `count = 0`). -/
theorem get_packets_first (self : RssConsumer) (max_count : Int)
    (pmsgs0 : List RssSharedPtrMessage) (count0 : Int)
    (hmax : 0 ≤ max_count) (hn : self.msgs.length < 2147483648)
    (hcall : self.msgs ≠ [] ∨ (pmsgs0 = [] ∧ count0 = 0)) :
    self.get_packets max_count pmsgs0 count0
      = .ok ({ msgs := self.msgs.drop
                 (if max_count = 0 then self.msgs.length
                  else min max_count.toNat self.msgs.length) },
             self.msgs.take
               (if max_count = 0 then self.msgs.length
                else min max_count.toNat self.msgs.length),
             ((if max_count = 0 then self.msgs.length
               else min max_count.toNat self.msgs.length : Nat) : Int)) := by
  obtain ⟨msgs⟩ := self
  simp only at hn hcall ⊢
  unfold RssConsumer.get_packets
  cases msgs with
  | nil =>
    rcases hcall with h | ⟨h1, h2⟩
    · exact absurd rfl h
    · subst h1; subst h2
      simp
  | cons m rest =>
    have hne : ((m :: rest).isEmpty) = false := rfl
    have h32 := toInt32_small (m :: rest).length hn
    simp only [hne, Bool.false_eq_true, if_false, h32]
    by_cases h0 : max_count = 0
    · simp only [h0, if_true, Int.toNat_ofNat, List.take_length, List.drop_length]
      rw [if_neg (by omega)]
    · have hk : rss_min max_count ((m :: rest).length : Int)
          = ((min max_count.toNat (m :: rest).length : Nat) : Int) := by
        unfold rss_min; split <;> omega
      simp only [h0, if_false, hk, Int.toNat_ofNat]
      rw [if_neg (by omega)]
      by_cases hall : ((min max_count.toNat (m :: rest).length : Nat) : Int)
          = ((m :: rest).length : Int)
      · rw [if_pos hall]
        have hk2 : min max_count.toNat (m :: rest).length = (m :: rest).length := by omega
        rw [hk2, List.drop_length]
      · rw [if_neg hall]

/-- C20 (witness). Three messages and `max_count = 2`: the first two are handed
out and the third stays. -/
theorem get_packets_first_witness :
    RssConsumer.get_packets
        { msgs := [{ header := RssMessageHeader.new, ptr := some 0, size := 1 },
                   { header := RssMessageHeader.new, ptr := some 1, size := 2 },
                   { header := RssMessageHeader.new, ptr := some 2, size := 3 }] } 2 [] 0
      = .ok ({ msgs := [{ header := RssMessageHeader.new, ptr := some 2, size := 3 }] },
             [{ header := RssMessageHeader.new, ptr := some 0, size := 1 },
              { header := RssMessageHeader.new, ptr := some 1, size := 2 }], 2) :=
  get_packets_first
    { msgs := [{ header := RssMessageHeader.new, ptr := some 0, size := 1 },
               { header := RssMessageHeader.new, ptr := some 1, size := 2 },
               { header := RssMessageHeader.new, ptr := some 2, size := 3 }] } 2 [] 0
    (by decide) (by decide) (Or.inl (by decide))

end Rss
namespace Rss

/-! ## Shared messages: the counter -/

theorem getD_set_eq {α : Type} (l : List α) (a : Nat) (v d : α) (h : a < l.length) :
    (l.set a v).getD a d = v := by
  simp [List.getD_eq_getElem?_getD, h]

theorem getD_set_ne {α : Type} (l : List α) (a b : Nat) (v d : α) (h : a ≠ b) :
    (l.set a v).getD b d = l.getD b d := by
  simp [List.getD_eq_getElem?_getD, List.getElem?_set_ne h]

theorem getD_append_new {α : Type} (l : List α) (v d : α) :
    (l ++ [v]).getD l.length d = v := by
  simp [List.getD_eq_getElem?_getD]

theorem getD_append_old {α : Type} (l : List α) (a : Nat) (v d : α) (h : a < l.length) :
    (l ++ [v]).getD a d = l.getD a d := by
  simp [List.getD_eq_getElem?_getD, List.getElem?_append_left h]

/-- One operation on the handles of the cell at address `a`: it succeeds and
keeps the relation between the counter and the number of live handles. -/
theorem handle_step_inv (a : Nat) (payload : Option (List Nat))
    (st : RssHeap × List RssSharedPtrMessage) (op : HandleOp)
    (hptr : ∀ h ∈ st.2, h.ptr = some a) (ha : a < st.1.length)
    (hlive : st.2 ≠ [] → ∃ cell, st.1.getD a none = some cell
      ∧ cell.shared_count = (st.2.length : Int) - 1 ∧ cell.payload = payload)
    (hfree : st.2 = [] → st.1.getD a none = none) :
    ∃ st1, handle_step st op = .ok st1
      ∧ (∀ h ∈ st1.2, h.ptr = some a) ∧ a < st1.1.length
      ∧ (st1.2 ≠ [] → ∃ cell, st1.1.getD a none = some cell
          ∧ cell.shared_count = (st1.2.length : Int) - 1 ∧ cell.payload = payload)
      ∧ (st1.2 = [] → st1.1.getD a none = none) := by
  obtain ⟨heap, handles⟩ := st
  simp only at hptr ha hlive hfree
  cases op with
  | copy i =>
    unfold handle_step
    simp only
    cases hg : handles.get? i with
    | none => exact ⟨_, rfl, hptr, ha, hlive, hfree⟩
    | some h =>
      have hmem : h ∈ handles := List.get?_mem hg
      have hne : handles ≠ [] := List.ne_nil_of_mem hmem
      obtain ⟨cell, hc, hcount, hpay⟩ := hlive hne
      have hp := hptr h hmem
      simp only [RssSharedPtrMessage.copy, hp, hc]
      refine ⟨_, rfl, ?_, ?_, ?_, ?_⟩
      · intro h1 h1m
        rcases List.mem_append.mp h1m with h1m | h1m
        · exact hptr h1 h1m
        · rw [List.mem_singleton.mp h1m]
      · simp only [List.length_set]; exact ha
      · intro _
        refine ⟨_, getD_set_eq heap a _ none ha, ?_, hpay⟩
        simp only [List.length_append, List.length_singleton, hcount]
        omega
      · intro h0
        exact absurd h0 (by simp)
  | destroy i =>
    unfold handle_step
    simp only
    cases hg : handles.get? i with
    | none => exact ⟨_, rfl, hptr, ha, hlive, hfree⟩
    | some h =>
      have hmem : h ∈ handles := List.get?_mem hg
      have hne : handles ≠ [] := List.ne_nil_of_mem hmem
      have hi : i < handles.length := List.get?_eq_some.mp hg |>.1
      obtain ⟨cell, hc, hcount, hpay⟩ := hlive hne
      have hp := hptr h hmem
      have hlen : (handles.eraseIdx i).length = handles.length - 1 := by
        rw [List.length_eraseIdx, if_pos hi]
      have hsub : ∀ h1 ∈ handles.eraseIdx i, h1 ∈ handles :=
        fun h1 h1m => List.eraseIdx_subset _ _ h1m
      simp only [RssSharedPtrMessage.destroy, hp, hc]
      by_cases h0 : cell.shared_count = 0
      · simp only [h0, if_true]
        have hnil : handles.eraseIdx i = [] :=
          List.length_eq_zero.mp (by rw [hlen]; omega)
        refine ⟨_, rfl, ?_, ?_, ?_, ?_⟩
        · intro h1 h1m; exact hptr h1 (hsub h1 h1m)
        · simp only [List.length_set]; exact ha
        · intro hn; exact absurd hnil hn
        · intro _; exact getD_set_eq heap a _ none ha
      · simp only [h0, if_false]
        refine ⟨_, rfl, ?_, ?_, ?_, ?_⟩
        · intro h1 h1m; exact hptr h1 (hsub h1 h1m)
        · simp only [List.length_set]; exact ha
        · intro _
          refine ⟨_, getD_set_eq heap a _ none ha, ?_, hpay⟩
          simp only [hlen, hcount]
          omega
        · intro hn
          have hn1 : handles.eraseIdx i = [] := hn
          have : (handles.eraseIdx i).length = 0 := by rw [hn1]; rfl
          omega

theorem handle_run_inv (a : Nat) (payload : Option (List Nat)) :
    ∀ (ops : List HandleOp) (st : RssHeap × List RssSharedPtrMessage),
      (∀ h ∈ st.2, h.ptr = some a) → a < st.1.length →
      (st.2 ≠ [] → ∃ cell, st.1.getD a none = some cell
        ∧ cell.shared_count = (st.2.length : Int) - 1 ∧ cell.payload = payload) →
      (st.2 = [] → st.1.getD a none = none) →
      ∃ st1, handle_run st ops = .ok st1
        ∧ (∀ h ∈ st1.2, h.ptr = some a)
        ∧ (st1.2 ≠ [] → ∃ cell, st1.1.getD a none = some cell
            ∧ cell.shared_count = (st1.2.length : Int) - 1 ∧ cell.payload = payload)
        ∧ (st1.2 = [] → st1.1.getD a none = none)
  | [], st, h1, _, h3, h4 => ⟨st, rfl, h1, h3, h4⟩
  | op :: rest, st, h1, h2, h3, h4 => by
    obtain ⟨st1, hs, g1, g2, g3, g4⟩ := handle_step_inv a payload st op h1 h2 h3 h4
    rw [handle_run, hs]
    exact handle_run_inv a payload rest st1 g1 g2 g3 g4

/-- C19. A shared message is set up by `initialize` (one handle, counter 0).
After every sequence of `copy()` calls on live handles and destructions of
live handles no operation has left defined behaviour, every live handle
points to the cell, and: while at least one handle lives the cell is on the
heap with its payload and its counter equals the number of live handles minus
one; when no handle lives the cell is deleted. So the cell is deleted by the
destruction of the last live handle, not earlier and not a second time. -/
theorem shared_count_invariant (heap0 : RssHeap) (header : RssMessageHeader)
    (payload : Option (List Nat)) (size : Int) (ops : List HandleOp) :
    ∃ heap1 h0, RssSharedPtrMessage.initialize heap0 RssSharedPtrMessage.new header payload size
        = .ok (heap1, h0)
      ∧ ∃ heap handles, handle_run (heap1, [h0]) ops = .ok (heap, handles)
        ∧ (∀ h ∈ handles, h.ptr = some heap0.length)
        ∧ (handles ≠ [] → ∃ cell, heap.getD heap0.length none = some cell
            ∧ cell.shared_count = (handles.length : Int) - 1 ∧ cell.payload = payload)
        ∧ (handles = [] → heap.getD heap0.length none = none) := by
  refine ⟨_, _, rfl, ?_⟩
  obtain ⟨st1, hr, g1, g3, g4⟩ := handle_run_inv heap0.length payload ops
    (heap0 ++ [some { payload := payload, size := size,
                      perfer_cid :=
                        if header.message_type = RTMP_MSG_VideoMessage then RTMP_CID_Video
                        else if header.message_type = RTMP_MSG_AudioMessage then
                          RTMP_CID_Audio
                        else RTMP_CID_OverConnection2,
                      shared_count := 0 }],
     [{ header := { header with payload_length := size }, ptr := some heap0.length,
        size := size }])
    (by intro h hm; rw [List.mem_singleton.mp hm])
    (by simp)
    (by intro _; exact ⟨_, getD_append_new heap0 _ none, rfl, rfl⟩)
    (by intro h; exact absurd h (by simp))
  exact ⟨st1.1, st1.2, hr, g1, g3, g4⟩

end Rss
namespace Rss

/-! ## Live source: one publisher event -/

theorem set_getD_self {α : Type} (l : List α) (a : Nat) (v d : α) (ha : a < l.length)
    (h : l.getD a d = v) : l.set a v = l := by
  apply List.ext_getElem?
  intro i
  rw [List.getElem?_set]
  by_cases hi : a = i
  · subst hi
    rw [if_pos rfl, if_pos ha]
    rw [List.getD_eq_getElem?_getD, List.getElem?_eq_getElem ha] at h
    rw [List.getElem?_eq_getElem ha]
    exact congrArg some h.symm
  · rw [if_neg hi]

theorem set_append_last {α : Type} (l : List α) (x y : α) :
    (l ++ [x]).set l.length y = l ++ [y] := by
  rw [List.set_append_right _ _ (Nat.le_refl _)]
  simp

theorem copy_live (heap : RssHeap) (h : RssSharedPtrMessage) (a : Nat) (cell : RssSharedPtr)
    (hp : h.ptr = some a) (hc : heap.getD a none = some cell) (hs : cell.size = h.size) :
    h.copy heap
      = .ok (heap.set a (some { cell with shared_count := cell.shared_count + 1 }), h) := by
  obtain ⟨header, ptr, size⟩ := h
  simp only at hp hs
  subst hp
  subst hs
  simp only [RssSharedPtrMessage.copy, hc]

/-- The dispatch loop on a live message: every consumer gets the handle at the
end of its queue and the counter grows by the number of consumers. -/
theorem dispatch_ok (msg : RssSharedPtrMessage) (a : Nat) (hp : msg.ptr = some a) :
    ∀ (consumers : List RssConsumer) (heap : RssHeap) (cell : RssSharedPtr),
      a < heap.length → heap.getD a none = some cell → cell.size = msg.size →
      RssSource.dispatch msg heap consumers
        = .ok (heap.set a (some { cell with
                  shared_count := cell.shared_count + (consumers.length : Int) }),
               consumers.map (fun c => c.enqueue msg))
  | [], heap, cell, ha, hc, _ => by
    have hcell : ({ cell with shared_count := cell.shared_count + (([] : List RssConsumer).length : Int) }
        : RssSharedPtr) = cell := by
      obtain ⟨p, s, c, n⟩ := cell
      simp
    rw [hcell, set_getD_self heap a (some cell) none ha hc]
    rfl
  | consumer :: rest, heap, cell, ha, hc, hs => by
    rw [RssSource.dispatch, copy_live heap msg a cell hp hc hs]
    simp only
    rw [dispatch_ok msg a hp rest _ { cell with shared_count := cell.shared_count + 1 }
      (by rw [List.length_set]; exact ha) (getD_set_eq heap a _ none ha) hs]
    simp only [List.set_set, List.map_cons, List.length_cons]
    have e : cell.shared_count + 1 + (rest.length : Int)
        = cell.shared_count + ((rest.length + 1 : Nat) : Int) := by omega
    rw [e]

end Rss
namespace Rss

theorem destroy_live (heap : RssHeap) (h : RssSharedPtrMessage) (a : Nat) (cell : RssSharedPtr)
    (hp : h.ptr = some a) (hc : heap.getD a none = some cell) :
    h.destroy heap
      = .ok (if cell.shared_count = 0 then heap.set a none
             else heap.set a (some { cell with shared_count := cell.shared_count - 1 })) := by
  simp only [RssSharedPtrMessage.destroy, hp, hc]
  split <;> rfl

/-- The shared cell `initialize` creates for a message. -/
theorem initialize_new (heap : RssHeap) (header : RssMessageHeader)
    (payload : Option (List Nat)) (size : Int) :
    RssSharedPtrMessage.initialize heap RssSharedPtrMessage.new header payload size
      = .ok (heap ++ [some { payload := payload, size := size,
                             perfer_cid :=
                               if header.message_type = RTMP_MSG_VideoMessage then
                                 RTMP_CID_Video
                               else if header.message_type = RTMP_MSG_AudioMessage then
                                 RTMP_CID_Audio
                               else RTMP_CID_OverConnection2,
                             shared_count := 0 }],
             { header := { header with payload_length := size }, ptr := some heap.length,
               size := size }) := rfl

/-- Function `on_audio` on any source: it succeeds, every consumer gets the handle of
the new cell at the end of its queue, an empty audio cache takes the handle, and
the heap grows by one entry, which is a cell with the payload of the message
whenever a consumer or the cache has taken a handle. -/
theorem on_audio_ok (heap : RssHeap) (src : RssSource) (audio : RssCommonMessage) :
    ∃ X : Option RssSharedPtr,
      src.on_audio heap audio
        = .ok (heap ++ [X],
               { consumers := src.consumers.map
                   (fun (c : RssConsumer) => c.enqueue (event_handle heap.length (.audio audio))),
                 cache_metadata := src.cache_metadata,
                 cache_sh_video := src.cache_sh_video,
                 cache_sh_audio := match src.cache_sh_audio with
                   | some c => some c
                   | none => some (event_handle heap.length (.audio audio)) },
               { header := audio.header, size := 0, payload := none })
      ∧ ((src.consumers ≠ [] ∨ src.cache_sh_audio = none) →
          ∃ cell, X = some cell ∧ cell.payload = audio.payload ∧ cell.size = audio.size) := by
  have hp : (event_handle heap.length (.audio audio)).ptr = some heap.length := rfl
  unfold RssSource.on_audio
  rw [initialize_new]
  simp only
  rw [show ({ header := { audio.header with payload_length := audio.size },
              ptr := some heap.length, size := audio.size } : RssSharedPtrMessage)
        = event_handle heap.length (.audio audio) from rfl]
  rw [dispatch_ok _ heap.length hp src.consumers _ _ (by simp)
    (getD_append_new heap _ none) rfl]
  simp only [set_append_last, zero_add]
  cases hcache : src.cache_sh_audio with
  | some c =>
    simp only
    rw [destroy_live _ _ heap.length _ hp (getD_append_new heap _ none)]
    simp only
    by_cases hn : (src.consumers.length : Int) = 0
    · rw [if_pos hn, set_append_last]
      refine ⟨none, rfl, ?_⟩
      intro h
      rcases h with h | h
      · have : src.consumers.length = 0 := by omega
        exact absurd (List.length_eq_zero.mp this) h
      · cases h
    · rw [if_neg hn, set_append_last]
      exact ⟨_, rfl, fun _ => ⟨_, rfl, rfl, rfl⟩⟩
  | none =>
    simp only
    rw [copy_live _ _ heap.length _ hp (getD_append_new heap _ none) rfl]
    simp only [set_append_last]
    rw [destroy_live _ _ heap.length _ hp (getD_append_new heap _ none)]
    simp only
    rw [if_neg (by omega), set_append_last]
    exact ⟨_, rfl, fun _ => ⟨_, rfl, rfl, rfl⟩⟩

/-- Function `on_video` on any source: it succeeds, every consumer gets the handle of
the new cell at the end of its queue, an empty video cache takes the handle, and
the heap grows by one entry, which is a cell with the payload of the message
whenever a consumer or the cache has taken a handle. -/
theorem on_video_ok (heap : RssHeap) (src : RssSource) (video : RssCommonMessage) :
    ∃ X : Option RssSharedPtr,
      src.on_video heap video
        = .ok (heap ++ [X],
               { consumers := src.consumers.map
                   (fun (c : RssConsumer) => c.enqueue (event_handle heap.length (.video video))),
                 cache_metadata := src.cache_metadata,
                 cache_sh_video := match src.cache_sh_video with
                   | some c => some c
                   | none => some (event_handle heap.length (.video video)),
                 cache_sh_audio := src.cache_sh_audio },
               { header := video.header, size := 0, payload := none })
      ∧ ((src.consumers ≠ [] ∨ src.cache_sh_video = none) →
          ∃ cell, X = some cell ∧ cell.payload = video.payload ∧ cell.size = video.size) := by
  have hp : (event_handle heap.length (.video video)).ptr = some heap.length := rfl
  unfold RssSource.on_video
  rw [initialize_new]
  simp only
  rw [show ({ header := { video.header with payload_length := video.size },
              ptr := some heap.length, size := video.size } : RssSharedPtrMessage)
        = event_handle heap.length (.video video) from rfl]
  rw [dispatch_ok _ heap.length hp src.consumers _ _ (by simp)
    (getD_append_new heap _ none) rfl]
  simp only [set_append_last, zero_add]
  cases hcache : src.cache_sh_video with
  | some c =>
    simp only
    rw [destroy_live _ _ heap.length _ hp (getD_append_new heap _ none)]
    simp only
    by_cases hn : (src.consumers.length : Int) = 0
    · rw [if_pos hn, set_append_last]
      refine ⟨none, rfl, ?_⟩
      intro h
      rcases h with h | h
      · have : src.consumers.length = 0 := by omega
        exact absurd (List.length_eq_zero.mp this) h
      · cases h
    · rw [if_neg hn, set_append_last]
      exact ⟨_, rfl, fun _ => ⟨_, rfl, rfl, rfl⟩⟩
  | none =>
    simp only
    rw [copy_live _ _ heap.length _ hp (getD_append_new heap _ none) rfl]
    simp only [set_append_last]
    rw [destroy_live _ _ heap.length _ hp (getD_append_new heap _ none)]
    simp only
    rw [if_neg (by omega), set_append_last]
    exact ⟨_, rfl, fun _ => ⟨_, rfl, rfl, rfl⟩⟩

end Rss
namespace Rss

/-- The payload `RssPacket::encode` builds for a metadata packet: the encoding
always succeeds, the size is positive, and the bytes are the name as an AMF0
string followed by the metadata as an AMF0 object. -/
theorem metadata_encode (md : RssOnMetaDataPacket) :
    0 < md.get_size
    ∧ md.encode = .ok (md.get_size,
        some (amf0_bytes (.String md.name) ++ amf0_bytes (.Object md.metadata))) := by
  have hA := amf0_bytes_length (.String md.name)
  have hB := amf0_bytes_length (.Object md.metadata)
  have hApos : 3 ≤ (amf0_bytes (.String md.name)).length := by
    simp only [amf0_bytes, List.length_append, List.length_cons, List.length_nil]; omega
  have hsize : md.get_size
      = (((amf0_bytes (.String md.name)).length + (amf0_bytes (.Object md.metadata)).length
          : Nat) : Int) := by
    have eA : rss_amf0_get_any_size (.String md.name)
        = 0 + rss_amf0_get_string_size md.name := by rw [rss_amf0_get_any_size]
    have eB : rss_amf0_get_any_size (.Object md.metadata)
        = 0 + (1 + get_properties_size md.metadata + rss_amf0_get_object_eof_size) := by
      rw [rss_amf0_get_any_size]
    unfold RssOnMetaDataPacket.get_size rss_amf0_get_object_size
    rw [eA] at hA
    rw [eB] at hB
    push_cast
    omega
  have hpos : 0 < md.get_size := by rw [hsize]; omega
  refine ⟨hpos, ?_⟩
  unfold RssOnMetaDataPacket.encode
  simp only [gt_iff_lt, hpos, if_true]
  rw [hsize]
  have hlen : (RssStream.alloc (((amf0_bytes (.String md.name)).length
      + (amf0_bytes (.Object md.metadata)).length : Nat) : Int)).bytes.length
      = (amf0_bytes (.String md.name)).length + (amf0_bytes (.Object md.metadata)).length := by
    unfold RssStream.alloc
    simp only [List.length_replicate]
    exact Int.toNat_ofNat _
  have hp0 : (RssStream.alloc (((amf0_bytes (.String md.name)).length
      + (amf0_bytes (.Object md.metadata)).length : Nat) : Int)).p = 0 := rfl
  have hw1 := rss_amf0_write_any_eq (.String md.name) (RssStream.alloc
    (((amf0_bytes (.String md.name)).length
      + (amf0_bytes (.Object md.metadata)).length : Nat) : Int)) (by rw [hp0, hlen]; omega)
  rw [rss_amf0_write_any] at hw1
  rw [hw1]
  simp only
  have hw2 := rss_amf0_write_any_eq (.Object md.metadata)
    ((RssStream.alloc (((amf0_bytes (.String md.name)).length
      + (amf0_bytes (.Object md.metadata)).length : Nat) : Int)).put
        (amf0_bytes (.String md.name)))
    (by rw [RssStream.put_p, RssStream.put_length _ _ (by rw [hp0, hlen]; omega), hp0, hlen]
        omega)
  rw [rss_amf0_write_any] at hw2
  rw [hw2, RssStream.put_put _ _ _ (by rw [hp0, hlen]; omega)]
  simp only
  congr 3
  unfold RssStream.alloc RssStream.put memcpy
  simp

end Rss
namespace Rss

/-! ## Live source: one publisher event, any kind -/

theorem getD_some_lt {α : Type} (l : List (Option α)) (a : Nat) (v : α)
    (h : l.getD a none = some v) : a < l.length := by
  by_contra hn
  rw [List.getD_eq_getElem?_getD, List.getElem?_eq_none (by omega)] at h
  cases h

theorem handle_live_iff (heap : RssHeap) (h : RssSharedPtrMessage) :
    handle_live heap h = true
      ↔ ∃ a cell, h.ptr = some a ∧ heap.getD a none = some cell ∧ cell.size = h.size := by
  unfold handle_live
  constructor
  · intro hl
    cases hp : h.ptr with
    | none => rw [hp] at hl; cases hl
    | some a =>
      rw [hp] at hl
      simp only at hl
      cases hc : heap.getD a none with
      | none => rw [hc] at hl; cases hl
      | some cell =>
        rw [hc] at hl
        exact ⟨a, cell, rfl, hc, of_decide_eq_true hl⟩
  · rintro ⟨a, cell, hp, hc, hs⟩
    rw [hp]
    simp only
    rw [hc]
    exact decide_eq_true hs

theorem cell_kept_append (heap : RssHeap) (src src1 : RssSource) (a : Nat)
    (P : Option (List Nat)) (S : Int) (X : Option RssSharedPtr)
    (hm : src1.cache_metadata = src.cache_metadata) (h : cell_kept heap src a P S) :
    cell_kept (heap ++ [X]) src1 a P S := by
  obtain ⟨cell, hc, hP, hS, hk⟩ := h
  refine ⟨cell, ?_, hP, hS, ?_⟩
  · rw [getD_append_old _ _ _ _ (getD_some_lt _ _ _ hc)]
    exact hc
  · intro m hm1
    rw [hm] at hm1
    exact hk m hm1

theorem cache_live_append (heap : RssHeap) (cache : Option RssSharedPtrMessage)
    (X : Option RssSharedPtr) (h : cache_live heap cache = true) :
    cache_live (heap ++ [X]) cache = true := by
  cases cache with
  | none => rfl
  | some c =>
    obtain ⟨a, cell, hp, hc, hs⟩ := (handle_live_iff heap c).mp h
    exact (handle_live_iff _ c).mpr
      ⟨a, cell, hp, by rw [getD_append_old _ _ _ _ (getD_some_lt _ _ _ hc)]; exact hc, hs⟩

/-- The new cell of an audio or video event is not the cell of the cached
metadata. -/
theorem cache_ptr_lt (heap : RssHeap) (cache : Option RssSharedPtrMessage)
    (h : cache_live heap cache = true) (m : RssSharedPtrMessage) (hm : cache = some m) :
    m.ptr ≠ some heap.length := by
  subst hm
  obtain ⟨a, cell, hp, hc, _⟩ := (handle_live_iff heap m).mp h
  have := getD_some_lt _ _ _ hc
  rw [hp]
  intro e
  cases e
  omega

theorem on_event_audio (heap : RssHeap) (src : RssSource) (audio : RssCommonMessage)
    (hlive : cache_live heap src.cache_metadata = true) :
    ∃ heap1, on_event (heap, src) (.audio audio)
        = .ok (heap1, source_after heap.length src (.audio audio))
      ∧ heap1.length = heap.length + 1
      ∧ cache_live heap1 (source_after heap.length src (.audio audio)).cache_metadata = true
      ∧ (∀ a P S, cell_kept heap src a P S →
          cell_kept heap1 (source_after heap.length src (.audio audio)) a P S)
      ∧ ((src.consumers ≠ [] ∨ src.cache_sh_audio = none) →
          cell_kept heap1 (source_after heap.length src (.audio audio)) heap.length
            audio.payload audio.size) := by
  obtain ⟨X, hrun, hcell⟩ := on_audio_ok heap src audio
  have hsrc : ({ consumers := src.consumers.map
                   (fun (c : RssConsumer) => c.enqueue (event_handle heap.length (.audio audio))),
                 cache_metadata := src.cache_metadata,
                 cache_sh_video := src.cache_sh_video,
                 cache_sh_audio := match src.cache_sh_audio with
                   | some c => some c
                   | none => some (event_handle heap.length (.audio audio)) } : RssSource)
      = source_after heap.length src (.audio audio) := by
    unfold source_after
    cases src.cache_sh_audio <;> rfl
  rw [hsrc] at hrun
  refine ⟨heap ++ [X], ?_, by simp, cache_live_append _ _ _ hlive,
    fun a P S h => cell_kept_append _ _ _ _ _ _ _ rfl h, ?_⟩
  · unfold on_event
    simp only
    rw [hrun]
  · intro h
    obtain ⟨cell, hX, hP, hS⟩ := hcell h
    refine ⟨cell, by rw [getD_append_new, hX], hP, hS, ?_⟩
    intro m hm hp
    exact absurd hp (cache_ptr_lt heap _ hlive m hm)

theorem on_event_video (heap : RssHeap) (src : RssSource) (video : RssCommonMessage)
    (hlive : cache_live heap src.cache_metadata = true) :
    ∃ heap1, on_event (heap, src) (.video video)
        = .ok (heap1, source_after heap.length src (.video video))
      ∧ heap1.length = heap.length + 1
      ∧ cache_live heap1 (source_after heap.length src (.video video)).cache_metadata = true
      ∧ (∀ a P S, cell_kept heap src a P S →
          cell_kept heap1 (source_after heap.length src (.video video)) a P S)
      ∧ ((src.consumers ≠ [] ∨ src.cache_sh_video = none) →
          cell_kept heap1 (source_after heap.length src (.video video)) heap.length
            video.payload video.size) := by
  obtain ⟨X, hrun, hcell⟩ := on_video_ok heap src video
  have hsrc : ({ consumers := src.consumers.map
                   (fun (c : RssConsumer) => c.enqueue (event_handle heap.length (.video video))),
                 cache_metadata := src.cache_metadata,
                 cache_sh_video := match src.cache_sh_video with
                   | some c => some c
                   | none => some (event_handle heap.length (.video video)),
                 cache_sh_audio := src.cache_sh_audio } : RssSource)
      = source_after heap.length src (.video video) := by
    unfold source_after
    cases src.cache_sh_video <;> rfl
  rw [hsrc] at hrun
  refine ⟨heap ++ [X], ?_, by simp, cache_live_append _ _ _ hlive,
    fun a P S h => cell_kept_append _ _ _ _ _ _ _ rfl h, ?_⟩
  · unfold on_event
    simp only
    rw [hrun]
  · intro h
    obtain ⟨cell, hX, hP, hS⟩ := hcell h
    refine ⟨cell, by rw [getD_append_new, hX], hP, hS, ?_⟩
    intro m hm hp
    exact absurd hp (cache_ptr_lt heap _ hlive m hm)

end Rss
namespace Rss

/-- The cell a metadata event creates, once every consumer has its handle. -/
theorem on_meta_data_step (heap heapF : RssHeap) (src : RssSource) (msg : RssCommonMessage)
    (md : RssOnMetaDataPacket) (hlen : heapF.length = heap.length)
    (hfree : (match src.cache_metadata with
              | none => .ok heap
              | some old => old.destroy heap : Except RssError RssHeap) = .ok heapF) :
    ∃ cell : RssSharedPtr,
      on_event (heap, src) (.meta_data msg md)
        = .ok (heapF ++ [some cell], source_after heap.length src (.meta_data msg md))
      ∧ cell.payload = event_payload (.meta_data msg md)
      ∧ cell.size = event_size (.meta_data msg md)
      ∧ cell.shared_count = (src.consumers.length : Int) := by
  obtain ⟨hpos, henc⟩ := metadata_encode (metadata_with_server md)
  have hnot : ¬ (metadata_with_server md).get_size ≤ 0 := by omega
  have hp : (event_handle heapF.length (.meta_data msg md)).ptr = some heapF.length := rfl
  unfold on_event
  simp only
  unfold RssSource.on_meta_data
  simp only
  rw [show ({ name := md.name,
              metadata := RssUnSortedHashtable.set md.metadata server_key
                (.String RTMP_SIG_RSS_NAME_VERSION) } : RssOnMetaDataPacket)
        = metadata_with_server md from rfl]
  rw [if_neg hnot, henc]
  simp only
  rw [hfree]
  simp only
  rw [initialize_new]
  simp only
  rw [show ({ header := { msg.header with
                payload_length := (metadata_with_server md).get_size },
              ptr := some heapF.length, size := (metadata_with_server md).get_size }
            : RssSharedPtrMessage)
        = event_handle heapF.length (.meta_data msg md) from rfl]
  rw [dispatch_ok _ heapF.length hp src.consumers _ _ (by simp)
    (getD_append_new heapF _ none) rfl]
  simp only [set_append_last, zero_add]
  rw [hlen]
  exact ⟨_, rfl, rfl, rfl, rfl⟩

end Rss
namespace Rss

/-- The release of the cached metadata by a metadata event: it succeeds and
every kept cell keeps its payload. -/
theorem on_meta_data_free (heap : RssHeap) (src : RssSource)
    (hlive : cache_live heap src.cache_metadata = true) :
    ∃ heapF : RssHeap,
      (match src.cache_metadata with
       | none => .ok heap
       | some old => old.destroy heap : Except RssError RssHeap) = .ok heapF
      ∧ heapF.length = heap.length
      ∧ ∀ a P S, cell_kept heap src a P S →
          ∃ cell, heapF.getD a none = some cell ∧ cell.payload = P ∧ cell.size = S := by
  cases hcache : src.cache_metadata with
  | none =>
    refine ⟨heap, rfl, rfl, ?_⟩
    rintro a P S ⟨cell, hc, hP, hS, _⟩
    exact ⟨cell, hc, hP, hS⟩
  | some old =>
    rw [hcache] at hlive
    obtain ⟨a0, cell0, hp0, hc0, _⟩ := (handle_live_iff heap old).mp hlive
    have ha0 := getD_some_lt _ _ _ hc0
    simp only
    rw [destroy_live heap old a0 cell0 hp0 hc0]
    refine ⟨_, rfl, ?_, ?_⟩
    · split <;> simp
    · rintro a P S ⟨cell, hc, hP, hS, hk⟩
      by_cases ha : a0 = a
      · subst ha
        have hcell : cell0 = cell := by
          rw [hc0] at hc
          exact Option.some.inj hc
        subst hcell
        have h1 := hk old hcache hp0
        rw [if_neg (by omega), getD_set_eq _ _ _ _ ha0]
        exact ⟨_, rfl, hP, hS⟩
      · refine ⟨cell, ?_, hP, hS⟩
        split
        · rw [getD_set_ne _ _ _ _ _ ha]
          exact hc
        · rw [getD_set_ne _ _ _ _ _ ha]
          exact hc

theorem on_event_meta_data (heap : RssHeap) (src : RssSource) (msg : RssCommonMessage)
    (md : RssOnMetaDataPacket) (hlive : cache_live heap src.cache_metadata = true) :
    ∃ heap1, on_event (heap, src) (.meta_data msg md)
        = .ok (heap1, source_after heap.length src (.meta_data msg md))
      ∧ heap1.length = heap.length + 1
      ∧ cache_live heap1 (source_after heap.length src (.meta_data msg md)).cache_metadata
          = true
      ∧ (∀ a P S, cell_kept heap src a P S →
          cell_kept heap1 (source_after heap.length src (.meta_data msg md)) a P S)
      ∧ (src.consumers ≠ [] →
          cell_kept heap1 (source_after heap.length src (.meta_data msg md)) heap.length
            (event_payload (.meta_data msg md)) (event_size (.meta_data msg md))) := by
  obtain ⟨heapF, hfree, hlen, hkeep⟩ := on_meta_data_free heap src hlive
  obtain ⟨cell, hrun, hP, hS, hn⟩ := on_meta_data_step heap heapF src msg md hlen hfree
  have hnew : (heapF ++ [some cell]).getD heap.length none = some cell := by
    rw [← hlen]
    exact getD_append_new heapF _ none
  have hcache : (source_after heap.length src (.meta_data msg md)).cache_metadata
      = some (event_handle heap.length (.meta_data msg md)) := rfl
  refine ⟨heapF ++ [some cell], hrun, by simp [hlen], ?_, ?_, ?_⟩
  · rw [hcache]
    exact (handle_live_iff _ (event_handle heap.length (.meta_data msg md))).mpr
      ⟨heap.length, cell, rfl, hnew, hS⟩
  · intro a P S h
    obtain ⟨c, hc, hcP, hcS⟩ := hkeep a P S h
    have ha : a < heap.length := by
      obtain ⟨c0, hc0, _⟩ := h
      exact getD_some_lt _ _ _ hc0
    refine ⟨c, ?_, hcP, hcS, ?_⟩
    · rw [getD_append_old _ _ _ _ (by omega)]
      exact hc
    · intro m hm hp
      rw [hcache] at hm
      cases hm
      have e : heap.length = a := Option.some.inj hp
      omega
  · intro hne
    refine ⟨cell, hnew, hP, hS, ?_⟩
    intro _ _ _
    rw [hn]
    have : 0 < src.consumers.length := List.length_pos.mpr hne
    omega

/-- One publisher event on a source whose cached metadata is live: the event
succeeds, one cell is allocated, the source is `source_after`, every kept cell
stays kept, and the new cell is kept when a consumer or a cache has taken a
handle of it. -/
theorem on_event_ok (heap : RssHeap) (src : RssSource) (ev : PublishEvent)
    (hlive : cache_live heap src.cache_metadata = true) :
    ∃ heap1, on_event (heap, src) ev = .ok (heap1, source_after heap.length src ev)
      ∧ heap1.length = heap.length + 1
      ∧ cache_live heap1 (source_after heap.length src ev).cache_metadata = true
      ∧ (∀ a P S, cell_kept heap src a P S →
          cell_kept heap1 (source_after heap.length src ev) a P S)
      ∧ ((src.consumers ≠ [] ∨ (ev.is_audio = true ∧ src.cache_sh_audio = none)
            ∨ (ev.is_video = true ∧ src.cache_sh_video = none)) →
          cell_kept heap1 (source_after heap.length src ev) heap.length
            (event_payload ev) (event_size ev)) := by
  cases ev with
  | meta_data msg md =>
    obtain ⟨heap1, h1, h2, h3, h4, h5⟩ := on_event_meta_data heap src msg md hlive
    refine ⟨heap1, h1, h2, h3, h4, ?_⟩
    rintro (h | ⟨h, _⟩ | ⟨h, _⟩)
    · exact h5 h
    · cases h
    · cases h
  | audio audio =>
    obtain ⟨heap1, h1, h2, h3, h4, h5⟩ := on_event_audio heap src audio hlive
    refine ⟨heap1, h1, h2, h3, h4, ?_⟩
    rintro (h | ⟨_, h⟩ | ⟨h, _⟩)
    · exact h5 (Or.inl h)
    · exact h5 (Or.inr h)
    · cases h
  | video video =>
    obtain ⟨heap1, h1, h2, h3, h4, h5⟩ := on_event_video heap src video hlive
    refine ⟨heap1, h1, h2, h3, h4, ?_⟩
    rintro (h | ⟨h, _⟩ | ⟨_, h⟩)
    · exact h5 (Or.inl h)
    · cases h
    · exact h5 (Or.inr h)

end Rss
namespace Rss

/-! ## Live source: sequences of publisher events -/

theorem event_handles_length : ∀ (evs : List PublishEvent) (a : Nat),
    (event_handles a evs).length = evs.length
  | [], _ => rfl
  | _ :: rest, a => by
    rw [event_handles, List.length_cons, List.length_cons, event_handles_length rest]

theorem event_handles_get : ∀ (evs : List PublishEvent) (a k : Nat) (hk : k < evs.length),
    (event_handles a evs).get? k = some (event_handle (a + k) (evs.get ⟨k, hk⟩))
  | [], _, _, hk => absurd hk (Nat.not_lt_zero _)
  | _ :: _, _, 0, _ => rfl
  | _ :: rest, a, k + 1, hk => by
    rw [event_handles, List.get?_cons_succ,
      event_handles_get rest (a + 1) k (Nat.lt_of_succ_lt_succ hk)]
    have e : a + 1 + k = a + (k + 1) := by omega
    rw [e]
    rfl

theorem sources_after_consumers : ∀ (evs : List PublishEvent) (a : Nat) (src : RssSource),
    (sources_after a src evs).consumers
      = src.consumers.map (fun (c : RssConsumer) => { msgs := c.msgs ++ event_handles a evs })
  | [], a, src => by
    simp [sources_after, event_handles]
  | ev :: rest, a, src => by
    rw [sources_after, sources_after_consumers rest (a + 1) (source_after a src ev)]
    simp [source_after, event_handles, RssConsumer.enqueue]

theorem sources_after_audio_some : ∀ (evs : List PublishEvent) (a : Nat) (src : RssSource)
    (h : RssSharedPtrMessage), src.cache_sh_audio = some h →
    (sources_after a src evs).cache_sh_audio = some h
  | [], _, _, _, hc => hc
  | ev :: rest, a, src, h, hc => by
    rw [sources_after]
    apply sources_after_audio_some rest
    unfold source_after
    simp only
    rw [hc]
    cases ev <;> rfl

theorem sources_after_video_some : ∀ (evs : List PublishEvent) (a : Nat) (src : RssSource)
    (h : RssSharedPtrMessage), src.cache_sh_video = some h →
    (sources_after a src evs).cache_sh_video = some h
  | [], _, _, _, hc => hc
  | ev :: rest, a, src, h, hc => by
    rw [sources_after]
    apply sources_after_video_some rest
    unfold source_after
    simp only
    rw [hc]
    cases ev <;> rfl

theorem sources_after_audio_none : ∀ (evs : List PublishEvent) (a : Nat) (src : RssSource),
    src.cache_sh_audio = none → (∀ ev ∈ evs, ev.is_audio = false) →
    (sources_after a src evs).cache_sh_audio = none
  | [], _, _, hc, _ => hc
  | ev :: rest, a, src, hc, hn => by
    rw [sources_after]
    apply sources_after_audio_none rest
    · have h0 := hn ev (List.mem_cons_self _ _)
      unfold source_after
      simp only
      rw [hc]
      cases ev with
      | audio m => cases h0
      | video m => rfl
      | meta_data m md => rfl
    · exact fun e he => hn e (List.mem_cons_of_mem _ he)

theorem sources_after_video_none : ∀ (evs : List PublishEvent) (a : Nat) (src : RssSource),
    src.cache_sh_video = none → (∀ ev ∈ evs, ev.is_video = false) →
    (sources_after a src evs).cache_sh_video = none
  | [], _, _, hc, _ => hc
  | ev :: rest, a, src, hc, hn => by
    rw [sources_after]
    apply sources_after_video_none rest
    · have h0 := hn ev (List.mem_cons_self _ _)
      unfold source_after
      simp only
      rw [hc]
      cases ev with
      | audio m => rfl
      | video m => cases h0
      | meta_data m md => rfl
    · exact fun e he => hn e (List.mem_cons_of_mem _ he)

theorem on_events_append : ∀ (l1 l2 : List PublishEvent) (st st1 : RssHeap × RssSource),
    on_events st l1 = .ok st1 → on_events st (l1 ++ l2) = on_events st1 l2
  | [], _, _, _, h => by
    rw [on_events] at h
    cases h
    rfl
  | ev :: rest, l2, st, st1, h => by
    rw [on_events] at h
    rw [List.cons_append, on_events]
    cases hev : on_event st ev with
    | error e => rw [hev] at h; cases h
    | ok st2 =>
      rw [hev] at h
      exact on_events_append rest l2 st2 st1 h

/-- A sequence of publisher events on a source whose cached metadata is live:
every event succeeds, every event allocates one cell, the source is
`sources_after`, every kept cell stays kept, and with a consumer attached the
cell of every event is kept with the payload and the size of the event. -/
theorem on_events_ok : ∀ (evs : List PublishEvent) (heap : RssHeap) (src : RssSource),
    cache_live heap src.cache_metadata = true →
    ∃ heap1, on_events (heap, src) evs = .ok (heap1, sources_after heap.length src evs)
      ∧ heap1.length = heap.length + evs.length
      ∧ cache_live heap1 (sources_after heap.length src evs).cache_metadata = true
      ∧ (∀ a P S, cell_kept heap src a P S →
          cell_kept heap1 (sources_after heap.length src evs) a P S)
      ∧ (src.consumers ≠ [] → ∀ (k : Nat) (hk : k < evs.length),
          cell_kept heap1 (sources_after heap.length src evs) (heap.length + k)
            (event_payload (evs.get ⟨k, hk⟩)) (event_size (evs.get ⟨k, hk⟩)))
  | [], heap, src, hlive =>
    ⟨heap, rfl, rfl, hlive, fun _ _ _ h => h, fun _ k hk => absurd hk (Nat.not_lt_zero k)⟩
  | ev :: rest, heap, src, hlive => by
    obtain ⟨heap1, h1, h2, h3, h4, h5⟩ := on_event_ok heap src ev hlive
    obtain ⟨heap2, g1, g2, g3, g4, g5⟩ :=
      on_events_ok rest heap1 (source_after heap.length src ev) h3
    rw [h2] at g1 g3 g4 g5
    refine ⟨heap2, ?_, ?_, g3, fun a P S h => g4 a P S (h4 a P S h), ?_⟩
    · rw [on_events, h1]
      exact g1
    · rw [g2, h2, List.length_cons]
      omega
    · intro hne k hk
      cases k with
      | zero => exact g4 _ _ _ (h5 (Or.inl hne))
      | succ k =>
        have hne1 : (source_after heap.length src ev).consumers ≠ [] := by
          unfold source_after
          simp only
          intro e
          exact hne (List.map_eq_nil_iff.mp e)
        have := g5 hne1 k (Nat.lt_of_succ_lt_succ hk)
        have e : heap.length + 1 + k = heap.length + (k + 1) := by omega
        rw [e] at this
        exact this

end Rss
namespace Rss

/-! ## Live source: the queue of a consumer -/

/-- C15, counterexample: a source with one consumer gets the metadata event
whose message carries the packet `onMetaData` with the property `width` in 33
bytes. The consumer is handed one message, a handle of the cell 0, and the
payload of that cell is not the payload of the event: it is the packet encoded
anew with the property `server` that `on_meta_data` has set, 70 bytes. -/
theorem fan_out_metadata_payload :
    ∃ heap1 src1 cell,
      on_events ([], example_source)
          [.meta_data example_metadata_message example_metadata_packet] = .ok (heap1, src1)
      ∧ src1.consumers.map
          (fun (c : RssConsumer) => c.msgs.map (fun (h : RssSharedPtrMessage) => h.ptr))
          = [[some 0]]
      ∧ heap1.getD 0 none = some cell
      ∧ cell.payload
          = some ([0x02, 0x00, 0x0A] ++ onMetaData
                  ++ [0x03, 0x00, 0x05, 0x77, 0x69, 0x64, 0x74, 0x68, 0x00, 0, 0, 0, 0, 0, 0, 0, 0]
                  ++ [0x00, 0x06] ++ server_key
                  ++ [0x02, 0x00, 0x1A] ++ RTMP_SIG_RSS_NAME_VERSION ++ [0x00, 0x00, 0x09])
      ∧ cell.size = 70
      ∧ example_metadata_message.size = 33
      ∧ cell.payload ≠ example_metadata_message.payload := by
  obtain ⟨heap1, h1, _, _, _, h5⟩ :=
    on_events_ok [.meta_data example_metadata_message example_metadata_packet] []
      example_source rfl
  obtain ⟨cell, hc, hP, hS, _⟩ := h5 (by decide) 0 (by decide)
  refine ⟨heap1, _, cell, h1, rfl, hc, ?_, ?_, rfl, ?_⟩
  · rw [hP]
    decide
  · rw [hS]
    decide
  · rw [hP]
    decide

/-- C15 (amended): for every sequence of publisher events on a source whose
cached metadata is live, the events succeed and the queue of every consumer is
its queue before the events followed by one handle per event, in publish
order: the handle number `k` is the handle of the cell `heap.length + k` with
the header of event `k`. With a consumer attached that cell holds the payload
of the event, which is the payload of the message for audio and video and, for
metadata, the packet encoded anew with the property `server`
(`event_payload`). -/
theorem fan_out_queue (heap : RssHeap) (src : RssSource) (evs : List PublishEvent)
    (hlive : cache_live heap src.cache_metadata = true) :
    ∃ heap1 src1, on_events (heap, src) evs = .ok (heap1, src1)
      ∧ src1.consumers
          = src.consumers.map
              (fun (c : RssConsumer) => { msgs := c.msgs ++ event_handles heap.length evs })
      ∧ (event_handles heap.length evs).length = evs.length
      ∧ ∀ (k : Nat) (hk : k < evs.length),
          (event_handles heap.length evs).get? k
            = some (event_handle (heap.length + k) (evs.get ⟨k, hk⟩))
          ∧ (src.consumers ≠ [] →
              ∃ cell, heap1.getD (heap.length + k) none = some cell
                ∧ cell.payload = event_payload (evs.get ⟨k, hk⟩)
                ∧ cell.size = event_size (evs.get ⟨k, hk⟩)) := by
  obtain ⟨heap1, h1, _, _, _, h5⟩ := on_events_ok evs heap src hlive
  refine ⟨heap1, _, h1, sources_after_consumers evs heap.length src,
    event_handles_length evs heap.length, ?_⟩
  intro k hk
  refine ⟨event_handles_get evs heap.length k hk, ?_⟩
  intro hne
  obtain ⟨cell, hc, hP, hS, _⟩ := h5 hne k hk
  exact ⟨cell, hc, hP, hS⟩

/-- C15, witness: the consumer of `example_source` and the 203 events of
`example_session`. -/
theorem fan_out_queue_witness :
    cache_live [] example_source.cache_metadata = true
    ∧ example_session.length = 203
    ∧ ∃ heap1 src1, on_events ([], example_source) example_session = .ok (heap1, src1)
      ∧ src1.consumers
          = example_source.consumers.map
              (fun (c : RssConsumer) =>
                { msgs := c.msgs ++ event_handles ([] : RssHeap).length example_session })
      ∧ (event_handles ([] : RssHeap).length example_session).length = example_session.length
      ∧ ∀ (k : Nat) (hk : k < example_session.length),
          (event_handles ([] : RssHeap).length example_session).get? k
            = some (event_handle (([] : RssHeap).length + k) (example_session.get ⟨k, hk⟩))
          ∧ (example_source.consumers ≠ [] →
              ∃ cell, heap1.getD (([] : RssHeap).length + k) none = some cell
                ∧ cell.payload = event_payload (example_session.get ⟨k, hk⟩)
                ∧ cell.size = event_size (example_session.get ⟨k, hk⟩)) :=
  ⟨rfl, by simp [example_session, example_headers, example_frames], fan_out_queue [] example_source example_session rfl⟩

end Rss
namespace Rss

/-! ## Live source: a new consumer -/

theorem retain_length (heap : RssHeap) (cache : Option RssSharedPtrMessage) :
    (retain heap cache).length = heap.length := by
  unfold retain
  split
  · rfl
  · split
    · rfl
    · split
      · rfl
      · exact List.length_set _ _ _

theorem retain_live (heap : RssHeap) (cache : Option RssSharedPtrMessage)
    (c : Option RssSharedPtrMessage) (h : cache_live heap c = true) :
    cache_live (retain heap cache) c = true := by
  cases c with
  | none => rfl
  | some m =>
    obtain ⟨a, cell, hp, hc, hs⟩ := (handle_live_iff heap m).mp h
    have ha := getD_some_lt _ _ _ hc
    apply (handle_live_iff _ m).mpr
    unfold retain
    split
    · exact ⟨a, cell, hp, hc, hs⟩
    · split
      · exact ⟨a, cell, hp, hc, hs⟩
      · rename_i b _
        split
        · exact ⟨a, cell, hp, hc, hs⟩
        · rename_i cellb hb
          by_cases hab : b = a
          · subst hab
            rw [hc] at hb
            cases hb
            exact ⟨b, _, hp, getD_set_eq _ _ _ _ ha, hs⟩
          · exact ⟨a, cell, hp, by rw [getD_set_ne _ _ _ _ _ hab]; exact hc, hs⟩

theorem enqueue_cache_ok (heap : RssHeap) (consumer : RssConsumer)
    (cache : Option RssSharedPtrMessage) (h : cache_live heap cache = true) :
    RssSource.enqueue_cache heap consumer cache
      = .ok (retain heap cache, { msgs := consumer.msgs ++ cache.toList }) := by
  cases cache with
  | none =>
    unfold RssSource.enqueue_cache retain
    simp
  | some m =>
    obtain ⟨a, cell, hp, hc, hs⟩ := (handle_live_iff heap m).mp h
    unfold RssSource.enqueue_cache retain
    simp only
    rw [copy_live heap m a cell hp hc hs, hp]
    simp only
    rw [hc]
    rfl

/-- Function `create_consumer` on a source whose cached messages are live. -/
theorem create_consumer_ok (heap : RssHeap) (src : RssSource)
    (hm : cache_live heap src.cache_metadata = true)
    (hv : cache_live heap src.cache_sh_video = true)
    (ha : cache_live heap src.cache_sh_audio = true) :
    src.create_consumer heap
      = .ok (retain (retain (retain heap src.cache_metadata) src.cache_sh_video)
               src.cache_sh_audio,
             { consumers := src.consumers ++ [{ msgs := cached_messages src }],
               cache_metadata := src.cache_metadata,
               cache_sh_video := src.cache_sh_video,
               cache_sh_audio := src.cache_sh_audio }) := by
  unfold RssSource.create_consumer
  rw [enqueue_cache_ok _ _ _ hm]
  simp only
  rw [enqueue_cache_ok _ _ _ (retain_live _ _ _ hv)]
  simp only
  rw [enqueue_cache_ok _ _ _ (retain_live _ _ _ (retain_live _ _ _ ha))]
  simp [cached_messages, RssConsumer.new]

end Rss
namespace Rss

/-! ## Live source: the cached sequence headers over a sequence of events -/

theorem cache_kept_live (heap : RssHeap) (src : RssSource)
    (cache : Option RssSharedPtrMessage) (h : cache_kept heap src cache) :
    cache_live heap cache = true := by
  cases cache with
  | none => rfl
  | some m =>
    obtain ⟨a, P, hp, cell, hc, _, hs, _⟩ := h m rfl
    exact (handle_live_iff heap m).mpr ⟨a, cell, hp, hc, hs⟩

theorem source_after_video_some (a : Nat) (src : RssSource) (ev : PublishEvent)
    (h : RssSharedPtrMessage) (hc : src.cache_sh_video = some h) :
    (source_after a src ev).cache_sh_video = some h := by
  unfold source_after
  simp only
  rw [hc]
  cases ev <;> rfl

theorem source_after_audio_some (a : Nat) (src : RssSource) (ev : PublishEvent)
    (h : RssSharedPtrMessage) (hc : src.cache_sh_audio = some h) :
    (source_after a src ev).cache_sh_audio = some h := by
  unfold source_after
  simp only
  rw [hc]
  cases ev <;> rfl

/-- One publisher event keeps the cached sequence headers kept. -/
theorem on_event_caches (heap : RssHeap) (src : RssSource) (ev : PublishEvent)
    (hlive : cache_live heap src.cache_metadata = true)
    (hv : cache_kept heap src src.cache_sh_video)
    (ha : cache_kept heap src src.cache_sh_audio) :
    ∃ heap1, on_event (heap, src) ev = .ok (heap1, source_after heap.length src ev)
      ∧ heap1.length = heap.length + 1
      ∧ cache_live heap1 (source_after heap.length src ev).cache_metadata = true
      ∧ cache_kept heap1 (source_after heap.length src ev)
          (source_after heap.length src ev).cache_sh_video
      ∧ cache_kept heap1 (source_after heap.length src ev)
          (source_after heap.length src ev).cache_sh_audio := by
  obtain ⟨heap1, h1, h2, h3, h4, h5⟩ := on_event_ok heap src ev hlive
  refine ⟨heap1, h1, h2, h3, ?_, ?_⟩
  · cases hc : src.cache_sh_video with
    | some c =>
      rw [source_after_video_some _ _ _ c hc]
      intro m hm
      cases hm
      obtain ⟨a, P, hp, hk⟩ := hv c hc
      exact ⟨a, P, hp, h4 _ _ _ hk⟩
    | none =>
      cases ev with
      | video v =>
        have e : (source_after heap.length src (.video v)).cache_sh_video
            = some (event_handle heap.length (.video v)) := by
          unfold source_after
          simp only
          rw [hc]
        rw [e]
        intro m hm
        cases hm
        exact ⟨heap.length, _, rfl, h5 (Or.inr (Or.inr ⟨rfl, hc⟩))⟩
      | audio v =>
        have e : (source_after heap.length src (.audio v)).cache_sh_video = none := by
          unfold source_after
          simp only
          rw [hc]
        rw [e]
        intro m hm
        cases hm
      | meta_data v md =>
        have e : (source_after heap.length src (.meta_data v md)).cache_sh_video = none := by
          unfold source_after
          simp only
          rw [hc]
        rw [e]
        intro m hm
        cases hm
  · cases hc : src.cache_sh_audio with
    | some c =>
      rw [source_after_audio_some _ _ _ c hc]
      intro m hm
      cases hm
      obtain ⟨a, P, hp, hk⟩ := ha c hc
      exact ⟨a, P, hp, h4 _ _ _ hk⟩
    | none =>
      cases ev with
      | audio v =>
        have e : (source_after heap.length src (.audio v)).cache_sh_audio
            = some (event_handle heap.length (.audio v)) := by
          unfold source_after
          simp only
          rw [hc]
        rw [e]
        intro m hm
        cases hm
        exact ⟨heap.length, _, rfl, h5 (Or.inr (Or.inl ⟨rfl, hc⟩))⟩
      | video v =>
        have e : (source_after heap.length src (.video v)).cache_sh_audio = none := by
          unfold source_after
          simp only
          rw [hc]
        rw [e]
        intro m hm
        cases hm
      | meta_data v md =>
        have e : (source_after heap.length src (.meta_data v md)).cache_sh_audio = none := by
          unfold source_after
          simp only
          rw [hc]
        rw [e]
        intro m hm
        cases hm

/-- A sequence of publisher events keeps the cached messages live. -/
theorem on_events_caches : ∀ (evs : List PublishEvent) (heap : RssHeap) (src : RssSource),
    cache_live heap src.cache_metadata = true →
    cache_kept heap src src.cache_sh_video →
    cache_kept heap src src.cache_sh_audio →
    ∃ heap1, on_events (heap, src) evs = .ok (heap1, sources_after heap.length src evs)
      ∧ heap1.length = heap.length + evs.length
      ∧ cache_live heap1 (sources_after heap.length src evs).cache_metadata = true
      ∧ cache_live heap1 (sources_after heap.length src evs).cache_sh_video = true
      ∧ cache_live heap1 (sources_after heap.length src evs).cache_sh_audio = true
  | [], heap, src, hlive, hv, ha =>
    ⟨heap, rfl, rfl, hlive, cache_kept_live _ _ _ hv, cache_kept_live _ _ _ ha⟩
  | ev :: rest, heap, src, hlive, hv, ha => by
    obtain ⟨heap1, h1, h2, h3, h4, h5⟩ := on_event_caches heap src ev hlive hv ha
    obtain ⟨heap2, g1, g2, g3, g4, g5⟩ :=
      on_events_caches rest heap1 (source_after heap.length src ev) h3 h4 h5
    rw [h2] at g1 g3 g4 g5
    refine ⟨heap2, ?_, ?_, g3, g4, g5⟩
    · rw [on_events, h1]
      exact g1
    · rw [g2, h2, List.length_cons]
      omega

theorem cache_kept_none (heap : RssHeap) (src : RssSource) : cache_kept heap src none := by
  intro m hm
  cases hm

end Rss
namespace Rss

/-! ## Live source: the first audio and the first video message -/

theorem first_audio_cached (heap : RssHeap) (src : RssSource) (pre post : List PublishEvent)
    (m : RssCommonMessage) (hlive : cache_live heap src.cache_metadata = true)
    (hnone : src.cache_sh_audio = none) (hpre : ∀ ev ∈ pre, ev.is_audio = false) :
    ∃ heap1 src1 cell,
      on_events (heap, src) (pre ++ .audio m :: post) = .ok (heap1, src1)
      ∧ src1.cache_sh_audio = some (event_handle (heap.length + pre.length) (.audio m))
      ∧ heap1.getD (heap.length + pre.length) none = some cell
      ∧ cell.payload = m.payload ∧ cell.size = m.size := by
  obtain ⟨heapA, a1, a2, a3, _, _⟩ := on_events_ok pre heap src hlive
  have hnoneA := sources_after_audio_none pre heap.length src hnone hpre
  obtain ⟨heapB, b1, _, b3, _, b5⟩ :=
    on_event_ok heapA (sources_after heap.length src pre) (.audio m) a3
  have hkept := b5 (Or.inr (Or.inl ⟨rfl, hnoneA⟩))
  obtain ⟨heapC, c1, _, _, c4, _⟩ :=
    on_events_ok post heapB (source_after heapA.length (sources_after heap.length src pre)
      (.audio m)) b3
  obtain ⟨cell, hc, hP, hS, _⟩ := c4 _ _ _ hkept
  refine ⟨heapC, sources_after heapB.length (source_after heapA.length
    (sources_after heap.length src pre) (.audio m)) post, cell, ?_, ?_, ?_, hP, hS⟩
  · rw [on_events_append pre _ _ _ a1, on_events, b1]
    exact c1
  · apply sources_after_audio_some
    unfold source_after
    simp only
    rw [hnoneA, a2]
  · rw [← a2]
    exact hc

theorem first_video_cached (heap : RssHeap) (src : RssSource) (pre post : List PublishEvent)
    (m : RssCommonMessage) (hlive : cache_live heap src.cache_metadata = true)
    (hnone : src.cache_sh_video = none) (hpre : ∀ ev ∈ pre, ev.is_video = false) :
    ∃ heap1 src1 cell,
      on_events (heap, src) (pre ++ .video m :: post) = .ok (heap1, src1)
      ∧ src1.cache_sh_video = some (event_handle (heap.length + pre.length) (.video m))
      ∧ heap1.getD (heap.length + pre.length) none = some cell
      ∧ cell.payload = m.payload ∧ cell.size = m.size := by
  obtain ⟨heapA, a1, a2, a3, _, _⟩ := on_events_ok pre heap src hlive
  have hnoneA := sources_after_video_none pre heap.length src hnone hpre
  obtain ⟨heapB, b1, _, b3, _, b5⟩ :=
    on_event_ok heapA (sources_after heap.length src pre) (.video m) a3
  have hkept := b5 (Or.inr (Or.inr ⟨rfl, hnoneA⟩))
  obtain ⟨heapC, c1, _, _, c4, _⟩ :=
    on_events_ok post heapB (source_after heapA.length (sources_after heap.length src pre)
      (.video m)) b3
  obtain ⟨cell, hc, hP, hS, _⟩ := c4 _ _ _ hkept
  refine ⟨heapC, sources_after heapB.length (source_after heapA.length
    (sources_after heap.length src pre) (.video m)) post, cell, ?_, ?_, ?_, hP, hS⟩
  · rw [on_events_append pre _ _ _ a1, on_events, b1]
    exact c1
  · apply sources_after_video_some
    unfold source_after
    simp only
    rw [hnoneA, a2]
  · rw [← a2]
    exact hc

/-- C18: on a source whose audio cache is empty, take any events without an audio
message, then the audio message `m`, then any events at all (later audio
messages among them): all events succeed, the audio cache is the handle of the
cell made for `m`, and that cell is on the heap with the payload and the size
of `m`. The same holds for video. The cached metadata is live at the start. -/
theorem sequence_header_cache (heap : RssHeap) (src : RssSource)
    (pre post : List PublishEvent) (m : RssCommonMessage)
    (hlive : cache_live heap src.cache_metadata = true) :
    (src.cache_sh_audio = none → (∀ ev ∈ pre, ev.is_audio = false) →
      ∃ heap1 src1 cell,
        on_events (heap, src) (pre ++ .audio m :: post) = .ok (heap1, src1)
        ∧ src1.cache_sh_audio = some (event_handle (heap.length + pre.length) (.audio m))
        ∧ heap1.getD (heap.length + pre.length) none = some cell
        ∧ cell.payload = m.payload ∧ cell.size = m.size)
    ∧ (src.cache_sh_video = none → (∀ ev ∈ pre, ev.is_video = false) →
      ∃ heap1 src1 cell,
        on_events (heap, src) (pre ++ .video m :: post) = .ok (heap1, src1)
        ∧ src1.cache_sh_video = some (event_handle (heap.length + pre.length) (.video m))
        ∧ heap1.getD (heap.length + pre.length) none = some cell
        ∧ cell.payload = m.payload ∧ cell.size = m.size) :=
  ⟨first_audio_cached heap src pre post m hlive, first_video_cached heap src pre post m hlive⟩

/-- C18, witness: a new source gets metadata, then the first audio message
`AF 00 12 10` (the first video message `17 00 00 00 00`), then the 200 frames
of `example_frames`. -/
theorem sequence_header_cache_witness :
    cache_live [] RssSource.new.cache_metadata = true
    ∧ RssSource.new.cache_sh_audio = none
    ∧ RssSource.new.cache_sh_video = none
    ∧ (∃ heap1 src1 cell,
        on_events ([], RssSource.new)
            ([.meta_data example_metadata_message example_metadata_packet]
              ++ .audio (example_audio 0 [0xAF, 0x00, 0x12, 0x10]) :: example_frames)
          = .ok (heap1, src1)
        ∧ src1.cache_sh_audio
            = some (event_handle (([] : RssHeap).length
                + [PublishEvent.meta_data example_metadata_message example_metadata_packet].length)
                (.audio (example_audio 0 [0xAF, 0x00, 0x12, 0x10])))
        ∧ heap1.getD (([] : RssHeap).length
            + [PublishEvent.meta_data example_metadata_message example_metadata_packet].length)
            none = some cell
        ∧ cell.payload = (example_audio 0 [0xAF, 0x00, 0x12, 0x10]).payload
        ∧ cell.size = (example_audio 0 [0xAF, 0x00, 0x12, 0x10]).size)
    ∧ (∃ heap1 src1 cell,
        on_events ([], RssSource.new)
            ([.meta_data example_metadata_message example_metadata_packet]
              ++ .video (example_video 0 [0x17, 0x00, 0x00, 0x00, 0x00]) :: example_frames)
          = .ok (heap1, src1)
        ∧ src1.cache_sh_video
            = some (event_handle (([] : RssHeap).length
                + [PublishEvent.meta_data example_metadata_message example_metadata_packet].length)
                (.video (example_video 0 [0x17, 0x00, 0x00, 0x00, 0x00])))
        ∧ heap1.getD (([] : RssHeap).length
            + [PublishEvent.meta_data example_metadata_message example_metadata_packet].length)
            none = some cell
        ∧ cell.payload = (example_video 0 [0x17, 0x00, 0x00, 0x00, 0x00]).payload
        ∧ cell.size = (example_video 0 [0x17, 0x00, 0x00, 0x00, 0x00]).size) :=
  ⟨rfl, rfl, rfl,
   (sequence_header_cache [] RssSource.new
      [.meta_data example_metadata_message example_metadata_packet] example_frames
      (example_audio 0 [0xAF, 0x00, 0x12, 0x10]) rfl).1 rfl
      (by intro ev h; rw [List.mem_singleton] at h; subst h; rfl),
   (sequence_header_cache [] RssSource.new
      [.meta_data example_metadata_message example_metadata_packet] example_frames
      (example_video 0 [0x17, 0x00, 0x00, 0x00, 0x00]) rfl).2 rfl
      (by intro ev h; rw [List.mem_singleton] at h; subst h; rfl)⟩

end Rss
namespace Rss

/-! ## Live source: what a new consumer finds in its queue -/

/-- C17: on a source whose cached messages are live, `create_consumer` succeeds;
the new consumer is the last entry of the consumer list, the other consumers
and the caches are as before, and the queue of the new consumer holds the
cached metadata, then the cached video sequence header, then the cached audio
sequence header, those that are present, and nothing else. Each handle is a
copy: the counter of its cell has grown by one (`retain`). -/
theorem create_consumer_queue (heap : RssHeap) (src : RssSource)
    (hm : cache_live heap src.cache_metadata = true)
    (hv : cache_live heap src.cache_sh_video = true)
    (ha : cache_live heap src.cache_sh_audio = true) :
    src.create_consumer heap
      = .ok (retain (retain (retain heap src.cache_metadata) src.cache_sh_video)
               src.cache_sh_audio,
             { consumers := src.consumers
                 ++ [{ msgs := src.cache_metadata.toList ++ src.cache_sh_video.toList
                         ++ src.cache_sh_audio.toList }],
               cache_metadata := src.cache_metadata,
               cache_sh_video := src.cache_sh_video,
               cache_sh_audio := src.cache_sh_audio }) :=
  create_consumer_ok heap src hm hv ha

/-- C17, witness: the source and the heap after metadata, an audio and a video
sequence header. -/
theorem create_consumer_queue_witness :
    cache_live example_heap_cached example_source_cached.cache_metadata = true
    ∧ cache_live example_heap_cached example_source_cached.cache_sh_video = true
    ∧ cache_live example_heap_cached example_source_cached.cache_sh_audio = true
    ∧ example_source_cached.create_consumer example_heap_cached
      = .ok (retain (retain (retain example_heap_cached example_source_cached.cache_metadata)
               example_source_cached.cache_sh_video) example_source_cached.cache_sh_audio,
             { consumers := example_source_cached.consumers
                 ++ [{ msgs := example_source_cached.cache_metadata.toList
                         ++ example_source_cached.cache_sh_video.toList
                         ++ example_source_cached.cache_sh_audio.toList }],
               cache_metadata := example_source_cached.cache_metadata,
               cache_sh_video := example_source_cached.cache_sh_video,
               cache_sh_audio := example_source_cached.cache_sh_audio }) :=
  ⟨by decide, by decide, by decide,
   create_consumer_queue example_heap_cached example_source_cached (by decide) (by decide)
     (by decide)⟩

/-- C16, counterexample: a new source gets metadata (cell 0), the audio sequence
header (cell 1, message type 8) and the video sequence header (cell 2, message
type 9); the consumer created then has the video sequence header before the
audio sequence header in its queue. -/
theorem late_join_video_before_audio :
    ∃ heap1 src1 heap2 src2,
      on_events ([], RssSource.new) example_headers = .ok (heap1, src1)
      ∧ src1.create_consumer heap1 = .ok (heap2, src2)
      ∧ src2.consumers.map
          (fun (c : RssConsumer) =>
            c.msgs.map (fun (h : RssSharedPtrMessage) => (h.header.message_type, h.ptr)))
          = [[(18, some 0), (9, some 2), (8, some 1)]] := by
  obtain ⟨heap1, h1, _, hm, hv, ha⟩ :=
    on_events_caches example_headers [] RssSource.new rfl (cache_kept_none _ _)
      (cache_kept_none _ _)
  exact ⟨heap1, _, _, _, h1, create_consumer_ok heap1 _ hm hv ha, by decide⟩

/-- C16 (amended): a source without cached messages gets the events `evs1`, then
a consumer is created, then the source gets the events `evs2`. Everything
succeeds, and the queue of the new consumer holds the cached metadata, then the
cached video sequence header, then the cached audio sequence header (those that
are present), and after them one handle per event of `evs2`, in publish
order. -/
theorem late_join_queue (heap0 : RssHeap) (src0 : RssSource) (evs1 evs2 : List PublishEvent)
    (hm : src0.cache_metadata = none) (hv : src0.cache_sh_video = none)
    (ha : src0.cache_sh_audio = none) :
    ∃ heap1 src1 heap2 src2 heap3 src3,
      on_events (heap0, src0) evs1 = .ok (heap1, src1)
      ∧ src1.create_consumer heap1 = .ok (heap2, src2)
      ∧ on_events (heap2, src2) evs2 = .ok (heap3, src3)
      ∧ src3.consumers.getLast?
          = some { msgs := src1.cache_metadata.toList ++ src1.cache_sh_video.toList
                     ++ src1.cache_sh_audio.toList ++ event_handles heap2.length evs2 } := by
  obtain ⟨heap1, h1, _, lm, lv, la⟩ :=
    on_events_caches evs1 heap0 src0 (by rw [hm]; rfl) (by rw [hv]; exact cache_kept_none _ _)
      (by rw [ha]; exact cache_kept_none _ _)
  have hc := create_consumer_ok heap1 _ lm lv la
  obtain ⟨heap3, g1, _, _, _, _⟩ :=
    on_events_ok evs2 _ _
      (show cache_live (retain (retain (retain heap1
          (sources_after heap0.length src0 evs1).cache_metadata)
          (sources_after heap0.length src0 evs1).cache_sh_video)
          (sources_after heap0.length src0 evs1).cache_sh_audio)
        ({ consumers := (sources_after heap0.length src0 evs1).consumers
              ++ [{ msgs := cached_messages (sources_after heap0.length src0 evs1) }],
           cache_metadata := (sources_after heap0.length src0 evs1).cache_metadata,
           cache_sh_video := (sources_after heap0.length src0 evs1).cache_sh_video,
           cache_sh_audio := (sources_after heap0.length src0 evs1).cache_sh_audio }
          : RssSource).cache_metadata = true
        from retain_live _ _ _ (retain_live _ _ _ (retain_live _ _ _ lm)))
  refine ⟨heap1, _, _, _, heap3, _, h1, hc, g1, ?_⟩
  rw [sources_after_consumers]
  simp [cached_messages, List.getLast?_append]

/-- C16, witness: a new source, `example_headers`, a new consumer, then
`example_frames`. -/
theorem late_join_queue_witness :
    RssSource.new.cache_metadata = none ∧ RssSource.new.cache_sh_video = none
    ∧ RssSource.new.cache_sh_audio = none
    ∧ ∃ heap1 src1 heap2 src2 heap3 src3,
      on_events ([], RssSource.new) example_headers = .ok (heap1, src1)
      ∧ src1.create_consumer heap1 = .ok (heap2, src2)
      ∧ on_events (heap2, src2) example_frames = .ok (heap3, src3)
      ∧ src3.consumers.getLast?
          = some { msgs := src1.cache_metadata.toList ++ src1.cache_sh_video.toList
                     ++ src1.cache_sh_audio.toList
                     ++ event_handles heap2.length example_frames } :=
  ⟨rfl, rfl, rfl, late_join_queue [] RssSource.new example_headers example_frames rfl rfl rfl⟩

end Rss
namespace Rss

/-! ## Byte stream: `require`, and the fixed-width writes and reads -/

/-- C24, counterexample: a stream over one byte, after that byte has been read,
has its cursor at the end of the buffer (cursor 1, size 1); there
`require(0)` is false although cursor + 0 is not beyond the end. -/
theorem require_zero_at_end :
    ∃ s v s1, RssStream.initialize [7] = .ok s ∧ s.read_1bytes = .ok (v, s1)
      ∧ s1.p = 1 ∧ s1.bytes.length = 1
      ∧ (s1.p : Int) + 0 ≤ (s1.bytes.length : Int)
      ∧ s1.require 0 = false :=
  ⟨_, _, _, rfl, rfl, rfl, rfl, by decide, rfl⟩

/-- C24 (amended): `require(n)` is true exactly when the cursor is before the
end of the buffer and cursor + n is not beyond the end. For every n ≥ 1 this
is: cursor + n is not beyond the end. So `require(0)` is true before the end of
the buffer and false at the end. -/
theorem require_spec (s : RssStream) (n : Int) :
    (s.require n = true
      ↔ s.p < s.bytes.length ∧ (s.p : Int) + n ≤ (s.bytes.length : Int))
    ∧ (1 ≤ n → (s.require n = true ↔ (s.p : Int) + n ≤ (s.bytes.length : Int)))
    ∧ (s.require 0 = true ↔ s.p < s.bytes.length) := by
  unfold RssStream.require RssStream.empty
  simp only [Bool.and_eq_true, Bool.not_eq_true', decide_eq_false_iff_not, decide_eq_true_eq]
  refine ⟨by omega, fun _ => by omega, by omega⟩

/-- C24, witness: a stream of 4 bytes with the cursor at 1 and n = 3. -/
theorem require_spec_witness :
    (1 : Int) ≤ 3
    ∧ ((({ bytes := [1, 2, 3, 4], p := 1 } : RssStream).require 3 = true
        ↔ (({ bytes := [1, 2, 3, 4], p := 1 } : RssStream).p : Int) + 3
            ≤ (({ bytes := [1, 2, 3, 4], p := 1 } : RssStream).bytes.length : Int))) :=
  ⟨by decide, (require_spec { bytes := [1, 2, 3, 4], p := 1 } 3).2.1 (by decide)⟩

theorem drop_put (l : List Nat) (p : Nat) (w : List Nat) (h : p ≤ l.length) :
    (l.take p ++ w ++ l.drop (p + w.length)).drop p = w ++ l.drop (p + w.length) := by
  have h1 : (l.take p).length = p := by
    rw [List.length_take]
    omega
  rw [List.append_assoc, List.drop_append_of_le_length (by omega)]
  rw [List.drop_of_length_le (by omega)]
  rfl

theorem write_1bytes_read (s : RssStream) (v : Int) (h : s.p + 1 ≤ s.bytes.length)
    (h1 : -128 ≤ v) (h2 : v < 128) :
    s.write_1bytes v
        = .ok { bytes := s.bytes.take s.p ++ [byte0 v] ++ s.bytes.drop (s.p + 1),
                p := s.p + 1 }
    ∧ ({ bytes := s.bytes.take s.p ++ [byte0 v] ++ s.bytes.drop (s.p + 1), p := s.p }
          : RssStream).read_1bytes
        = .ok (v, { bytes := s.bytes.take s.p ++ [byte0 v] ++ s.bytes.drop (s.p + 1),
                    p := s.p + 1 }) := by
  refine ⟨RssStream.write_1bytes_eq s v h, ?_⟩
  rw [RssStream.read_1bytes_view _ (byte0 v) (s.bytes.drop (s.p + 1))
    (drop_put s.bytes s.p [byte0 v] (by omega)), toInt8_byte0 v h1 h2]
  rfl

theorem write_2bytes_read (s : RssStream) (v : Int) (h : s.p + 2 ≤ s.bytes.length)
    (h1 : -32768 ≤ v) (h2 : v < 32768) :
    s.write_2bytes v
        = .ok { bytes := s.bytes.take s.p ++ [byte1 v, byte0 v] ++ s.bytes.drop (s.p + 2),
                p := s.p + 2 }
    ∧ ({ bytes := s.bytes.take s.p ++ [byte1 v, byte0 v] ++ s.bytes.drop (s.p + 2),
         p := s.p } : RssStream).read_2bytes
        = .ok (v, { bytes := s.bytes.take s.p ++ [byte1 v, byte0 v]
                      ++ s.bytes.drop (s.p + 2),
                    p := s.p + 2 }) := by
  refine ⟨RssStream.write_2bytes_eq s v h, ?_⟩
  rw [RssStream.read_2bytes_view _ (byte1 v) (byte0 v) (s.bytes.drop (s.p + 2))
    (drop_put s.bytes s.p [byte1 v, byte0 v] (by omega))]
  have e : toInt16 (((byte1 v % 256 : Nat) : Int) * 256 + ((byte0 v % 256 : Nat) : Int)) = v := by
    unfold toInt16 byte1 byte0
    omega
  rw [e]
  rfl

theorem write_4bytes_read (s : RssStream) (v : Int) (h : s.p + 4 ≤ s.bytes.length)
    (h1 : -2147483648 ≤ v) (h2 : v < 2147483648) :
    s.write_4bytes v
        = .ok { bytes := s.bytes.take s.p ++ [byte3 v, byte2 v, byte1 v, byte0 v]
                  ++ s.bytes.drop (s.p + 4),
                p := s.p + 4 }
    ∧ ({ bytes := s.bytes.take s.p ++ [byte3 v, byte2 v, byte1 v, byte0 v]
           ++ s.bytes.drop (s.p + 4),
         p := s.p } : RssStream).read_4bytes
        = .ok (v, { bytes := s.bytes.take s.p ++ [byte3 v, byte2 v, byte1 v, byte0 v]
                      ++ s.bytes.drop (s.p + 4),
                    p := s.p + 4 }) := by
  refine ⟨RssStream.write_4bytes_eq s v h, ?_⟩
  rw [RssStream.read_4bytes_view _ (byte3 v) (byte2 v) (byte1 v) (byte0 v)
    (s.bytes.drop (s.p + 4))
    (drop_put s.bytes s.p [byte3 v, byte2 v, byte1 v, byte0 v] (by omega)),
    int32OfBytes_bytes v h1 h2]
  rfl

theorem write_8bytes_read (s : RssStream) (v : Int) (h : s.p + 8 ≤ s.bytes.length)
    (h1 : -9223372036854775808 ≤ v) (h2 : v < 9223372036854775808) :
    s.write_8bytes v
        = .ok { bytes := s.bytes.take s.p
                  ++ [byte7 v, byte6 v, byte5 v, byte4 v, byte3 v, byte2 v, byte1 v, byte0 v]
                  ++ s.bytes.drop (s.p + 8),
                p := s.p + 8 }
    ∧ ({ bytes := s.bytes.take s.p
           ++ [byte7 v, byte6 v, byte5 v, byte4 v, byte3 v, byte2 v, byte1 v, byte0 v]
           ++ s.bytes.drop (s.p + 8),
         p := s.p } : RssStream).read_8bytes
        = .ok (v, { bytes := s.bytes.take s.p
                      ++ [byte7 v, byte6 v, byte5 v, byte4 v, byte3 v, byte2 v, byte1 v, byte0 v]
                      ++ s.bytes.drop (s.p + 8),
                    p := s.p + 8 }) := by
  refine ⟨RssStream.write_8bytes_eq s v h, ?_⟩
  rw [RssStream.read_8bytes_view _ (byte7 v) (byte6 v) (byte5 v) (byte4 v) (byte3 v) (byte2 v)
    (byte1 v) (byte0 v) (s.bytes.drop (s.p + 8))
    (drop_put s.bytes s.p
      [byte7 v, byte6 v, byte5 v, byte4 v, byte3 v, byte2 v, byte1 v, byte0 v] (by omega)),
    toInt64_bytes v h1 h2]
  rfl

end Rss
namespace Rss

/-- C25: for the widths 1, 2, 4 and 8, a value `v` of that width and a stream
with at least that many bytes left at the cursor: the write stores the bytes of
`v`, most significant first, at the cursor (the bytes before and after stay)
and moves the cursor forward by the width; the read at the same cursor over
the buffer so written returns `v` and moves the cursor forward by the width. -/
theorem write_read_fixed_width (s : RssStream) (v : Int) :
    (s.p + 1 ≤ s.bytes.length → -128 ≤ v → v < 128 →
      s.write_1bytes v
          = .ok
              { bytes := s.bytes.take s.p
                  ++ [byte0 v]
                  ++ s.bytes.drop (s.p + 1),
                p := s.p + 1 }
      ∧ RssStream.read_1bytes
            { bytes := s.bytes.take s.p
                ++ [byte0 v]
                ++ s.bytes.drop (s.p + 1),
              p := s.p }
          = .ok (v,
              { bytes := s.bytes.take s.p
                  ++ [byte0 v]
                  ++ s.bytes.drop (s.p + 1),
                p := s.p + 1 }))
    ∧ (s.p + 2 ≤ s.bytes.length → -32768 ≤ v → v < 32768 →
      s.write_2bytes v
          = .ok
              { bytes := s.bytes.take s.p
                  ++ [byte1 v, byte0 v]
                  ++ s.bytes.drop (s.p + 2),
                p := s.p + 2 }
      ∧ RssStream.read_2bytes
            { bytes := s.bytes.take s.p
                ++ [byte1 v, byte0 v]
                ++ s.bytes.drop (s.p + 2),
              p := s.p }
          = .ok (v,
              { bytes := s.bytes.take s.p
                  ++ [byte1 v, byte0 v]
                  ++ s.bytes.drop (s.p + 2),
                p := s.p + 2 }))
    ∧ (s.p + 4 ≤ s.bytes.length → -2147483648 ≤ v → v < 2147483648 →
      s.write_4bytes v
          = .ok
              { bytes := s.bytes.take s.p
                  ++ [byte3 v, byte2 v, byte1 v, byte0 v]
                  ++ s.bytes.drop (s.p + 4),
                p := s.p + 4 }
      ∧ RssStream.read_4bytes
            { bytes := s.bytes.take s.p
                ++ [byte3 v, byte2 v, byte1 v, byte0 v]
                ++ s.bytes.drop (s.p + 4),
              p := s.p }
          = .ok (v,
              { bytes := s.bytes.take s.p
                  ++ [byte3 v, byte2 v, byte1 v, byte0 v]
                  ++ s.bytes.drop (s.p + 4),
                p := s.p + 4 }))
    ∧ (s.p + 8 ≤ s.bytes.length → -9223372036854775808 ≤ v → v < 9223372036854775808 →
      s.write_8bytes v
          = .ok
              { bytes := s.bytes.take s.p
                  ++ [byte7 v, byte6 v, byte5 v, byte4 v, byte3 v, byte2 v, byte1 v, byte0 v]
                  ++ s.bytes.drop (s.p + 8),
                p := s.p + 8 }
      ∧ RssStream.read_8bytes
            { bytes := s.bytes.take s.p
                ++ [byte7 v, byte6 v, byte5 v, byte4 v, byte3 v, byte2 v, byte1 v, byte0 v]
                ++ s.bytes.drop (s.p + 8),
              p := s.p }
          = .ok (v,
              { bytes := s.bytes.take s.p
                  ++ [byte7 v, byte6 v, byte5 v, byte4 v, byte3 v, byte2 v, byte1 v, byte0 v]
                  ++ s.bytes.drop (s.p + 8),
                p := s.p + 8 })) :=
  ⟨write_1bytes_read s v, write_2bytes_read s v, write_4bytes_read s v,
   write_8bytes_read s v⟩

/-- C25, witness: a buffer of 8 zero bytes with the cursor at its start and the
values -2 (one byte `FE`), `0x1234`, 4096 and `0x3FF0000000000000`. -/
theorem write_read_fixed_width_witness :
    (example_stream8.write_1bytes (-2)
          = .ok
              { bytes := example_stream8.bytes.take example_stream8.p
                  ++ [byte0 (-2)]
                  ++ example_stream8.bytes.drop (example_stream8.p + 1),
                p := example_stream8.p + 1 }
      ∧ RssStream.read_1bytes
            { bytes := example_stream8.bytes.take example_stream8.p
                ++ [byte0 (-2)]
                ++ example_stream8.bytes.drop (example_stream8.p + 1),
              p := example_stream8.p }
          = .ok (-2,
              { bytes := example_stream8.bytes.take example_stream8.p
                  ++ [byte0 (-2)]
                  ++ example_stream8.bytes.drop (example_stream8.p + 1),
                p := example_stream8.p + 1 }))
    ∧ (example_stream8.write_2bytes 4660
          = .ok
              { bytes := example_stream8.bytes.take example_stream8.p
                  ++ [byte1 4660, byte0 4660]
                  ++ example_stream8.bytes.drop (example_stream8.p + 2),
                p := example_stream8.p + 2 }
      ∧ RssStream.read_2bytes
            { bytes := example_stream8.bytes.take example_stream8.p
                ++ [byte1 4660, byte0 4660]
                ++ example_stream8.bytes.drop (example_stream8.p + 2),
              p := example_stream8.p }
          = .ok (4660,
              { bytes := example_stream8.bytes.take example_stream8.p
                  ++ [byte1 4660, byte0 4660]
                  ++ example_stream8.bytes.drop (example_stream8.p + 2),
                p := example_stream8.p + 2 }))
    ∧ (example_stream8.write_4bytes 4096
          = .ok
              { bytes := example_stream8.bytes.take example_stream8.p
                  ++ [byte3 4096, byte2 4096, byte1 4096, byte0 4096]
                  ++ example_stream8.bytes.drop (example_stream8.p + 4),
                p := example_stream8.p + 4 }
      ∧ RssStream.read_4bytes
            { bytes := example_stream8.bytes.take example_stream8.p
                ++ [byte3 4096, byte2 4096, byte1 4096, byte0 4096]
                ++ example_stream8.bytes.drop (example_stream8.p + 4),
              p := example_stream8.p }
          = .ok (4096,
              { bytes := example_stream8.bytes.take example_stream8.p
                  ++ [byte3 4096, byte2 4096, byte1 4096, byte0 4096]
                  ++ example_stream8.bytes.drop (example_stream8.p + 4),
                p := example_stream8.p + 4 }))
    ∧ (example_stream8.write_8bytes 4607182418800017408
          = .ok
              { bytes := example_stream8.bytes.take example_stream8.p
                  ++ [byte7 4607182418800017408, byte6 4607182418800017408, byte5 4607182418800017408, byte4 4607182418800017408, byte3 4607182418800017408, byte2 4607182418800017408, byte1 4607182418800017408, byte0 4607182418800017408]
                  ++ example_stream8.bytes.drop (example_stream8.p + 8),
                p := example_stream8.p + 8 }
      ∧ RssStream.read_8bytes
            { bytes := example_stream8.bytes.take example_stream8.p
                ++ [byte7 4607182418800017408, byte6 4607182418800017408, byte5 4607182418800017408, byte4 4607182418800017408, byte3 4607182418800017408, byte2 4607182418800017408, byte1 4607182418800017408, byte0 4607182418800017408]
                ++ example_stream8.bytes.drop (example_stream8.p + 8),
              p := example_stream8.p }
          = .ok (4607182418800017408,
              { bytes := example_stream8.bytes.take example_stream8.p
                  ++ [byte7 4607182418800017408, byte6 4607182418800017408, byte5 4607182418800017408, byte4 4607182418800017408, byte3 4607182418800017408, byte2 4607182418800017408, byte1 4607182418800017408, byte0 4607182418800017408]
                  ++ example_stream8.bytes.drop (example_stream8.p + 8),
                p := example_stream8.p + 8 })) :=
  ⟨(write_read_fixed_width example_stream8 (-2)).1 (by decide) (by decide) (by decide),
   (write_read_fixed_width example_stream8 4660).2.1 (by decide) (by decide) (by decide),
   (write_read_fixed_width example_stream8 4096).2.2.1 (by decide) (by decide) (by decide),
   (write_read_fixed_width example_stream8 4607182418800017408).2.2.2 (by decide) (by decide)
     (by decide)⟩

end Rss
namespace Rss

/-! ## Set-Chunk-Size: the frame on the wire -/

/-- C23: `set_chunk_size(c)` on a new protocol context, for every `int32_t`
value `c`, issues one `writev`: the header `02` (format 0, chunk id 2),
`00 00 00` (timestamp 0), `00 00 04` (length 4), `01` (type 1), `00 00 00 00`
(stream id 0), and the payload of the four bytes of `c`, most significant
first, from which the 32-bit read gives `c` back. -/
theorem set_chunk_size_frame (fuel : Nat) (input : List Nat) (c : Int)
    (h1 : -2147483648 ≤ c) (h2 : c < 2147483648) :
    set_chunk_size (fuel + 1) (RssProtocol.new input) c
      = some ({ chunk_streams := [], buffer := input, in_chunk_size := 128,
                out_chunk_size := c },
              .ok [([0x02, 0x00, 0x00, 0x00, 0x00, 0x00, 0x04, 0x01, 0x00, 0x00, 0x00, 0x00],
                    [byte3 c, byte2 c, byte1 c, byte0 c])])
    ∧ int32OfBytes (byte0 c) (byte1 c) (byte2 c) (byte3 c) = c :=
  ⟨rfl, int32OfBytes_bytes c h1 h2⟩

/-- C23, witness: `c = 4096` gives the payload `00 00 10 00`. -/
theorem set_chunk_size_frame_witness :
    [byte3 4096, byte2 4096, byte1 4096, byte0 4096] = [0x00, 0x00, 0x10, 0x00]
    ∧ set_chunk_size (0 + 1) (RssProtocol.new []) 4096
      = some ({ chunk_streams := [], buffer := [], in_chunk_size := 128,
                out_chunk_size := 4096 },
              .ok [([0x02, 0x00, 0x00, 0x00, 0x00, 0x00, 0x04, 0x01, 0x00, 0x00, 0x00, 0x00],
                    [byte3 4096, byte2 4096, byte1 4096, byte0 4096])])
    ∧ int32OfBytes (byte0 4096) (byte1 4096) (byte2 4096) (byte3 4096) = 4096 :=
  ⟨by decide, set_chunk_size_frame 0 [] 4096 (by decide) (by decide)⟩

end Rss
namespace Rss

/-! ## Connect packet: the example of the specification -/

/-- C21, counterexample: in the byte sequence of the claim the length field of
the `tcUrl` string is `00 1A` (26) while 21 bytes of string and the 3 bytes of
the object end follow, so `require(26)` fails in `rss_amf0_read_utf8` and the
decoding of the connect packet fails. -/
theorem connect_decode_claimed_bytes :
    example_connect_bytes 0x1A
      = [0x02, 0x00, 0x07, 0x63, 0x6F, 0x6E, 0x6E, 0x65, 0x63, 0x74,
         0x00, 0x3F, 0xF0, 0x00, 0x00, 0x00, 0x00, 0x00, 0x00,
         0x03, 0x00, 0x05, 0x74, 0x63, 0x55, 0x72, 0x6C,
         0x02, 0x00, 0x1A,
         0x72, 0x74, 0x6D, 0x70, 0x3A, 0x2F, 0x2F, 0x68, 0x6F, 0x73, 0x74, 0x3A, 0x31, 0x39,
         0x33, 0x35, 0x2F, 0x6C, 0x69, 0x76, 0x65,
         0x00, 0x00, 0x09]
    ∧ ∃ s, RssStream.initialize (example_connect_bytes 0x1A) = .ok s
        ∧ RssConnectAppPacket.decode 16 s = .error .amf0_decode :=
  ⟨rfl, _, rfl, rfl⟩

/-- C21 (amended): with the length field `00 15` (21, the length of
`rtmp://host:1935/live`) the decoding of the connect packet succeeds for
every fuel of at least 4 and gives the command name `connect`, the transaction id 1.0
and a command object whose one property `tcUrl` is that string. -/
theorem connect_decode_example (fuel : Nat) :
    ∃ s p, RssStream.initialize (example_connect_bytes 0x15) = .ok s
      ∧ RssConnectAppPacket.decode (fuel + 4) s = .ok p
      ∧ p.command_name = RTMP_AMF0_COMMAND_CONNECT
      ∧ p.transaction_id = double_one
      ∧ p.command_object = [(tcUrl_key, .String example_tcUrl)]
      ∧ RssUnSortedHashtable.ensure_property_string p.command_object tcUrl_key
          = some (.String example_tcUrl) :=
  ⟨_, _, rfl, rfl, rfl, rfl, rfl, rfl⟩

end Rss
namespace Rss

/-! ## Request: `discovery_app` -/

theorem string_find_char_none (c : Nat) : ∀ (a : List Nat), c ∉ a → string_find a [c] = none
  | [], _ => rfl
  | x :: a, h => by
    have hx : c ≠ x := fun e => h (e ▸ List.mem_cons_self _ _)
    have ha : c ∉ a := fun e => h (List.mem_cons_of_mem _ e)
    rw [string_find, string_find_char_none c a ha]
    simp [List.isPrefixOf, hx]

theorem string_find_char (c : Nat) (b : List Nat) :
    ∀ (a : List Nat), c ∉ a → string_find (a ++ c :: b) [c] = some a.length
  | [], _ => by
    simp [string_find, List.isPrefixOf]
  | x :: a, h => by
    have hx : c ≠ x := fun e => h (e ▸ List.mem_cons_self _ _)
    have ha : c ∉ a := fun e => h (List.mem_cons_of_mem _ e)
    rw [List.cons_append, string_find, string_find_char c b a ha]
    simp [List.isPrefixOf, hx]

theorem string_find_separator (b : List Nat) :
    ∀ (a : List Nat), string_find a schema_separator = none →
      string_find (a ++ schema_separator ++ b) schema_separator = some a.length
  | [], _ => by
    simp [string_find, schema_separator, List.isPrefixOf]
  | x :: a, h => by
    rw [string_find] at h
    have hp : schema_separator.isPrefixOf (x :: a) = false := by
      cases hq : schema_separator.isPrefixOf (x :: a) with
      | false => rfl
      | true => rw [hq] at h; cases h
    rw [hp] at h
    have ha : string_find a schema_separator = none := by
      cases hf : string_find a schema_separator with
      | none => rfl
      | some i => rw [hf] at h; cases h
    have hq : schema_separator.isPrefixOf (x :: a ++ schema_separator ++ b) = false := by
      unfold schema_separator at hp ⊢
      cases a with
      | nil => simp [List.isPrefixOf]
      | cons d a =>
        cases a with
        | nil => simp [List.isPrefixOf]
        | cons e a =>
          simp only [List.isPrefixOf, List.cons_append, Bool.and_true] at hp ⊢
          exact hp
    rw [List.cons_append, List.cons_append, string_find]
    rw [← List.cons_append, ← List.cons_append, hq, string_find_separator b a ha]
    simp

theorem take_append_length (a b : List Nat) : (a ++ b).take a.length = a := by
  simp

theorem drop_append_length (a b : List Nat) (n : Nat) :
    (a ++ b).drop (a.length + n) = b.drop n := by
  rw [List.drop_append_eq_append_drop]
  simp

end Rss
namespace Rss

/-- The parts `discovery_app` finds in `schema://vhost[:port]/app`. -/
theorem discovery_app_parts (req : RssRequest) (schema vhost app : List Nat)
    (port : Option (List Nat))
    (hs : schema ≠ []) (hs2 : string_find schema schema_separator = none)
    (hv : vhost ≠ []) (hv1 : 0x2F ∉ vhost) (hv2 : 0x3A ∉ vhost)
    (hp : ∀ p, port = some p → p ≠ [] ∧ 0x2F ∉ p) (ha : app ≠ [])
    (hurl : req.tcUrl = make_tcUrl schema vhost port app) :
    req.discovery_app
      = ({ tcUrl := req.tcUrl, pageUrl := req.pageUrl, swfUrl := req.swfUrl,
           objectEncoding := req.objectEncoding, schema := schema, vhost := vhost,
           port := port.getD port_1935, app := app, stream := req.stream }, .ok ()) := by
  have h1 : string_find req.tcUrl schema_separator = some schema.length := by
    rw [hurl]
    unfold make_tcUrl
    rw [List.append_assoc, List.append_assoc, List.append_assoc]
    exact string_find_separator _ schema hs2
  have h1t : req.tcUrl.take schema.length = schema := by
    rw [hurl]
    unfold make_tcUrl
    rw [List.append_assoc, List.append_assoc, List.append_assoc, List.append_assoc]
    exact take_append_length _ _
  have h1d : req.tcUrl.drop (schema.length + 3) = (vhost ++ port_part port) ++ 0x2F :: app := by
    rw [hurl]
    unfold make_tcUrl
    rw [List.append_assoc, List.append_assoc, List.append_assoc, List.append_assoc,
      drop_append_length]
    simp [schema_separator]
  have hno : (0x2F : Nat) ∉ vhost ++ port_part port := by
    cases port with
    | none => simpa [port_part] using hv1
    | some p =>
      have := (hp p rfl).2
      simp only [port_part, List.mem_append, List.mem_cons, not_or]
      exact ⟨hv1, by decide, this⟩
  have h2 := string_find_char 0x2F app _ hno
  have h2d : ((vhost ++ port_part port) ++ 0x2F :: app).drop
      ((vhost ++ port_part port).length + 1) = app := by
    rw [drop_append_length]
    rfl
  have e1 : schema.isEmpty = false := by
    cases schema with
    | nil => exact absurd rfl hs
    | cons _ _ => rfl
  have e2 : vhost.isEmpty = false := by
    cases vhost with
    | nil => exact absurd rfl hv
    | cons _ _ => rfl
  have e4 : app.isEmpty = false := by
    cases app with
    | nil => exact absurd rfl ha
    | cons _ _ => rfl
  unfold RssRequest.discovery_app
  simp only [h1, h1t, h1d, h2, take_append_length, h2d]
  cases port with
  | none =>
    simp only [port_part, List.append_nil, string_find_char_none 0x3A vhost hv2,
      Option.getD_none]
    simp [e1, e2, e4, port_1935]
  | some p =>
    have hpne := (hp p rfl).1
    have e3 : p.isEmpty = false := by
      cases p with
      | nil => exact absurd rfl hpne
      | cons _ _ => rfl
    simp only [port_part, string_find_char 0x3A p vhost hv2, take_append_length,
      Option.getD_some]
    rw [drop_append_length]
    simp [e1, e2, e3, e4]

theorem discovery_app_shape (req : RssRequest) :
    ∃ (r : RssRequest) (c : Prop) (inst : Decidable c),
      req.discovery_app = @ite _ c inst (r, .error .req_tcurl) (r, .ok ())
      ∧ (c ↔ (r.schema = [] ∨ r.vhost = [] ∨ r.port = [] ∨ r.app = [])) := by
  unfold RssRequest.discovery_app
  simp only []
  refine ⟨_, _, _, rfl, ?_⟩
  simp only [List.isEmpty_iff]

/-- The result of `discovery_app` is the error `ReqTcUrl` when one of the four
fields it leaves is empty, and success otherwise. -/
theorem discovery_app_result (req : RssRequest) :
    (req.discovery_app.2 = .error .req_tcurl
      ↔ (req.discovery_app.1.schema = [] ∨ req.discovery_app.1.vhost = []
          ∨ req.discovery_app.1.port = [] ∨ req.discovery_app.1.app = []))
    ∧ (req.discovery_app.2 = .ok ()
      ↔ ¬ (req.discovery_app.1.schema = [] ∨ req.discovery_app.1.vhost = []
          ∨ req.discovery_app.1.port = [] ∨ req.discovery_app.1.app = [])) := by
  obtain ⟨r, c, inst, hr, hc⟩ := discovery_app_shape req
  rw [hr]
  by_cases h : c
  · rw [if_pos h]
    have h1 := hc.mp h
    exact ⟨⟨fun _ => h1, fun _ => rfl⟩, ⟨fun g => (by cases g), fun g => absurd h1 g⟩⟩
  · rw [if_neg h]
    have h1 : ¬ (r.schema = [] ∨ r.vhost = [] ∨ r.port = [] ∨ r.app = []) :=
      fun g => h (hc.mpr g)
    exact ⟨⟨fun g => (by cases g), fun g => absurd g h1⟩, ⟨fun _ => h1, fun _ => rfl⟩⟩

end Rss
namespace Rss

/-- C22: for a request whose `tcUrl` is `schema://vhost[:port]/app` with a
schema that is not empty and does not contain `://`, a vhost that is not empty
and contains neither `/` nor `:`, an optional port that is not empty and
contains no `/`, and an app that is not empty, `discovery_app` succeeds and
sets these schema, vhost and app, and the port given or `1935` when none is
given. For every request, the call fails with `ReqTcUrl` exactly when one of
the four fields it leaves is empty, and succeeds otherwise. -/
theorem discovery_app_spec (req : RssRequest) (schema vhost app : List Nat)
    (port : Option (List Nat)) :
    (schema ≠ [] → string_find schema schema_separator = none →
      vhost ≠ [] → 0x2F ∉ vhost → 0x3A ∉ vhost →
      (∀ p, port = some p → p ≠ [] ∧ 0x2F ∉ p) → app ≠ [] →
      req.tcUrl = make_tcUrl schema vhost port app →
      req.discovery_app
        = ({ tcUrl := req.tcUrl, pageUrl := req.pageUrl, swfUrl := req.swfUrl,
             objectEncoding := req.objectEncoding, schema := schema, vhost := vhost,
             port := port.getD port_1935, app := app, stream := req.stream }, .ok ()))
    ∧ (req.discovery_app.2 = .error .req_tcurl
      ↔ (req.discovery_app.1.schema = [] ∨ req.discovery_app.1.vhost = []
          ∨ req.discovery_app.1.port = [] ∨ req.discovery_app.1.app = []))
    ∧ (req.discovery_app.2 = .ok ()
      ↔ ¬ (req.discovery_app.1.schema = [] ∨ req.discovery_app.1.vhost = []
          ∨ req.discovery_app.1.port = [] ∨ req.discovery_app.1.app = [])) :=
  ⟨discovery_app_parts req schema vhost app port, discovery_app_result req⟩

/-- C22, witness: `rtmp://host:1935/live` on a new request gives `rtmp`, `host`,
`1935`, `live`. -/
theorem discovery_app_spec_witness :
    example_tcUrl
      = make_tcUrl [0x72, 0x74, 0x6D, 0x70] [0x68, 0x6F, 0x73, 0x74] (some port_1935)
          [0x6C, 0x69, 0x76, 0x65]
    ∧ RssRequest.discovery_app
        { tcUrl := example_tcUrl, pageUrl := [], swfUrl := [], objectEncoding := 0,
          schema := [], vhost := [], port := [], app := [], stream := [] }
      = ({ tcUrl := example_tcUrl, pageUrl := [], swfUrl := [], objectEncoding := 0,
           schema := [0x72, 0x74, 0x6D, 0x70], vhost := [0x68, 0x6F, 0x73, 0x74],
           port := (some port_1935).getD port_1935, app := [0x6C, 0x69, 0x76, 0x65],
           stream := [] }, .ok ()) :=
  ⟨by decide,
   (discovery_app_spec
      { tcUrl := example_tcUrl, pageUrl := [], swfUrl := [], objectEncoding := 0,
        schema := [], vhost := [], port := [], app := [], stream := [] }
      [0x72, 0x74, 0x6D, 0x70] [0x68, 0x6F, 0x73, 0x74] [0x6C, 0x69, 0x76, 0x65]
      (some port_1935)).1
     (by decide) (by decide) (by decide) (by decide) (by decide)
     (fun p h => by cases h; exact ⟨by decide, by decide⟩) (by decide) (by decide)⟩

end Rss
namespace Rss

/-! ## Receive buffer: `ensure_buffer_bytes` -/

theorem toInt32_le_self (x : Int) (h : 0 ≤ x) : toInt32 x ≤ x := by
  unfold toInt32
  omega

theorem socket_read_ok (size : Int) (r : StRead) (bytes : List Nat)
    (h : RssSocket.read size r = .ok bytes) :
    bytes = r.bytes ∧ 1 ≤ r.nread ∧ r.nread ≤ size ∧ (r.bytes.length : Int) = r.nread := by
  unfold RssSocket.read at h
  split at h
  · split at h <;> cases h
  · split at h
    · cases h
    · rename_i h1 h2
      cases h
      refine ⟨rfl, by omega, by omega, ?_⟩
      by_contra hne
      exact h2 (Or.inr hne)

theorem socket_read_good (size : Int) (r : StRead)
    (h1 : 1 ≤ r.nread) (h2 : r.nread ≤ size) (h3 : (r.bytes.length : Int) = r.nread) :
    RssSocket.read size r = .ok r.bytes := by
  unfold RssSocket.read
  rw [if_neg (by omega), if_neg (by
    intro h
    rcases h with h | h
    · omega
    · exact h h3)]

/-- The loop of `ensure_buffer_bytes`, when it ends with success: the buffer
holds at least `n` bytes and is the buffer at the start followed by the bytes
of the reads used, in order. -/
theorem ensure_loop_ok (n : Int) :
    ∀ (reads : List StRead) (data data1 : List Nat) (rest : List StRead),
      RssBuffer.ensure_loop n reads data = some (data1, .ok (), rest) →
      n ≤ (data1.length : Int)
      ∧ ∃ used : List StRead, reads = used ++ rest
          ∧ data1 = data ++ (used.map (fun r => r.bytes)).flatten
          ∧ ∀ r ∈ used, 1 ≤ r.bytes.length ∧ r.bytes.length ≤ 4096
  | [], data, data1, rest, h => by
    unfold RssBuffer.ensure_loop at h
    split at h
    · cases h
    · rename_i hc
      cases h
      have := toInt32_le_self (data.length : Int) (by omega)
      exact ⟨by omega, [], rfl, by simp, fun r hr => by cases hr⟩
  | r :: reads, data, data1, rest, h => by
    unfold RssBuffer.ensure_loop at h
    split at h
    · cases hread : RssSocket.read SOCKET_READ_SIZE r with
      | error e =>
        rw [hread] at h
        cases h
      | ok bytes =>
        rw [hread] at h
        simp only at h
        obtain ⟨hb, h1, h2, h3⟩ := socket_read_ok _ _ _ hread
        obtain ⟨hn, used, hu1, hu2, hu3⟩ := ensure_loop_ok n reads (data ++ bytes) data1 rest h
        refine ⟨hn, r :: used, by rw [hu1]; rfl, ?_, ?_⟩
        · rw [hu2, hb]
          simp
        · intro q hq
          rcases List.mem_cons.mp hq with hq | hq
          · subst hq
            unfold SOCKET_READ_SIZE at h2
            omega
          · exact hu3 q hq
    · rename_i hc
      cases h
      have := toInt32_le_self (data.length : Int) (by omega)
      exact ⟨by omega, [], rfl, by simp, fun r hr => by cases hr⟩

/-- The loop of `ensure_buffer_bytes` returns with success when the reads at
hand all succeed and are enough. -/
theorem ensure_loop_total (n : Int) :
    ∀ (reads : List StRead) (data : List Nat),
      (∀ r ∈ reads, 1 ≤ r.nread ∧ r.nread ≤ 4096 ∧ (r.bytes.length : Int) = r.nread) →
      n ≤ ((data.length + reads.length : Nat) : Int) →
      data.length + 4096 * reads.length < 2147483648 →
      ∃ data1 rest, RssBuffer.ensure_loop n reads data = some (data1, .ok (), rest)
  | [], data, _, hn, hb => by
    unfold RssBuffer.ensure_loop
    have : toInt32 (data.length : Int) = (data.length : Int) := by
      unfold toInt32
      simp only [List.length_nil] at hb
      omega
    rw [this, if_neg (by simp only [List.length_nil] at hn; omega)]
    exact ⟨_, _, rfl⟩
  | r :: reads, data, hr, hn, hb => by
    unfold RssBuffer.ensure_loop
    split
    · obtain ⟨h1, h2, h3⟩ := hr r (List.mem_cons_self _ _)
      rw [socket_read_good _ r h1 (by unfold SOCKET_READ_SIZE; omega) h3]
      simp only
      apply ensure_loop_total n reads (data ++ r.bytes)
        (fun q hq => hr q (List.mem_cons_of_mem _ hq))
      · simp only [List.length_append, List.length_cons] at hn ⊢
        omega
      · simp only [List.length_append, List.length_cons] at hb ⊢
        omega
    · exact ⟨_, _, rfl⟩

/-- C26: for `n ≥ 0`, whenever `ensure_buffer_bytes(n)` returns success the
buffer holds at least `n` bytes, and it is the buffer before the call
followed by the bytes of the reads the call has used (each between 1 and 4096
bytes), in order. And it does return success when the reads at hand all
deliver between 1 and 4096 bytes, are at least as many as the bytes missing,
and the buffer stays below 2^31 bytes. -/
theorem ensure_buffer_bytes_spec (n : Int) (data : List Nat) (reads : List StRead)
    (hn : 0 ≤ n) :
    (∀ data1 rest, RssBuffer.ensure_buffer_bytes data reads n = some (data1, .ok (), rest) →
      n ≤ (data1.length : Int)
      ∧ ∃ used : List StRead, reads = used ++ rest
          ∧ data1 = data ++ (used.map (fun r => r.bytes)).flatten
          ∧ ∀ r ∈ used, 1 ≤ r.bytes.length ∧ r.bytes.length ≤ 4096)
    ∧ ((∀ r ∈ reads, 1 ≤ r.nread ∧ r.nread ≤ 4096 ∧ (r.bytes.length : Int) = r.nread) →
        n ≤ ((data.length + reads.length : Nat) : Int) →
        data.length + 4096 * reads.length < 2147483648 →
        ∃ data1 rest, RssBuffer.ensure_buffer_bytes data reads n = some (data1, .ok (), rest)) := by
  unfold RssBuffer.ensure_buffer_bytes
  rw [if_neg (by omega)]
  exact ⟨fun data1 rest h => ensure_loop_ok n reads data data1 rest h,
    ensure_loop_total n reads data⟩

/-- C26, witness: the buffer `[9]`, `n = 5` and the reads of 3, 1 and 2 bytes:
the call uses the first two reads. -/
theorem ensure_buffer_bytes_spec_witness :
    (0 : Int) ≤ 5
    ∧ RssBuffer.ensure_buffer_bytes [9] example_reads 5
        = some ([9, 1, 2, 3, 4], .ok (), example_reads.drop 2)
    ∧ (5 : Int) ≤ (([9, 1, 2, 3, 4] : List Nat).length : Int)
    ∧ ∃ used : List StRead, example_reads = used ++ example_reads.drop 2
        ∧ [9, 1, 2, 3, 4] = [9] ++ (used.map (fun r => r.bytes)).flatten
        ∧ ∀ r ∈ used, 1 ≤ r.bytes.length ∧ r.bytes.length ≤ 4096 :=
  ⟨by decide, rfl,
   (ensure_buffer_bytes_spec 5 [9] example_reads (by decide)).1 [9, 1, 2, 3, 4]
     (example_reads.drop 2) rfl⟩

end Rss
namespace Rss

/-! ## Handshake -/

theorem read_fully_block (skt : RssSocket) (block rest : List Nat) (n : Nat)
    (hin : skt.input = block ++ rest) (hlen : block.length = n) :
    skt.read_fully n
      = ({ input := rest, etime := skt.etime, output := skt.output, writable := skt.writable },
         .ok block) := by
  unfold RssSocket.read_fully
  rw [if_pos (by rw [hin, List.length_append]; omega), hin, ← hlen]
  simp

/-- The handshake after the C0C1 block has been read. -/
theorem handshake_eq (skt : RssSocket) (s0s1s2 c0c1 rest : List Nat)
    (hin : skt.input = c0c1 ++ rest) (hlen : c0c1.length = 1537) :
    RssRtmp.handshake skt s0s1s2
      = if c0c1.getD 0 0 ≠ 0x03 then
          ({ input := rest, etime := skt.etime, output := skt.output,
             writable := skt.writable }, .error .plain_required)
        else if skt.writable = false then
          ({ input := rest, etime := skt.etime, output := skt.output,
             writable := skt.writable },
           .error (if skt.etime then .socket_timeout else .socket_write))
        else if 1536 ≤ rest.length then
          ({ input := rest.drop 1536, etime := skt.etime,
             output := skt.output ++ s0s1s2.set 0 0x03, writable := skt.writable }, .ok ())
        else
          ({ input := [], etime := skt.etime,
             output := skt.output ++ s0s1s2.set 0 0x03, writable := skt.writable },
           .error (if skt.etime then .socket_timeout else .socket_read_fully)) := by
  unfold RssRtmp.handshake
  rw [read_fully_block skt c0c1 rest 1537 hin hlen]
  simp only
  by_cases h0 : c0c1.getD 0 0 ≠ 0x03
  · rw [if_pos h0, if_pos h0]
  · rw [if_neg h0, if_neg h0]
    unfold RssSocket.write
    simp only
    cases hw : skt.writable with
    | false => simp
    | true =>
      simp only [if_true, Bool.true_eq_false, if_false]
      unfold RssSocket.read_fully
      simp only
      by_cases hr : 1536 ≤ rest.length
      · rw [if_pos hr, if_pos hr]
      · rw [if_neg hr, if_neg hr]

/-- C27: the 1537 bytes of C0C1 have arrived (`c0c1`, then `rest`). The
handshake fails with `PlainRequired` exactly when the first byte of C0C1 is
not `03`, and then nothing is written. When the first byte is `03` and the
socket takes the write, the 3073 bytes of the S0S1S2 array are written, the
first of them `03` (the others as allocated), and then the 1536 bytes of C2 are
read: with success when they arrive, with the error of the read otherwise. -/
theorem handshake_spec (skt : RssSocket) (s0s1s2 c0c1 rest : List Nat)
    (hin : skt.input = c0c1 ++ rest) (hlen : c0c1.length = 1537)
    (hs : s0s1s2.length = 3073) :
    ((RssRtmp.handshake skt s0s1s2).2 = .error .plain_required ↔ c0c1.getD 0 0 ≠ 0x03)
    ∧ (c0c1.getD 0 0 ≠ 0x03 → (RssRtmp.handshake skt s0s1s2).1.output = skt.output)
    ∧ (c0c1.getD 0 0 = 0x03 → skt.writable = true →
        (RssRtmp.handshake skt s0s1s2).1.output = skt.output ++ s0s1s2.set 0 0x03
        ∧ (s0s1s2.set 0 0x03).length = 3073
        ∧ (s0s1s2.set 0 0x03).head? = some 0x03
        ∧ (1536 ≤ rest.length →
            RssRtmp.handshake skt s0s1s2
              = ({ input := rest.drop 1536, etime := skt.etime,
                   output := skt.output ++ s0s1s2.set 0 0x03, writable := skt.writable },
                 .ok ()))
        ∧ (rest.length < 1536 →
            (RssRtmp.handshake skt s0s1s2).2
              = .error (if skt.etime then .socket_timeout else .socket_read_fully))) := by
  rw [handshake_eq skt s0s1s2 c0c1 rest hin hlen]
  refine ⟨?_, ?_, ?_⟩
  · by_cases h0 : c0c1.getD 0 0 ≠ 0x03
    · rw [if_pos h0]
      exact ⟨fun _ => h0, fun _ => rfl⟩
    · rw [if_neg h0]
      refine ⟨fun h => ?_, fun h => absurd h h0⟩
      exfalso
      split at h
      · split at h <;> cases h
      · split at h
        · cases h
        · split at h <;> cases h
  · intro h0
    rw [if_pos h0]
  · intro h0 hw
    rw [if_neg (not_not.mpr h0), if_neg (by rw [hw]; decide)]
    refine ⟨?_, by rw [List.length_set]; exact hs, ?_, ?_, ?_⟩
    · split <;> rfl
    · cases s0s1s2 with
      | nil => cases hs
      | cons _ _ => rfl
    · intro hr
      rw [if_pos hr]
    · intro hr
      rw [if_neg (by omega)]

theorem example_c0c1_length : example_c0c1.length = 1537 := by
  unfold example_c0c1
  rw [List.length_cons, List.length_replicate]

theorem example_c2_length : 1536 ≤ example_c2.length := by
  unfold example_c2
  rw [List.length_replicate]

theorem example_s0s1s2_length : example_s0s1s2.length = 3073 := by
  unfold example_s0s1s2
  rw [List.length_replicate]

/-- C27, witness: C0 = `03` followed by 1536 zero bytes of C1 and 1536 zero
bytes of C2, on a socket that takes the write. -/
theorem handshake_spec_witness :
    example_handshake_socket.input = example_c0c1 ++ example_c2
    ∧ example_c0c1.length = 1537 ∧ example_s0s1s2.length = 3073
    ∧ example_c0c1.getD 0 0 = 0x03
    ∧ RssRtmp.handshake example_handshake_socket example_s0s1s2
      = ({ input := example_c2.drop 1536, etime := example_handshake_socket.etime,
           output := example_handshake_socket.output ++ example_s0s1s2.set 0 0x03,
           writable := example_handshake_socket.writable }, .ok ()) :=
  ⟨rfl, example_c0c1_length, example_s0s1s2_length, rfl,
   ((handshake_spec example_handshake_socket example_s0s1s2 example_c0c1 example_c2 rfl
      example_c0c1_length example_s0s1s2_length).2.2 rfl rfl).2.2.2.1 example_c2_length⟩

end Rss
namespace Rss

/-! ## Server: the report interval -/

/-- Function `accept_client` sets the report interval to 3000 ms times the
number of connections. -/
theorem accept_client_interval (srv : RssServer) (conn : Nat) :
    (srv.accept_client conn).rss_report_interval_ms
      = 3000 * (((srv.accept_client conn).conns.length : Nat) : Int) := rfl

/-- Function `remove` leaves the report interval as it is. -/
theorem remove_interval (srv : RssServer) (conn : Nat) :
    (srv.remove conn).rss_report_interval_ms = srv.rss_report_interval_ms := rfl

/-- C29: two connections are accepted and the first is removed. The server
holds one connection, and the report interval is still 6000 ms, not 3000 ms:
`remove` does not set it. With it `can_report(0, 3000)` is false, while with
the interval 3000 ms of one connection it is true. A new server without a
connection has the interval 3000 ms, not 0. -/
theorem report_interval_after_remove :
    server_run RssServer.new [.accept 1, .accept 2, .remove 1]
      = { conns := [2], rss_report_interval_ms := 6000 }
    ∧ (server_run RssServer.new [.accept 1, .accept 2, .remove 1]).rss_report_interval_ms
        ≠ 3000 * (((server_run RssServer.new
            [.accept 1, .accept 2, .remove 1]).conns.length : Nat) : Int)
    ∧ (server_run RssServer.new [.accept 1, .accept 2, .remove 1]).can_report 0 3000
        = (false, 0)
    ∧ ({ conns := [2], rss_report_interval_ms := 3000 } : RssServer).can_report 0 3000
        = (true, 3000)
    ∧ (server_run RssServer.new []).rss_report_interval_ms = 3000
    ∧ (server_run RssServer.new []).conns = [] := by
  decide

end Rss
namespace Rss

/-! ## Packets the server sends: encoding -/

/-- Four values written one after the other into a fresh buffer of their total
size fill it with their byte sequences. -/
theorem write_four (a b c d : RssAmf0Any) (size : Int)
    (hsize : size = (((amf0_bytes a).length + (amf0_bytes b).length + (amf0_bytes c).length
      + (amf0_bytes d).length : Nat) : Int)) :
    (match rss_amf0_write_any a (RssStream.alloc size) with
     | .error e => .error e
     | .ok s =>
       match rss_amf0_write_any b s with
       | .error e => .error e
       | .ok s =>
         match rss_amf0_write_any c s with
         | .error e => .error e
         | .ok s => rss_amf0_write_any d s : Except RssError RssStream)
      = .ok { bytes := amf0_bytes a ++ amf0_bytes b ++ amf0_bytes c ++ amf0_bytes d,
              p := (amf0_bytes a).length + (amf0_bytes b).length + (amf0_bytes c).length
                + (amf0_bytes d).length } := by
  subst hsize
  have hlen : (RssStream.alloc (((amf0_bytes a).length + (amf0_bytes b).length
      + (amf0_bytes c).length + (amf0_bytes d).length : Nat) : Int)).bytes.length
      = (amf0_bytes a).length + (amf0_bytes b).length + (amf0_bytes c).length
        + (amf0_bytes d).length := by
    unfold RssStream.alloc
    simp only [List.length_replicate]
    exact Int.toNat_ofNat _
  have hp0 : (RssStream.alloc (((amf0_bytes a).length + (amf0_bytes b).length
      + (amf0_bytes c).length + (amf0_bytes d).length : Nat) : Int)).p = 0 := rfl
  generalize RssStream.alloc (((amf0_bytes a).length + (amf0_bytes b).length
      + (amf0_bytes c).length + (amf0_bytes d).length : Nat) : Int) = s0 at hlen hp0
  rw [rss_amf0_write_any_eq a s0 (by omega)]
  simp only
  rw [rss_amf0_write_any_eq b (s0.put (amf0_bytes a))
    (by rw [RssStream.put_p, RssStream.put_length _ _ (by omega)]; omega)]
  simp only
  rw [RssStream.put_put _ _ _ (by omega)]
  rw [rss_amf0_write_any_eq c (s0.put (amf0_bytes a ++ amf0_bytes b))
    (by rw [RssStream.put_p, RssStream.put_length _ _ (by rw [List.length_append]; omega),
          List.length_append]; omega)]
  simp only
  rw [RssStream.put_put _ _ _ (by rw [List.length_append]; omega)]
  rw [rss_amf0_write_any_eq d (s0.put (amf0_bytes a ++ amf0_bytes b ++ amf0_bytes c))
    (by rw [RssStream.put_p, RssStream.put_length _ _
          (by rw [List.length_append, List.length_append]; omega),
          List.length_append, List.length_append]; omega)]
  rw [RssStream.put_put _ _ _ (by rw [List.length_append, List.length_append]; omega)]
  unfold RssStream.put memcpy
  rw [hp0]
  congr 2
  · simp only [List.take_zero, List.nil_append, Nat.zero_add]
    rw [List.drop_of_length_le (by
      simp only [List.length_append]
      omega)]
    simp
  · simp only [List.length_append]
    omega

end Rss
namespace Rss

theorem any_size_string (v : List Nat) :
    rss_amf0_get_any_size (.String v) = 0 + rss_amf0_get_string_size v := by
  rw [rss_amf0_get_any_size]

theorem any_size_number (v : Int) :
    rss_amf0_get_any_size (.Number v) = 0 + rss_amf0_get_number_size := by
  rw [rss_amf0_get_any_size]

theorem any_size_null : rss_amf0_get_any_size .Null = 0 + rss_amf0_get_null_size := by
  rw [rss_amf0_get_any_size]

theorem any_size_undefined :
    rss_amf0_get_any_size .Undefined = 0 + rss_amf0_get_undefined_size := by
  rw [rss_amf0_get_any_size]

theorem any_size_object (props : List (List Nat × RssAmf0Any)) :
    rss_amf0_get_any_size (.Object props) = 0 + rss_amf0_get_object_size props := by
  rw [rss_amf0_get_any_size]
  rfl

/-- The payload `RssPacket::encode` builds for an `onStatus` call packet. -/
theorem on_status_encode (p : RssOnStatusCallPacket) :
    (RssSendPacket.OnStatusCall p).encode
      = .ok (p.get_size,
          some (amf0_bytes (.String p.command_name) ++ amf0_bytes (.Number p.transaction_id)
            ++ amf0_bytes .Null ++ amf0_bytes (.Object p.data)))
    ∧ p.get_size
      = (((amf0_bytes (.String p.command_name) ++ amf0_bytes (.Number p.transaction_id)
            ++ amf0_bytes .Null ++ amf0_bytes (.Object p.data)).length : Nat) : Int)
    ∧ 0 < p.get_size := by
  have hA := amf0_bytes_length (.String p.command_name)
  have hB := amf0_bytes_length (.Number p.transaction_id)
  have hC := amf0_bytes_length .Null
  have hD := amf0_bytes_length (.Object p.data)
  rw [any_size_string] at hA
  rw [any_size_number] at hB
  rw [any_size_null] at hC
  rw [any_size_object] at hD
  have hsize : p.get_size
      = (((amf0_bytes (.String p.command_name)).length
          + (amf0_bytes (.Number p.transaction_id)).length + (amf0_bytes .Null).length
          + (amf0_bytes (.Object p.data)).length : Nat) : Int) := by
    unfold RssOnStatusCallPacket.get_size
    push_cast
    omega
  have hpos : 0 < p.get_size := by
    have : 1 ≤ (amf0_bytes RssAmf0Any.Null).length := by
      rw [amf0_bytes]
      decide
    rw [hsize]
    omega
  refine ⟨?_, by rw [hsize]; simp only [List.length_append], hpos⟩
  have e1 : ∀ s, rss_amf0_write_string s p.command_name
      = rss_amf0_write_any (.String p.command_name) s := by
    intro s
    rw [rss_amf0_write_any]
  have e2 : ∀ s, rss_amf0_write_number s p.transaction_id
      = rss_amf0_write_any (.Number p.transaction_id) s := by
    intro s
    rw [rss_amf0_write_any]
  have e3 : ∀ s, rss_amf0_write_null s = rss_amf0_write_any .Null s := by
    intro s
    rw [rss_amf0_write_any]
  have e4 : ∀ s, rss_amf0_write_object p.data s = rss_amf0_write_any (.Object p.data) s := by
    intro s
    rw [rss_amf0_write_any]
  unfold RssSendPacket.encode
  simp only [RssSendPacket.get_size, RssSendPacket.encode_packet, gt_iff_lt, hpos, if_true]
  unfold RssOnStatusCallPacket.encode_packet
  simp only [e1, e2, e3, e4]
  rw [write_four _ _ _ _ _ hsize]

/-- The payload `RssPacket::encode` builds for an FMLE start response packet. -/
theorem fmle_res_encode (p : RssFMLEStartResPacket) :
    (RssSendPacket.FMLEStartRes p).encode
      = .ok (p.get_size,
          some (amf0_bytes (.String p.command_name) ++ amf0_bytes (.Number p.transaction_id)
            ++ amf0_bytes .Null ++ amf0_bytes .Undefined))
    ∧ p.get_size
      = (((amf0_bytes (.String p.command_name) ++ amf0_bytes (.Number p.transaction_id)
            ++ amf0_bytes .Null ++ amf0_bytes .Undefined).length : Nat) : Int)
    ∧ 0 < p.get_size := by
  have hA := amf0_bytes_length (.String p.command_name)
  have hB := amf0_bytes_length (.Number p.transaction_id)
  have hC := amf0_bytes_length .Null
  have hD := amf0_bytes_length .Undefined
  rw [any_size_string] at hA
  rw [any_size_number] at hB
  rw [any_size_null] at hC
  rw [any_size_undefined] at hD
  have hsize : p.get_size
      = (((amf0_bytes (.String p.command_name)).length
          + (amf0_bytes (.Number p.transaction_id)).length + (amf0_bytes .Null).length
          + (amf0_bytes .Undefined).length : Nat) : Int) := by
    unfold RssFMLEStartResPacket.get_size
    push_cast
    omega
  have hpos : 0 < p.get_size := by
    have : 1 ≤ (amf0_bytes RssAmf0Any.Null).length := by
      rw [amf0_bytes]
      decide
    rw [hsize]
    omega
  refine ⟨?_, by rw [hsize]; simp only [List.length_append], hpos⟩
  have e1 : ∀ s, rss_amf0_write_string s p.command_name
      = rss_amf0_write_any (.String p.command_name) s := by
    intro s
    rw [rss_amf0_write_any]
  have e2 : ∀ s, rss_amf0_write_number s p.transaction_id
      = rss_amf0_write_any (.Number p.transaction_id) s := by
    intro s
    rw [rss_amf0_write_any]
  have e3 : ∀ s, rss_amf0_write_null s = rss_amf0_write_any .Null s := by
    intro s
    rw [rss_amf0_write_any]
  have e4 : ∀ s, rss_amf0_write_undefined s = rss_amf0_write_any .Undefined s := by
    intro s
    rw [rss_amf0_write_any]
  unfold RssSendPacket.encode
  simp only [RssSendPacket.get_size, RssSendPacket.encode_packet, gt_iff_lt, hpos, if_true]
  unfold RssFMLEStartResPacket.encode_packet
  simp only [e1, e2, e3, e4]
  rw [write_four _ _ _ _ _ hsize]

end Rss
namespace Rss

/-! ## Sending a packet, and `fmle_unpublish` -/

/-- A packet of type 20 whose encoding succeeds with a payload that is not
empty is sent in the chunks of `chunk_list`, and the protocol state stays. -/
theorem send_packet_ok (fuel : Nat) (proto : RssProtocol) (pkt : RssSendPacket)
    (stream_id : Int) (pl : List Nat) (n : Nat)
    (henc : pkt.encode = .ok (pkt.get_size, some pl))
    (hsz : pkt.get_size = (pl.length : Int)) (hpos : 0 < pkt.get_size)
    (ht : pkt.get_message_type = RTMP_MSG_AMF0CommandMessage)
    (hn : proto.out_chunk_size = (n : Int)) (hn1 : 1 ≤ n) (hf : pl.length + 1 ≤ fuel) :
    send_packet fuel proto pkt stream_id
      = some (proto, .ok
          { packet := pkt,
            header := { message_type := RTMP_MSG_AMF0CommandMessage,
                        payload_length := (pl.length : Int), timestamp_delta := 0,
                        stream_id := stream_id, timestamp := 0 },
            payload := some pl,
            chunks := chunk_list
              { header := { message_type := RTMP_MSG_AMF0CommandMessage,
                            payload_length := (pl.length : Int), timestamp_delta := 0,
                            stream_id := stream_id, timestamp := 0 },
                size := (pl.length : Int), payload := some pl,
                perfer_cid := pkt.get_perfer_cid }
              pl n ((pl.length - 0 + n - 1) / n) 0 }) := by
  have hlen : 0 < pl.length := by omega
  have hdiv : (pl.length - 0 + n - 1) / n ≤ fuel := by
    have h1 : (pl.length - 0 + n - 1) / n ≤ (pl.length + n) / n :=
      Nat.div_le_div_right (by omega)
    rw [Nat.add_div_right _ (by omega)] at h1
    have h2 : pl.length / n ≤ pl.length := Nat.div_le_self _ _
    omega
  have hsend := send_loop_eq
    { header := { message_type := RTMP_MSG_AMF0CommandMessage,
                  payload_length := (pl.length : Int), timestamp_delta := 0,
                  stream_id := stream_id, timestamp := 0 },
      size := (pl.length : Int), payload := some pl, perfer_cid := pkt.get_perfer_cid }
    pl n rfl rfl hn1 fuel 0 hlen hdiv
  rw [Nat.cast_zero] at hsend
  unfold send_packet
  rw [henc]
  simp only []
  unfold send_message
  rw [hn, ht, hsz]
  rw [show RssMessageHeader.new.timestamp_delta = 0 from rfl,
    show RssMessageHeader.new.timestamp = 0 from rfl, hsend]
  rfl

end Rss
namespace Rss

theorem on_fc_unpublish_length : (on_status_payload unpublish_on_fc_unpublish).length = 105 := by
  have h := (on_status_encode unpublish_on_fc_unpublish).2.1
  have e : unpublish_on_fc_unpublish.get_size = 105 := by decide
  rw [e] at h
  unfold on_status_payload
  omega

theorem on_status_length : (on_status_payload unpublish_on_status).length = 139 := by
  have h := (on_status_encode unpublish_on_status).2.1
  have e : unpublish_on_status.get_size = 139 := by decide
  rw [e] at h
  unfold on_status_payload
  omega

theorem fmle_res_length (tid : Int) :
    (fmle_res_payload (RssFMLEStartResPacket.new tid)).length = 21 := by
  have h := (fmle_res_encode (RssFMLEStartResPacket.new tid)).2.1
  have e : (RssFMLEStartResPacket.new tid).get_size = 21 := rfl
  rw [e] at h
  unfold fmle_res_payload
  omega

/-- Function `send_packet` gives the message `sent_message`. -/
theorem send_packet_sent (fuel : Nat) (proto : RssProtocol) (pkt : RssSendPacket)
    (stream_id : Int) (pl : List Nat) (n : Nat)
    (henc : pkt.encode = .ok (pkt.get_size, some pl))
    (hsz : pkt.get_size = (pl.length : Int)) (hpos : 0 < pkt.get_size)
    (ht : pkt.get_message_type = RTMP_MSG_AMF0CommandMessage)
    (hn : proto.out_chunk_size = (n : Int)) (hn1 : 1 ≤ n) (hf : pl.length + 1 ≤ fuel) :
    send_packet fuel proto pkt stream_id = some (proto, .ok (sent_message pkt stream_id pl n)) :=
  send_packet_ok fuel proto pkt stream_id pl n henc hsz hpos ht hn hn1 hf

/-- Sending an `onStatus` call packet. -/
theorem send_on_status (fuel : Nat) (proto : RssProtocol) (p : RssOnStatusCallPacket)
    (stream_id : Int) (n : Nat) (hn : proto.out_chunk_size = (n : Int)) (hn1 : 1 ≤ n)
    (hf : (on_status_payload p).length + 1 ≤ fuel) :
    send_packet fuel proto (.OnStatusCall p) stream_id
      = some (proto, .ok (sent_message (.OnStatusCall p) stream_id (on_status_payload p) n)) := by
  obtain ⟨a1, a2, a3⟩ := on_status_encode p
  exact send_packet_sent fuel proto (.OnStatusCall p) stream_id (on_status_payload p) n
    a1 a2 a3 rfl hn hn1 hf

/-- Sending an FMLE start response packet. -/
theorem send_fmle_res (fuel : Nat) (proto : RssProtocol) (p : RssFMLEStartResPacket)
    (stream_id : Int) (n : Nat) (hn : proto.out_chunk_size = (n : Int)) (hn1 : 1 ≤ n)
    (hf : (fmle_res_payload p).length + 1 ≤ fuel) :
    send_packet fuel proto (.FMLEStartRes p) stream_id
      = some (proto, .ok (sent_message (.FMLEStartRes p) stream_id (fmle_res_payload p) n)) := by
  obtain ⟨a1, a2, a3⟩ := fmle_res_encode p
  exact send_packet_sent fuel proto (.FMLEStartRes p) stream_id (fmle_res_payload p) n
    a1 a2 a3 rfl hn hn1 hf

/-- Three sends in sequence, each continuing with the protocol state the
previous one left: the shape of `fmle_unpublish`. -/
theorem three_sends (fuel : Nat) (proto : RssProtocol) (stream_id : Int)
    (p1 p2 p3 : RssSendPacket) (m1 m2 m3 : SentMessage) :
    send_packet fuel proto p1 stream_id = some (proto, .ok m1) →
    send_packet fuel proto p2 stream_id = some (proto, .ok m2) →
    send_packet fuel proto p3 stream_id = some (proto, .ok m3) →
    (match send_packet fuel proto p1 stream_id with
      | none => none
      | some (proto, .error e) => some (proto, [], .error e)
      | some (proto, .ok m1) =>
        match send_packet fuel proto p2 stream_id with
        | none => none
        | some (proto, .error e) => some (proto, [m1], .error e)
        | some (proto, .ok m2) =>
          match send_packet fuel proto p3 stream_id with
          | none => none
          | some (proto, .error e) => some (proto, [m1, m2], .error e)
          | some (proto, .ok m3) => some (proto, [m1, m2, m3], .ok ())
      : Option (RssProtocol × List SentMessage × Except RssError Unit))
      = some (proto, [m1, m2, m3], .ok ()) := by
  intro h1 h2 h3
  simp only [h1, h2, h3]

/-- The body of `fmle_unpublish`, as an equation between functions. -/
theorem fmle_unpublish_eq :
    RssRtmp.fmle_unpublish = fun fuel proto stream_id unpublish_tid =>
      match send_packet fuel proto (.OnStatusCall unpublish_on_fc_unpublish) stream_id with
      | none => none
      | some (proto, .error e) => some (proto, [], .error e)
      | some (proto, .ok m1) =>
        match send_packet fuel proto (.FMLEStartRes (RssFMLEStartResPacket.new unpublish_tid))
            stream_id with
        | none => none
        | some (proto, .error e) => some (proto, [m1], .error e)
        | some (proto, .ok m2) =>
          match send_packet fuel proto (.OnStatusCall unpublish_on_status) stream_id with
          | none => none
          | some (proto, .error e) => some (proto, [m1, m2], .error e)
          | some (proto, .ok m3) => some (proto, [m1, m2, m3], .ok ()) := rfl

/-- Function `fmle_unpublish` when the three sends succeed without changing
the protocol state. -/
theorem fmle_unpublish_step (fuel : Nat) (proto : RssProtocol) (stream_id tid : Int)
    (m1 m2 m3 : SentMessage)
    (h1 : send_packet fuel proto (.OnStatusCall unpublish_on_fc_unpublish) stream_id
      = some (proto, .ok m1))
    (h2 : send_packet fuel proto (.FMLEStartRes (RssFMLEStartResPacket.new tid)) stream_id
      = some (proto, .ok m2))
    (h3 : send_packet fuel proto (.OnStatusCall unpublish_on_status) stream_id
      = some (proto, .ok m3)) :
    RssRtmp.fmle_unpublish fuel proto stream_id tid = some (proto, [m1, m2, m3], .ok ()) := by
  have e := congrFun (congrFun (congrFun (congrFun fmle_unpublish_eq fuel) proto) stream_id) tid
  beta_reduce at e
  have key := three_sends fuel proto stream_id (.OnStatusCall unpublish_on_fc_unpublish)
    (.FMLEStartRes (RssFMLEStartResPacket.new tid)) (.OnStatusCall unpublish_on_status)
    m1 m2 m3 h1 h2 h3
  exact e.trans key


/-- Function `fmle_unpublish` with enough fuel and a chunk size of at least 1:
the three messages are sent and the result is success. -/
theorem fmle_unpublish_ok (fuel : Nat) (proto : RssProtocol) (stream_id tid : Int) (n : Nat)
    (hf : 140 ≤ fuel) (hn : proto.out_chunk_size = (n : Int)) (hn1 : 1 ≤ n) :
    RssRtmp.fmle_unpublish fuel proto stream_id tid
      = some (proto, unpublish_messages stream_id tid n, .ok ()) := by
  have f1 : (on_status_payload unpublish_on_fc_unpublish).length + 1 ≤ fuel := by
    rw [on_fc_unpublish_length]; omega
  have f2 : (fmle_res_payload (RssFMLEStartResPacket.new tid)).length + 1 ≤ fuel := by
    rw [fmle_res_length]; omega
  have f3 : (on_status_payload unpublish_on_status).length + 1 ≤ fuel := by
    rw [on_status_length]; omega
  have s1 := send_on_status fuel proto unpublish_on_fc_unpublish stream_id n hn hn1 f1
  have s2 := send_fmle_res fuel proto (RssFMLEStartResPacket.new tid) stream_id n hn hn1 f2
  have s3 := send_on_status fuel proto unpublish_on_status stream_id n hn hn1 f3
  exact fmle_unpublish_step fuel proto stream_id tid _ _ _ s1 s2 s3

end Rss
namespace Rss

/-- The command branch of the publish loop when the message decodes to an
FMLE start packet. -/
theorem publish_command_fmle (d : Except RssError RssCommandPacket)
    (send : Int → Option (RssProtocol × List SentMessage × Except RssError Unit))
    (st : PublishSession) (pkt : RssFMLEStartPacket) (sent : List SentMessage)
    (ret : Except RssError Unit) :
    d = .ok (.FMLEStart pkt) → send pkt.transaction_id = some (st.proto, sent, ret) →
    (match d with
      | .error e => some (st, [], .done (.error e))
      | .ok (.FMLEStart unpublish) =>
        match send unpublish.transaction_id with
        | none => none
        | some (proto, sent, ret) => some ({ st with proto := proto }, sent, .done ret)
      | .ok _ => some (st, [], .next)
      : Option (PublishSession × List SentMessage × LoopStep))
      = some (st, sent, .done ret) := by
  intro h1 h2
  subst h1
  simp only [h2]

/-- The publish loop on a command message that decodes to an FMLE start packet:
the unpublish response is sent and the loop ends with its result. -/
theorem streaming_publish_fmle (fuel : Nat) (st : PublishSession) (stream_id : Int)
    (msg : RssCommonMessage) (pkt : RssFMLEStartPacket) (n : Nat)
    (ht : msg.header.message_type = RTMP_MSG_AMF0CommandMessage
      ∨ msg.header.message_type = RTMP_MSG_AMF3CommandMessage)
    (hdec : msg.decode_command_packet fuel = .ok (.FMLEStart pkt))
    (hf : 140 ≤ fuel) (hn : st.proto.out_chunk_size = (n : Int)) (hn1 : 1 ≤ n) :
    streaming_publish_message fuel st stream_id msg
      = some (st, unpublish_messages stream_id pkt.transaction_id n, .done (.ok ())) := by
  have h1 : ¬ msg.header.message_type = RTMP_MSG_AudioMessage := by
    rcases ht with h | h <;> rw [h] <;> decide
  have h2 : ¬ msg.header.message_type = RTMP_MSG_VideoMessage := by
    rcases ht with h | h <;> rw [h] <;> decide
  have h3 : ¬ (msg.header.message_type = RTMP_MSG_AMF0DataMessage
      ∨ msg.header.message_type = RTMP_MSG_AMF3DataMessage) := by
    rcases ht with h | h <;> rw [h] <;> decide
  have hu := fmle_unpublish_ok fuel st.proto stream_id pkt.transaction_id n hf hn hn1
  unfold streaming_publish_message
  rw [if_neg h1, if_neg h2, if_neg h3, if_pos ht]
  generalize RssRtmp.fmle_unpublish fuel st.proto stream_id = send at hu ⊢
  exact publish_command_fmle (msg.decode_command_packet fuel) send st pkt _ _ hdec hu

/-- The publish loop on a command message that decodes to a packet that is no
FMLE start packet: nothing is sent and the loop goes on. -/
theorem streaming_publish_other (fuel : Nat) (st : PublishSession) (stream_id : Int)
    (msg : RssCommonMessage) (pkt : RssCommandPacket)
    (ht : msg.header.message_type = RTMP_MSG_AMF0CommandMessage
      ∨ msg.header.message_type = RTMP_MSG_AMF3CommandMessage)
    (hdec : msg.decode_command_packet fuel = .ok pkt)
    (hpkt : ∀ p, pkt ≠ .FMLEStart p) :
    streaming_publish_message fuel st stream_id msg = some (st, [], .next) := by
  have h1 : ¬ msg.header.message_type = RTMP_MSG_AudioMessage := by
    rcases ht with h | h <;> rw [h] <;> decide
  have h2 : ¬ msg.header.message_type = RTMP_MSG_VideoMessage := by
    rcases ht with h | h <;> rw [h] <;> decide
  have h3 : ¬ (msg.header.message_type = RTMP_MSG_AMF0DataMessage
      ∨ msg.header.message_type = RTMP_MSG_AMF3DataMessage) := by
    rcases ht with h | h <;> rw [h] <;> decide
  unfold streaming_publish_message
  rw [if_neg h1, if_neg h2, if_neg h3, if_pos ht, hdec]
  cases pkt with
  | FMLEStart p => exact absurd rfl (hpkt p)
  | _ => rfl

/-- The example FMLE message decodes to the example FMLE packet, for the three
command names of `RssFMLEStartPacket`. -/
theorem example_fmle_decode (fuel : Nat) :
    (example_fmle_message RTMP_AMF0_COMMAND_UNPUBLISH).decode_command_packet fuel
      = .ok (.FMLEStart (example_fmle_packet RTMP_AMF0_COMMAND_UNPUBLISH))
    ∧ (example_fmle_message RTMP_AMF0_COMMAND_RELEASE_STREAM).decode_command_packet fuel
      = .ok (.FMLEStart (example_fmle_packet RTMP_AMF0_COMMAND_RELEASE_STREAM))
    ∧ (example_fmle_message RTMP_AMF0_COMMAND_FC_PUBLISH).decode_command_packet fuel
      = .ok (.FMLEStart (example_fmle_packet RTMP_AMF0_COMMAND_FC_PUBLISH)) :=
  ⟨rfl, rfl, rfl⟩

end Rss
namespace Rss

/-- The bytes of the FMLE start response. -/
theorem fmle_res_payload_bytes (tid : Int) :
    fmle_res_payload (RssFMLEStartResPacket.new tid)
      = [0x02, 0x00, 0x07] ++ RTMP_AMF0_COMMAND_RESULT
          ++ [0x00, byte7 tid, byte6 tid, byte5 tid, byte4 tid,
              byte3 tid, byte2 tid, byte1 tid, byte0 tid]
          ++ [0x05] ++ [0x06] := by
  have e1 : amf0_bytes (.String RTMP_AMF0_COMMAND_RESULT)
      = [0x02, 0x00, 0x07] ++ RTMP_AMF0_COMMAND_RESULT := by decide
  have e2 : amf0_bytes (.Number tid)
      = [0x00, byte7 tid, byte6 tid, byte5 tid, byte4 tid,
         byte3 tid, byte2 tid, byte1 tid, byte0 tid] := by rw [amf0_bytes]
  have e3 : amf0_bytes .Null = [0x05] := by decide
  have e4 : amf0_bytes .Undefined = [0x06] := by decide
  show amf0_bytes (.String RTMP_AMF0_COMMAND_RESULT) ++ amf0_bytes (.Number tid)
    ++ amf0_bytes .Null ++ amf0_bytes .Undefined = _
  rw [e1, e2, e3, e4]

/-- C28: for every transaction id `tid`, with enough fuel and an output chunk
size of at least 1, `fmle_unpublish` sends exactly three messages and returns
success: the `onFCUnpublish` call whose data has the code
`NetStream.Unpublish.Success`, the FMLE response `_result`, `tid`, null,
undefined, and the `onStatus` call whose data has the code
`NetStream.Unpublish.Success`. The publish loop, on a command message that
decodes to an FMLE start packet, sends these messages for the transaction id
of the packet and ends with that result. -/
theorem fmle_unpublish_spec (fuel : Nat) (st : PublishSession) (stream_id tid : Int)
    (msg : RssCommonMessage) (pkt : RssFMLEStartPacket) (n : Nat)
    (hf : 140 ≤ fuel) (hn : st.proto.out_chunk_size = (n : Int)) (hn1 : 1 ≤ n)
    (ht : msg.header.message_type = RTMP_MSG_AMF0CommandMessage
      ∨ msg.header.message_type = RTMP_MSG_AMF3CommandMessage)
    (hdec : msg.decode_command_packet fuel = .ok (.FMLEStart pkt)) :
    RssRtmp.fmle_unpublish fuel st.proto stream_id tid
        = some (st.proto, unpublish_messages stream_id tid n, .ok ())
    ∧ (unpublish_messages stream_id tid n).map (fun m => m.packet)
        = [.OnStatusCall unpublish_on_fc_unpublish,
           .FMLEStartRes { command_name := RTMP_AMF0_COMMAND_RESULT, transaction_id := tid },
           .OnStatusCall unpublish_on_status]
    ∧ (unpublish_messages stream_id tid n).map (fun m => m.payload)
        = [some (on_status_payload unpublish_on_fc_unpublish),
           some ([0x02, 0x00, 0x07] ++ RTMP_AMF0_COMMAND_RESULT
             ++ [0x00, byte7 tid, byte6 tid, byte5 tid, byte4 tid,
                 byte3 tid, byte2 tid, byte1 tid, byte0 tid]
             ++ [0x05] ++ [0x06]),
           some (on_status_payload unpublish_on_status)]
    ∧ (unpublish_messages stream_id tid n).map (fun m => m.header.stream_id)
        = [stream_id, stream_id, stream_id]
    ∧ unpublish_on_fc_unpublish.command_name = RTMP_AMF0_COMMAND_ON_FC_UNPUBLISH
    ∧ RssUnSortedHashtable.get_property unpublish_on_fc_unpublish.data StatusCode
        = some (.String StatusCodeUnpublishSuccess)
    ∧ unpublish_on_status.command_name = RTMP_AMF0_COMMAND_ON_STATUS
    ∧ RssUnSortedHashtable.get_property unpublish_on_status.data StatusCode
        = some (.String StatusCodeUnpublishSuccess)
    ∧ streaming_publish_message fuel st stream_id msg
        = some (st, unpublish_messages stream_id pkt.transaction_id n, .done (.ok ())) :=
  ⟨fmle_unpublish_ok fuel st.proto stream_id tid n hf hn hn1, rfl,
    (by rw [← fmle_res_payload_bytes tid]; rfl), rfl, rfl, rfl, rfl, rfl,
    streaming_publish_fmle fuel st stream_id msg pkt n ht hdec hf hn hn1⟩

/-- Witness of C28: the transaction id 5.0, the message `FCUnpublish` of the
example, a new protocol context with the chunk size 128. -/
theorem fmle_unpublish_spec_witness :
    140 ≤ 140
    ∧ example_publish_session.proto.out_chunk_size = ((128 : Nat) : Int)
    ∧ 1 ≤ 128
    ∧ (example_fmle_message RTMP_AMF0_COMMAND_UNPUBLISH).header.message_type
        = RTMP_MSG_AMF0CommandMessage
    ∧ (example_fmle_message RTMP_AMF0_COMMAND_UNPUBLISH).decode_command_packet 140
        = .ok (.FMLEStart (example_fmle_packet RTMP_AMF0_COMMAND_UNPUBLISH))
    ∧ RssRtmp.fmle_unpublish 140 example_publish_session.proto 1 double_five
        = some (example_publish_session.proto, unpublish_messages 1 double_five 128, .ok ())
    ∧ streaming_publish_message 140 example_publish_session 1
        (example_fmle_message RTMP_AMF0_COMMAND_UNPUBLISH)
        = some (example_publish_session,
            unpublish_messages 1 (example_fmle_packet RTMP_AMF0_COMMAND_UNPUBLISH).transaction_id
              128,
            .done (.ok ())) :=
  have h := fmle_unpublish_spec 140 example_publish_session 1 double_five
    (example_fmle_message RTMP_AMF0_COMMAND_UNPUBLISH)
    (example_fmle_packet RTMP_AMF0_COMMAND_UNPUBLISH) 128 (by decide) rfl (by decide)
    (Or.inl rfl) rfl
  ⟨by decide, rfl, by decide, rfl, rfl, h.1, h.2.2.2.2.2.2.2.2⟩

/-- C30: the publish loop does not look at the name of an FMLE start packet.
The command messages `releaseStream` and `FCPublish` (type 20, transaction id
5.0, stream name `livestream`) decode to FMLE start packets whose name is not
`FCUnpublish`; for each the loop sends the three messages of the unpublish
response and ends the session with success. -/
theorem fmle_start_name_not_checked :
    (example_fmle_message RTMP_AMF0_COMMAND_RELEASE_STREAM).header.message_type
        = RTMP_MSG_AMF0CommandMessage
    ∧ (example_fmle_message RTMP_AMF0_COMMAND_RELEASE_STREAM).decode_command_packet 140
        = .ok (.FMLEStart (example_fmle_packet RTMP_AMF0_COMMAND_RELEASE_STREAM))
    ∧ (example_fmle_packet RTMP_AMF0_COMMAND_RELEASE_STREAM).command_name
        ≠ RTMP_AMF0_COMMAND_UNPUBLISH
    ∧ streaming_publish_message 140 example_publish_session 1
        (example_fmle_message RTMP_AMF0_COMMAND_RELEASE_STREAM)
        = some (example_publish_session,
            unpublish_messages 1 (example_fmle_packet RTMP_AMF0_COMMAND_RELEASE_STREAM).transaction_id
              128,
            .done (.ok ()))
    ∧ (example_fmle_message RTMP_AMF0_COMMAND_FC_PUBLISH).header.message_type
        = RTMP_MSG_AMF0CommandMessage
    ∧ (example_fmle_message RTMP_AMF0_COMMAND_FC_PUBLISH).decode_command_packet 140
        = .ok (.FMLEStart (example_fmle_packet RTMP_AMF0_COMMAND_FC_PUBLISH))
    ∧ (example_fmle_packet RTMP_AMF0_COMMAND_FC_PUBLISH).command_name
        ≠ RTMP_AMF0_COMMAND_UNPUBLISH
    ∧ streaming_publish_message 140 example_publish_session 1
        (example_fmle_message RTMP_AMF0_COMMAND_FC_PUBLISH)
        = some (example_publish_session,
            unpublish_messages 1 (example_fmle_packet RTMP_AMF0_COMMAND_FC_PUBLISH).transaction_id
              128,
            .done (.ok ()))
    ∧ (unpublish_messages 1 double_five 128).length = 3 :=
  ⟨rfl, rfl, by decide,
    streaming_publish_fmle 140 example_publish_session 1
      (example_fmle_message RTMP_AMF0_COMMAND_RELEASE_STREAM)
      (example_fmle_packet RTMP_AMF0_COMMAND_RELEASE_STREAM) 128 (Or.inl rfl) rfl (by decide)
      rfl (by decide),
    rfl, rfl, by decide,
    streaming_publish_fmle 140 example_publish_session 1
      (example_fmle_message RTMP_AMF0_COMMAND_FC_PUBLISH)
      (example_fmle_packet RTMP_AMF0_COMMAND_FC_PUBLISH) 128 (Or.inl rfl) rfl (by decide)
      rfl (by decide),
    rfl⟩

end Rss
namespace Rss

/-! ## AMF0 strings and markers -/

/-- The character loop ends with success for every string. -/
theorem utf8_1_loop_ok : ∀ (str : List Nat) (ret : Except RssError Unit),
    ret = .ok () → utf8_1_loop ret str = .ok ()
  | [], ret, h => by rw [utf8_1_loop]; exact h
  | ch :: rest, ret, h => by
    rw [utf8_1_loop]
    split
    · exact utf8_1_loop_ok rest _ rfl
    · exact utf8_1_loop_ok rest _ h

/-- The character loop has no effect on the result of `rss_amf0_read_utf8`. -/
theorem rss_amf0_read_utf8_chars_eq (s : RssStream) :
    rss_amf0_read_utf8_chars s = rss_amf0_read_utf8 s := by
  unfold rss_amf0_read_utf8_chars rss_amf0_read_utf8
  split
  · rfl
  · split
    · rfl
    · split
      · rfl
      · split
        · rfl
        · rename_i len s1 _ _ _
          cases hr : s1.read_string len with
          | error e => rfl
          | ok v =>
            simp only [utf8_1_loop_ok v.1 _ rfl]

/-- A length field with the high bit set is a negative `int16_t`: the function
returns the empty string and leaves the cursor behind the length field. -/
theorem rss_amf0_read_utf8_high_length (s : RssStream) (a b : Nat) (r : List Nat)
    (hv : s.bytes.drop s.p = a :: b :: r) (ha : 128 ≤ a % 256) :
    rss_amf0_read_utf8 s = .ok ([], s.adv 2) := by
  have hreq : s.require 2 = true :=
    RssStream.require_of_view s _ 2 hv (by decide)
      (by simp only [List.length_cons]; push_cast; omega)
  have hlen : toInt16 (((a % 256 : Nat) : Int) * 256 + ((b % 256 : Nat) : Int)) ≤ 0 := by
    unfold toInt16
    have hb : b % 256 < 256 := Nat.mod_lt _ (by decide)
    have ha2 : a % 256 < 256 := Nat.mod_lt _ (by decide)
    omega
  unfold rss_amf0_read_utf8
  rw [hreq, RssStream.read_2bytes_view s a b r hv]
  simp only [Bool.not_true, Bool.false_eq_true, if_false, hlen, if_true]

end Rss
namespace Rss

/-- C32: the length field `80 00` (32768) followed by 32768 bytes. The length
is read into an `int16_t` and is negative there, so `rss_amf0_read_utf8`
returns success with the empty string and leaves the cursor 2 bytes, not
2 + 32768 bytes, behind the start. -/
theorem rss_amf0_read_utf8_length_32768 :
    example_long_string_bytes.length = 2 + 32768
    ∧ example_long_string_bytes.take 2 = [0x80, 0x00]
    ∧ RssStream.initialize example_long_string_bytes
        = .ok { bytes := example_long_string_bytes, p := 0 }
    ∧ rss_amf0_read_utf8 { bytes := example_long_string_bytes, p := 0 }
        = .ok ([], { bytes := example_long_string_bytes, p := 2 })
    ∧ rss_amf0_read_utf8_chars { bytes := example_long_string_bytes, p := 0 }
        = .ok ([], { bytes := example_long_string_bytes, p := 2 }) := by
  have hlen : example_long_string_bytes.length = 2 + 32768 := by
    unfold example_long_string_bytes
    rw [List.length_append, List.length_replicate]
    rfl
  have hread := rss_amf0_read_utf8_high_length
    { bytes := example_long_string_bytes, p := 0 } 0x80 0x00 (List.replicate 32768 0x41)
    rfl (by decide)
  refine ⟨hlen, rfl, ?_, hread, ?_⟩
  · unfold RssStream.initialize
    rw [hlen]
    rfl
  · rw [rss_amf0_read_utf8_chars_eq]
    exact hread

/-- C33: a string of 1 to 32767 bytes, with bytes of the value `0x80` or above
among them, behind its 16-bit length: `rss_amf0_read_utf8` returns success and
exactly these bytes, and the cursor is behind the string. The loop over the
characters, which sets the error and clears it again, ends with success. -/
theorem rss_amf0_read_utf8_high_bytes (s : RssStream) (k r : List Nat)
    (hk1 : 1 ≤ k.length) (hk : k.length ≤ 32767) (_hhigh : ∃ b ∈ k, 0x80 ≤ b)
    (hv : s.bytes.drop s.p = byte1 (k.length : Int) :: byte0 (k.length : Int) :: (k ++ r)) :
    rss_amf0_read_utf8_chars s = .ok (k, s.adv (2 + k.length))
    ∧ rss_amf0_read_utf8 s = .ok (k, s.adv (2 + k.length))
    ∧ utf8_1_loop (.ok ()) k = .ok ()
    ∧ 1 ≤ k.length := by
  have h := rss_amf0_read_utf8_view s k r (by omega) hv
  exact ⟨by rw [rss_amf0_read_utf8_chars_eq]; exact h, h, utf8_1_loop_ok k _ rfl, hk1⟩

/-- C33, witness: the string `68 C3 A9 21` behind the length `00 04`. -/
theorem rss_amf0_read_utf8_high_bytes_witness :
    (∃ b ∈ example_high_string, 0x80 ≤ b)
    ∧ rss_amf0_read_utf8_chars { bytes := [0x00, 0x04] ++ example_high_string, p := 0 }
        = .ok (example_high_string, { bytes := [0x00, 0x04] ++ example_high_string, p := 6 })
    ∧ rss_amf0_read_utf8 { bytes := [0x00, 0x04] ++ example_high_string, p := 0 }
        = .ok (example_high_string, { bytes := [0x00, 0x04] ++ example_high_string, p := 6 }) :=
  have h := rss_amf0_read_utf8_high_bytes { bytes := [0x00, 0x04] ++ example_high_string, p := 0 }
    example_high_string [] (by decide) (by decide) ⟨0xC3, by decide, by decide⟩ (by decide)
  ⟨⟨0xC3, by decide, by decide⟩, h.1, h.2.1⟩

/-- C36: `rss_amf0_read_any` returns `Null` and `Undefined` without a read of
the marker. The value `Null` has the size 1 and is written as `05`; read back,
the cursor is where the decoding started, not 1 byte behind it. So in `05 01
01` (`Null`, then the Boolean `true`) the value behind `Null` is not decoded
from its own first byte: the second call returns `Null` again. And the bytes
written for an object with a `Null` property cannot be decoded. -/
theorem rss_amf0_read_any_null_cursor :
    rss_amf0_get_any_size .Null = 1
    ∧ rss_amf0_write_any .Null (RssStream.alloc (rss_amf0_get_any_size .Null))
        = .ok { bytes := [0x05], p := 1 }
    ∧ rss_amf0_read_any 1 { bytes := [0x05], p := 0 } = .ok (.Null, { bytes := [0x05], p := 0 })
    ∧ rss_amf0_get_any_size .Undefined = 1
    ∧ rss_amf0_write_any .Undefined (RssStream.alloc (rss_amf0_get_any_size .Undefined))
        = .ok { bytes := [0x06], p := 1 }
    ∧ rss_amf0_read_any 1 { bytes := [0x06], p := 0 }
        = .ok (.Undefined, { bytes := [0x06], p := 0 })
    ∧ rss_amf0_read_any 1 { bytes := example_null_then_true, p := 0 }
        = .ok (.Null, { bytes := example_null_then_true, p := 0 })
    ∧ rss_amf0_read_any 1 { bytes := example_null_then_true, p := 1 }
        = .ok (.Boolean true, { bytes := example_null_then_true, p := 3 })
    ∧ rss_amf0_get_any_size example_object_with_null = 13
    ∧ rss_amf0_write_any example_object_with_null
          (RssStream.alloc (rss_amf0_get_any_size example_object_with_null))
        = .ok { bytes := [0x03, 0x00, 0x01, 0x61, 0x05, 0x00, 0x01, 0x62, 0x01, 0x01,
                          0x00, 0x00, 0x09], p := 13 }
    ∧ rss_amf0_read_any 16
          { bytes := [0x03, 0x00, 0x01, 0x61, 0x05, 0x00, 0x01, 0x62, 0x01, 0x01,
                      0x00, 0x00, 0x09], p := 0 }
        = .error .amf0_decode := by
  refine ⟨by decide, ?_, rfl, by decide, ?_, rfl, rfl, rfl, by decide, ?_, rfl⟩
  · rw [rss_amf0_write_alloc]
    rfl
  · rw [rss_amf0_write_alloc]
    rfl
  · rw [rss_amf0_write_alloc]
    rfl

end Rss
namespace Rss

/-! ## Chunk decoder: the paths of one chunk read -/

/-- The format `read_basic_header` returns is 0, 1, 2 or 3. -/
theorem read_basic_header_fmt (cs : Bool) (buffer : List Nat) (fmt cid : Int) (bh : Nat)
    (h : read_basic_header cs buffer = .ok (fmt, cid, bh)) :
    fmt = 0 ∨ fmt = 1 ∨ fmt = 2 ∨ fmt = 3 := by
  have key : ∀ c : Int, (c / 64) % 4 = 0 ∨ (c / 64) % 4 = 1 ∨ (c / 64) % 4 = 2
      ∨ (c / 64) % 4 = 3 := by
    intro c
    omega
  unfold read_basic_header at h
  split at h
  · cases h
  · simp only at h
    split at h
    · cases h
      exact key _
    · split at h
      · split at h
        · cases h
        · cases h
          exact key _
      · split at h
        · split at h
          · cases h
          · cases h
            exact key _
        · cases h

/-- The paths of `recv_interlaced_message`: the basic header fails; or the
message header fails and the chunk stream is stored as it is then; or the
payload is read and the chunk stream and the buffer are stored as they are
then. -/
theorem recv_interlaced_message_cases (cs : Bool) (proto : RssProtocol) :
    (∃ e, read_basic_header cs proto.buffer = .error e
        ∧ recv_interlaced_message cs proto = (proto, .error e))
    ∨ ∃ fmt cid bh chunk0,
        read_basic_header cs proto.buffer = .ok (fmt, cid, bh)
        ∧ (match findChunk proto.chunk_streams cid with
            | none => RssChunkStream.new cid
            | some c => c) = chunk0
        ∧ ((∃ c1 e, read_message_header chunk0 fmt bh proto.buffer = (c1, .error e)
              ∧ recv_interlaced_message cs proto
                = ({ proto with chunk_streams := storeChunk proto.chunk_streams cid c1 },
                   .error e))
            ∨ ∃ c1 mh c2 buf r,
                read_message_header chunk0 fmt bh proto.buffer = (c1, .ok mh)
                ∧ read_message_payload c1 bh mh proto.in_chunk_size proto.buffer = (c2, buf, r)
                ∧ recv_interlaced_message cs proto
                  = ({ proto with chunk_streams := storeChunk proto.chunk_streams cid c2,
                                  buffer := buf },
                     match r with
                     | .error e => .error e
                     | .ok (_, pmsg) => .ok pmsg)) := by
  unfold recv_interlaced_message
  cases hbh : read_basic_header cs proto.buffer with
  | error e => exact Or.inl ⟨e, rfl, rfl⟩
  | ok v =>
    obtain ⟨fmt, cid, bh⟩ := v
    refine Or.inr ⟨fmt, cid, bh, (match findChunk proto.chunk_streams cid with
      | none => RssChunkStream.new cid
      | some c => c), rfl, rfl, ?_⟩
    simp only
    generalize (match findChunk proto.chunk_streams cid with
      | none => RssChunkStream.new cid
      | some c => c) = chunk0
    cases hmh : read_message_header chunk0 fmt bh proto.buffer with
    | mk c1 r1 =>
      cases r1 with
      | error e => exact Or.inl ⟨c1, e, rfl, rfl⟩
      | ok mh =>
        refine Or.inr ?_
        simp only
        cases hpay : read_message_payload c1 bh mh proto.in_chunk_size proto.buffer with
        | mk c2 r2 =>
          obtain ⟨buf, r⟩ := r2
          refine ⟨c1, mh, c2, buf, r, rfl, hpay, ?_⟩
          cases r with
          | error e => rfl
          | ok v => rfl

end Rss
namespace Rss

/-! ## Chunk decoder: what `read_message_header` leaves -/

theorem int32OfBytes_le3 (b0 b1 b2 : Nat) : int32OfBytes b0 b1 b2 0 ≤ 16777215 := by
  unfold int32OfBytes toInt32; omega

/-- The parse of the message header keeps the message of the chunk stream, and
keeps `payload_length` or sets it to a value of three bytes. -/
theorem parse_message_header_length (c : RssChunkStream) (fmt : Int) (fresh : Bool)
    (b : Nat → Nat) (hfmt : fmt = 0 ∨ fmt = 1 ∨ fmt = 2 ∨ fmt = 3) :
    (parse_message_header c fmt fresh b).1.msg = c.msg
    ∧ ((parse_message_header c fmt fresh b).1.header.payload_length = c.header.payload_length
        ∨ (0 ≤ (parse_message_header c fmt fresh b).1.header.payload_length
            ∧ (parse_message_header c fmt fresh b).1.header.payload_length ≤ 16777215)) := by
  rcases hfmt with rfl | rfl | rfl | rfl
  · refine ⟨(parse_message_header_facts012 c 0 fresh b (Or.inl rfl)).2.2.1, Or.inr ?_⟩
    have key : (parse_message_header c 0 fresh b).1.header.payload_length
        = int32OfBytes (b 5) (b 4) (b 3) 0 := by rw [parse_fmt0]
    rw [key]
    exact ⟨int32OfBytes_nonneg _ _ _, int32OfBytes_le3 _ _ _⟩
  · refine ⟨(parse_message_header_facts012 c 1 fresh b (Or.inr (Or.inl rfl))).2.2.1, Or.inr ?_⟩
    have key : (parse_message_header c 1 fresh b).1.header.payload_length
        = int32OfBytes (b 5) (b 4) (b 3) 0 := by rw [parse_fmt1]
    rw [key]
    exact ⟨int32OfBytes_nonneg _ _ _, int32OfBytes_le3 _ _ _⟩
  · exact ⟨(parse_message_header_facts012 c 2 fresh b (Or.inr (Or.inr rfl))).2.2.1,
      Or.inl ((parse_message_header_facts012 c 2 fresh b (Or.inr (Or.inr rfl))).2.2.2.1 rfl)⟩
  · exact ⟨(parse_message_header_facts3 c fresh b).2.2.1,
      Or.inl (parse_message_header_facts3 c fresh b).2.2.2⟩

/-- The two results of the end of `read_message_header`. -/
theorem finish_message_header_cases (c : RssChunkStream) (n : Nat) :
    (c.header.payload_length < 0 ∧ finish_message_header c n = (c, .error .invalid_size))
    ∨ (0 ≤ c.header.payload_length
        ∧ finish_message_header c n
          = ({ c with
                msg := c.msg.map (fun m => { m with header := c.header }),
                msg_count := c.msg_count + 1 }, .ok n)) := by
  unfold finish_message_header
  by_cases h : c.header.payload_length < 0
  · exact Or.inl ⟨h, if_pos h⟩
  · exact Or.inr ⟨not_lt.mp h, if_neg h⟩

theorem chunk_mk_payload_length (f c mt pl td sid ts : Int) (e : Bool)
    (m : Option RssCommonMessage) (k : Int) :
    ({ fmt := f, cid := c,
       header := { message_type := mt, payload_length := pl, timestamp_delta := td,
                   stream_id := sid, timestamp := ts },
       extended_timestamp := e, msg := m, msg_count := k } : RssChunkStream).header.payload_length
      = pl := rfl

theorem chunk_mk_msg (f c mt pl td sid ts : Int) (e : Bool)
    (m : Option RssCommonMessage) (k : Int) :
    ({ fmt := f, cid := c,
       header := { message_type := mt, payload_length := pl, timestamp_delta := td,
                   stream_id := sid, timestamp := ts },
       extended_timestamp := e, msg := m, msg_count := k } : RssChunkStream).msg = m := rfl

/-- What the end of `read_message_header` leaves. -/
theorem finish_message_header_facts (c : RssChunkStream) (n : Nat) :
    (finish_message_header c n).1.header = c.header
    ∧ ((finish_message_header c n).2 = .error .invalid_size → c.header.payload_length < 0)
    ∧ (∀ mh, (finish_message_header c n).2 = .ok mh → ∀ m1, c.msg = some m1 →
        ∃ m, (finish_message_header c n).1.msg = some m ∧ m.header = c.header) := by
  rcases finish_message_header_cases c n with ⟨hneg, hfin⟩ | ⟨_, hfin⟩
  · rw [hfin]
    exact ⟨rfl, fun _ => hneg, fun _ h => by cases h⟩
  · rw [hfin]
    refine ⟨rfl, fun h => (by cases h), fun _ _ m1 hm1 => ?_⟩
    simp only [hm1, Option.map_some']
    exact ⟨_, rfl, rfl⟩

/-- What `read_message_header` leaves: the `payload_length` of the chunk stream
is the one it had or a value of three bytes; the size error is returned only
for a negative `payload_length`; and after success the chunk stream holds a
message whose header is the header of the chunk stream. -/
theorem read_message_header_facts (chunk : RssChunkStream) (fmt : Int) (bh : Nat)
    (buffer : List Nat) (hfmt : fmt = 0 ∨ fmt = 1 ∨ fmt = 2 ∨ fmt = 3) :
    ((read_message_header chunk fmt bh buffer).1.header.payload_length
        = chunk.header.payload_length
      ∨ (0 ≤ (read_message_header chunk fmt bh buffer).1.header.payload_length
          ∧ (read_message_header chunk fmt bh buffer).1.header.payload_length ≤ 16777215))
    ∧ ((read_message_header chunk fmt bh buffer).2 = .error .invalid_size →
        (read_message_header chunk fmt bh buffer).1.header.payload_length < 0)
    ∧ (∀ mh, (read_message_header chunk fmt bh buffer).2 = .ok mh →
        ∃ m, (read_message_header chunk fmt bh buffer).1.msg = some m
          ∧ m.header = (read_message_header chunk fmt bh buffer).1.header) := by
  by_cases h1 : chunk.msg_count = 0 ∧ fmt ≠ RTMP_FMT_TYPE0
  · have hr : read_message_header chunk fmt bh buffer = (chunk, .error .chunk_start) := by
      unfold read_message_header
      rw [if_pos h1]
    rw [hr]
    exact ⟨Or.inl rfl, fun h => (by cases h), fun _ h => by cases h⟩
  by_cases h2 : chunk.msg.isSome = true ∧ fmt = RTMP_FMT_TYPE0
  · have hr : read_message_header chunk fmt bh buffer = (chunk, .error .chunk_start) := by
      unfold read_message_header
      rw [if_neg h1, if_pos h2]
    rw [hr]
    exact ⟨Or.inl rfl, fun h => (by cases h), fun _ h => by cases h⟩
  obtain ⟨f1, f2, -⟩ := fresh_chunk_facts chunk
  by_cases hlen : buffer.length < bh + mh_sizes fmt
  · have hr : read_message_header chunk fmt bh buffer
        = ((if chunk.msg.isNone = true then { chunk with msg := some RssCommonMessage.new }
            else chunk), .error .socket) := by
      unfold read_message_header
      rw [if_neg h1, if_neg h2]
      simp only [hlen, if_true]
    rw [hr]
    exact ⟨Or.inl (congrArg RssMessageHeader.payload_length f2), fun h => (by cases h),
      fun _ h => by cases h⟩
  obtain ⟨p1, p2⟩ := parse_message_header_length
    (if chunk.msg.isNone = true then { chunk with msg := some RssCommonMessage.new } else chunk)
    fmt chunk.msg.isNone (fun i => buffer.getD (bh + i) 0) hfmt
  rw [f2] at p2
  cases hp : parse_message_header
      (if chunk.msg.isNone = true then { chunk with msg := some RssCommonMessage.new }
       else chunk)
      fmt chunk.msg.isNone (fun i => buffer.getD (bh + i) 0) with
  | mk c1 used =>
    rw [hp] at p1 p2
    simp only at p1 p2
    rw [← p1] at f1
    obtain ⟨m1, hm1⟩ := Option.isSome_iff_exists.mp f1
    rw [read_message_header_eq chunk fmt bh buffer c1 used h1 h2 hlen hp]
    generalize int32OfBytes (buffer.getD (bh + used + 3) 0) (buffer.getD (bh + used + 2) 0)
      (buffer.getD (bh + used + 1) 0) (buffer.getD (bh + used) 0) = ts
    by_cases he : c1.extended_timestamp = true
    · rw [if_pos he]
      by_cases hl4 : buffer.length < bh + (mh_sizes fmt + 4)
      · rw [if_pos hl4]
        exact ⟨p2, fun h => (by cases h), fun _ h => by cases h⟩
      · rw [if_neg hl4]
        have e1 := chunk_mk_payload_length c1.fmt c1.cid c1.header.message_type
          c1.header.payload_length c1.header.timestamp_delta c1.header.stream_id ts
          c1.extended_timestamp c1.msg c1.msg_count
        have e2 := chunk_mk_msg c1.fmt c1.cid c1.header.message_type
          c1.header.payload_length c1.header.timestamp_delta c1.header.stream_id ts
          c1.extended_timestamp c1.msg c1.msg_count
        generalize
          ({ fmt := c1.fmt, cid := c1.cid,
             header := { message_type := c1.header.message_type,
                         payload_length := c1.header.payload_length,
                         timestamp_delta := c1.header.timestamp_delta,
                         stream_id := c1.header.stream_id,
                         timestamp := ts },
             extended_timestamp := c1.extended_timestamp, msg := c1.msg,
             msg_count := c1.msg_count } : RssChunkStream) = c2 at e1 e2 ⊢
        obtain ⟨g1, g2, g3⟩ := finish_message_header_facts c2 (mh_sizes fmt + 4)
        rw [g1, e1]
        refine ⟨p2, fun h => ?_, fun mh h => ?_⟩
        · rw [← e1]
          exact g2 h
        · exact g3 mh h m1 (e2.trans hm1)
    · rw [if_neg he]
      obtain ⟨g1, g2, g3⟩ := finish_message_header_facts c1 (mh_sizes fmt)
      rw [g1]
      exact ⟨p2, g2, fun mh h => g3 mh h m1 hm1⟩

end Rss
namespace Rss

/-! ## Chunk decoder: what `read_message_payload` leaves -/

/-- Function `read_message_payload` leaves the header of the chunk stream. -/
theorem read_message_payload_header (c : RssChunkStream) (bh mh : Nat) (n : Int)
    (buffer : List Nat) :
    (read_message_payload c bh mh n buffer).1.header = c.header := by
  unfold read_message_payload
  split
  · rfl
  · split
    · rfl
    · split
      · rfl
      · simp only
        split
        · rfl
        · split
          · rfl
          · split
            · rfl
            · split
              · rfl
              · rfl

/-- A message that `read_message_payload` returns, on a chunk stream whose
message carries the header of the chunk stream: either the header says that
there is no payload, or the message is complete: its size is the
`payload_length` of its header, and its payload array holds at least as many
bytes. -/
theorem read_message_payload_complete (c : RssChunkStream) (bh mh : Nat) (n : Int)
    (buffer : List Nat) (m : RssCommonMessage) (hm : c.msg = some m)
    (hh : m.header = c.header) (sz : Int) (msg : RssCommonMessage)
    (h : (read_message_payload c bh mh n buffer).2.2 = .ok (sz, some msg)) :
    msg.header.payload_length = 0
    ∨ (msg.size = msg.header.payload_length
        ∧ ∃ pl, msg.payload = some pl ∧ msg.size.toNat ≤ pl.length) := by
  unfold read_message_payload at h
  split at h
  · rename_i h0
    simp only at h
    rw [hm] at h
    cases h
    left
    rw [hh]
    exact h0
  · split at h
    · cases h
    · rw [hm] at h
      simp only at h
      split at h
      · cases h
      · split at h
        · cases h
        · split at h
          · cases h
          · rename_i hub
            split at h
            · rename_i heq
              simp only at h
              cases h
              right
              simp only
              refine ⟨?_, _, rfl, ?_⟩
              · rw [hh]
                exact heq.symm
              · rename_i hneg hbuf
                generalize rss_min (c.header.payload_length - m.size) n = ps at hneg hbuf hub heq
                generalize (match m.payload with
                  | none => List.replicate c.header.payload_length.toNat 0
                  | some pl => pl) = P at hub
                have hdata : (List.take ps.toNat (List.drop (bh + mh) buffer)).length
                    = ps.toNat := by
                  rw [List.length_take, List.length_drop]
                  omega
                rw [memcpy_length _ _ _ (by rw [hdata]; omega)]
                omega
            · cases h

end Rss
namespace Rss

/-! ## Chunk decoder: the states it reaches -/

theorem read_basic_header_not_invalid_size (cs : Bool) (buffer : List Nat) :
    is_invalid_size (read_basic_header cs buffer) = false := by
  unfold read_basic_header
  split
  · rfl
  · simp only
    split
    · rfl
    · split
      · split
        · rfl
        · rfl
      · split
        · split
          · rfl
          · rfl
        · rfl

theorem read_message_payload_not_invalid_size (c : RssChunkStream) (bh mh : Nat) (n : Int)
    (buffer : List Nat) :
    is_invalid_size (read_message_payload c bh mh n buffer).2.2 = false := by
  unfold read_message_payload
  split
  · rfl
  · split
    · rfl
    · split
      · rfl
      · simp only
        split
        · rfl
        · split
          · rfl
          · split
            · rfl
            · split
              · rfl
              · rfl

theorem storeChunk_all (f : RssChunkStream → Bool) :
    ∀ (m : List (Int × RssChunkStream)) (cid : Int) (c : RssChunkStream),
      m.all (fun kc => f kc.2) = true → f c = true →
      (storeChunk m cid c).all (fun kc => f kc.2) = true
  | [], cid, c, _, hc => by
    simp only [storeChunk, List.all_cons, List.all_nil, Bool.and_true]
    exact hc
  | (k, c0) :: rest, cid, c, hm, hc => by
    simp only [List.all_cons, Bool.and_eq_true] at hm
    unfold storeChunk
    split
    · simp only [List.all_cons, Bool.and_eq_true]
      exact ⟨hc, hm.2⟩
    · simp only [List.all_cons, Bool.and_eq_true]
      exact ⟨hm.1, storeChunk_all f rest cid c hm.2 hc⟩

theorem findChunk_all (f : RssChunkStream → Bool) :
    ∀ (m : List (Int × RssChunkStream)) (cid : Int) (c : RssChunkStream),
      m.all (fun kc => f kc.2) = true → findChunk m cid = some c → f c = true
  | [], _, _, _, h => by
    simp only [findChunk] at h
    cases h
  | (k, c0) :: rest, cid, c, hm, h => by
    simp only [List.all_cons, Bool.and_eq_true] at hm
    unfold findChunk at h
    split at h
    · cases h
      exact hm.1
    · exact findChunk_all f rest cid c hm.2 h

/-- One chunk read keeps every `payload_length` in the range 0 to `0xFFFFFF`
and does not return the size error. -/
theorem recv_interlaced_message_in_range (cs : Bool) (proto : RssProtocol)
    (h : payload_lengths_in_range proto = true) :
    payload_lengths_in_range (recv_interlaced_message cs proto).1 = true
    ∧ is_invalid_size (recv_interlaced_message cs proto).2 = false := by
  rcases recv_interlaced_message_cases cs proto with
    ⟨e, hbh, hr⟩ | ⟨fmt, cid, bh, chunk0, hbh, hfind, hrest⟩
  · rw [hr]
    have := read_basic_header_not_invalid_size cs proto.buffer
    rw [hbh] at this
    refine ⟨h, ?_⟩
    cases e <;> first | rfl | exact absurd this (by decide)
  · have hfmt := read_basic_header_fmt cs proto.buffer fmt cid bh hbh
    have h0 : decide (0 ≤ chunk0.header.payload_length
        ∧ chunk0.header.payload_length ≤ 0xFFFFFF) = true := by
      cases hf : findChunk proto.chunk_streams cid with
      | none =>
        rw [hf] at hfind
        rw [← hfind]
        exact decide_eq_true ⟨le_refl (0 : Int), show (0 : Int) ≤ 0xFFFFFF by decide⟩
      | some c =>
        rw [hf] at hfind
        rw [← hfind]
        exact findChunk_all
          (fun c => decide (0 ≤ c.header.payload_length ∧ c.header.payload_length ≤ 0xFFFFFF))
          _ _ _ h hf
    rw [decide_eq_true_eq] at h0
    obtain ⟨a1, a2, -⟩ := read_message_header_facts chunk0 fmt bh proto.buffer hfmt
    have hc1 : 0 ≤ (read_message_header chunk0 fmt bh proto.buffer).1.header.payload_length
        ∧ (read_message_header chunk0 fmt bh proto.buffer).1.header.payload_length
          ≤ 0xFFFFFF := by
      rcases a1 with a1 | a1
      · rw [a1]
        exact h0
      · exact a1
    rcases hrest with ⟨c1, e, hmh, hr⟩ | ⟨c1, mh, c2, buf, r, hmh, hpay, hr⟩
    · rw [hmh] at hc1 a2
      rw [hr]
      refine ⟨storeChunk_all
        (fun c => decide (0 ≤ c.header.payload_length ∧ c.header.payload_length ≤ 0xFFFFFF))
        _ _ _ h (decide_eq_true hc1), ?_⟩
      cases e <;> first | rfl | exact absurd (a2 rfl) (not_lt.mpr hc1.1)
    · rw [hmh] at hc1
      have hh := read_message_payload_header c1 bh mh proto.in_chunk_size proto.buffer
      have hn := read_message_payload_not_invalid_size c1 bh mh proto.in_chunk_size proto.buffer
      rw [hpay] at hh hn
      rw [hr]
      refine ⟨storeChunk_all
        (fun c => decide (0 ≤ c.header.payload_length ∧ c.header.payload_length ≤ 0xFFFFFF))
        _ _ _ h (decide_eq_true ?_), ?_⟩
      · show 0 ≤ c2.header.payload_length ∧ c2.header.payload_length ≤ 0xFFFFFF
        have hh2 : c2.header = c1.header := hh
        rw [hh2]
        exact hc1
      · cases r with
        | error e =>
          have hn2 : is_invalid_size (Except.error e : Except RssError Unit) = false := by
            cases e <;> first | rfl | exact hn
          cases e <;> first | rfl | exact absurd hn2 (by decide)
        | ok v => rfl

end Rss
namespace Rss

/-- An error that is not the size error in one result type is not the size
error in another. -/
theorem is_invalid_size_error {α β : Type} (e : RssError)
    (h : is_invalid_size (.error e : Except RssError α) = false) :
    is_invalid_size (.error e : Except RssError β) = false := by
  cases e <;> first | rfl | exact h

theorem read_4bytes_not_invalid_size (s : RssStream) :
    is_invalid_size s.read_4bytes = false := by
  unfold RssStream.read_4bytes
  split <;> rfl

theorem window_ack_decode_not_invalid_size (s : RssStream) :
    is_invalid_size (RssSetWindowAckSizePacket.decode s) = false := by
  have h4 := read_4bytes_not_invalid_size s
  unfold RssSetWindowAckSizePacket.decode
  split
  · rfl
  · cases hr : s.read_4bytes with
    | error e =>
      rw [hr] at h4
      exact is_invalid_size_error e h4
    | ok v => rfl

theorem chunk_size_decode_not_invalid_size (s : RssStream) :
    is_invalid_size (RssSetChunkSizePacket.decode s) = false := by
  have h4 := read_4bytes_not_invalid_size s
  unfold RssSetChunkSizePacket.decode
  split
  · rfl
  · cases hr : s.read_4bytes with
    | error e =>
      rw [hr] at h4
      exact is_invalid_size_error e h4
    | ok v =>
      simp only
      split <;> rfl

theorem initialize_not_invalid_size (bytes : List Nat) :
    is_invalid_size ( RssStream.initialize bytes) = false := by
  unfold RssStream.initialize
  split <;> rfl

theorem decode_packet_not_invalid_size (msg : RssCommonMessage) :
    is_invalid_size msg.decode_packet = false := by
  unfold RssCommonMessage.decode_packet
  split
  · rfl
  · rename_i pl _
    split
    · rfl
    · have hi := initialize_not_invalid_size (List.take msg.size.toNat pl)
      cases hr : RssStream.initialize (List.take msg.size.toNat pl) with
      | error e =>
        rw [hr] at hi
        exact is_invalid_size_error e hi
      | ok stream =>
        simp only
        split
        · have h := window_ack_decode_not_invalid_size stream
          cases hr : RssSetWindowAckSizePacket.decode stream with
          | error e =>
            rw [hr] at h
            exact is_invalid_size_error e h
          | ok v => rfl
        · split
          · have h := chunk_size_decode_not_invalid_size stream
            cases hr : RssSetChunkSizePacket.decode stream with
            | error e =>
              rw [hr] at h
              exact is_invalid_size_error e h
            | ok v => rfl
          · rfl

/-- The receive hook leaves the chunk streams and does not return the size
error. -/
theorem on_recv_message_chunk_streams (proto : RssProtocol) (msg : RssCommonMessage) :
    (on_recv_message proto msg).1.chunk_streams = proto.chunk_streams
    ∧ is_invalid_size (on_recv_message proto msg).2 = false := by
  have hdec := decode_packet_not_invalid_size msg
  unfold on_recv_message
  split
  · cases hd : msg.decode_packet with
    | error e =>
      rw [hd] at hdec
      exact ⟨rfl, is_invalid_size_error e hdec⟩
    | ok pkt =>
      simp only
      split
      · cases pkt <;> exact ⟨rfl, rfl⟩
      · cases pkt <;> exact ⟨rfl, rfl⟩
  · exact ⟨rfl, rfl⟩

/-- One iteration of the receive loop keeps every `payload_length` in the
range 0 to `0xFFFFFF` and does not return the size error. -/
theorem recv_chunk_in_range (cs : Bool) (proto : RssProtocol)
    (h : payload_lengths_in_range proto = true) :
    payload_lengths_in_range (recv_chunk cs proto).1 = true
    ∧ is_invalid_size (recv_chunk cs proto).2 = false := by
  obtain ⟨a1, a2⟩ := recv_interlaced_message_in_range cs proto h
  unfold recv_chunk
  cases hr : recv_interlaced_message cs proto with
  | mk p r =>
    rw [hr] at a1 a2
    cases r with
    | error e =>
      exact ⟨a1, is_invalid_size_error e a2⟩
    | ok o =>
      cases o with
      | none => exact ⟨a1, rfl⟩
      | some msg =>
        simp only
        split
        · exact ⟨a1, rfl⟩
        · obtain ⟨b1, b2⟩ := on_recv_message_chunk_streams p msg
          cases ho : on_recv_message p msg with
          | mk p2 r2 =>
            rw [ho] at b1 b2
            have hp2 : payload_lengths_in_range p2 = true := by
              unfold payload_lengths_in_range
              have b1' : p2.chunk_streams = p.chunk_streams := b1
              rw [b1']
              exact a1
            cases r2 with
            | error e =>
              exact ⟨hp2, is_invalid_size_error e b2⟩
            | ok pkt => exact ⟨hp2, rfl⟩

/-- Every state the receive loop reaches from a new protocol has every
`payload_length` in the range 0 to `0xFFFFFF`. -/
theorem recv_chunks_in_range (cs : Bool) :
    ∀ (n : Nat) (proto : RssProtocol), payload_lengths_in_range proto = true →
      payload_lengths_in_range (recv_chunks cs n proto) = true
  | 0, _, h => h
  | n + 1, proto, h => by
    rw [recv_chunks]
    exact recv_chunks_in_range cs n _ (recv_chunk_in_range cs proto h).1

/-- Function `recv_message` is the repetition of `recv_chunk`. -/
theorem recv_message_eq (cs : Bool) (fuel : Nat) (proto : RssProtocol) :
    recv_message cs (fuel + 1) proto
      = match recv_chunk cs proto with
        | (p, .error e) => some (p, .error e)
        | (p, .ok none) => recv_message cs fuel p
        | (p, .ok (some r)) => some (p, .ok r) := by
  rw [recv_message]
  unfold recv_chunk
  cases hr : recv_interlaced_message cs proto with
  | mk p r =>
    cases r with
    | error e => rfl
    | ok o =>
      cases o with
      | none => rfl
      | some msg =>
        simp only
        split
        · rfl
        · cases ho : on_recv_message p msg with
          | mk p2 r2 =>
            cases r2 with
            | error e => rfl
            | ok pkt => rfl

/-- Function `recv_message`, started in a state with every `payload_length`
in range, does not return the size error. -/
theorem recv_message_not_invalid_size (cs : Bool) :
    ∀ (fuel : Nat) (proto : RssProtocol), payload_lengths_in_range proto = true →
      ((recv_message cs fuel proto).map (fun r => is_invalid_size r.2)).getD false = false
  | 0, _, _ => by rw [recv_message]; rfl
  | fuel + 1, proto, h => by
    obtain ⟨a1, a2⟩ := recv_chunk_in_range cs proto h
    rw [recv_message_eq]
    cases hr : recv_chunk cs proto with
    | mk p r =>
      rw [hr] at a1 a2
      cases r with
      | error e =>
        exact is_invalid_size_error e a2
      | ok o =>
        cases o with
        | none => exact recv_message_not_invalid_size cs fuel p a1
        | some v => rfl

/-- C38: in every state that the receive loop reaches from a new protocol on
any input bytes (`n` iterations, whatever their results), every chunk stream
holds a `payload_length` from 0 to `0xFFFFFF`: the call `read_message_header`
sets the field from three bytes or keeps it. So the check for a negative size
never fires: neither the next chunk read nor `recv_message` returns the size
error. -/
theorem payload_length_in_range (cs : Bool) (input : List Nat) (n fuel : Nat) :
    payload_lengths_in_range (recv_chunks cs n (RssProtocol.new input)) = true
    ∧ is_invalid_size
        (recv_interlaced_message cs (recv_chunks cs n (RssProtocol.new input))).2 = false
    ∧ is_invalid_size (recv_chunk cs (recv_chunks cs n (RssProtocol.new input))).2 = false
    ∧ ((recv_message cs fuel (recv_chunks cs n (RssProtocol.new input))).map
        (fun r => is_invalid_size r.2)).getD false = false := by
  have h := recv_chunks_in_range cs n (RssProtocol.new input) rfl
  exact ⟨h, (recv_interlaced_message_in_range cs _ h).2, (recv_chunk_in_range cs _ h).2,
    recv_message_not_invalid_size cs fuel _ h⟩

end Rss
namespace Rss

/-- A message that one chunk read returns: either its header says that it has
no payload, or it is complete: its size is the `payload_length` of its header
and its payload array holds at least as many bytes. -/
theorem recv_interlaced_message_complete (cs : Bool) (proto : RssProtocol)
    (msg : RssCommonMessage)
    (h : (recv_interlaced_message cs proto).2 = .ok (some msg)) :
    msg.header.payload_length = 0
    ∨ (msg.size = msg.header.payload_length
        ∧ ∃ pl, msg.payload = some pl ∧ msg.size.toNat ≤ pl.length) := by
  rcases recv_interlaced_message_cases cs proto with
    ⟨e, _, hr⟩ | ⟨fmt, cid, bh, chunk0, hbh, _, hrest⟩
  · rw [hr] at h
    cases h
  · have hfmt := read_basic_header_fmt cs proto.buffer fmt cid bh hbh
    obtain ⟨-, -, a3⟩ := read_message_header_facts chunk0 fmt bh proto.buffer hfmt
    rcases hrest with ⟨c1, e, _, hr⟩ | ⟨c1, mh, c2, buf, r, hmh, hpay, hr⟩
    · rw [hr] at h
      cases h
    · rw [hmh] at a3
      obtain ⟨m, hm, hh⟩ := a3 mh rfl
      rw [hr] at h
      cases r with
      | error e => cases h
      | ok v =>
        obtain ⟨sz, pmsg⟩ := v
        simp only at h
        cases h
        exact read_message_payload_complete c1 bh mh proto.in_chunk_size proto.buffer m hm hh sz
          msg (by rw [hpay])

/-- C37: a message that `recv_message` returns with success has a size above 0
that is the `payload_length` of its header, and a payload array of at least as
many bytes. A complete message whose header has the `payload_length` 0 is
dropped in the loop and not returned. -/
theorem recv_message_complete (cs : Bool) :
    ∀ (fuel : Nat) (proto p : RssProtocol) (msg : RssCommonMessage) (pkt : Option RssPacket),
      recv_message cs fuel proto = some (p, .ok (msg, pkt)) →
      0 < msg.size ∧ msg.size = msg.header.payload_length ∧ 0 < msg.header.payload_length
        ∧ ∃ pl, msg.payload = some pl ∧ msg.size.toNat ≤ pl.length
  | 0, _, _, _, _, h => by
    rw [recv_message] at h
    cases h
  | fuel + 1, proto, p, msg, pkt, h => by
    rw [recv_message] at h
    have hc := recv_interlaced_message_complete cs proto
    cases hr : recv_interlaced_message cs proto with
    | mk p1 r =>
      rw [hr] at h hc
      cases r with
      | error e => cases h
      | ok o =>
        cases o with
        | none => exact recv_message_complete cs fuel p1 p msg pkt h
        | some m =>
          simp only at h
          split at h
          · exact recv_message_complete cs fuel p1 p msg pkt h
          · rename_i hpos
            cases ho : on_recv_message p1 m with
            | mk p2 r2 =>
              rw [ho] at h
              cases r2 with
              | error e => cases h
              | ok pk =>
                simp only [Option.some.injEq, Prod.mk.injEq, Except.ok.injEq] at h
                obtain ⟨-, hm, -⟩ := h
                subst hm
                rw [not_or, not_le, not_le] at hpos
                rcases hc m rfl with h0 | ⟨h1, h2⟩
                · omega
                · exact ⟨hpos.1, h1, hpos.2, h2⟩

/-- C37, witness: a message without payload on chunk stream 3, then the
Set-Chunk-Size message on chunk stream 2: `recv_message` drops the first and
returns the second, whose size 4 is the `payload_length` of its header. -/
theorem recv_message_complete_witness :
    recv_message false 2 (RssProtocol.new example_empty_then_chunk_size)
      = some (recv_chunks false 2 (RssProtocol.new example_empty_then_chunk_size),
          .ok (set_chunk_size_message 0x00 0x00 0x10 0x00 [], some (.SetChunkSize 4096)))
    ∧ (recv_interlaced_message false (RssProtocol.new example_empty_then_chunk_size)).2
      = .ok (some { header := { message_type := 8, payload_length := 0, timestamp_delta := 0,
                                stream_id := 1, timestamp := 0 },
                    size := 0, payload := none })
    ∧ (0 : Int) < (set_chunk_size_message 0x00 0x00 0x10 0x00 []).size
    ∧ (set_chunk_size_message 0x00 0x00 0x10 0x00 []).size
      = (set_chunk_size_message 0x00 0x00 0x10 0x00 []).header.payload_length :=
  have h := recv_message_complete false 2 (RssProtocol.new example_empty_then_chunk_size)
    (recv_chunks false 2 (RssProtocol.new example_empty_then_chunk_size))
    (set_chunk_size_message 0x00 0x00 0x10 0x00 []) (some (.SetChunkSize 4096)) rfl
  ⟨rfl, rfl, h.1, h.2.1⟩

set_option maxRecDepth 20000 in
/-- C35: a format-0 chunk starts a message of 300 bytes on chunk stream 3 and
brings 128 of them; the payload array has 300 bytes. A format-1 chunk on the
same chunk stream passes the header checks and sets `payload_length` to 100:
now 128 bytes are received of a message of 100, the payload size computed for
the chunk is 100 - 128 = -28, and the copy leaves defined behaviour. With the
length 1000 instead, the format-1 chunk is copied to the bytes 128 to 255 of
the array of 300 bytes, 256 bytes are received, and the next chunk is copied
to the bytes 256 to 383: outside the array. -/
theorem payload_length_changes_in_message :
    (recv_chunk false (RssProtocol.new (example_length_change 0x00 0x00 0x64))).2 = .ok none
    ∧ chunk_summary (recv_chunks false 1 (RssProtocol.new (example_length_change 0x00 0x00 0x64)))
        = [(3, 300, some (128, some 300))]
    ∧ (recv_chunk false
        (recv_chunks false 1 (RssProtocol.new (example_length_change 0x00 0x00 0x64)))).2
        = .error .undefined_behavior
    ∧ chunk_summary (recv_chunks false 2 (RssProtocol.new (example_length_change 0x00 0x00 0x64)))
        = [(3, 100, some (128, some 300))]
    ∧ rss_min (100 - 128) 128 = -28
    ∧ (recv_chunk false
        (recv_chunks false 1 (RssProtocol.new (example_length_change 0x00 0x03 0xE8)))).2
        = .ok none
    ∧ chunk_summary (recv_chunks false 2 (RssProtocol.new (example_length_change 0x00 0x03 0xE8)))
        = [(3, 1000, some (256, some 300))]
    ∧ (recv_chunk false
        (recv_chunks false 2 (RssProtocol.new (example_length_change 0x00 0x03 0xE8)))).2
        = .error .undefined_behavior :=
  ⟨rfl, rfl, rfl, rfl, rfl, rfl, rfl, rfl⟩

end Rss
namespace Rss

/-! ## Packets the server sends: `encode` fills the buffer of `get_size` bytes -/

theorem write_any_string (v : List Nat) (s : RssStream) :
    rss_amf0_write_any (.String v) s = rss_amf0_write_string s v := by
  rw [rss_amf0_write_any]

theorem write_any_number (v : Int) (s : RssStream) :
    rss_amf0_write_any (.Number v) s = rss_amf0_write_number s v := by
  rw [rss_amf0_write_any]

theorem write_any_boolean (v : Bool) (s : RssStream) :
    rss_amf0_write_any (.Boolean v) s = rss_amf0_write_boolean s v := by
  rw [rss_amf0_write_any]

theorem write_any_null (s : RssStream) :
    rss_amf0_write_any .Null s = rss_amf0_write_null s := by
  rw [rss_amf0_write_any]

theorem write_any_undefined (s : RssStream) :
    rss_amf0_write_any .Undefined s = rss_amf0_write_undefined s := by
  rw [rss_amf0_write_any]

theorem write_any_object (props : List (List Nat × RssAmf0Any)) (s : RssStream) :
    rss_amf0_write_any (.Object props) s = rss_amf0_write_object props s := by
  rw [rss_amf0_write_any]

theorem any_size_boolean (v : Bool) :
    rss_amf0_get_any_size (.Boolean v) = 0 + rss_amf0_get_boolean_size := by
  rw [rss_amf0_get_any_size]

/-- Values written one after the other into a stream with room for them are
stored as their byte sequences. -/
theorem write_all_eq : ∀ (vs : List RssAmf0Any) (s : RssStream),
    s.p + (all_bytes vs).length ≤ s.bytes.length →
    write_all vs s = .ok (s.put (all_bytes vs))
  | [], s, _ => by
    rw [write_all, all_bytes, RssStream.put_nil]
  | [v], s, h => by
    rw [all_bytes, all_bytes, List.append_nil] at h ⊢
    rw [write_all]
    exact rss_amf0_write_any_eq v s h
  | v :: w :: rest, s, h => by
    have e : all_bytes (v :: w :: rest) = amf0_bytes v ++ all_bytes (w :: rest) := by
      rw [all_bytes]
    rw [e] at h ⊢
    rw [List.length_append] at h
    rw [write_all, rss_amf0_write_any_eq v s (by omega)]
    · simp only
      rw [write_all_eq (w :: rest) (s.put (amf0_bytes v))
        (by rw [RssStream.put_p, RssStream.put_length _ _ (by omega)]; omega),
        RssStream.put_put _ _ _ (by omega)]
    · intro hne
      cases hne

/-- A fresh buffer of the size of the bytes, filled with them. -/
theorem alloc_put_bytes (l : List Nat) :
    (RssStream.alloc (l.length : Int)).put l = { bytes := l, p := l.length } := by
  unfold RssStream.alloc RssStream.put memcpy
  simp

/-- The encoding of a packet whose `encode_packet` writes the values `vs` and
whose `get_size` is the number of their bytes. -/
theorem encode_of_values (pkt : RssSendPacket) (vs : List RssAmf0Any)
    (hv : ∀ s, pkt.encode_packet s = write_all vs s)
    (hsz : pkt.get_size = ((all_bytes vs).length : Int)) (hpos : 0 < pkt.get_size) :
    pkt.encode_packet (RssStream.alloc pkt.get_size)
        = .ok { bytes := all_bytes vs, p := (all_bytes vs).length }
    ∧ pkt.encode = .ok (pkt.get_size, some (all_bytes vs)) := by
  have h1 : pkt.encode_packet (RssStream.alloc pkt.get_size)
      = .ok { bytes := all_bytes vs, p := (all_bytes vs).length } := by
    rw [hv, hsz, write_all_eq _ _ (by
      unfold RssStream.alloc
      simp), alloc_put_bytes]
  refine ⟨h1, ?_⟩
  unfold RssSendPacket.encode
  simp only [gt_iff_lt, hpos, if_true]
  rw [h1]

end Rss
namespace Rss

/-- The number of bytes of a list of values is the sum of their sizes. -/
theorem all_bytes_length : ∀ (vs : List RssAmf0Any),
    ((all_bytes vs).length : Int) = (vs.map rss_amf0_get_any_size).sum
  | [] => by simp [all_bytes]
  | v :: rest => by
    rw [all_bytes, List.length_append, Nat.cast_add, amf0_bytes_length, all_bytes_length rest,
      List.map_cons, List.sum_cons]

theorem string_size_pos (v : List Nat) : 0 < rss_amf0_get_string_size v := by
  unfold rss_amf0_get_string_size rss_amf0_get_utf8_size
  omega

theorem object_size_pos (props : List (List Nat × RssAmf0Any)) :
    0 < rss_amf0_get_object_size props := by
  have h := amf0_bytes_length (.Object props)
  rw [any_size_object] at h
  have hp := amf0_bytes_length_pos (.Object props)
  omega

/-- Each packet class with AMF0 values writes the values of `packet_values`,
and its `get_size` is the sum of their sizes. -/
theorem packet_values_spec (pkt : RssSendPacket) (hv : packet_values pkt ≠ []) :
    (∀ s, pkt.encode_packet s = write_all (packet_values pkt) s)
    ∧ pkt.get_size = ((all_bytes (packet_values pkt)).length : Int)
    ∧ 0 < pkt.get_size := by
  have hn : (0 : Int) < rss_amf0_get_number_size := by decide
  have hnull : (0 : Int) < rss_amf0_get_null_size := by decide
  have hu : (0 : Int) < rss_amf0_get_undefined_size := by decide
  have hb : (0 : Int) < rss_amf0_get_boolean_size := by decide
  cases pkt with
  | OnStatusCall p =>
    have h1 := string_size_pos p.command_name
    have h2 := object_size_pos p.data
    refine ⟨fun s => ?_, ?_, ?_⟩
    · simp only [RssSendPacket.encode_packet, RssOnStatusCallPacket.encode_packet,
        packet_values, write_all, write_any_string, write_any_number, write_any_null,
        write_any_object]
    · rw [all_bytes_length]
      simp only [RssSendPacket.get_size, RssOnStatusCallPacket.get_size, packet_values,
        List.map, List.sum_cons, List.sum_nil, any_size_string, any_size_number, any_size_null,
        any_size_object]
      omega
    · simp only [RssSendPacket.get_size, RssOnStatusCallPacket.get_size]
      omega
  | FMLEStartRes p =>
    have h1 := string_size_pos p.command_name
    refine ⟨fun s => ?_, ?_, ?_⟩
    · simp only [RssSendPacket.encode_packet, RssFMLEStartResPacket.encode_packet,
        packet_values, write_all, write_any_string, write_any_number, write_any_null,
        write_any_undefined]
    · rw [all_bytes_length]
      simp only [RssSendPacket.get_size, RssFMLEStartResPacket.get_size, packet_values,
        List.map, List.sum_cons, List.sum_nil, any_size_string, any_size_number, any_size_null,
        any_size_undefined]
      omega
    · simp only [RssSendPacket.get_size, RssFMLEStartResPacket.get_size]
      omega
  | ConnectAppRes p =>
    have h1 := string_size_pos p.command_name
    have h2 := object_size_pos p.props
    have h3 := object_size_pos p.info
    refine ⟨fun s => ?_, ?_, ?_⟩
    · simp only [RssSendPacket.encode_packet, RssConnectAppResPacket.encode_packet,
        packet_values, write_all, write_any_string, write_any_number, write_any_object]
    · rw [all_bytes_length]
      simp only [RssSendPacket.get_size, RssConnectAppResPacket.get_size, packet_values,
        List.map, List.sum_cons, List.sum_nil, any_size_string, any_size_number,
        any_size_object]
      omega
    · simp only [RssSendPacket.get_size, RssConnectAppResPacket.get_size]
      omega
  | CreateStreamRes p =>
    have h1 := string_size_pos p.command_name
    refine ⟨fun s => ?_, ?_, ?_⟩
    · simp only [RssSendPacket.encode_packet, RssCreateStreamResPacket.encode_packet,
        packet_values, write_all, write_any_string, write_any_number, write_any_null]
    · rw [all_bytes_length]
      simp only [RssSendPacket.get_size, RssCreateStreamResPacket.get_size, packet_values,
        List.map, List.sum_cons, List.sum_nil, any_size_string, any_size_number, any_size_null]
      omega
    · simp only [RssSendPacket.get_size, RssCreateStreamResPacket.get_size]
      omega
  | PlayRes p =>
    have h1 := string_size_pos p.command_name
    have h2 := object_size_pos p.desc
    refine ⟨fun s => ?_, ?_, ?_⟩
    · simp only [RssSendPacket.encode_packet, RssPlayResPacket.encode_packet,
        packet_values, write_all, write_any_string, write_any_number, write_any_null,
        write_any_object]
    · rw [all_bytes_length]
      simp only [RssSendPacket.get_size, RssPlayResPacket.get_size, packet_values,
        List.map, List.sum_cons, List.sum_nil, any_size_string, any_size_number, any_size_null,
        any_size_object]
      omega
    · simp only [RssSendPacket.get_size, RssPlayResPacket.get_size]
      omega
  | OnBWDone p =>
    have h1 := string_size_pos p.command_name
    refine ⟨fun s => ?_, ?_, ?_⟩
    · simp only [RssSendPacket.encode_packet, RssOnBWDonePacket.encode_packet,
        packet_values, write_all, write_any_string, write_any_number, write_any_null]
    · rw [all_bytes_length]
      simp only [RssSendPacket.get_size, RssOnBWDonePacket.get_size, packet_values,
        List.map, List.sum_cons, List.sum_nil, any_size_string, any_size_number, any_size_null]
      omega
    · simp only [RssSendPacket.get_size, RssOnBWDonePacket.get_size]
      omega
  | OnStatusData p =>
    have h1 := string_size_pos p.command_name
    have h2 := object_size_pos p.data
    refine ⟨fun s => ?_, ?_, ?_⟩
    · simp only [RssSendPacket.encode_packet, RssOnStatusDataPacket.encode_packet,
        packet_values, write_all, write_any_string, write_any_object]
    · rw [all_bytes_length]
      simp only [RssSendPacket.get_size, RssOnStatusDataPacket.get_size, packet_values,
        List.map, List.sum_cons, List.sum_nil, any_size_string, any_size_object]
      omega
    · simp only [RssSendPacket.get_size, RssOnStatusDataPacket.get_size]
      omega
  | SampleAccess p =>
    have h1 := string_size_pos p.command_name
    refine ⟨fun s => ?_, ?_, ?_⟩
    · simp only [RssSendPacket.encode_packet, RssSampleAccessPacket.encode_packet,
        packet_values, write_all, write_any_string, write_any_boolean]
    · rw [all_bytes_length]
      simp only [RssSendPacket.get_size, RssSampleAccessPacket.get_size, packet_values,
        List.map, List.sum_cons, List.sum_nil, any_size_string, any_size_boolean]
      omega
    · simp only [RssSendPacket.get_size, RssSampleAccessPacket.get_size]
      omega
  | OnMetaData p =>
    have h1 := string_size_pos p.name
    have h2 := object_size_pos p.metadata
    refine ⟨fun s => ?_, ?_, ?_⟩
    · simp only [RssSendPacket.encode_packet, RssOnMetaDataPacket.encode_packet,
        packet_values, write_all, write_any_string, write_any_object]
    · rw [all_bytes_length]
      simp only [RssSendPacket.get_size, RssOnMetaDataPacket.get_size, packet_values,
        List.map, List.sum_cons, List.sum_nil, any_size_string, any_size_object]
      omega
    · simp only [RssSendPacket.get_size, RssOnMetaDataPacket.get_size]
      omega
  | SetChunkSize c => exact absurd rfl hv
  | SetWindowAckSize c => exact absurd rfl hv
  | SetPeerBandwidth b t => exact absurd rfl hv
  | PCUC4Bytes t d => exact absurd rfl hv

/-- The payload of a packet with AMF0 values. -/
theorem packet_payload_values (pkt : RssSendPacket) (hv : packet_values pkt ≠ []) :
    packet_payload pkt = all_bytes (packet_values pkt) := by
  cases pkt <;> first | rfl | exact absurd rfl hv

/-- The encoding of every packet: `get_size` is positive and is the number of
bytes of the payload, `encode_packet` stores the payload in a fresh buffer of
`get_size` bytes and ends at the end of the buffer, and `encode` returns the
size and the payload. -/
theorem packet_encode (pkt : RssSendPacket) :
    0 < pkt.get_size
    ∧ ((packet_payload pkt).length : Int) = pkt.get_size
    ∧ pkt.encode_packet (RssStream.alloc pkt.get_size)
        = .ok { bytes := packet_payload pkt, p := (packet_payload pkt).length }
    ∧ pkt.encode = .ok (pkt.get_size, some (packet_payload pkt)) := by
  by_cases hv : packet_values pkt = []
  · cases pkt with
    | SetChunkSize c => exact ⟨(by decide : (0 : Int) < 4), rfl, rfl, rfl⟩
    | SetWindowAckSize c => exact ⟨(by decide : (0 : Int) < 4), rfl, rfl, rfl⟩
    | SetPeerBandwidth b t => exact ⟨(by decide : (0 : Int) < 5), rfl, rfl, rfl⟩
    | PCUC4Bytes t d => exact ⟨(by decide : (0 : Int) < 2 + 4), rfl, rfl, rfl⟩
    | _ => cases hv
  · obtain ⟨h1, h2, h3⟩ := packet_values_spec pkt hv
    obtain ⟨h4, h5⟩ := encode_of_values pkt _ h1 h2 h3
    rw [packet_payload_values pkt hv]
    exact ⟨h3, h2.symm, h4, h5⟩

/-- Claim C40: for every packet of the catalog whose `get_size` fits an `int`,
with any field values, `get_size` is positive, `encode_packet` succeeds in a
fresh buffer of exactly `get_size` bytes, stores the payload of the packet in
it and leaves the stream at its end, `encode` returns that size and that
payload, and the `payload_length` that `set_packet` puts in the header is the
number of payload bytes. -/
theorem packet_encode_exact (pkt : RssSendPacket) (_hsize : pkt.get_size < 2147483648) :
    0 < pkt.get_size
    ∧ (RssStream.alloc pkt.get_size).bytes.length = pkt.get_size.toNat
    ∧ (∃ s, pkt.encode_packet (RssStream.alloc pkt.get_size) = .ok s
        ∧ s.bytes = packet_payload pkt
        ∧ s.bytes.length = (RssStream.alloc pkt.get_size).bytes.length
        ∧ s.p = s.bytes.length ∧ s.empty = true ∧ s.require 1 = false)
    ∧ pkt.encode = .ok (pkt.get_size, some (packet_payload pkt))
    ∧ ∀ stream_id : Int,
        (set_packet_header pkt stream_id).payload_length = ((packet_payload pkt).length : Int)
        ∧ (set_packet_header pkt stream_id).stream_id = stream_id
        ∧ (set_packet_header pkt stream_id).message_type = pkt.get_message_type := by
  obtain ⟨h1, h2, h3, h4⟩ := packet_encode pkt
  have hlen : (RssStream.alloc pkt.get_size).bytes.length = pkt.get_size.toNat := by
    unfold RssStream.alloc
    simp
  refine ⟨h1, hlen, ⟨_, h3, rfl, ?_, rfl, ?_, ?_⟩, h4, fun stream_id => ⟨h2.symm, rfl, rfl⟩⟩
  · rw [hlen]
    show (packet_payload pkt).length = pkt.get_size.toNat
    omega
  · unfold RssStream.empty
    simp
  · unfold RssStream.require RssStream.empty
    simp

theorem packet_encode_exact_witness :
    (RssSendPacket.PCUC4Bytes 0 1).get_size < 2147483648
    ∧ (RssSendPacket.PCUC4Bytes 0 1).encode = .ok (6, some [0, 0, 0, 0, 0, 1])
    ∧ (RssSendPacket.SampleAccess RssSampleAccessPacket.new).encode
        = .ok (24, some (packet_payload (.SampleAccess RssSampleAccessPacket.new))) :=
  ⟨by decide, (packet_encode_exact (.PCUC4Bytes 0 1) (by decide)).2.2.2.1,
    (packet_encode_exact (.SampleAccess RssSampleAccessPacket.new) (by decide)).2.2.2.1⟩

end Rss
namespace Rss

/-! ## Sending packets, and `start_play` -/

/-- A packet that is no Set-Chunk-Size packet is sent as the message
`sent_packet`, and the protocol state stays. -/
theorem send_packet_eq (fuel : Nat) (proto : RssProtocol) (pkt : RssSendPacket)
    (stream_id : Int) (n : Nat)
    (ht : pkt.get_message_type ≠ RTMP_MSG_SetChunkSize)
    (hn : proto.out_chunk_size = (n : Int)) (hn1 : 1 ≤ n)
    (hf : pkt.get_size + 1 ≤ (fuel : Int)) :
    send_packet fuel proto pkt stream_id = some (proto, .ok (sent_packet pkt stream_id n)) := by
  obtain ⟨hpos, hlen, _, henc⟩ := packet_encode pkt
  have hl : 0 < (packet_payload pkt).length := by omega
  have hdiv : ((packet_payload pkt).length - 0 + n - 1) / n ≤ fuel := by
    have h1 : ((packet_payload pkt).length - 0 + n - 1) / n
        ≤ ((packet_payload pkt).length + n) / n := Nat.div_le_div_right (by omega)
    rw [Nat.add_div_right _ (by omega)] at h1
    have h2 : (packet_payload pkt).length / n ≤ (packet_payload pkt).length :=
      Nat.div_le_self _ _
    omega
  have hsend := send_loop_eq
    { header := { message_type := pkt.get_message_type,
                  payload_length := ((packet_payload pkt).length : Int), timestamp_delta := 0,
                  stream_id := stream_id, timestamp := 0 },
      size := ((packet_payload pkt).length : Int), payload := some (packet_payload pkt),
      perfer_cid := pkt.get_perfer_cid }
    (packet_payload pkt) n rfl rfl hn1 fuel 0 hl hdiv
  rw [Nat.cast_zero] at hsend
  unfold send_packet
  rw [henc]
  simp only []
  unfold send_message
  rw [hn, ← hlen]
  rw [show RssMessageHeader.new.timestamp_delta = 0 from rfl,
    show RssMessageHeader.new.timestamp = 0 from rfl, hsend]
  unfold on_send_message
  simp only [Bool.not_true, Bool.false_eq_true, if_false, if_neg ht]
  rfl

/-- Packets that are no Set-Chunk-Size packets are sent one after the other,
each as the message `sent_packet`. -/
theorem send_packets_eq (fuel : Nat) (proto : RssProtocol) (n : Nat)
    (hn : proto.out_chunk_size = (n : Int)) (hn1 : 1 ≤ n) :
    ∀ (l : List (RssSendPacket × Int)),
      (∀ x ∈ l, x.1.get_message_type ≠ RTMP_MSG_SetChunkSize ∧ x.1.get_size + 1 ≤ (fuel : Int)) →
      send_packets fuel proto l
        = some (proto, l.map (fun x => sent_packet x.1 x.2 n), .ok ())
  | [], _ => rfl
  | (pkt, stream_id) :: rest, h => by
    have h0 := h (pkt, stream_id) (List.mem_cons_self _ _)
    have ih := send_packets_eq fuel proto n hn hn1 rest
      (fun x hx => h x (List.mem_cons_of_mem _ hx))
    rw [send_packets, send_packet_eq fuel proto pkt stream_id n h0.1 hn hn1 h0.2]
    simp only [ih, List.map_cons]

end Rss
namespace Rss

theorem start_play_sizes (stream_id : Int) :
    (RssSendPacket.PCUC4Bytes SrcPCUCStreamBegin stream_id).get_size = 6
    ∧ (RssSendPacket.OnStatusCall play_on_status_reset).get_size = 154
    ∧ (RssSendPacket.OnStatusCall play_on_status_start).get_size = 148
    ∧ (RssSendPacket.SampleAccess RssSampleAccessPacket.new).get_size = 24
    ∧ (RssSendPacket.OnStatusData play_on_status_data).get_size = 44 :=
  ⟨rfl, by decide, by decide, by decide, by decide⟩

/-- Function `start_play` with enough fuel and a chunk size of at least 1: the
five messages of `start_play_messages` are sent, the protocol state stays and
the result is success. -/
theorem start_play_ok (fuel : Nat) (proto : RssProtocol) (stream_id : Int) (n : Nat)
    (hf : 155 ≤ fuel) (hn : proto.out_chunk_size = (n : Int)) (hn1 : 1 ≤ n) :
    RssRtmp.start_play fuel proto stream_id
      = some (proto, start_play_messages stream_id n, .ok ()) := by
  obtain ⟨e1, e2, e3, e4, e5⟩ := start_play_sizes stream_id
  have key := send_packets_eq fuel proto n hn hn1
    [(.PCUC4Bytes SrcPCUCStreamBegin stream_id, 0),
     (.OnStatusCall play_on_status_reset, stream_id),
     (.OnStatusCall play_on_status_start, stream_id),
     (.SampleAccess RssSampleAccessPacket.new, stream_id),
     (.OnStatusData play_on_status_data, stream_id)]
    (by
      intro x hx
      simp only [List.mem_cons, List.mem_singleton, List.mem_nil_iff, or_false] at hx
      rcases hx with rfl | rfl | rfl | rfl | rfl
      · exact ⟨fun h => (by cases h), by rw [e1]; omega⟩
      · exact ⟨fun h => (by cases h), by rw [e2]; omega⟩
      · exact ⟨fun h => (by cases h), by rw [e3]; omega⟩
      · exact ⟨fun h => (by cases h), by rw [e4]; omega⟩
      · exact ⟨fun h => (by cases h), by rw [e5]; omega⟩)
  simp only [List.map] at key
  unfold RssRtmp.start_play start_play_messages
  exact key

/-- Claim C31, as the code has it: for every `stream_id`, with enough fuel and
a chunk size of at least 1, `start_play(stream_id)` succeeds and sends exactly
five messages in this order: user control StreamBegin with `stream_id` as
event data, `onStatus` with the code `NetStream.Play.Reset`, `onStatus` with
the code `NetStream.Play.Start`, `|RtmpSampleAccess(false, false)`, the
`onStatus` data message with the code `NetStream.Data.Start`. The last four
carry `stream_id` in the header; the user control message carries the stream
id 0 in the header. -/
theorem start_play_sequence (fuel : Nat) (proto : RssProtocol) (stream_id : Int) (n : Nat)
    (hf : 155 ≤ fuel) (hn : proto.out_chunk_size = (n : Int)) (hn1 : 1 ≤ n) :
    RssRtmp.start_play fuel proto stream_id
      = some (proto, start_play_messages stream_id n, .ok ())
    ∧ (start_play_messages stream_id n).length = 5
    ∧ (start_play_messages stream_id n).map (fun m => m.header.message_type)
        = [RTMP_MSG_UserControlMessage, RTMP_MSG_AMF0CommandMessage,
           RTMP_MSG_AMF0CommandMessage, RTMP_MSG_AMF0DataMessage, RTMP_MSG_AMF0DataMessage]
    ∧ (start_play_messages stream_id n).map (fun m => m.header.stream_id)
        = [0, stream_id, stream_id, stream_id, stream_id]
    ∧ (start_play_messages stream_id n).map (fun m => m.header.payload_length)
        = [6, 154, 148, 24, 44]
    ∧ ((start_play_messages stream_id n).head?).map (fun m => m.payload)
        = some (some [0, 0, byte3 stream_id, byte2 stream_id, byte1 stream_id,
                      byte0 stream_id])
    ∧ RssUnSortedHashtable.get_property play_on_status_reset.data StatusCode
        = some (.String StatusCodeStreamReset)
    ∧ RssUnSortedHashtable.get_property play_on_status_start.data StatusCode
        = some (.String StatusCodeStreamStart)
    ∧ RssUnSortedHashtable.get_property play_on_status_data.data StatusCode
        = some (.String StatusCodeDataStart)
    ∧ (RssSampleAccessPacket.new.video_sample_access = false
        ∧ RssSampleAccessPacket.new.audio_sample_access = false) := by
  obtain ⟨e1, e2, e3, e4, e5⟩ := start_play_sizes stream_id
  have l1 := (packet_encode (.PCUC4Bytes SrcPCUCStreamBegin stream_id)).2.1
  have l2 := (packet_encode (.OnStatusCall play_on_status_reset)).2.1
  have l3 := (packet_encode (.OnStatusCall play_on_status_start)).2.1
  have l4 := (packet_encode (.SampleAccess RssSampleAccessPacket.new)).2.1
  have l5 := (packet_encode (.OnStatusData play_on_status_data)).2.1
  rw [e1] at l1
  rw [e2] at l2
  rw [e3] at l3
  rw [e4] at l4
  rw [e5] at l5
  refine ⟨start_play_ok fuel proto stream_id n hf hn hn1, rfl, rfl, rfl, ?_, rfl, rfl, rfl, rfl,
    rfl, rfl⟩
  unfold start_play_messages sent_packet
  simp only [List.map, l1, l2, l3, l4, l5]

theorem start_play_sequence_witness :
    (155 ≤ 155 ∧ (RssProtocol.new []).out_chunk_size = ((128 : Nat) : Int) ∧ 1 ≤ 128)
    ∧ RssRtmp.start_play 155 (RssProtocol.new []) 7
        = some (RssProtocol.new [], start_play_messages 7 128, .ok ())
    ∧ (start_play_messages 7 128).map (fun m => m.header.stream_id) = [0, 7, 7, 7, 7] :=
  have h := start_play_sequence 155 (RssProtocol.new []) 7 128 (by decide) rfl (by decide)
  ⟨⟨by decide, rfl, by decide⟩, h.1, h.2.2.2.1⟩

/-- C31, counterexample: `start_play(1)` on a new protocol context sends five
messages, and the first of them, the user control message, has the stream id 0
in its header, not 1: the five messages are not the five of the specification,
which all carry the stream id 1. -/
theorem start_play_stream_begin_stream_id :
    RssRtmp.start_play 155 (RssProtocol.new []) 1
      = some (RssProtocol.new [], start_play_messages 1 128, .ok ())
    ∧ (start_play_messages 1 128).map (fun m => m.header.stream_id) = [0, 1, 1, 1, 1]
    ∧ (start_play_messages_spec 1 128).map (fun m => m.header.stream_id) = [1, 1, 1, 1, 1]
    ∧ ¬ (∀ m ∈ start_play_messages 1 128, m.header.stream_id = 1) := by
  refine ⟨start_play_ok 155 (RssProtocol.new []) 1 128 (by decide) rfl (by decide), rfl, rfl, ?_⟩
  intro h
  have h1 := h (sent_packet (.PCUC4Bytes SrcPCUCStreamBegin 1) 0 128)
    (List.mem_cons_self _ _)
  exact absurd h1 (by decide)

end Rss
namespace Rss

/-! ## `identify_client` -/

end Rss
namespace Rss

end Rss
namespace Rss

end Rss
namespace Rss

/-! ## The pointer `p` of `read_message_header` -/

/-- Function `ensure_buffer_bytes` on a buffer that holds the bytes required
returns at once. -/
theorem ensure_buffer_bytes_present (data : List Nat) (reads : List StRead) (n : Nat)
    (hn : n ≤ data.length) (hsz : data.length < 2147483648) :
    RssBuffer.ensure_buffer_bytes data reads (n : Int) = some (data, .ok (), reads) := by
  have ht : toInt32 (data.length : Int) = (data.length : Int) := by
    unfold toInt32
    omega
  unfold RssBuffer.ensure_buffer_bytes
  rw [if_neg (by omega)]
  cases reads with
  | nil =>
    unfold RssBuffer.ensure_loop
    rw [ht, if_neg (by omega)]
  | cons r reads =>
    unfold RssBuffer.ensure_loop
    rw [ht, if_neg (by omega)]

/-- On the vector: no read, no reallocation. -/
theorem vector_ensure_present (grow : Nat → Nat → Nat) (v : RssBufferVector)
    (reads : List StRead) (n : Nat) (hn : n ≤ v.data.length)
    (hsz : v.data.length < 2147483648) (hcap : v.data.length ≤ v.capacity) :
    v.ensure_buffer_bytes grow reads (n : Int) = some (v, .ok (), reads) := by
  unfold RssBufferVector.ensure_buffer_bytes
  rw [ensure_buffer_bytes_present v.data reads n hn hsz]
  simp only [hcap, if_true]

/-- When the vector holds the message header and the four bytes behind it
before the call, `read_message_header` reads no socket, the array stays, and
the call does what `read_message_header` does on the bytes of the vector. -/
theorem read_message_header_vector_present (grow : Nat → Nat → Nat) (chunk : RssChunkStream)
    (fmt : Int) (bh_size : Nat) (v : RssBufferVector) (reads : List StRead)
    (hlen : bh_size + mh_sizes fmt + 4 ≤ v.data.length)
    (hsz : v.data.length < 2147483648) (hcap : v.data.length ≤ v.capacity) :
    read_message_header_vector grow chunk fmt bh_size v reads
      = some ((read_message_header chunk fmt bh_size v.data).1, v, reads,
              (read_message_header chunk fmt bh_size v.data).2) := by
  by_cases h1 : chunk.msg_count = 0 ∧ fmt ≠ RTMP_FMT_TYPE0
  · unfold read_message_header_vector read_message_header
    simp only []
    rw [if_pos h1, if_pos h1]
  · by_cases h2 : chunk.msg.isSome = true ∧ fmt = RTMP_FMT_TYPE0
    · unfold read_message_header_vector read_message_header
      simp only []
      rw [if_neg h1, if_pos h2, if_neg h1, if_pos h2]
    · have e1 := vector_ensure_present grow v reads (bh_size + mh_sizes fmt) (by omega) hsz hcap
      have e2 := vector_ensure_present grow v reads (bh_size + (mh_sizes fmt + 4)) (by omega)
        hsz hcap
      cases hp : parse_message_header
          (if chunk.msg.isNone = true then { chunk with msg := some RssCommonMessage.new }
           else chunk)
          fmt chunk.msg.isNone (fun i => v.data.getD (bh_size + i) 0) with
      | mk c1 used =>
        rw [read_message_header_eq chunk fmt bh_size v.data c1 used h1 h2 (by omega) hp]
        unfold read_message_header_vector
        simp only [h1, h2, if_false, e1, hp]
        by_cases hx : c1.extended_timestamp = true
        · simp only [hx, if_true, e2, ne_eq, not_true_eq_false, if_false]
          rw [if_neg (by omega)]
        · simp only [hx, Bool.false_eq_true, if_false]

/-- The read of the extended timestamp through `p` after the second
`ensure_buffer_bytes` has reallocated the vector. -/
theorem read_message_header_vector_stale (grow : Nat → Nat → Nat) (chunk : RssChunkStream)
    (fmt : Int) (bh_size : Nat) (v v1 v2 : RssBufferVector) (reads reads1 reads2 : List StRead)
    (c1 : RssChunkStream) (used : Nat)
    (h1 : ¬ (chunk.msg_count = 0 ∧ fmt ≠ RTMP_FMT_TYPE0))
    (h2 : ¬ (chunk.msg.isSome = true ∧ fmt = RTMP_FMT_TYPE0))
    (e1 : v.ensure_buffer_bytes grow reads ((bh_size + mh_sizes fmt : Nat) : Int)
      = some (v1, .ok (), reads1))
    (hp : parse_message_header
            (if chunk.msg.isNone = true then { chunk with msg := some RssCommonMessage.new }
             else chunk)
            fmt chunk.msg.isNone (fun i => v1.data.getD (bh_size + i) 0) = (c1, used))
    (hx : c1.extended_timestamp = true)
    (e2 : v1.ensure_buffer_bytes grow reads1 ((bh_size + (mh_sizes fmt + 4) : Nat) : Int)
      = some (v2, .ok (), reads2))
    (ha : v2.array ≠ v1.array) :
    read_message_header_vector grow chunk fmt bh_size v reads
      = some (c1, v2, reads2, .error .undefined_behavior) := by
  unfold read_message_header_vector
  simp only [h1, h2, if_false, e1, hp, hx, if_true, e2, ne_eq, ha, not_false_eq_true]

/-- The result of `ensure_buffer_bytes` on the vector from its result on the
bytes. -/
theorem vector_ensure_eq (grow : Nat → Nat → Nat) (v : RssBufferVector) (reads : List StRead)
    (n : Int) (data : List Nat) (ret : Except RssError Unit) (rest : List StRead)
    (h : RssBuffer.ensure_buffer_bytes v.data reads n = some (data, ret, rest)) :
    v.ensure_buffer_bytes grow reads n
      = some (if data.length ≤ v.capacity then { v with data := data }
              else { data := data, capacity := grow v.capacity data.length,
                     array := v.array + 1 },
              ret, rest) := by
  unfold RssBufferVector.ensure_buffer_bytes
  rw [h]

/-- The example chunk header in a vector of any capacity from 12 to 16, in any
array: the read of the extended timestamp is a read through the dangling
pointer. -/
theorem example_ext_any_capacity (grow : Nat → Nat → Nat) (c a : Nat) (hc0 : 12 ≤ c)
    (hc1 : c < 17) :
    read_message_header_vector grow (RssChunkStream.new 3) 0 1
        { data := example_ext_header, capacity := c, array := a } example_ext_reads
      = some ({ fmt := 0, cid := 3,
                header := { message_type := 8, payload_length := 1,
                            timestamp_delta := 0xFFFFFF, stream_id := 1,
                            timestamp := 0xFFFFFF },
                extended_timestamp := true, msg := some RssCommonMessage.new, msg_count := 0 },
              { data := example_ext_header ++ example_ext_tail, capacity := grow c 17,
                array := a + 1 }, [], .error .undefined_behavior) := by
  have h1 : RssBuffer.ensure_buffer_bytes example_ext_header example_ext_reads
      ((1 + mh_sizes 0 : Nat) : Int) = some (example_ext_header, .ok (), example_ext_reads) :=
    rfl
  have h2 : RssBuffer.ensure_buffer_bytes example_ext_header example_ext_reads
      ((1 + (mh_sizes 0 + 4) : Nat) : Int)
      = some (example_ext_header ++ example_ext_tail, .ok (), []) := rfl
  have e1 := vector_ensure_eq grow { data := example_ext_header, capacity := c, array := a }
    example_ext_reads ((1 + mh_sizes 0 : Nat) : Int) example_ext_header (.ok ())
    example_ext_reads h1
  rw [if_pos (show example_ext_header.length ≤ c from hc0)] at e1
  have e2 := vector_ensure_eq grow { data := example_ext_header, capacity := c, array := a }
    example_ext_reads ((1 + (mh_sizes 0 + 4) : Nat) : Int)
    (example_ext_header ++ example_ext_tail) (.ok ()) [] h2
  rw [if_neg (show ¬ (example_ext_header ++ example_ext_tail).length ≤ c from
    Nat.not_le.mpr hc1)] at e2
  have hp : parse_message_header
      (if (RssChunkStream.new 3).msg.isNone = true then
        { RssChunkStream.new 3 with msg := some RssCommonMessage.new }
       else RssChunkStream.new 3)
      0 (RssChunkStream.new 3).msg.isNone (fun i => example_ext_header.getD (1 + i) 0)
      = ({ fmt := 0, cid := 3,
           header := { message_type := 8, payload_length := 1, timestamp_delta := 0xFFFFFF,
                       stream_id := 1, timestamp := 0xFFFFFF },
           extended_timestamp := true, msg := some RssCommonMessage.new, msg_count := 0 },
         11) := rfl
  exact read_message_header_vector_stale grow (RssChunkStream.new 3) 0 1
    { data := example_ext_header, capacity := c, array := a }
    { data := example_ext_header, capacity := c, array := a }
    { data := example_ext_header ++ example_ext_tail,
      capacity := grow c (example_ext_header ++ example_ext_tail).length, array := a + 1 }
    example_ext_reads example_ext_reads []
    { fmt := 0, cid := 3,
      header := { message_type := 8, payload_length := 1, timestamp_delta := 0xFFFFFF,
                  stream_id := 1, timestamp := 0xFFFFFF },
      extended_timestamp := true, msg := some RssCommonMessage.new, msg_count := 0 }
    11 (by decide) (by decide) e1 hp rfl e2 (Nat.succ_ne_self a)

/-- Claim C11: a format-0 chunk with `FF FF FF` in its timestamp field arrives
in two socket reads. The first brings the 12 header bytes into the empty
vector of the receive buffer, whose capacity is then the choice of the library
(12 here); the second brings the extended timestamp `01 00 00 00`. The claim
requires the timestamp `0x01000000` and the header size 15, which is what
`read_message_header` gives when the whole chunk is in the buffer before the
call. Called with the 12 bytes in the buffer, its second `ensure_buffer_bytes`
reads the socket and the vector is reallocated, whatever capacity the library
chooses for the new array; the four bytes are then read through the pointer
`p` into the array the vector had before: a read of freed memory. The same
happens to the 4-byte suffix of a format-3 chunk in extended-timestamp mode. -/
theorem read_message_header_stale_pointer :
    example_ext_vector.data = example_ext_header
    ∧ example_ext_vector.data.length = example_ext_vector.capacity
    ∧ (read_message_header (RssChunkStream.new 3) 0 1 (example_ext_header ++ example_ext_tail)).2
        = .ok 15
    ∧ (read_message_header (RssChunkStream.new 3) 0 1
        (example_ext_header ++ example_ext_tail)).1.header.timestamp = 0x01000000
    ∧ (∀ grow : Nat → Nat → Nat,
        (read_message_header_vector grow (RssChunkStream.new 3) 0 1 example_ext_vector_whole
            []).map (fun r => (r.1.header.timestamp, r.2.1, r.2.2.2))
          = some (0x01000000, example_ext_vector_whole, .ok 15))
    ∧ (∀ grow : Nat → Nat → Nat,
        (RssBufferVector.ensure_buffer_bytes grow { data := [], capacity := 0, array := 0 }
            ({ nread := 12, etime := false, bytes := example_ext_header } :: example_ext_reads)
            1).map (fun r => (r.1.data, r.1.capacity, r.2.2))
          = some (example_ext_header, grow 0 12, example_ext_reads))
    ∧ (∀ grow : Nat → Nat → Nat,
        (read_message_header_vector grow (RssChunkStream.new 3) 0 1 example_ext_vector
            example_ext_reads).map (fun r => (r.2.1, r.2.2.1, r.2.2.2))
          = some ({ data := example_ext_header ++ example_ext_tail, capacity := grow 12 17,
                    array := 1 }, [], .error .undefined_behavior))
    ∧ (∀ grow : Nat → Nat → Nat,
        (read_message_header_vector grow example_ext_chunk 3 1 example_ext_vector_fmt3
            example_ext_reads_fmt3).map (fun r => (r.2.1.array, r.2.2.1, r.2.2.2))
          = some (1, [], .error .undefined_behavior)) := by
  refine ⟨rfl, rfl, rfl, rfl, fun grow => ?_, fun grow => rfl, fun grow => ?_, fun grow => ?_⟩
  · rw [read_message_header_vector_present grow (RssChunkStream.new 3) 0 1
      example_ext_vector_whole [] (by decide) (by decide) (by decide)]
    rfl
  · rw [read_message_header_vector_stale grow (RssChunkStream.new 3) 0 1 example_ext_vector
      example_ext_vector
      { data := example_ext_header ++ example_ext_tail, capacity := grow 12 17, array := 1 }
      example_ext_reads example_ext_reads []
      { fmt := 0, cid := 3,
        header := { message_type := 8, payload_length := 1, timestamp_delta := 0xFFFFFF,
                    stream_id := 1, timestamp := 0xFFFFFF },
        extended_timestamp := true, msg := some RssCommonMessage.new, msg_count := 0 }
      11 (by decide) (by decide) rfl rfl rfl rfl (show (1 : Nat) ≠ 0 by decide)]
    rfl
  · rw [read_message_header_vector_stale grow example_ext_chunk 3 1 example_ext_vector_fmt3
      example_ext_vector_fmt3
      { data := [0xC3] ++ ([0x02, 0x00, 0x00, 0x00, 0xBB] ++ List.replicate 15 0x00),
        capacity := grow 17 21, array := 1 }
      example_ext_reads_fmt3 example_ext_reads_fmt3 []
      example_ext_chunk 0 (by decide) (by decide) rfl rfl rfl rfl (show (1 : Nat) ≠ 0 by decide)]
    rfl

end Rss
